import Mathlib

/-!
# Frame protocol engine of the LoRa gateway firmware

Shallow embedding of `CommandMessage` (Core/Src/CommandMessage.cpp and
gateway_lora/Core/Inc/CommandMessage.hpp).

Conventions of the embedding:
* a `uint8_t` / `uint16_t` value is a `Nat`; every place where the C++ narrows a
  value carries an explicit `% 256` or `% 65536`;
* a `uint8_t *` is the list of the bytes of the underlying array from the
  pointed-to element onwards (`p + k` is `p.drop k`); reading an element that
  the array does not have is a failure (`none`);
* a member function is a function of the instance state, returning the new
  state next to its result when it writes a field.
-/

namespace CommandConstants

def RDSS_START_MARK : Nat := 0x7e
def RDSS_END_MARK : Nat := 0x7f
def MINIMUN_FRAME_LEN : Nat := 6
def CRC_HIGH_BYTE_OFFSET : Nat := 2
def CRC_LOW_BYTE_OFFSET : Nat := 3
def FRAME_HEADER_SIZE : Nat := 4

end CommandConstants

/-- The `enum class STATUS` of CommandMessage.hpp. -/
inductive STATUS where
  | MESSAGE_OK
  | WAITING
  | START_READING
  | CONFIG_FRAME
  | RETRANSMIT_FRAME
  | VALID_FRAME
  | NOT_VALID_FRAME
  | RDSS_DATA_OK
  | CRC_ERROR
  deriving DecidableEq, Repr

-- The `enum class INDEX` of CommandMessage.hpp, as byte offsets in a frame.
namespace INDEX

def START : Nat := 0
def MODULE_TYPE : Nat := 1
def MODULE_ID : Nat := 2
def CMD : Nat := 3
def DATA_LENGHT1 : Nat := 4
def DATA_LENGHT2 : Nat := 5
def DATA_START : Nat := 6

end INDEX

/-- The data members of `class CommandMessage` that its member functions read
or write (the members no function touches are left out). -/
structure CommandMessage where
  max_message_size : Nat
  module_function : Nat
  module_id : Nat
  command_id : Nat
  num_byte_data : Nat
  data_size : Nat
  message : List Nat
  listening : Bool
  ready : Bool
  deriving DecidableEq, Repr

/-- The element `p[i]` of a C array for an `int` index `i`: fails below the
array and past its end. -/
def readByte (p : List Nat) (i : Int) : Option Nat :=
  if i < 0 then none else p[i.toNat]?

/-- The `n` bytes `[p, p + n)` read by `std::copy`: fails when the array ends
before `p + n`. -/
def readBytes (p : List Nat) (n : Nat) : Option (List Nat) :=
  if n ≤ p.length then some (p.take n) else none

/-- Conversion of an `int` to `uint8_t`. -/
def toUint8 (i : Int) : Nat := (i % 256).toNat

namespace CommandMessage

def LTEL_START_MARK : Nat := 0x7e
def LTEL_END_MARK : Nat := 0x7f

def getModuleFunction (s : CommandMessage) : Nat := s.module_function
def getModuleId (s : CommandMessage) : Nat := s.module_id
def getCommandId (s : CommandMessage) : Nat := s.command_id
def getDataSize (s : CommandMessage) : Nat := s.data_size
def get_composed_message (s : CommandMessage) : List Nat := s.message

/-- Body of the inner loop of `crc_get`: one shift of the 16-bit register. -/
def crc_bit (crc : Nat) : Nat :=
  if crc &&& 0x8000 ≠ 0 then ((crc <<< 1) ^^^ 0x1021) % 65536 else (crc <<< 1) % 65536

/-- The inner loop of `crc_get`, `k` iterations. -/
def crc_bits : Nat → Nat → Nat
  | 0, crc => crc
  | k + 1, crc => crc_bits k (crc_bit crc)

/-- Body of the outer loop of `crc_get` for the byte `b`. -/
def crc_byte (crc b : Nat) : Nat := crc_bits 8 (crc ^^^ ((b <<< 8) % 65536))

/-- The outer loop of `crc_get`: `n` iterations left, `buffer` from the current
byte onwards. -/
def crc_loop (crc : Nat) : List Nat → Nat → Option Nat
  | _, 0 => some crc
  | [], _ + 1 => none
  | b :: rest, n + 1 => crc_loop (crc_byte crc b) rest n

/-- The function `CommandMessage::crc_get(buffer, buff_len)`. -/
def crc_get (buffer : List Nat) (buff_len : Nat) : Option Nat := crc_loop 0 buffer buff_len

/-- The function `CommandMessage::composeMessage(std::vector<uint8_t> *data)`; `none` for
`data` is the null pointer. -/
def composeMessage (s : CommandMessage) (data : Option (List Nat)) :
    Option (Bool × CommandMessage) :=
  if s.command_id = 0 then some (false, s)
  else
    let current_size : Nat :=
      match data with
      | none => 0
      | some d => d.length % 256
    let inserted : List Nat :=
      match data with
      | none => []
      | some d => if current_size > 0 then d else []
    let message : List Nat :=
      [LTEL_START_MARK, s.module_function, s.module_id, s.command_id, 0, current_size] ++ inserted
    let temp_message_for_crc : List Nat :=
      [s.module_function, s.module_id, s.command_id, 0, current_size] ++ inserted
    match crc_get temp_message_for_crc (temp_message_for_crc.length % 256) with
    | none => none
    | some calculated_crc =>
      some (true, { s with
        message := message ++
          [(calculated_crc &&& 0xFF) % 256, ((calculated_crc >>> 8) &&& 0xFF) % 256,
            LTEL_END_MARK] })

/-- The function `CommandMessage::checkFrameValidity(frame, length)`. -/
def checkFrameValidity (frame : List Nat) (length : Nat) : Option STATUS :=
  if length > CommandConstants.MINIMUN_FRAME_LEN then
    match readByte frame 0 with
    | none => none
    | some first =>
      if first = CommandConstants.RDSS_START_MARK then
        match readByte frame ((length : Int) - 1) with
        | none => none
        | some last =>
          if last = CommandConstants.RDSS_END_MARK then some STATUS.VALID_FRAME
          else some STATUS.START_READING
      else some STATUS.NOT_VALID_FRAME
  else some STATUS.WAITING

/-- The function `CommandMessage::checkModule(frame, length)`. -/
def checkModule (s : CommandMessage) (frame : List Nat) (_length : Nat) : Option STATUS :=
  match readByte frame INDEX.MODULE_TYPE, readByte frame INDEX.MODULE_ID with
  | some frameModuleType, some frameModuleId =>
    if frameModuleType = s.module_function ∧ frameModuleId = s.module_id then
      some STATUS.CONFIG_FRAME
    else some STATUS.RETRANSMIT_FRAME
  | _, _ => none

/-- The function `CommandMessage::checkCRCValidity(frame, len)`. -/
def checkCRCValidity (frame : List Nat) (len : Nat) : Option STATUS :=
  match readByte frame ((len : Int) - CommandConstants.CRC_HIGH_BYTE_OFFSET),
      readByte frame ((len : Int) - CommandConstants.CRC_LOW_BYTE_OFFSET) with
  | some high, some low =>
    let savedCrc : Nat := ((high <<< 8) % 65536) ||| low
    match crc_get (frame.drop 1) (toUint8 ((len : Int) - CommandConstants.FRAME_HEADER_SIZE)) with
    | none => none
    | some calculatedCrc =>
      some (if calculatedCrc = savedCrc then STATUS.RDSS_DATA_OK else STATUS.CRC_ERROR)
  | _, _ => none

/-- The function `std::vector::resize(n)` on a byte vector. -/
def resize (v : List Nat) (n : Nat) : List Nat :=
  v.take n ++ List.replicate (n - v.length) 0

/-- The function `CommandMessage::storeData(dataLength, dataPtr)`. -/
def storeData (s : CommandMessage) (dataLength : Nat) (dataPtr : List Nat) :
    Option CommandMessage :=
  if dataLength ≤ 0 then some s
  else
    match readBytes dataPtr dataLength with
    | none => none
    | some src =>
      some { s with
        data_size := dataLength
        message := src ++ (resize s.message dataLength).drop dataLength }

/-- The function `CommandMessage::saveFrame(buffer, length)`. -/
def saveFrame (s : CommandMessage) (buffer : List Nat) (_length : Nat) :
    Option CommandMessage :=
  match readByte buffer INDEX.CMD, readByte buffer INDEX.MODULE_ID,
      readByte buffer INDEX.MODULE_TYPE, readByte buffer INDEX.DATA_LENGHT1,
      readByte buffer INDEX.DATA_LENGHT2 with
  | some cmd, some mid, some mtype, some l1, some l2 =>
    let s1 : CommandMessage := { s with
      command_id := cmd
      module_id := mid
      module_function := mtype
      num_byte_data := (l1 + l2) % 256 }
    storeData s1 s1.num_byte_data (buffer.drop INDEX.DATA_START)
  | _, _, _, _, _ => none

/-- The function `CommandMessage::validate(buffer, length)`. -/
def validate (s : CommandMessage) (buffer : List Nat) (length : Nat) :
    Option (STATUS × CommandMessage) :=
  match checkFrameValidity buffer length with
  | none => none
  | some frameStatus =>
    if frameStatus ≠ STATUS.VALID_FRAME then some (frameStatus, s)
    else
      match checkCRCValidity buffer length with
      | none => none
      | some crcStatus =>
        if crcStatus ≠ STATUS.RDSS_DATA_OK then some (crcStatus, s)
        else
          match checkModule s buffer length with
          | none => none
          | some moduleStatus =>
            if moduleStatus ≠ STATUS.CONFIG_FRAME then some (moduleStatus, s)
            else
              match saveFrame s buffer length with
              | none => none
              | some s1 => some (STATUS.CONFIG_FRAME, s1)

def isListening (s : CommandMessage) : Bool := s.listening
def isReady (s : CommandMessage) : Bool := s.ready

def MESSAGE_INDEX_MODULE_FUNCTION : Nat := 1
def MESSAGE_INDEX_MODULE_ID : Nat := 2
def MESSAGE_INDEX_COMMAND : Nat := 3
def MESSAGE_INDEX_DATA_LENGTH : Nat := 5
def MESSAGE_INDEX_DATA_START : Nat := 6
def MESSAGE_OFFSET_CRC_LOW_FROM_END : Nat := 3
def MESSAGE_OFFSET_CRC_HIGH_FROM_END : Nat := 2

/-- The function `CommandMessage::reset(bool init)`. -/
def reset (s : CommandMessage) (init : Bool) : CommandMessage :=
  let s1 : CommandMessage :=
    if !init then { s with module_function := 0, module_id := 0 } else s
  { s1 with command_id := 0, ready := false, listening := false, message := [] }

/-- The overload `CommandMessage::reset()`, which is `reset(false)`. -/
def reset_default (s : CommandMessage) : CommandMessage := reset s false

/-- The constructor `CommandMessage(_module_function, _module_id, max_size)`. It
initialises three members and calls `reset(true)`; `num_byte_data` and
`data_size` are left with the indeterminate values given here. -/
def construct (_module_function _module_id max_size num_byte_data data_size : Nat) :
    CommandMessage :=
  reset
    { max_message_size := max_size
      module_function := _module_function
      module_id := _module_id
      command_id := 0
      num_byte_data := num_byte_data
      data_size := data_size
      message := []
      listening := false
      ready := false } true

/-- The function `CommandMessage::setVars()`. -/
def setVars (s : CommandMessage) : Option CommandMessage :=
  if !s.ready then some s
  else
    match readByte s.message MESSAGE_INDEX_COMMAND, readByte s.message MESSAGE_INDEX_MODULE_ID,
        readByte s.message MESSAGE_INDEX_MODULE_FUNCTION with
    | some cmd, some mid, some mf =>
      some { s with command_id := cmd, module_id := mid, module_function := mf }
    | _, _, _ => none

/-- The function `CommandMessage::calculateCRC(start_index, bytes_to_exclude_from_end)`. -/
def calculateCRC (s : CommandMessage) (start_index bytes_to_exclude_from_end : Nat) :
    Option Nat :=
  if s.message.isEmpty ∨ start_index ≥ s.message.length ∨
      start_index + bytes_to_exclude_from_end > s.message.length then some 0
  else
    let effective_buff_len : Nat :=
      (s.message.length - bytes_to_exclude_from_end - start_index) % 256
    if effective_buff_len ≤ 0 then some 0
    else crc_get (s.message.drop start_index) effective_buff_len

/-- The function `CommandMessage::checkCRC()`. The two bytes of `crc_val` are
taken in memory order on the little-endian target: low byte first. -/
def checkCRC (s : CommandMessage) : Option Bool :=
  if s.message.length < MESSAGE_OFFSET_CRC_LOW_FROM_END then some false
  else
    match readByte s.message ((s.message.length : Int) - MESSAGE_OFFSET_CRC_LOW_FROM_END),
        readByte s.message ((s.message.length : Int) - MESSAGE_OFFSET_CRC_HIGH_FROM_END),
        calculateCRC s 1 3 with
    | some received0, some received1, some crc_val =>
      some (decide (crc_val % 256 = received0 ∧ (crc_val / 256) % 256 = received1))
    | _, _, _ => none

/-- The function `CommandMessage::checkByte(number)`. -/
def checkByte (s : CommandMessage) (number : Nat) : Option CommandMessage :=
  if s.listening then
    let s1 : CommandMessage := { s with message := s.message ++ [number] }
    let afterMark : Option CommandMessage :=
      if number = LTEL_END_MARK then
        let s2 : CommandMessage := { s1 with listening := false }
        match checkCRC s2 with
        | none => none
        | some r =>
          let s3 : CommandMessage := { s2 with ready := r }
          if r then setVars s3 else some s3
      else some s1
    match afterMark with
    | none => none
    | some s4 =>
      if s4.message.length ≥ s4.max_message_size then some (reset_default s4) else some s4
  else
    if number = LTEL_START_MARK then
      some { s with message := [number], listening := true }
    else some s

/-- Feeding a byte sequence to the parser, one `checkByte` call per byte. -/
def feed (s : CommandMessage) (bytes : List Nat) : Option CommandMessage :=
  bytes.foldlM checkByte s

/-- The function `CommandMessage::getDataAsUint8()`. -/
def getDataAsUint8 (s : CommandMessage) : Option Nat :=
  if s.data_size ≠ 1 then some 0 else readByte s.message 0

/-- The function `CommandMessage::getDataAsUint16()`. The union is read on the
little-endian target: `bytes[0]` is the low byte. -/
def getDataAsUint16 (s : CommandMessage) : Option Nat :=
  if s.data_size ≠ 2 then some 0
  else
    match readBytes s.message 2 with
    | some [b0, b1] => some (b0 + 256 * b1)
    | _ => none

/-- The function `CommandMessage::getDataAsUint32()`. The union is read on the
little-endian target: `bytes[0]` is the low byte. -/
def getDataAsUint32 (s : CommandMessage) : Option Nat :=
  if s.data_size ≠ 4 then some 0
  else
    match readBytes s.message 4 with
    | some [b0, b1, b2, b3] => some (b0 + 256 * b1 + 65536 * b2 + 16777216 * b3)
    | _ => none

end CommandMessage

open CommandMessage

/-! ## Reference CRC, written from the specification -/

/-- The polynomial `B(x)` over GF(2) of a byte sequence, as the number whose
binary digits are its coefficients: the bytes are taken most significant first
and, inside a byte, the most significant bit first. -/
def bytes_value : List Nat → Nat
  | [] => 0
  | b :: rest => b * 2 ^ (8 * rest.length) + bytes_value rest

/-- Long division over GF(2) by a generator `g` of degree 16: for `i` from
`n - 1` down to `0`, a set coefficient of `x^(i+16)` is cancelled by adding
`g(x) * x^i`. For `a < 2^(n+16)` what is left is the remainder of `a(x)` modulo
`g(x)`. -/
def gf2_rem (g : Nat) : Nat → Nat → Nat
  | 0, a => a
  | i + 1, a => gf2_rem g i (if a.testBit (i + 16) then a ^^^ (g <<< i) else a)

/-- The product over GF(2) of `g(x)` and the polynomial of the low `n` bits of `q`. -/
def gf2_mul (g q : Nat) : Nat → Nat
  | 0 => 0
  | i + 1 => gf2_mul g q i ^^^ (if q.testBit i then g <<< i else 0)

/-- The reference CRC-16 of the specification: generator `x^16 + x^12 + x^5 + 1`
(0x1021 with the leading term, 0x11021), initial value 0, most significant bit
first, no reflection, no final XOR, that is the remainder of `B(x) * x^16`
modulo the generator. -/
def crc16_reference (B : List Nat) : Nat :=
  gf2_rem 0x11021 (8 * B.length) (bytes_value B <<< 16)

/-! ## Serial byte handler (Core/Src/UartHandler.cpp)

A write through a pointer fails (`none`) when the array does not hold the
written elements. -/

/-- The assignment `p[i] = v` on a C array. -/
def writeByte (p : List Nat) (i v : Nat) : Option (List Nat) :=
  if i < p.length then some (p.set i v) else none

/-- The call `memcpy(dst, src, n)`: reads `n` bytes of `src`, writes them over
the first `n` bytes of `dst`. -/
def memcpy (dst src : List Nat) (n : Nat) : Option (List Nat) :=
  if n ≤ src.length ∧ n ≤ dst.length then some (src.take n ++ dst.drop n) else none

/-- The members `buffer` and `rx_index` of `class UartHandler`. -/
structure UartHandler where
  buffer : List Nat
  rx_index : Nat
  deriving DecidableEq, Repr

namespace UartHandler

/-- The value of `sizeof(buffer)` for `uint8_t buffer[255]`. -/
def sizeof_buffer : Nat := 255

/-- The constructors of `UartHandler`: `buffer` is zero-initialised, `rx_index` is 0. -/
def construct : UartHandler := { buffer := List.replicate 255 0, rx_index := 0 }

/-- The function `UartHandler::process_received_byte(received_byte, data_received)`.
The result is the returned length, the handler afterwards and the contents of
the array `data_received` afterwards. -/
def process_received_byte (u : UartHandler) (received_byte : Nat) (data_received : List Nat) :
    Option (Nat × UartHandler × List Nat) :=
  if u.rx_index < sizeof_buffer then
    match writeByte u.buffer u.rx_index received_byte with
    | none => none
    | some buffer1 =>
      let u1 : UartHandler := { u with buffer := buffer1 }
      if u1.rx_index = 0 ∧ received_byte ≠ 0x7E then some (0, u1, data_received)
      else
        let u2 : UartHandler := { u1 with rx_index := (u1.rx_index + 1) % 256 }
        if received_byte = 0x7F ∧ u2.rx_index > 1 then
          match readByte u2.buffer 0 with
          | none => none
          | some first =>
            let cleared : UartHandler :=
              { buffer := List.replicate sizeof_buffer 0, rx_index := 0 }
            if first = 0x7E then
              match memcpy data_received u2.buffer u2.rx_index with
              | none => none
              | some data_received1 => some (u2.rx_index, cleared, data_received1)
            else some (0, cleared, data_received)
        else some (0, u2, data_received)
  else
    some (0, { buffer := List.replicate sizeof_buffer 0, rx_index := 0 }, data_received)

end UartHandler

/-- The frame assembly the specification describes for the serial handler, on
the bytes received since the opening 0x7E (`span`, empty when no span is open):
an 0x7E opens a span, every further byte joins it, an 0x7F closes it and
delivers it, and a span of 255 bytes that is still open is dropped together
with the byte that arrives next. The result is the delivered frame, if any, and
the span afterwards. -/
def span_step (span : List Nat) (b : Nat) : Option (List Nat) × List Nat :=
  if span.length < 255 then
    if span = [] ∧ b ≠ 0x7E then (none, [])
    else if b = 0x7F ∧ span ≠ [] then (some (span ++ [b]), [])
    else (none, span ++ [b])
  else (none, [])

/-! ## Non-volatile store (project/Core/Inc/Memory.hpp, Memory.tpp, Core/Src/Memory.cpp)

The EEPROM is an ideal byte store: every I2C transfer succeeds. -/

/-- The struct `Memory::MemoryLocation`. -/
structure MemoryLocation where
  address : Nat
  size : Nat
  deriving DecidableEq, Repr

/-- The state of `class Memory`: the key table, the bytes of the EEPROM by
address, and the I2C writes performed so far, oldest first, as
`(address, data)`. -/
structure Memory where
  value_addr : List MemoryLocation
  cells : Nat → Nat
  writes : List (Nat × Nat)

namespace Memory

/-- The function `Memory::createKey(address, size)`. -/
def createKey (m : Memory) (address size : Nat) : Nat × Memory :=
  let m1 : Memory := { m with value_addr := m.value_addr ++ [⟨address, size⟩] }
  ((m1.value_addr.length - 1) % 256, m1)

/-- The function `Memory::EEPROM_Read(address)`: the stored byte, a `uint8_t`. -/
def EEPROM_Read (m : Memory) (address : Nat) : Nat := m.cells address % 256

/-- The function `Memory::EEPROM_Write(address, data)`: the byte is written only
when it differs from the stored one. -/
def EEPROM_Write (m : Memory) (address data : Nat) : Memory :=
  if EEPROM_Read m address ≠ data then
    { m with cells := Function.update m.cells address data
             writes := m.writes ++ [(address, data)] }
  else m

/-- The loop of `Memory::EEPROM_byte_Write<T>`, from index `i`, `n` iterations
left. -/
def EEPROM_byte_Write_loop (addr : Nat) : Nat → Nat → Nat → Memory → Memory
  | 0, _, _, m => m
  | n + 1, i, data, m =>
    EEPROM_byte_Write_loop addr n (i + 1) (data >>> 8)
      (EEPROM_Write m ((addr + i) % 256) ((data &&& 0xff) % 256))

/-- The function `Memory::EEPROM_byte_Write<T>(addr, data)` with `size = sizeof(T)`. -/
def EEPROM_byte_Write (m : Memory) (size addr data : Nat) : Memory :=
  EEPROM_byte_Write_loop addr size 0 data m

/-- The loop of `Memory::EEPROM_byte_Read<T>`: `k` iterations left, the next one
with `i = k - 1`; `data` is of type `T`, `size` bytes wide. -/
def EEPROM_byte_Read_loop (m : Memory) (size address : Nat) : Nat → Nat → Nat
  | 0, data => data
  | k + 1, data =>
    let data1 : Nat := if k < size - 1 then (data <<< 8) % 2 ^ (8 * size) else data
    EEPROM_byte_Read_loop m size address k (data1 ||| EEPROM_Read m ((address + k) % 256))

/-- The function `Memory::EEPROM_byte_Read<T>(address)` with `size = sizeof(T)`. -/
def EEPROM_byte_Read (m : Memory) (size address : Nat) : Nat :=
  EEPROM_byte_Read_loop m size address size 0

/-- The function `Memory::getValue<T>(key)` with `size = sizeof(T)`. -/
def getValue (m : Memory) (size key : Nat) : Option Nat :=
  match m.value_addr[key]? with
  | none => none
  | some location => some (EEPROM_byte_Read m size location.address)

/-- The function `Memory::setValue<T>(key, value)` with `size = sizeof(T)`. -/
def setValue (m : Memory) (size key value : Nat) : Memory :=
  if m.value_addr.length > key then
    match m.value_addr[key]? with
    | none => m
    | some location =>
      if size = location.size then EEPROM_byte_Write m size location.address value else m
  else m

end Memory

/-! ## Radio driver (project/Core/Src/Sx1278.cpp, Core/Src/Lora.cpp)

An `enum class` value is an `Int` (the underlying type is `int`); a frequency
is a `Nat` below `2^32`. Waiting (`HAL_Delay`) is not part of the state. -/

namespace LoraRegisters

def RegOpMode : Nat := 0x01
def RegModemConfig1 : Nat := 0x1D
def RegModemConfig2 : Nat := 0x1E
def RegDetectOptimize : Nat := 0x31
def RegDetectionThreshold : Nat := 0x37

end LoraRegisters

namespace DeviceOperatingMode

def SLEEP : Int := 0
def STANDBY : Int := 1
def FSTX : Int := 2
def TX : Int := 3
def FSRX : Int := 4
def RX_CONTINUOUS : Int := 5
def RX_SINGLE : Int := 6
def CAD : Int := 7

end DeviceOperatingMode

namespace LoraBandWidth

def BW_7_8KHZ : Int := 0
def BW_125KHZ : Int := 7
def BW_500KHZ : Int := 9

end LoraBandWidth

namespace CodingRate

def CR_4_5 : Int := 1
def CR_4_6 : Int := 2
def CR_4_8 : Int := 4

end CodingRate

namespace SpreadFactor

def SF_6 : Int := 6
def SF_7 : Int := 7
def SF_10 : Int := 10
def SF_12 : Int := 12

end SpreadFactor

namespace LoraHeaderMode

def EXPLICIT : Int := 0
def IMPLICIT : Int := 1

end LoraHeaderMode

namespace CrcSum

def CRC_DISABLE : Int := 0
def CRC_ENABLE : Int := 1

end CrcSum

def DOWNLINK_FREQ_MAX : Nat := 160000000
def DOWNLINK_FREQ_MIN : Nat := 145000000
def DOWNLINK_FREQ : Nat := 149500000
def UPLINK_FREQ_MAX : Nat := 185000000
def UPLINK_FREQ_MIN : Nat := 170000000
def UPLINK_FREQ : Nat := 173500000

/-- One transfer on the SPI bus: the bytes sent in a write, or the register
address and the number of bytes asked for in a read. -/
inductive SpiOp where
  | transmit (bytes : List Nat)
  | receive (address len : Nat)
  deriving DecidableEq, Repr

/-- The members of `class Lora` and of its base `class Sx1278` that the
configuration functions read or write, with the EEPROM object the driver
points to and the SPI transfers made so far, oldest first. -/
structure Lora where
  operatingMode : Int
  spi_log : List SpiOp
  eeprom : Memory
  spread_factor : Int
  bandwidth : Int
  coding_rate : Int
  downlink_frequency : Nat
  uplink_frequency : Nat
  header_mode : Int
  sf_key : Nat
  bw_key : Nat
  cr_key : Nat
  frq_key : Nat
  frq_dw_key : Nat
  frq_up_key : Nat

namespace Lora

def LORA_MODE_ACTIVATION : Nat := 0x00 ||| (8 <<< 4)
def LOW_FREQUENCY_MODE : Nat := 0x00 ||| (1 <<< 3)

def EP_SF_ADDR : Nat := 0x00
def EP_BW_ADDR : Nat := EP_SF_ADDR + 1
def EP_CR_ADDR : Nat := EP_BW_ADDR + 1
def EP_FRQ_ADDR : Nat := EP_CR_ADDR + 1
def EP_FRQ_UP_ADDR : Nat := EP_FRQ_ADDR + 4
def EP_FRQ_DW_ADDR : Nat := EP_FRQ_UP_ADDR + 4

/-- The function `Sx1278::write_reg_addr(address, cmd, lenght)`. -/
def write_reg_addr (l : Lora) (address : Nat) (cmd : List Nat) (lenght : Nat) : Option Lora :=
  if lenght > 4 then some l
  else
    match readBytes cmd lenght with
    | none => none
    | some data =>
      some { l with spi_log := l.spi_log ++ [SpiOp.transmit (((address ||| 0x80) % 256) :: data)] }

/-- The function `Sx1278::write_8bit_reg(reg, _value)`. -/
def write_8bit_reg (l : Lora) (reg _value : Nat) : Option Lora :=
  write_reg_addr l reg [_value] 1

/-- The function `Sx1278::read_reg_addr(reg, reg_len)`: the transfer is recorded;
the bytes the chip answers go to `fifo`, which no function embedded here
reads. -/
def read_reg_addr (l : Lora) (reg reg_len : Nat) : Nat × Lora :=
  if reg_len ≤ 0 then (255, l)
  else (0, { l with spi_log := l.spi_log ++ [SpiOp.receive reg reg_len] })

/-- The function `Sx1278::setRegModemConfig(modem_cfg1, modem_cfg2)`. -/
def setRegModemConfig (l : Lora) (modem_cfg1 modem_cfg2 : Nat) : Option Lora :=
  match write_reg_addr l LoraRegisters.RegModemConfig1 [modem_cfg1] 1 with
  | none => none
  | some l1 => write_reg_addr l1 LoraRegisters.RegModemConfig2 [modem_cfg2] 1

/-- The function `Sx1278::setDetectionParametersReg()`: the register read is
made, the value computed from it is overwritten before use, and 0x0C is
written to RegDetectionThreshold. -/
def setDetectionParametersReg (l : Lora) : Option Lora :=
  let l1 : Lora := (read_reg_addr l LoraRegisters.RegDetectOptimize 1).2
  write_reg_addr l1 LoraRegisters.RegDetectionThreshold [0x0C] 1

/-- The function `Lora::set_low_frequency_mode(mode)`. -/
def set_low_frequency_mode (l : Lora) (mode : Int) : Option Lora :=
  let cmd : Nat := (LORA_MODE_ACTIVATION ||| LOW_FREQUENCY_MODE ||| toUint8 mode) % 256
  match write_8bit_reg l LoraRegisters.RegOpMode cmd with
  | none => none
  | some l1 => some { l1 with operatingMode := mode }

def get_rx_frequency (l : Lora) : Nat := l.uplink_frequency
def get_tx_frequency (l : Lora) : Nat := l.downlink_frequency
def get_spread_factor (l : Lora) : Nat := toUint8 l.spread_factor
def get_coding_rate (l : Lora) : Nat := toUint8 l.coding_rate
def get_bandwidth (l : Lora) : Nat := toUint8 l.bandwidth

/-- The function `Lora::set_tx_freq(freq)`. -/
def set_tx_freq (l : Lora) (freq : Nat) : Lora :=
  if freq ≥ DOWNLINK_FREQ_MIN ∧ freq ≤ DOWNLINK_FREQ_MAX then
    { l with downlink_frequency := freq }
  else l

/-- The function `Lora::set_rx_freq(freq)`. -/
def set_rx_freq (l : Lora) (freq : Nat) : Lora :=
  if freq ≥ UPLINK_FREQ_MIN ∧ freq ≤ UPLINK_FREQ_MAX then
    { l with uplink_frequency := freq }
  else l

/-- The function `Lora::set_bandwidth(bw)`. -/
def set_bandwidth (l : Lora) (bw : Nat) : Lora :=
  if bw ≤ toUint8 LoraBandWidth.BW_500KHZ then { l with bandwidth := (bw : Int) } else l

/-- The function `Lora::set_spread_factor(spread)`. -/
def set_spread_factor (l : Lora) (spread : Nat) : Lora :=
  if spread ≥ toUint8 SpreadFactor.SF_6 ∧ spread ≤ toUint8 SpreadFactor.SF_12 then
    { l with spread_factor := (spread : Int) }
  else l

/-- The function `Lora::set_coding_rate(cr)`. -/
def set_coding_rate (l : Lora) (cr : Nat) : Lora :=
  if cr ≥ toUint8 CodingRate.CR_4_5 ∧ cr ≤ toUint8 CodingRate.CR_4_8 then
    { l with coding_rate := (cr : Int) }
  else l

/-- The function `Lora::configure_modem_internal()`. -/
def configure_modem_internal (l : Lora) : Option Lora :=
  let l1 : Lora :=
    if l.spread_factor < SpreadFactor.SF_6 ∨ l.spread_factor > SpreadFactor.SF_12 then
      { l with spread_factor := SpreadFactor.SF_10 }
    else l
  let configured : Option (Nat × Lora) :=
    if l1.spread_factor = SpreadFactor.SF_6 then
      match setDetectionParametersReg { l1 with header_mode := LoraHeaderMode.IMPLICIT } with
      | none => none
      | some l2 => some (0x03, l2)
    else some (0x00, { l1 with header_mode := LoraHeaderMode.EXPLICIT })
  match configured with
  | none => none
  | some (symb_timeout_msb, l3) =>
    let cfg1a : Nat := (toUint8 l3.bandwidth <<< 4) % 256
    let cfg1b : Nat := (cfg1a ||| (toUint8 l3.coding_rate <<< 1)) % 256
    let modem_cfg1 : Nat := (cfg1b ||| toUint8 l3.header_mode) % 256
    let cfg2a : Nat := (toUint8 l3.spread_factor <<< 4) % 256
    let cfg2b : Nat := (cfg2a ||| (toUint8 CrcSum.CRC_DISABLE <<< 2)) % 256
    let modem_cfg2 : Nat := (cfg2b ||| symb_timeout_msb) % 256
    match set_low_frequency_mode l3 DeviceOperatingMode.SLEEP with
    | none => none
    | some l4 => setRegModemConfig l4 modem_cfg1 modem_cfg2

/-- The function `Lora::configure_modem()`. -/
def configure_modem (l : Lora) : Option Lora := configure_modem_internal l

/-- The function `Lora::set_lora_settings(bw, cr, sf, dl_freq, up_freq)`. -/
def set_lora_settings (l : Lora) (bw cr sf : Int) (dl_freq up_freq : Nat) : Option Lora :=
  let l1 : Lora :=
    if sf < SpreadFactor.SF_6 ∨ sf > SpreadFactor.SF_12 then
      { l with spread_factor := SpreadFactor.SF_7 }
    else { l with spread_factor := sf }
  let l2 : Lora :=
    if bw < LoraBandWidth.BW_7_8KHZ ∨ bw > LoraBandWidth.BW_500KHZ then
      { l1 with bandwidth := LoraBandWidth.BW_500KHZ }
    else { l1 with bandwidth := bw }
  let l3 : Lora :=
    if cr < CodingRate.CR_4_5 ∨ cr > CodingRate.CR_4_8 then
      { l2 with coding_rate := CodingRate.CR_4_6 }
    else { l2 with coding_rate := cr }
  let l4 : Lora :=
    if up_freq < UPLINK_FREQ_MIN ∨ up_freq > UPLINK_FREQ_MAX then
      { l3 with uplink_frequency := UPLINK_FREQ }
    else { l3 with uplink_frequency := up_freq }
  let l5 : Lora :=
    if dl_freq < DOWNLINK_FREQ_MIN ∨ dl_freq > DOWNLINK_FREQ_MAX then
      { l4 with downlink_frequency := DOWNLINK_FREQ }
    else { l4 with downlink_frequency := dl_freq }
  configure_modem_internal l5

/-- The function `Lora::save_settings()`. -/
def save_settings (l : Lora) : Lora :=
  let m1 := l.eeprom.setValue 1 l.sf_key (toUint8 l.spread_factor)
  let m2 := m1.setValue 1 l.bw_key (toUint8 l.bandwidth)
  let m3 := m2.setValue 1 l.cr_key (toUint8 l.coding_rate)
  let m4 := m3.setValue 4 l.frq_dw_key (l.downlink_frequency % 2 ^ 32)
  let m5 := m4.setValue 4 l.frq_up_key (l.uplink_frequency % 2 ^ 32)
  { l with eeprom := m5 }

/-- The function `Lora::read_settings()`; the returned frequency is left out. -/
def read_settings (l : Lora) : Option Lora :=
  match l.eeprom.getValue 1 l.sf_key, l.eeprom.getValue 1 l.bw_key,
      l.eeprom.getValue 1 l.cr_key, l.eeprom.getValue 4 l.frq_dw_key,
      l.eeprom.getValue 4 l.frq_up_key with
  | some sf, some bw, some cr, some dw, some up =>
    some { l with
      spread_factor := (sf : Int)
      bandwidth := (bw : Int)
      coding_rate := (cr : Int)
      downlink_frequency := dw
      uplink_frequency := up }
  | _, _, _, _, _ => none

/-- The function `Lora::set_default_parameters()`. -/
def set_default_parameters (l : Lora) : Option Lora :=
  let l1 : Lora := { l with
    downlink_frequency := 0xffff
    uplink_frequency := 0xffff
    bandwidth := 0xff
    spread_factor := 0xff
    coding_rate := 0xff }
  match set_lora_settings l1 l1.bandwidth l1.coding_rate l1.spread_factor
      l1.downlink_frequency l1.uplink_frequency with
  | none => none
  | some l2 => some (save_settings l2)

/-- The function `Lora::check_already_store_data()`. -/
def check_already_store_data (l : Lora) : Option Lora :=
  match read_settings l with
  | none => none
  | some l1 =>
    let l2 : Lora :=
      if l1.spread_factor < SpreadFactor.SF_6 ∨ l1.spread_factor > SpreadFactor.SF_12 ∨
          l1.bandwidth < LoraBandWidth.BW_7_8KHZ ∨ l1.bandwidth > LoraBandWidth.BW_500KHZ ∨
          l1.coding_rate < CodingRate.CR_4_5 ∨ l1.coding_rate > CodingRate.CR_4_8 ∨
          l1.uplink_frequency < UPLINK_FREQ_MIN ∨ l1.uplink_frequency > UPLINK_FREQ_MAX ∨
          l1.downlink_frequency < DOWNLINK_FREQ_MIN ∨
          l1.downlink_frequency > DOWNLINK_FREQ_MAX then
        save_settings { l1 with
          spread_factor := SpreadFactor.SF_7
          bandwidth := LoraBandWidth.BW_500KHZ
          coding_rate := CodingRate.CR_4_6
          uplink_frequency := UPLINK_FREQ
          downlink_frequency := DOWNLINK_FREQ }
      else l1
    configure_modem_internal l2

end Lora

namespace Lora

/-- The six `createKey` calls of the constructor `Lora(nss, reset, spi, eeprom)`,
in their order. -/
def create_keys (l : Lora) : Lora :=
  let (k_sf, m1) := l.eeprom.createKey EP_SF_ADDR 1
  let (k_bw, m2) := m1.createKey EP_BW_ADDR 1
  let (k_cr, m3) := m2.createKey EP_CR_ADDR 1
  let (k_frq, m4) := m3.createKey EP_FRQ_ADDR 4
  let (k_up, m5) := m4.createKey EP_FRQ_UP_ADDR 4
  let (k_dw, m6) := m5.createKey EP_FRQ_DW_ADDR 4
  { l with
    eeprom := m6
    sf_key := k_sf
    bw_key := k_bw
    cr_key := k_cr
    frq_key := k_frq
    frq_up_key := k_up
    frq_dw_key := k_dw }

/-- The keys and the key table as the constructor leaves them on a `Memory`
whose key table was empty. -/
def keys_created (l : Lora) : Prop :=
  l.eeprom.value_addr =
      [⟨0, 1⟩, ⟨1, 1⟩, ⟨2, 1⟩, ⟨3, 4⟩, ⟨7, 4⟩, ⟨11, 4⟩] ∧
    l.sf_key = 0 ∧ l.bw_key = 1 ∧ l.cr_key = 2 ∧ l.frq_key = 3 ∧
    l.frq_up_key = 4 ∧ l.frq_dw_key = 5

instance (l : Lora) : Decidable (keys_created l) := by
  unfold keys_created
  infer_instance

/-- The range invariant of the radio configuration. -/
def in_range (l : Lora) : Prop :=
  (6 ≤ l.spread_factor ∧ l.spread_factor ≤ 12) ∧
    (0 ≤ l.bandwidth ∧ l.bandwidth ≤ 9) ∧
    (1 ≤ l.coding_rate ∧ l.coding_rate ≤ 4) ∧
    (170000000 ≤ l.uplink_frequency ∧ l.uplink_frequency ≤ 185000000) ∧
    (145000000 ≤ l.downlink_frequency ∧ l.downlink_frequency ≤ 160000000)

instance (l : Lora) : Decidable (in_range l) := by
  unfold in_range
  infer_instance

end Lora

namespace UartHandler

/-- The handler `u` holds the open span `span`: the bytes received since the
opening 0x7E, none when no span is open. -/
def holds (u : UartHandler) (span : List Nat) : Prop :=
  u.buffer.length = 255 ∧ u.rx_index = span.length ∧ span.length ≤ 255 ∧
    u.buffer.take span.length = span ∧ (span ≠ [] → span.head? = some 0x7E)

end UartHandler

/-! ## Radio registers, carrier frequency and IRQ polling (project/Core/Src/Sx1278.cpp)

The chip's answer to a register read and the value of `HAL_GetTick()` come from
outside the program: they are arguments of the functions that read them. -/

namespace LoraRegisters

def RegFrMsb : Nat := 0x06
def RegOcp : Nat := 0x0B
def RegIrqFlags : Nat := 0x12

end LoraRegisters

def FXOSC : Nat := 32000000

namespace Lora

def RX_DONE_MASK : Nat := 0x1 <<< 6
def TX_DONE_MASK : Nat := 0x1 <<< 3

/-- The function `Sx1278::read_8bit_reg(reg)`; `answer` is the byte the chip
sends, which `HAL_SPI_Receive` stores in `fifo[0]`. -/
def read_8bit_reg (l : Lora) (reg answer : Nat) : Nat × Lora :=
  let r := read_reg_addr l reg 1
  if r.1 = 0 then (answer % 256, r.2) else (255, r.2)

/-- The function `Sx1278::set_carrier_frquency(frequency)`; `freq` is a
`uint64_t`. -/
def set_carrier_frquency (l : Lora) (frequency : Nat) : Option Lora :=
  let freq : Nat := ((frequency <<< 19) % 2 ^ 64) / FXOSC
  let freq_reg : List Nat := [(freq >>> 16) % 256, (freq >>> 8) % 256, (freq >>> 0) % 256]
  write_reg_addr l LoraRegisters.RegFrMsb freq_reg 3

/-- The loop of `Sx1278::wait_irq(mask, timeout)`. `flags` are the values the
successive reads of RegIrqFlags return, `ticks` the values the successive
`HAL_GetTick()` calls return, `ocp` the value the read of RegOcp returns; the
loop has no result when one of the two sequences ends before it returns. The
result is the returned value, `lastTxTime` afterwards and the driver
afterwards. The subtraction `timeEnd - timeStart` wraps, as on the target. The
delays inside the register accesses are left out here, so that `ticks` is free;
`wait_irq_timed` below takes them in. -/
def wait_irq_loop (mask timeout timeStart lastTxTime ocp : Nat) :
    List Nat → List Nat → Lora → Option (Int × Nat × Lora)
  | [], _, _ => none
  | f :: flags, ticks, l =>
    let r := read_8bit_reg l LoraRegisters.RegIrqFlags f
    if r.1 &&& mask ≠ 0 then
      match ticks with
      | [] => none
      | timeEnd :: _ =>
        match write_8bit_reg r.2 LoraRegisters.RegIrqFlags mask with
        | none => none
        | some l2 =>
          some (0, (timeEnd % 2 ^ 32 + 2 ^ 32 - timeStart) % 2 ^ 32,
            (read_8bit_reg l2 LoraRegisters.RegOcp ocp).2)
    else
      match ticks with
      | [] => none
      | t :: ticks1 =>
        if (t % 2 ^ 32 + 2 ^ 32 - timeStart) % 2 ^ 32 > timeout then
          some (-1, lastTxTime, (read_8bit_reg r.2 LoraRegisters.RegOcp ocp).2)
        else wait_irq_loop mask timeout timeStart lastTxTime ocp flags ticks1 r.2

/-- The function `Sx1278::wait_irq(mask, timeout)`: the first tick read is
`timeStart`. -/
def wait_irq (l : Lora) (mask timeout lastTxTime ocp : Nat) (flags ticks : List Nat) :
    Option (Int × Nat × Lora) :=
  match ticks with
  | [] => none
  | timeStart :: ticks1 =>
    wait_irq_loop mask timeout (timeStart % 2 ^ 32) lastTxTime ocp flags ticks1 l

end Lora

/-! ## Dispatch loop of the gateway (Core/Src/main.cpp)

The state is the global variables the dispatch functions read or write. A
global array of `MAX_LORA_BUFFER_SIZE` bytes is a list; `memset` over the whole
array leaves that many zero bytes. The radio driver is seen through its calls:
every `lora->transmit` and `lora->receive` is recorded in `radio_calls`, the
bytes `lora->receive` copies into the buffer and the status `lora->transmit`
returns being arguments. The commands that query or set radio parameters act on
the `Lora` object and on the serial output, which are not members of this
state; of those only what they read from the parser is kept. -/

/-- The `enum class OperationMode` of main.cpp. -/
inductive OperationMode where
  | RX_MODE
  | TX_MODE
  | TX_RX_MODE
  deriving DecidableEq, Repr

def MODE_OPERATION_RX : Nat := 0x01
def MODE_OPERATION_TX : Nat := 0x02
def MODE_OPERATION_TX_RX : Nat := 0x03
def CMD_ID_TRIGGER_SNIFFER_SIMULATION : Nat := 0x30
def MAX_LORA_BUFFER_SIZE : Nat := 255
def MAX_UART_BUFFER_SIZE : Nat := 255
def BLOCK_DURATION_MS : Nat := 1000
def HAL_OK : Nat := 0

namespace CommandType

def QUERY_TX_FREQ : Nat := 0x20
def QUERY_RX_FREQ : Nat := 0x21
def QUERY_BANDWIDTH : Nat := 0x23
def QUERY_SPREAD_FACTOR : Nat := 0x24
def QUERY_CODING_RATE : Nat := 0x25
def SET_TX_FREQ : Nat := 0xB0
def SET_RX_FREQ : Nat := 0xB1
def SET_UART_BAUDRATE : Nat := 0xB2
def SET_BANDWIDTH : Nat := 0xB3
def SET_SPREAD_FACTOR : Nat := 0xB4
def SET_CODING_RATE : Nat := 0xB5
def SET_OPERATION_MODE : Nat := 0x40

end CommandType

/-- One call into the radio driver: `lora->transmit(data, len, DOWNLINK)` with
the `len` bytes handed over, or `lora->receive(buffer, UPLINK)`. -/
inductive RadioCall where
  | transmit (data : List Nat)
  | receive
  deriving DecidableEq, Repr

/-- The global variables of main.cpp that the dispatch functions use, with the
radio calls made so far and the buffers handed to `uartHandler->transmitMessage`
so far, oldest first. -/
structure Gateway where
  currentOperationMode : OperationMode
  loraReceiveBuffer : List Nat
  loraReceivedBytes : Nat
  loraTransmitBuffer : List Nat
  loraTransmitSizeBytes : Nat
  pendingLoraTransmission : Bool
  uartReceiveBuffer : List Nat
  uartReceivedBytes : Nat
  newUartDataReceived : Bool
  blockLoraReception : Bool
  blockStartTime : Nat
  uartHandler : UartHandler
  uartCommandParser : CommandMessage
  loraCommandParser : CommandMessage
  radio_calls : List RadioCall
  uart_sent : List (List Nat)
  deriving DecidableEq, Repr

namespace Gateway

/-- The function `HAL_UART_RxCpltCallback(huart)` for `huart2`; `received_byte`
is the byte the UART has put in `uartReceiveBuffer[0]`. -/
def HAL_UART_RxCpltCallback (g : Gateway) (received_byte : Nat) : Option Gateway :=
  let g1 : Gateway := { g with blockLoraReception := true }
  match writeByte g1.uartReceiveBuffer 0 received_byte with
  | none => none
  | some buffer0 =>
    match UartHandler.process_received_byte g1.uartHandler received_byte buffer0 with
    | none => none
    | some (n, u1, buffer1) =>
      let g2 : Gateway := { g1 with
        uartHandler := u1, uartReceiveBuffer := buffer1, uartReceivedBytes := n }
      if g2.uartReceivedBytes > 0 then some { g2 with newUartDataReceived := true }
      else some g2

/-- The function `changeOperationMode(newMode)`. -/
def changeOperationMode (g : Gateway) (newMode : Nat) : Bool × Gateway :=
  let selected : Option OperationMode :=
    if newMode = MODE_OPERATION_RX then some OperationMode.RX_MODE
    else if newMode = MODE_OPERATION_TX then some OperationMode.TX_MODE
    else if newMode = MODE_OPERATION_TX_RX then some OperationMode.TX_RX_MODE
    else none
  match selected with
  | none => (false, g)
  | some m =>
    (true, { g with
      currentOperationMode := m
      loraReceiveBuffer := List.replicate MAX_LORA_BUFFER_SIZE 0
      loraTransmitBuffer := List.replicate MAX_LORA_BUFFER_SIZE 0
      loraReceivedBytes := 0
      loraTransmitSizeBytes := 0
      pendingLoraTransmission := false })

/-- The `CONFIG_FRAME` branch of `processUartCommand`: the `switch` over the
command id. -/
def processConfigCommand (g : Gateway) : Option Gateway :=
  let commandId := CommandMessage.getCommandId g.uartCommandParser
  if commandId = CommandType.SET_BANDWIDTH ∨ commandId = CommandType.SET_SPREAD_FACTOR ∨
      commandId = CommandType.SET_CODING_RATE ∨
      commandId = CMD_ID_TRIGGER_SNIFFER_SIMULATION then
    match CommandMessage.getDataAsUint8 g.uartCommandParser with
    | none => none
    | some _ => some g
  else if commandId = CommandType.SET_OPERATION_MODE then
    match CommandMessage.getDataAsUint8 g.uartCommandParser with
    | none => none
    | some newMode => some (changeOperationMode g newMode).2
  else some g

/-- The function `processUartCommand()`; `tick` is the value `HAL_GetTick()`
returns. The pointers it tests are not null once `main` has created the
objects. -/
def processUartCommand (g : Gateway) (tick : Nat) : Option Gateway :=
  if !g.newUartDataReceived ∨ g.uartReceivedBytes = 0 then some g
  else
    match CommandMessage.validate g.uartCommandParser g.uartReceiveBuffer
        (g.uartReceivedBytes % 256) with
    | none => none
    | some (frameStatus, parser1) =>
      let g1 : Gateway := { g with uartCommandParser := parser1 }
      let handled : Option Gateway :=
        if frameStatus = STATUS.CONFIG_FRAME then processConfigCommand g1
        else if frameStatus = STATUS.RETRANSMIT_FRAME then
          if g1.currentOperationMode = OperationMode.TX_MODE ∨
              g1.currentOperationMode = OperationMode.TX_RX_MODE then
            if g1.uartReceivedBytes ≤ MAX_LORA_BUFFER_SIZE then
              match memcpy g1.loraTransmitBuffer g1.uartReceiveBuffer g1.uartReceivedBytes with
              | none => none
              | some buffer1 =>
                some { g1 with
                  loraTransmitBuffer := buffer1
                  loraTransmitSizeBytes := g1.uartReceivedBytes % 256
                  pendingLoraTransmission := true }
            else some g1
          else some g1
        else some g1
      match handled with
      | none => none
      | some g2 =>
        some { g2 with
          uartReceiveBuffer := List.replicate MAX_UART_BUFFER_SIZE 0
          uartReceivedBytes := 0
          newUartDataReceived := false
          uartCommandParser := CommandMessage.reset g2.uartCommandParser true
          blockStartTime := tick % 2 ^ 32 }

/-- The function `handleLoraReception()`; `rx` are the bytes `lora->receive`
copies into `loraReceiveBuffer` (none when it returns 0). The pointers it tests
are not null. -/
def handleLoraReception (g : Gateway) (rx : List Nat) : Option Gateway :=
  if g.currentOperationMode = OperationMode.TX_MODE ∧ !g.pendingLoraTransmission then some g
  else
    match memcpy g.loraReceiveBuffer rx rx.length with
    | none => none
    | some buffer1 =>
      let g1 : Gateway := { g with
        radio_calls := g.radio_calls ++ [RadioCall.receive]
        loraReceiveBuffer := buffer1
        loraReceivedBytes := rx.length % 256 }
      if g1.loraReceivedBytes > 0 then
        match CommandMessage.validate g1.loraCommandParser g1.loraReceiveBuffer
            g1.loraReceivedBytes with
        | none => none
        | some (loraFrameStatus, parser1) =>
          let g2 : Gateway := { g1 with loraCommandParser := parser1 }
          let sent : Option Gateway :=
            if loraFrameStatus = STATUS.RETRANSMIT_FRAME ∨ loraFrameStatus = STATUS.VALID_FRAME ∨
                loraFrameStatus = STATUS.CONFIG_FRAME then
              match readBytes g2.loraReceiveBuffer g2.loraReceivedBytes with
              | none => none
              | some data => some { g2 with uart_sent := g2.uart_sent ++ [data] }
            else some g2
          match sent with
          | none => none
          | some g3 =>
            some { g3 with
              loraReceiveBuffer := List.replicate MAX_LORA_BUFFER_SIZE 0
              loraReceivedBytes := 0
              loraCommandParser := CommandMessage.reset g3.loraCommandParser true }
      else some g1

/-- The function `handleLoraTransmission()`; `status` is what `lora->transmit`
returns (both outcomes differ only in the LED and the delay). The pointers it
tests are not null. -/
def handleLoraTransmission (g : Gateway) (status : Nat) : Option Gateway :=
  if g.pendingLoraTransmission ∧ (g.currentOperationMode = OperationMode.TX_MODE ∨
      g.currentOperationMode = OperationMode.TX_RX_MODE) then
    if g.loraTransmitSizeBytes > 0 then
      match readBytes g.loraTransmitBuffer g.loraTransmitSizeBytes with
      | none => none
      | some data =>
        let g1 : Gateway := { g with radio_calls := g.radio_calls ++ [RadioCall.transmit data] }
        let g2 : Gateway := if status = HAL_OK then g1 else g1
        some { g2 with
          loraTransmitBuffer := List.replicate MAX_LORA_BUFFER_SIZE 0
          loraTransmitSizeBytes := 0
          pendingLoraTransmission := false }
    else some g
  else some g

/-- Steps 2 and 3 of the `while (1)` loop of `main`, the part of the body of
`if (!blockLoraReception)` that drives the radio. -/
def main_loop_radio_steps (g : Gateway) (status : Nat) (rx : List Nat) : Option Gateway :=
  let transmitted : Option Gateway :=
    if g.pendingLoraTransmission then
      if g.currentOperationMode = OperationMode.TX_MODE ∨
          g.currentOperationMode = OperationMode.TX_RX_MODE then
        handleLoraTransmission g status
      else some g
    else some g
  match transmitted with
  | none => none
  | some g3 =>
    if !g3.pendingLoraTransmission ∧ (g3.currentOperationMode = OperationMode.RX_MODE ∨
        g3.currentOperationMode = OperationMode.TX_RX_MODE) then
      handleLoraReception g3 rx
    else some g3

/-- Steps 1 to 3 of one iteration of the `while (1)` loop of `main`: `tick_cmd`
is the tick `processUartCommand` reads, `tick_chk` the tick the block test
reads. -/
def main_loop_iteration (g : Gateway) (tick_cmd tick_chk status : Nat) (rx : List Nat) :
    Option Gateway :=
  match (if g.newUartDataReceived then processUartCommand g tick_cmd else some g) with
  | none => none
  | some g1 =>
    let g2 : Gateway :=
      if g1.blockLoraReception ∧
          (tick_chk % 2 ^ 32 + 2 ^ 32 - g1.blockStartTime % 2 ^ 32) % 2 ^ 32 ≥
            BLOCK_DURATION_MS then
        { g1 with blockLoraReception := false }
      else g1
    if !g2.blockLoraReception then main_loop_radio_steps g2 status rx else some g2

end Gateway

namespace Gateway

/-- A gateway in Rx mode that has just received the 9-byte serial frame
`7E 10 00 21 00 00 AC B5 7F`, addressed to another module. -/
def rx_with_frame : Gateway :=
  ⟨OperationMode.RX_MODE, [], 0, [3, 4], 0, false,
    [0x7E, 0x10, 0x00, 0x21, 0x00, 0x00, 0xAC, 0xB5, 0x7F], 9, true, true, 0, ⟨[], 0⟩,
    ⟨255, 0, 0, 0, 0, 0, [], false, false⟩, ⟨255, 0, 0, 0, 0, 0, [], false, false⟩, [], []⟩

/-- A gateway in Rx mode, blocked since tick `2^32 - 100`, with no serial data
waiting. -/
def blocked_rx : Gateway :=
  ⟨OperationMode.RX_MODE, [], 0, [], 0, false, [], 0, false, true, 2 ^ 32 - 100, ⟨[], 0⟩,
    ⟨255, 0, 0, 0, 0, 0, [], false, false⟩, ⟨255, 0, 0, 0, 0, 0, [], false, false⟩, [], []⟩

end Gateway

/-! ## Payload accessor and direct frame builder (Core/Src/CommandMessage.cpp) -/

namespace CommandMessage

/-- The function `CommandMessage::getData()`. The sum `end_index` is stored in a
`uint8_t`. Building a vector from an iterator range whose end comes before its
start has no defined result. -/
def getData (s : CommandMessage) : Option (List Nat) :=
  if !s.ready then some []
  else
    match readByte s.message MESSAGE_INDEX_DATA_LENGTH with
    | none => none
    | some length =>
      let end_index : Nat := (MESSAGE_INDEX_DATA_START + length) % 256
      if end_index > s.message.length then some []
      else if end_index < MESSAGE_INDEX_DATA_START then none
      else some ((s.message.take end_index).drop MESSAGE_INDEX_DATA_START)

/-- The six header writes of `composeAndSendMessage`, `frame[index++] = ...` for
`index` 0 to 5. -/
def composeAndSendMessage_header (s : CommandMessage) (frame : List Nat) (size : Nat) :
    Option (List Nat) := do
  let f0 ← writeByte frame 0 LTEL_START_MARK
  let f1 ← writeByte f0 1 s.module_function
  let f2 ← writeByte f1 2 s.module_id
  let f3 ← writeByte f2 3 s.command_id
  let f4 ← writeByte f3 4 0
  writeByte f4 5 size

/-- The payload copy of `composeAndSendMessage`: the frame and the `uint8_t`
index after `if (size > 0 && data != nullptr)`. -/
def composeAndSendMessage_payload (frame : List Nat) (index : Nat) (data : Option (List Nat))
    (size : Nat) : Option (List Nat × Nat) :=
  match data with
  | none => some (frame, index)
  | some d =>
    if size > 0 then
      match memcpy (frame.drop index) d size with
      | none => none
      | some tail => some (frame.take index ++ tail, (index + size) % 256)
    else some (frame, index)

/-- The end of `composeAndSendMessage`: the CRC over `frame[1 .. index)`, the
three trailer writes `frame[index++] = ...` and the call of `transmitMessage`. -/
def composeAndSendMessage_trailer (frame : List Nat) (index status : Nat) :
    Option (Bool × List (List Nat)) :=
  match crc_get (frame.drop 1) (toUint8 ((index : Int) - 1)) with
  | none => none
  | some calculated_crc =>
    let written : Option (List Nat) := do
      let f7 ← writeByte frame index ((calculated_crc &&& 0xFF) % 256)
      let f8 ← writeByte f7 ((index + 1) % 256) (((calculated_crc >>> 8) &&& 0xFF) % 256)
      writeByte f8 ((index + 2) % 256) LTEL_END_MARK
    match written with
    | none => none
    | some frame9 =>
      match readBytes frame9 ((index + 3) % 256) with
      | none => none
      | some sent => some (decide (status = HAL_OK), [sent])

/-- The function `CommandMessage::composeAndSendMessage(uartComm, data, size)`.
The flag `uartComm` tells whether the pointer is non-null, `data` is `none` for
the null pointer, `status` is what `transmitMessage` returns. The result is the
returned value with the byte sequences handed to `transmitMessage` (none or
one). `frame_size` and `index` are `uint8_t`; `frame_buffer` has 255 elements,
and an access past it has no defined result. The buffer starts with
indeterminate contents, here zeros: every byte that is read has been written
before. -/
def composeAndSendMessage (s : CommandMessage) (uartComm : Bool) (data : Option (List Nat))
    (size status : Nat) : Option (Bool × List (List Nat)) :=
  if !uartComm then some (false, [])
  else
    let HEADER_SIZE : Nat := 6
    let FOOTER_SIZE : Nat := 3
    let frame_size : Nat := (HEADER_SIZE + size + FOOTER_SIZE) % 256
    let frame_buffer : List Nat := List.replicate 255 0
    if frame_size > frame_buffer.length then some (false, [])
    else
      match composeAndSendMessage_header s frame_buffer size with
      | none => none
      | some frame5 =>
        match composeAndSendMessage_payload frame5 6 data size with
        | none => none
        | some (frame6, index6) => composeAndSendMessage_trailer frame6 index6 status

end CommandMessage

/-! ## Sequences of dispatch calls (Core/Src/main.cpp) -/

/-- One call of a dispatch function of main.cpp, with the values that reach it
from outside the program. -/
inductive DispatchCall where
  | processUartCommand (tick : Nat)
  | changeOperationMode (newMode : Nat)
  | handleLoraTransmission (status : Nat)
  | handleLoraReception (rx : List Nat)
  | HAL_UART_RxCpltCallback (received_byte : Nat)
  deriving DecidableEq, Repr

namespace Gateway

/-- The global variables as their initialisers and `main` leave them before the
loop starts: `mode` is `FIRMWARE_OPERATION_MODE`, the two parsers are the
objects `main` creates. -/
def initial (mode : OperationMode) (uartCommandParser loraCommandParser : CommandMessage) :
    Gateway :=
  { currentOperationMode := mode
    loraReceiveBuffer := List.replicate MAX_LORA_BUFFER_SIZE 0
    loraReceivedBytes := 0
    loraTransmitBuffer := List.replicate MAX_LORA_BUFFER_SIZE 0
    loraTransmitSizeBytes := 0
    pendingLoraTransmission := false
    uartReceiveBuffer := List.replicate MAX_UART_BUFFER_SIZE 0
    uartReceivedBytes := 0
    newUartDataReceived := false
    blockLoraReception := false
    blockStartTime := 0
    uartHandler := UartHandler.construct
    uartCommandParser := uartCommandParser
    loraCommandParser := loraCommandParser
    radio_calls := []
    uart_sent := [] }

/-- The effect of one dispatch call. -/
def dispatch (g : Gateway) : DispatchCall → Option Gateway
  | DispatchCall.processUartCommand tick => processUartCommand g tick
  | DispatchCall.changeOperationMode newMode => some (changeOperationMode g newMode).2
  | DispatchCall.handleLoraTransmission status => handleLoraTransmission g status
  | DispatchCall.handleLoraReception rx => handleLoraReception g rx
  | DispatchCall.HAL_UART_RxCpltCallback received_byte => HAL_UART_RxCpltCallback g received_byte

/-- The effect of a sequence of dispatch calls, oldest first. -/
def dispatch_all (g : Gateway) (calls : List DispatchCall) : Option Gateway :=
  calls.foldlM dispatch g

/-- The invariant of the transmit slot: the buffer has its 255 bytes, the size
fits it, and a pending transmission has a size above 0. -/
def pending_sized (g : Gateway) : Prop :=
  g.loraTransmitBuffer.length = MAX_LORA_BUFFER_SIZE ∧
    g.loraTransmitSizeBytes ≤ MAX_LORA_BUFFER_SIZE ∧
    (g.pendingLoraTransmission = true → g.loraTransmitSizeBytes > 0)

instance (g : Gateway) : Decidable (pending_sized g) := by
  unfold pending_sized
  infer_instance

end Gateway

namespace Gateway

/-- A gateway in TxRx mode that has just received the 9-byte serial frame
`7E 10 00 21 00 00 AC B5 7F`, addressed to another module. -/
def txrx_with_frame : Gateway :=
  { rx_with_frame with
    currentOperationMode := OperationMode.TX_RX_MODE
    loraTransmitBuffer := List.replicate 255 0 }

end Gateway

/-! ## Single-precision arithmetic (IEEE 754 binary32)

A `float` is the 32-bit pattern it is stored as: sign bit, 8 exponent bits
biased by 127, 23 fraction bits. The operations are those the C++ expressions
of the frequency commands use, with the default rounding (to nearest, ties to
even). A finite pattern has the value `(-1)^sign * mantissa * 2^scale`. -/

namespace F32

def sign (b : Nat) : Nat := (b / 2 ^ 31) % 2
def exponent (b : Nat) : Nat := (b / 2 ^ 23) % 256
def fraction (b : Nat) : Nat := b % 2 ^ 23

def isNaN (b : Nat) : Bool := exponent b = 255 ∧ fraction b ≠ 0
def isInf (b : Nat) : Bool := exponent b = 255 ∧ fraction b = 0
def isZero (b : Nat) : Bool := exponent b = 0 ∧ fraction b = 0

/-- The integer `m` of a finite pattern, whose magnitude is `m * 2^scale`. -/
def mantissa (b : Nat) : Nat := if exponent b = 0 then fraction b else 2 ^ 23 + fraction b

/-- The power of two of the last fraction bit of a finite pattern. -/
def scale (b : Nat) : Int := if exponent b = 0 then -149 else (exponent b : Int) - 150

def NaN : Nat := 0x7FC00000
def infinity : Nat := 0x7F800000

/-- The position of the leading one bit of `n`, found in at most `fuel` halvings. -/
def log2_fuel : Nat → Nat → Nat
  | 0, _ => 0
  | fuel + 1, n => if n ≥ 2 then log2_fuel fuel (n / 2) + 1 else 0

/-- The integer part of the binary logarithm of `n > 0`. -/
def log2 (n : Nat) : Nat := log2_fuel n n

/-- The pattern of magnitude nearest to the positive rational `n / d`, ties to
the even mantissa; `infinity` when the rounded magnitude exceeds the largest
finite one. -/
def round_magnitude (n d : Nat) : Nat :=
  if n = 0 then 0
  else
    let k : Int := (log2 n : Int) - (log2 d : Int)
    let ge : Bool := if k ≥ 0 then n ≥ d * 2 ^ k.toNat else n * 2 ^ (-k).toNat ≥ d
    let E : Int := if ge then k else k - 1
    let e : Int := max (E - 23) (-149)
    let N : Nat := if e ≥ 0 then n else n * 2 ^ (-e).toNat
    let D : Nat := if e ≥ 0 then d * 2 ^ e.toNat else d
    let q : Nat := N / D
    let r : Nat := N % D
    let m : Nat := if 2 * r > D ∨ (2 * r = D ∧ q % 2 = 1) then q + 1 else q
    min ((e + 149).toNat * 2 ^ 23 + m) infinity

/-- Conversion of a `uint32_t` to `float`. -/
def of_uint32 (u : Nat) : Nat := round_magnitude u 1

/-- The product `a * b` of two `float`s. -/
def mul (a b : Nat) : Nat :=
  let s : Nat := (sign a + sign b) % 2
  if isNaN a ∨ isNaN b then NaN
  else if isInf a ∨ isInf b then
    if isZero a ∨ isZero b then NaN else s * 2 ^ 31 + infinity
  else
    let m : Nat := mantissa a * mantissa b
    let e : Int := scale a + scale b
    s * 2 ^ 31 + (if e ≥ 0 then round_magnitude (m * 2 ^ e.toNat) 1
      else round_magnitude m (2 ^ (-e).toNat))

/-- The quotient `a / b` of two `float`s. -/
def div (a b : Nat) : Nat :=
  let s : Nat := (sign a + sign b) % 2
  if isNaN a ∨ isNaN b then NaN
  else if isInf a then (if isInf b then NaN else s * 2 ^ 31 + infinity)
  else if isInf b then s * 2 ^ 31
  else if isZero b then (if isZero a then NaN else s * 2 ^ 31 + infinity)
  else
    let e : Int := scale a - scale b
    s * 2 ^ 31 + (if e ≥ 0 then round_magnitude (mantissa a * 2 ^ e.toNat) (mantissa b)
      else round_magnitude (mantissa a) (mantissa b * 2 ^ (-e).toNat))

/-- Conversion of a `float` to `int`: the value with its fraction dropped; no
defined result for a NaN, an infinity or a value outside the range of `int`. -/
def to_int (a : Nat) : Option Int :=
  if exponent a = 255 then none
  else
    let t : Nat :=
      if scale a ≥ 0 then mantissa a * 2 ^ (scale a).toNat
      else mantissa a / 2 ^ (-(scale a)).toNat
    let v : Int := if sign a = 1 then -(t : Int) else (t : Int)
    if -(2 : Int) ^ 31 ≤ v ∧ v ≤ (2 : Int) ^ 31 - 1 then some v else none

/-- The four bytes of a `float` in memory on the little-endian target. -/
def to_bytes (b : Nat) : List Nat :=
  [b % 256, (b / 256) % 256, (b / 65536) % 256, (b / 16777216) % 256]

/-- The constant `1000000.0f`. -/
def MILLION : Nat := 0x49742400

end F32

namespace CommandMessage

/-- The function `CommandMessage::freqDecode()`. The union is read on the
little-endian target. -/
def freqDecode (s : CommandMessage) : Option Int :=
  if s.message.length < 4 then some 0
  else
    match readBytes s.message 4 with
    | some [b0, b1, b2, b3] =>
      F32.to_int (F32.mul (b0 + 256 * b1 + 65536 * b2 + 16777216 * b3) F32.MILLION)
    | _ => none

end CommandMessage

/-- The function `transmitLoraSettingResponse(loraDevice, uartComm, cmdBuilder,
queryCommandId)` with non-null pointers: the value `composeAndSendMessage`
returns and the frames handed to the transport. The bytes of `dataArray` that
a case does not write are never read. -/
def transmitLoraSettingResponse (loraDevice : Lora) (cmdBuilder : CommandMessage)
    (queryCommandId status : Nat) : Option (Bool × List (List Nat)) :=
  let selected : Option (List Nat) :=
    if queryCommandId = CommandType.QUERY_RX_FREQ then
      some (F32.to_bytes (F32.div (F32.of_uint32 (Lora.get_rx_frequency loraDevice)) F32.MILLION))
    else if queryCommandId = CommandType.QUERY_TX_FREQ then
      some (F32.to_bytes (F32.div (F32.of_uint32 (Lora.get_tx_frequency loraDevice)) F32.MILLION))
    else if queryCommandId = CommandType.QUERY_SPREAD_FACTOR then
      some [Lora.get_spread_factor loraDevice]
    else if queryCommandId = CommandType.QUERY_CODING_RATE then
      some [Lora.get_coding_rate loraDevice]
    else if queryCommandId = CommandType.QUERY_BANDWIDTH then
      some [Lora.get_bandwidth loraDevice]
    else none
  match selected with
  | none => some (false, [])
  | some dataArray =>
    CommandMessage.composeAndSendMessage cmdBuilder true (some dataArray) dataArray.length status

/-! ## IRQ polling with the delays of the register accesses (project/Core/Src/Sx1278.cpp)

`Sx1278::read_reg_addr` calls `HAL_Delay(1)` twice and `Sx1278::write_reg_addr`
calls `HAL_Delay(10)` once, and `HAL_Delay` polls `HAL_GetTick()`. In the
functions of this section `clock` holds the values of the tick counter at the
successive tick reads of a run, those of `wait_irq` itself and those polled
inside `HAL_Delay`, counted from start-up without wrap-around; a read returns
its value modulo 2^32. -/

namespace Lora

end Lora

/-! ## Receive interrupts inside `processUartCommand` (Core/Src/main.cpp)

`uartReceivedBytes`, `newUartDataReceived` and `uartReceiveBuffer` are plain
globals that `HAL_UART_RxCpltCallback` writes, and `processUartCommand` runs
with the receive interrupt enabled and reads `uartReceivedBytes` again at each
use. -/

/-- The receive interrupts that fall inside one call of `processUartCommand`,
as the bytes they deliver, by the place where they fall: between the entry
test and the call of `validate`, between `validate` and the test
`uartReceivedBytes <= MAX_LORA_BUFFER_SIZE`, between that test and the
`memcpy`, between the `memcpy` and the assignment of `loraTransmitSizeBytes`,
and between the branches and the final `memset`. Interrupts inside `validate`,
inside `memcpy` and inside the CONFIG_FRAME branch are not modelled. -/
structure Interrupts where
  before_validate : List Nat
  after_validate : List Nat
  before_copy : List Nat
  before_size : List Nat
  before_clear : List Nat
  deriving DecidableEq, Repr

namespace Gateway

/-- The receive interrupt handler run once for each byte of `bytes`, oldest
first. -/
def interrupts (g : Gateway) (bytes : List Nat) : Option Gateway :=
  bytes.foldlM HAL_UART_RxCpltCallback g

/-- The RETRANSMIT_FRAME branch of `processUartCommand` with the receive
interrupts that fall between its statements. -/
def retransmit_interrupted (g : Gateway) (irq : Interrupts) : Option Gateway :=
  if g.currentOperationMode = OperationMode.TX_MODE ∨
      g.currentOperationMode = OperationMode.TX_RX_MODE then
    if g.uartReceivedBytes ≤ MAX_LORA_BUFFER_SIZE then
      match interrupts g irq.before_copy with
      | none => none
      | some g1 =>
        match memcpy g1.loraTransmitBuffer g1.uartReceiveBuffer g1.uartReceivedBytes with
        | none => none
        | some buffer1 =>
          match interrupts { g1 with loraTransmitBuffer := buffer1 } irq.before_size with
          | none => none
          | some g2 =>
            some { g2 with
              loraTransmitSizeBytes := g2.uartReceivedBytes % 256
              pendingLoraTransmission := true }
    else some g
  else some g

/-- The function `processUartCommand()` with the receive interrupts `irq` that
fall inside the call; `tick` is the value `HAL_GetTick()` returns. Every use of
`uartReceivedBytes` and `uartReceiveBuffer` reads the global as the interrupts
before it have left it. -/
def processUartCommand_interrupted (g : Gateway) (tick : Nat) (irq : Interrupts) :
    Option Gateway :=
  if !g.newUartDataReceived ∨ g.uartReceivedBytes = 0 then some g
  else
    match interrupts g irq.before_validate with
    | none => none
    | some ga =>
      match CommandMessage.validate ga.uartCommandParser ga.uartReceiveBuffer
          (ga.uartReceivedBytes % 256) with
      | none => none
      | some (frameStatus, parser1) =>
        match interrupts { ga with uartCommandParser := parser1 } irq.after_validate with
        | none => none
        | some g1 =>
          let handled : Option Gateway :=
            if frameStatus = STATUS.CONFIG_FRAME then processConfigCommand g1
            else if frameStatus = STATUS.RETRANSMIT_FRAME then retransmit_interrupted g1 irq
            else some g1
          match handled with
          | none => none
          | some g2 =>
            match interrupts g2 irq.before_clear with
            | none => none
            | some g3 =>
              some { g3 with
                uartReceiveBuffer := List.replicate MAX_UART_BUFFER_SIZE 0
                uartReceivedBytes := 0
                newUartDataReceived := false
                uartCommandParser := CommandMessage.reset g3.uartCommandParser true
                blockStartTime := tick % 2 ^ 32 }

/-- The frame `7E 10 00 21 00 00 AC B5 7F`, addressed to module (0x10, 0x00). -/
def foreign_frame : List Nat := [0x7E, 0x10, 0x00, 0x21, 0x00, 0x00, 0xAC, 0xB5, 0x7F]

/-- The gateway as `main` starts it in TxRx mode with identity (0, 0), after the
receive interrupts of the nine bytes of `foreign_frame`. -/
def frame_received : Option Gateway :=
  interrupts (initial OperationMode.TX_RX_MODE (CommandMessage.construct 0 0 255 0 0)
    (CommandMessage.construct 0 0 255 0 0)) foreign_frame

end Gateway


/-! ## Bit-level lemmas -/

theorem testBit_of_lt_two_pow (d i k : Nat) (hd : d < 2 ^ k) (hi : k ≤ i) :
    d.testBit i = false :=
  Nat.testBit_lt_two_pow (lt_of_lt_of_le hd (Nat.pow_le_pow_right (by decide) hi))

theorem and_0x8000_ne_zero (d : Nat) : (d &&& 0x8000 ≠ 0) ↔ d.testBit 15 = true := by
  have h := Nat.and_two_pow d 15
  norm_num at h
  rw [h]
  cases d.testBit 15 <;> simp

theorem generator_low_bits (i : Nat) (hi : i < 16) :
    (0x11021 : Nat).testBit i = (0x1021 : Nat).testBit i := by
  have h := Nat.testBit_two_pow_add_gt hi 0x1021
  norm_num at h
  exact h

theorem shiftLeft_xor_distrib (a b j : Nat) : (a ^^^ b) <<< j = (a <<< j) ^^^ (b <<< j) := by
  apply Nat.eq_of_testBit_eq
  intro i
  simp only [Nat.testBit_shiftLeft, Nat.testBit_xor]
  cases decide (i ≥ j) <;> simp

theorem mul_two_pow_add_eq_xor (a v m : Nat) (hv : v < 2 ^ m) :
    a * 2 ^ m + v = (a <<< m) ^^^ v := by
  apply Nat.eq_of_testBit_eq
  intro j
  rw [Nat.mul_comm, Nat.testBit_mul_pow_two_add a hv j]
  simp only [Nat.testBit_shiftLeft, Nat.testBit_xor]
  by_cases h : j < m
  · have : ¬ j ≥ m := by omega
    simp [h, this]
  · have h1 : j ≥ m := by omega
    have h2 : v.testBit j = false := testBit_of_lt_two_pow v j m hv h1
    simp [h, h1, h2]

namespace CommandMessage

/-! ## The CRC engine -/

theorem crc_bit_eq (d : Nat) (hd : d < 65536) :
    crc_bit d = (d <<< 1) ^^^ (if d.testBit 15 then 0x11021 else 0) := by
  unfold crc_bit
  rw [if_congr (and_0x8000_ne_zero d) rfl rfl]
  have hd' : d < 2 ^ 16 := by omega
  apply Nat.eq_of_testBit_eq
  intro i
  have e : (65536 : Nat) = 2 ^ 16 := by norm_num
  rw [e]
  split
  · rename_i h
    simp only [Nat.testBit_mod_two_pow, Nat.testBit_xor, Nat.testBit_shiftLeft]
    rcases Nat.lt_trichotomy i 16 with hi | hi | hi
    · simp [hi, generator_low_bits i hi]
    · subst hi
      have h4 : (0x11021 : Nat).testBit 16 = true := by decide
      simp [h, h4]
    · have h1 : d.testBit (i - 1) = false := testBit_of_lt_two_pow d (i - 1) 16 hd' (by omega)
      have h2 : (0x11021 : Nat).testBit i = false :=
        testBit_of_lt_two_pow _ i 17 (by norm_num) (by omega)
      have h3 : ¬ i < 16 := by omega
      simp [h1, h2, h3]
  · rename_i h
    simp only [Nat.testBit_mod_two_pow, Nat.testBit_xor, Nat.testBit_shiftLeft, Nat.xor_zero]
    by_cases hi : i < 16
    · simp [hi]
    · rcases Nat.eq_or_lt_of_le (Nat.le_of_not_lt hi) with hi2 | hi2
      · subst hi2; simpa using h
      · have h1 : d.testBit (i - 1) = false :=
          testBit_of_lt_two_pow d (i - 1) 16 hd' (by omega)
        simp [hi, h1]

theorem crc_bit_lt (d : Nat) : crc_bit d < 65536 := by
  unfold crc_bit
  split <;> exact Nat.mod_lt _ (by norm_num)

theorem crc_bits_lt : ∀ (k d : Nat), d < 65536 → crc_bits k d < 65536
  | 0, _, h => h
  | k + 1, d, _ => crc_bits_lt k (crc_bit d) (crc_bit_lt d)

theorem crc_byte_lt (c b : Nat) : crc_byte c b < 65536 :=
  crc_bits_lt 7 _ (crc_bit_lt _)

theorem foldl_crc_byte_lt : ∀ (B : List Nat) (c : Nat), c < 65536 → B.foldl crc_byte c < 65536
  | [], _, h => h
  | b :: rest, c, _ => foldl_crc_byte_lt rest (crc_byte c b) (crc_byte_lt c b)

/-- One reduction step of the long division is one shift of the register. -/
theorem gf2_rem_step (d L j : Nat) (hd : d < 65536) (hL : L < 2 ^ (j + 16)) :
    (if ((d <<< (j + 1)) ^^^ L).testBit (j + 16) then
        ((d <<< (j + 1)) ^^^ L) ^^^ (0x11021 <<< j)
      else (d <<< (j + 1)) ^^^ L) = (crc_bit d <<< j) ^^^ L := by
  have hb : ((d <<< (j + 1)) ^^^ L).testBit (j + 16) = d.testBit 15 := by
    have h2 : L.testBit (j + 16) = false := Nat.testBit_lt_two_pow hL
    have h3 : j + 16 - (j + 1) = 15 := by omega
    have h4 : j + 16 ≥ j + 1 := by omega
    simp [h2, h3, h4]
  rw [hb, crc_bit_eq d hd, shiftLeft_xor_distrib, Nat.add_comm j 1, Nat.shiftLeft_add]
  cases d.testBit 15
  · simp
  · simp only [if_true]
    rw [Nat.xor_assoc, Nat.xor_comm L, ← Nat.xor_assoc]

theorem gf2_rem_bits (k : Nat) : ∀ d m L : Nat, d < 65536 → L < 2 ^ (m + 16) →
    gf2_rem 0x11021 (m + k) ((d <<< (m + k)) ^^^ L) =
      gf2_rem 0x11021 m ((crc_bits k d <<< m) ^^^ L) := by
  induction k with
  | zero => intro d m L _ _; rfl
  | succ k ih =>
    intro d m L hd hL
    have hL' : L < 2 ^ (m + k + 16) :=
      lt_of_lt_of_le hL (Nat.pow_le_pow_right (by decide) (by omega))
    have step : gf2_rem 0x11021 (m + (k + 1)) ((d <<< (m + (k + 1))) ^^^ L) =
        gf2_rem 0x11021 (m + k)
          (if ((d <<< (m + k + 1)) ^^^ L).testBit (m + k + 16) then
            ((d <<< (m + k + 1)) ^^^ L) ^^^ (0x11021 <<< (m + k))
           else (d <<< (m + k + 1)) ^^^ L) := rfl
    rw [step, gf2_rem_step d L (m + k) hd hL']
    exact ih (crc_bit d) m L (crc_bit_lt d) hL

theorem bytes_value_lt : ∀ B : List Nat, (∀ b ∈ B, b < 256) →
    bytes_value B < 2 ^ (8 * B.length)
  | [], _ => by simp [bytes_value]
  | b :: rest, h => by
    have hb : b < 256 := h b (List.mem_cons_self _ _)
    have ih := bytes_value_lt rest (fun x hx => h x (List.mem_cons_of_mem _ hx))
    simp only [bytes_value, List.length_cons]
    have e : 2 ^ (8 * (rest.length + 1)) = 256 * 2 ^ (8 * rest.length) := by
      rw [Nat.mul_add, Nat.pow_add]; norm_num; ring
    rw [e]
    nlinarith

/-- The byte loop of `crc_get`, started on register `c`, is the long division
of `c(x) * x^(8 n) + B(x) * x^16`. -/
theorem gf2_rem_bytes : ∀ (B : List Nat) (c : Nat), c < 65536 → (∀ b ∈ B, b < 256) →
    gf2_rem 0x11021 (8 * B.length) ((c <<< (8 * B.length)) ^^^ (bytes_value B <<< 16)) =
      B.foldl crc_byte c
  | [], c, _, _ => by simp [gf2_rem, bytes_value]
  | b :: rest, c, _, h => by
    have hb : b < 256 := h b (List.mem_cons_self _ _)
    have hrest : ∀ x ∈ rest, x < 256 := fun x hx => h x (List.mem_cons_of_mem _ hx)
    have hv := bytes_value_lt rest hrest
    have hL : bytes_value rest <<< 16 < 2 ^ (8 * rest.length + 16) := by
      rw [Nat.shiftLeft_eq, Nat.pow_add]
      exact Nat.mul_lt_mul_of_pos_right hv (by norm_num)
    have hb8 : (b <<< 8) % 65536 = b <<< 8 := by
      rw [Nat.shiftLeft_eq]; omega
    have hcb : c ^^^ (b <<< 8) < 65536 := by
      have h1 : c < 2 ^ 16 := by omega
      have h2 : b <<< 8 < 2 ^ 16 := by rw [Nat.shiftLeft_eq]; omega
      have := Nat.xor_lt_two_pow h1 h2
      omega
    have e1 : (c <<< (8 * (rest.length + 1))) ^^^ (bytes_value (b :: rest) <<< 16) =
        ((c ^^^ (b <<< 8)) <<< (8 * rest.length + 8)) ^^^ (bytes_value rest <<< 16) := by
      have e2 : (b <<< 8) <<< (8 * rest.length + 8) = (b <<< (8 * rest.length)) <<< 16 := by
        rw [← Nat.shiftLeft_add, ← Nat.shiftLeft_add]
        congr 1
        omega
      simp only [bytes_value]
      rw [mul_two_pow_add_eq_xor b _ _ hv, shiftLeft_xor_distrib, shiftLeft_xor_distrib,
        Nat.mul_succ, e2, Nat.xor_assoc]
    simp only [List.length_cons, List.foldl_cons]
    rw [e1, Nat.mul_succ, gf2_rem_bits 8 _ _ _ hcb hL]
    have := gf2_rem_bytes rest (crc_byte c b) (crc_byte_lt c b) hrest
    rw [← this]
    simp only [crc_byte, hb8]

theorem gf2_mul_congr (g q q' : Nat) : ∀ n : Nat, (∀ j, j < n → q.testBit j = q'.testBit j) →
    gf2_mul g q n = gf2_mul g q' n
  | 0, _ => rfl
  | n + 1, h => by
    simp only [gf2_mul]
    rw [gf2_mul_congr g q q' n (fun j hj => h j (by omega)), h n (by omega)]

/-- What the long division leaves differs from the dividend by a multiple of
the generator. -/
theorem gf2_rem_eq_xor_mul (g : Nat) : ∀ (n a : Nat), ∃ q, q < 2 ^ n ∧
    gf2_rem g n a = a ^^^ gf2_mul g q n
  | 0, a => ⟨0, by norm_num, by simp [gf2_rem, gf2_mul]⟩
  | i + 1, a => by
    obtain ⟨q, hq, hrem⟩ :=
      gf2_rem_eq_xor_mul g i (if a.testBit (i + 16) then a ^^^ (g <<< i) else a)
    have hqi : q.testBit i = false := Nat.testBit_lt_two_pow hq
    by_cases ht : a.testBit (i + 16) = true
    · refine ⟨2 ^ i + q, by rw [Nat.pow_succ]; omega, ?_⟩
      have h1 : (2 ^ i + q).testBit i = true := by
        rw [Nat.testBit_two_pow_add_eq, hqi]; rfl
      have h2 : gf2_mul g (2 ^ i + q) i = gf2_mul g q i :=
        gf2_mul_congr g _ _ i (fun j hj => Nat.testBit_two_pow_add_gt hj q)
      simp only [gf2_rem, gf2_mul, ht, if_true, h1, h2] at hrem ⊢
      rw [hrem, Nat.xor_assoc, Nat.xor_comm (g <<< i)]
    · refine ⟨q, by rw [Nat.pow_succ]; omega, ?_⟩
      simp only [gf2_rem, gf2_mul, ht, hqi] at hrem ⊢
      simpa using hrem

theorem crc_loop_eq : ∀ (B : List Nat) (c : Nat),
    crc_loop c B B.length = some (B.foldl crc_byte c)
  | [], _ => rfl
  | b :: rest, c => by
    simp only [List.length_cons, crc_loop, List.foldl_cons]
    exact crc_loop_eq rest _

theorem crc_get_eq_foldl (B : List Nat) : crc_get B B.length = some (B.foldl crc_byte 0) :=
  crc_loop_eq B 0

theorem foldl_crc_byte_eq_reference (B : List Nat) (hB : ∀ b ∈ B, b < 256) :
    B.foldl crc_byte 0 = crc16_reference B := by
  unfold crc16_reference
  rw [← gf2_rem_bytes B 0 (by norm_num) hB]
  simp

end CommandMessage

/-- C1: for every byte sequence `B` of length 0..255, `crc_get` over the whole
of `B` returns the reference CRC-16 (generator 0x1021, initial value 0, most
significant bit first, no reflection, no final XOR): the value left by the long
division of `B(x) * x^16` by `x^16 + x^12 + x^5 + 1` over GF(2), which is below
`2^16` and differs from `B(x) * x^16` by a multiple of the generator; the CRC
of the empty sequence is 0. -/
theorem crc_get_eq_crc16_reference (B : List Nat) (_hlen : B.length ≤ 255)
    (hbytes : ∀ b ∈ B, b < 256) :
    crc_get B B.length = some (crc16_reference B) ∧
      crc16_reference B < 65536 ∧
      (∃ q, bytes_value B <<< 16 = gf2_mul 0x11021 q (8 * B.length) ^^^ crc16_reference B) ∧
      crc_get [] 0 = some 0 := by
  refine ⟨?_, ?_, ?_, rfl⟩
  · rw [crc_get_eq_foldl, foldl_crc_byte_eq_reference B hbytes]
  · rw [← foldl_crc_byte_eq_reference B hbytes]
    exact foldl_crc_byte_lt B 0 (by norm_num)
  · obtain ⟨q, _, hq⟩ := gf2_rem_eq_xor_mul 0x11021 (8 * B.length) (bytes_value B <<< 16)
    refine ⟨q, ?_⟩
    unfold crc16_reference
    rw [hq, Nat.xor_comm (bytes_value B <<< 16), ← Nat.xor_assoc, Nat.xor_self, Nat.zero_xor]

set_option maxRecDepth 10000 in
/-- Witness of C1 on the nine ASCII digits "123456789" (check value 0x31C3). -/
theorem crc_get_eq_crc16_reference_witness :
    [0x31, 0x32, 0x33, 0x34, 0x35, 0x36, 0x37, 0x38, 0x39].length ≤ 255 ∧
      (∀ b ∈ [0x31, 0x32, 0x33, 0x34, 0x35, 0x36, 0x37, 0x38, 0x39], b < 256) ∧
      crc_get [0x31, 0x32, 0x33, 0x34, 0x35, 0x36, 0x37, 0x38, 0x39] 9 = some 0x31C3 ∧
      crc16_reference [0x31, 0x32, 0x33, 0x34, 0x35, 0x36, 0x37, 0x38, 0x39] = 0x31C3 :=
  ⟨by decide, by decide,
    by
      have h := (crc_get_eq_crc16_reference [0x31, 0x32, 0x33, 0x34, 0x35, 0x36, 0x37, 0x38, 0x39]
        (by decide) (by decide)).1
      have e : crc16_reference [0x31, 0x32, 0x33, 0x34, 0x35, 0x36, 0x37, 0x38, 0x39] = 0x31C3 := by
        decide
      rw [e] at h
      exact h,
    by decide⟩

/-! ## Frame composition -/

theorem and_0xFF (x : Nat) : x &&& 0xFF = x % 256 :=
  Nat.and_pow_two_sub_one_eq_mod x 8

theorem shiftRight_8 (x : Nat) : x >>> 8 = x / 256 :=
  Nat.shiftRight_eq_div_pow x 8

namespace CommandMessage

/-- The bytes `composeMessage` appends after the payload, for the CRC value `crc`. -/
theorem crc_trailer (crc : Nat) (h : crc < 65536) :
    [(crc &&& 0xFF) % 256, ((crc >>> 8) &&& 0xFF) % 256, LTEL_END_MARK] =
      [crc &&& 0xFF, crc >>> 8, 0x7F] := by
  have h1 : crc / 256 < 256 := by omega
  simp only [and_0xFF, shiftRight_8, LTEL_END_MARK, Nat.mod_mod, Nat.mod_eq_of_lt h1]

/-- What `composeMessage` inserts after the header is the whole payload. -/
theorem inserted_eq (d : List Nat) (h : d.length ≤ 255) :
    (if d.length % 256 > 0 then d else []) = d := by
  by_cases h0 : d.length % 256 > 0
  · simp [h0]
  · have : d.length = 0 := by omega
    simp [List.length_eq_zero.mp this]

/-- The function `composeMessage` for a payload of at most 255 bytes: the CRC is taken over
the first `(5 + n) mod 256` bytes of header and payload. -/
theorem composeMessage_eq (s : CommandMessage) (d : List Nat) (hcmd : s.command_id ≠ 0)
    (hlen : d.length ≤ 255) :
    composeMessage s (some d) =
      match crc_get ([s.module_function, s.module_id, s.command_id, 0, d.length] ++ d)
          ((5 + d.length) % 256) with
      | none => none
      | some crc => some (true, { s with
          message := [0x7E, s.module_function, s.module_id, s.command_id, 0, d.length] ++ d ++
            [(crc &&& 0xFF) % 256, ((crc >>> 8) &&& 0xFF) % 256, LTEL_END_MARK] }) := by
  have hmod : d.length % 256 = d.length := Nat.mod_eq_of_lt (by omega)
  have hins := inserted_eq d hlen
  unfold composeMessage
  simp only [hcmd, if_false, hins, LTEL_START_MARK]
  rw [hmod]
  have hl : ([s.module_function, s.module_id, s.command_id, 0, d.length] ++ d).length =
      5 + d.length := by
    simp only [List.length_append, List.length_cons, List.length_nil, Nat.add_comm]
  rw [hl]

/-- The function `composeMessage` for a payload whose frame body fits the `uint8_t` length
of `crc_get`. -/
theorem composeMessage_of_le_250 (s : CommandMessage) (d : List Nat) (hcmd : s.command_id ≠ 0)
    (hlen : d.length ≤ 250) :
    composeMessage s (some d) = some (true, { s with
      message := [0x7E, s.module_function, s.module_id, s.command_id, 0, d.length] ++ d ++
        [(([s.module_function, s.module_id, s.command_id, 0, d.length] ++ d).foldl crc_byte 0)
            &&& 0xFF,
          (([s.module_function, s.module_id, s.command_id, 0, d.length] ++ d).foldl crc_byte 0)
            >>> 8,
          0x7F] }) := by
  rw [composeMessage_eq s d hcmd (by omega)]
  have hl : ([s.module_function, s.module_id, s.command_id, 0, d.length] ++ d).length =
      5 + d.length := by
    simp only [List.length_append, List.length_cons, List.length_nil, Nat.add_comm]
  have hm : (5 + d.length) % 256 = 5 + d.length := Nat.mod_eq_of_lt (by omega)
  rw [hm, ← hl, crc_get_eq_foldl]
  simp only
  rw [crc_trailer _ (foldl_crc_byte_lt _ 0 (by norm_num))]

theorem crc_loop_isSome : ∀ (B : List Nat) (n c : Nat), n ≤ B.length →
    ∃ r, crc_loop c B n = some r
  | _, 0, c, _ => ⟨c, by cases ‹List Nat› <;> rfl⟩
  | [], n + 1, _, h => by simp at h
  | b :: rest, n + 1, c, h => by
    simp only [crc_loop]
    exact crc_loop_isSome rest n _ (by simpa using h)

/-- On a vector, `crc_get` with the size converted to `uint8_t` reads inside
the vector. -/
theorem crc_get_truncated_isSome (l : List Nat) : ∃ r, crc_get l (l.length % 256) = some r :=
  crc_loop_isSome l _ 0 (Nat.mod_le _ _)

end CommandMessage

set_option maxRecDepth 10000 in
/-- C2 (amended): for every command_id other than 0, every module_function and
module_id and every payload of length `n ≤ 250`, `composeMessage(payload)`
returns true and leaves the message buffer equal to
`[0x7E, module_function, module_id, command_id, 0, n] ++ payload ++
[crc & 0xFF, crc >> 8, 0x7F]` with `crc` the value `crc_get` returns over all of
`[module_function, module_id, command_id, 0, n] ++ payload`; for the input
`(0x00, 0x00, 0x21, [])` that CRC is 0xB1F6 and the frame ends in
`0xF6, 0xB1, 0x7F`. -/
theorem composeMessage_layout (s : CommandMessage) (payload : List Nat)
    (hcmd : s.command_id ≠ 0) (hlen : payload.length ≤ 250) :
    (∃ crc,
      crc_get ([s.module_function, s.module_id, s.command_id, 0, payload.length] ++ payload)
          (5 + payload.length) = some crc ∧
      composeMessage s (some payload) = some (true, { s with
        message :=
          [0x7E, s.module_function, s.module_id, s.command_id, 0, payload.length] ++ payload ++
            [crc &&& 0xFF, crc >>> 8, 0x7F] })) ∧
    (s.module_function = 0 → s.module_id = 0 → s.command_id = 0x21 → payload = [] →
      crc_get [0x00, 0x00, 0x21, 0x00, 0x00] 5 = some 0xB1F6 ∧
      composeMessage s (some payload) = some (true, { s with
        message := [0x7E, 0x00, 0x00, 0x21, 0x00, 0x00, 0xF6, 0xB1, 0x7F] })) := by
  have hl : ([s.module_function, s.module_id, s.command_id, 0, payload.length] ++ payload).length
      = 5 + payload.length := by
    simp only [List.length_append, List.length_cons, List.length_nil, Nat.add_comm]
  constructor
  · refine ⟨([s.module_function, s.module_id, s.command_id, 0, payload.length] ++
      payload).foldl crc_byte 0, ?_, composeMessage_of_le_250 s payload hcmd hlen⟩
    rw [← hl, crc_get_eq_foldl]
  · intro hmf hmid hc hp
    subst hp
    have hcrc : crc_get [0x00, 0x00, 0x21, 0x00, 0x00] 5 = some 0xB1F6 := by decide
    refine ⟨hcrc, ?_⟩
    rw [composeMessage_of_le_250 s [] hcmd hlen, hmf, hmid, hc]
    have hf : ([0, 0, 0x21, 0, ([] : List Nat).length] ++ []).foldl crc_byte 0 = 0xB1F6 := by
      decide
    rw [hf]
    rfl

/-- Witness of C2 (amended): the QUERY_RX_FREQ frame of identity (0, 0) with an
empty payload. -/
theorem composeMessage_layout_witness :
    (⟨255, 0, 0, 0x21, 0, 0, [], false, false⟩ : CommandMessage).command_id ≠ 0 ∧
      ([] : List Nat).length ≤ 250 ∧
      composeMessage ⟨255, 0, 0, 0x21, 0, 0, [], false, false⟩ (some []) =
        some (true, ⟨255, 0, 0, 0x21, 0, 0,
          [0x7E, 0x00, 0x00, 0x21, 0x00, 0x00, 0xF6, 0xB1, 0x7F], false, false⟩) :=
  ⟨by decide, by decide,
    ((composeMessage_layout ⟨255, 0, 0, 0x21, 0, 0, [], false, false⟩ [] (by decide)
      (by decide)).2 rfl rfl rfl rfl).2⟩

set_option maxRecDepth 100000 in
/-- C2 as stated fails for a payload of 251 zero bytes sent with command_id 1
from identity (0, 0): header and payload are 256 bytes, `crc_get` receives the
length converted to `uint8_t`, which is 0, so the frame carries the CRC bytes
`0, 0`, while the CRC over all 256 bytes, by the loop of `crc_get` as by the
reference, is 0xF344 (bytes `0x44, 0xF3`). -/
theorem composeMessage_layout_counterexample :
    composeMessage ⟨255, 0, 0, 1, 0, 0, [], false, false⟩ (some (List.replicate 251 0)) =
        some (true, ⟨255, 0, 0, 1, 0, 0,
          [0x7E, 0, 0, 1, 0, 251] ++ List.replicate 251 0 ++ [0, 0, 0x7F], false, false⟩) ∧
      crc_get ([0, 0, 1, 0, 251] ++ List.replicate 251 0) (5 + 251) = some 0xF344 ∧
      crc16_reference ([0, 0, 1, 0, 251] ++ List.replicate 251 0) = 0xF344 ∧
      [0, 0, 0x7F] ≠ [0xF344 &&& 0xFF, 0xF344 >>> 8, 0x7F] := by
  have hfold : ([0, 0, 1, 0, 251] ++ List.replicate 251 0).foldl crc_byte 0 = 0xF344 := by
    have hsplit : [0, 0, 1, 0, 251] ++ List.replicate 251 0 =
        ([0, 0, 1, 0, 251] ++ List.replicate 27 0) ++ (List.replicate 32 0 ++
          (List.replicate 32 0 ++ (List.replicate 32 0 ++ (List.replicate 32 0 ++
          (List.replicate 32 0 ++ (List.replicate 32 0 ++ List.replicate 32 0)))))) := by
      decide
    have h0 : ([0, 0, 1, 0, 251] ++ List.replicate 27 0).foldl crc_byte 0 = 10110 := by decide
    have h1 : (List.replicate 32 0).foldl crc_byte 10110 = 6376 := by decide
    have h2 : (List.replicate 32 0).foldl crc_byte 6376 = 27305 := by decide
    have h3 : (List.replicate 32 0).foldl crc_byte 27305 = 46676 := by decide
    have h4 : (List.replicate 32 0).foldl crc_byte 46676 = 14602 := by decide
    have h5 : (List.replicate 32 0).foldl crc_byte 14602 = 54245 := by decide
    have h6 : (List.replicate 32 0).foldl crc_byte 54245 = 43403 := by decide
    have h7 : (List.replicate 32 0).foldl crc_byte 43403 = 62276 := by decide
    rw [hsplit]
    simp only [List.foldl_append, h0, h1, h2, h3, h4, h5, h6, h7]
  refine ⟨?_, ?_, ?_, by decide⟩
  · rw [composeMessage_eq _ _ (by decide) (by simp)]
    simp only [List.length_replicate]
    rfl
  · have hlen : ([0, 0, 1, 0, 251] ++ List.replicate 251 0).length = 5 + 251 := by simp
    rw [← hlen, crc_get_eq_foldl, hfold]
  · rw [← foldl_crc_byte_eq_reference _ (by decide), hfold]

/-- C3: `composeMessage(payload)` returns false if and only if the command_id
of the instance is 0, and when it returns false the instance, its message
buffer included, is unchanged. It always returns. -/
theorem composeMessage_false_iff (s : CommandMessage) (data : Option (List Nat)) :
    ∃ ok s1, composeMessage s data = some (ok, s1) ∧
      (ok = false ↔ s.command_id = 0) ∧ (ok = false → s1 = s) := by
  by_cases hcmd : s.command_id = 0
  · exact ⟨false, s, by simp [composeMessage, hcmd], by simp [hcmd], fun _ => rfl⟩
  · unfold composeMessage
    simp only [hcmd, if_false]
    obtain ⟨crc, hcrc⟩ := crc_get_truncated_isSome
      ([s.module_function, s.module_id, s.command_id, 0,
          match data with
          | none => 0
          | some d => d.length % 256] ++
        match data with
        | none => []
        | some d => if (match data with | none => 0 | some d => d.length % 256) > 0 then d else [])
    rw [hcrc]
    exact ⟨true, _, rfl, by simp [hcmd], by simp⟩

/-! ## Frame validation -/

theorem readByte_zero (p : List Nat) : readByte p 0 = p[0]? := by
  simp [readByte]

theorem readByte_natCast (p : List Nat) (i : Nat) : readByte p (i : Int) = p[i]? := by
  simp [readByte]

theorem readByte_sub (p : List Nat) (len k : Nat) (h : k ≤ len) :
    readByte p ((len : Int) - (k : Int)) = p[len - k]? := by
  unfold readByte
  have h1 : ¬ ((len : Int) - (k : Int) < 0) := by omega
  have h2 : ((len : Int) - (k : Int)).toNat = len - k := by omega
  rw [if_neg h1, h2]

theorem toUint8_sub (len k : Nat) (h : k ≤ len) (h255 : len ≤ 255) :
    toUint8 ((len : Int) - (k : Int)) = len - k := by
  unfold toUint8
  omega

theorem saved_crc_eq (hi lo : Nat) (hhi : hi < 256) (hlo : lo < 256) :
    ((hi <<< 8) % 65536) ||| lo = hi * 256 + lo := by
  have h := Nat.mul_add_lt_is_or (i := 8) (b := lo) (by norm_num; exact hlo) hi
  rw [Nat.shiftLeft_eq, Nat.mod_eq_of_lt (by norm_num; omega)]
  rw [Nat.mul_comm] at h
  exact h.symm

namespace CommandMessage

theorem checkFrameValidity_short (frame : List Nat) (length : Nat) (h : length ≤ 6) :
    checkFrameValidity frame length = some STATUS.WAITING := by
  have : ¬ length > 6 := by omega
  simp [checkFrameValidity, CommandConstants.MINIMUN_FRAME_LEN, this]

/-- The structural stage on a buffer long enough to be examined. -/
theorem checkFrameValidity_eq (frame : List Nat) (length : Nat) (h6 : 6 < length)
    (hlen : length ≤ frame.length) :
    checkFrameValidity frame length =
      some (if frame[0]? = some 0x7E then
          (if frame[length - 1]? = some 0x7F then STATUS.VALID_FRAME else STATUS.START_READING)
        else STATUS.NOT_VALID_FRAME) := by
  have h0 : 0 < frame.length := by omega
  have h1 : length - 1 < frame.length := by omega
  have e1 := readByte_sub frame length 1 (by omega)
  simp only [Nat.cast_one] at e1
  unfold checkFrameValidity
  simp only [CommandConstants.MINIMUN_FRAME_LEN, gt_iff_lt, h6, if_true, readByte_zero, e1,
    CommandConstants.RDSS_START_MARK, CommandConstants.RDSS_END_MARK,
    List.getElem?_eq_getElem h0, List.getElem?_eq_getElem h1, Option.some.injEq]
  split <;> [split; skip] <;> rfl

theorem crc_loop_take : ∀ (B : List Nat) (n c : Nat), n ≤ B.length →
    crc_loop c B n = some ((B.take n).foldl crc_byte c)
  | B, 0, c, _ => by cases B <;> rfl
  | [], n + 1, _, h => by simp at h
  | b :: rest, n + 1, c, h => by
    simp only [crc_loop, List.take_succ_cons, List.foldl_cons]
    exact crc_loop_take rest n _ (by simpa using h)

/-- The integrity stage on a buffer that holds `len` bytes. -/
theorem checkCRCValidity_eq (frame : List Nat) (len : Nat) (h4 : 4 ≤ len)
    (hlen : len ≤ frame.length) (h255 : len ≤ 255) :
    checkCRCValidity frame len =
      some (if ((frame.drop 1).take (len - 4)).foldl crc_byte 0 =
            ((frame.getD (len - 2) 0 <<< 8) % 65536) ||| frame.getD (len - 3) 0 then
          STATUS.RDSS_DATA_OK else STATUS.CRC_ERROR) := by
  have e2 := readByte_sub frame len 2 (by omega)
  have e3 := readByte_sub frame len 3 (by omega)
  have e4 := toUint8_sub len 4 h4 h255
  simp only [Nat.cast_ofNat] at e2 e3 e4
  have h2 : len - 2 < frame.length := by omega
  have h3 : len - 3 < frame.length := by omega
  have hc := crc_loop_take (frame.drop 1) (len - 4) 0 (by simp only [List.length_drop]; omega)
  unfold checkCRCValidity
  simp only [CommandConstants.CRC_HIGH_BYTE_OFFSET, CommandConstants.CRC_LOW_BYTE_OFFSET,
    CommandConstants.FRAME_HEADER_SIZE, Nat.cast_ofNat, e2, e3, e4,
    List.getElem?_eq_getElem h2, List.getElem?_eq_getElem h3, crc_get, hc,
    List.getD_eq_getElem _ 0 h2, List.getD_eq_getElem _ 0 h3]

/-- The addressing stage on a buffer that holds the two address bytes. -/
theorem checkModule_eq (s : CommandMessage) (frame : List Nat) (length : Nat)
    (h3 : 3 ≤ frame.length) :
    checkModule s frame length =
      some (if frame[1]? = some s.module_function ∧ frame[2]? = some s.module_id then
          STATUS.CONFIG_FRAME else STATUS.RETRANSMIT_FRAME) := by
  have h1 : 1 < frame.length := by omega
  have h2 : 2 < frame.length := by omega
  unfold checkModule
  simp only [INDEX.MODULE_TYPE, INDEX.MODULE_ID, readByte_natCast,
    List.getElem?_eq_getElem h1, List.getElem?_eq_getElem h2, Option.some.injEq]
  split <;> rfl

theorem length_resize (v : List Nat) (n : Nat) : (resize v n).length = n := by
  simp only [resize, List.length_append, List.length_take, List.length_replicate]
  omega

/-- Storing a non-empty payload that the source array holds. -/
theorem storeData_eq (s : CommandMessage) (n : Nat) (p : List Nat) (h0 : 0 < n)
    (hn : n ≤ p.length) :
    storeData s n p = some { s with data_size := n, message := p.take n } := by
  have h1 : ¬ n ≤ 0 := by omega
  have h2 : (resize s.message n).drop n = [] :=
    List.drop_eq_nil_of_le (by rw [length_resize])
  simp only [storeData, h1, if_false, readBytes, hn, if_true, h2, List.append_nil]

theorem storeData_zero (s : CommandMessage) (p : List Nat) : storeData s 0 p = some s := by
  simp [storeData]

/-- Caching the header fields of a buffer that holds a whole header. -/
theorem saveFrame_eq (s : CommandMessage) (buffer : List Nat) (length : Nat)
    (h6 : 6 ≤ buffer.length) :
    saveFrame s buffer length =
      storeData { s with
          command_id := buffer.getD 3 0
          module_id := buffer.getD 2 0
          module_function := buffer.getD 1 0
          num_byte_data := (buffer.getD 4 0 + buffer.getD 5 0) % 256 }
        ((buffer.getD 4 0 + buffer.getD 5 0) % 256) (buffer.drop 6) := by
  have h1 : 1 < buffer.length := by omega
  have h2 : 2 < buffer.length := by omega
  have h3 : 3 < buffer.length := by omega
  have h4 : 4 < buffer.length := by omega
  have h5 : 5 < buffer.length := by omega
  unfold saveFrame
  simp only [INDEX.CMD, INDEX.MODULE_ID, INDEX.MODULE_TYPE, INDEX.DATA_LENGHT1,
    INDEX.DATA_LENGHT2, INDEX.DATA_START, readByte_natCast,
    List.getElem?_eq_getElem h1, List.getElem?_eq_getElem h2, List.getElem?_eq_getElem h3,
    List.getElem?_eq_getElem h4, List.getElem?_eq_getElem h5,
    List.getD_eq_getElem _ 0 h1, List.getD_eq_getElem _ 0 h2, List.getD_eq_getElem _ 0 h3,
    List.getD_eq_getElem _ 0 h4, List.getD_eq_getElem _ 0 h5]

/-- The three stages of `validate` on a buffer that holds `length > 6` bytes. -/
theorem validate_eq (s : CommandMessage) (buffer : List Nat) (length : Nat) (h6 : 6 < length)
    (hlen : length ≤ buffer.length) (h255 : length ≤ 255) :
    validate s buffer length =
      if buffer[0]? = some 0x7E then
        if buffer[length - 1]? = some 0x7F then
          if ((buffer.drop 1).take (length - 4)).foldl crc_byte 0 =
              ((buffer.getD (length - 2) 0 <<< 8) % 65536) ||| buffer.getD (length - 3) 0 then
            if buffer[1]? = some s.module_function ∧ buffer[2]? = some s.module_id then
              (saveFrame s buffer length).map (fun s1 => (STATUS.CONFIG_FRAME, s1))
            else some (STATUS.RETRANSMIT_FRAME, s)
          else some (STATUS.CRC_ERROR, s)
        else some (STATUS.START_READING, s)
      else some (STATUS.NOT_VALID_FRAME, s) := by
  unfold validate
  rw [checkFrameValidity_eq buffer length h6 hlen,
    checkCRCValidity_eq buffer length (by omega) hlen h255,
    checkModule_eq s buffer length (by omega)]
  by_cases c0 : buffer[0]? = some 0x7E
  · by_cases c1 : buffer[length - 1]? = some 0x7F
    · by_cases c2 : ((buffer.drop 1).take (length - 4)).foldl crc_byte 0 =
          ((buffer.getD (length - 2) 0 <<< 8) % 65536) ||| buffer.getD (length - 3) 0
      · by_cases c3 : buffer[1]? = some s.module_function ∧ buffer[2]? = some s.module_id
        · simp only [c0, c1, c2, c3, if_true, ne_eq, not_true_eq_false, if_false, and_self]
          cases saveFrame s buffer length <;> rfl
        · simp only [c0, c1, c2, c3, if_true, ne_eq, not_true_eq_false, if_false,
            not_false_eq_true, reduceCtorEq]
      · simp only [c0, c1, c2, if_true, ne_eq, not_true_eq_false, if_false,
          not_false_eq_true, reduceCtorEq]
    · simp only [c0, c1, if_true, ne_eq, not_true_eq_false, if_false,
        not_false_eq_true, reduceCtorEq]
  · simp only [c0, if_true, ne_eq, not_true_eq_false, if_false,
      not_false_eq_true, reduceCtorEq]

theorem validate_short (s : CommandMessage) (buffer : List Nat) (length : Nat)
    (h : length ≤ 6) : validate s buffer length = some (STATUS.WAITING, s) := by
  simp [validate, checkFrameValidity_short buffer length h]

/-- A status other than CONFIG_FRAME comes with the state `validate` was given. -/
theorem validate_state_of_ne_config (s s1 : CommandMessage) (buffer : List Nat) (length : Nat)
    (st : STATUS) (h : validate s buffer length = some (st, s1))
    (hst : st ≠ STATUS.CONFIG_FRAME) : s1 = s := by
  revert h
  unfold validate
  cases checkFrameValidity buffer length with
  | none => intro h; exact absurd h (by simp)
  | some fs =>
    dsimp only
    by_cases c0 : fs ≠ STATUS.VALID_FRAME
    · rw [if_pos c0]
      simp only [Option.some.injEq, Prod.mk.injEq]
      exact fun h => h.2.symm
    · rw [if_neg c0]
      cases checkCRCValidity buffer length with
      | none => intro h; exact absurd h (by simp)
      | some cs =>
        dsimp only
        by_cases c1 : cs ≠ STATUS.RDSS_DATA_OK
        · rw [if_pos c1]
          simp only [Option.some.injEq, Prod.mk.injEq]
          exact fun h => h.2.symm
        · rw [if_neg c1]
          cases checkModule s buffer length with
          | none => intro h; exact absurd h (by simp)
          | some ms =>
            dsimp only
            by_cases c2 : ms ≠ STATUS.CONFIG_FRAME
            · rw [if_pos c2]
              simp only [Option.some.injEq, Prod.mk.injEq]
              exact fun h => h.2.symm
            · rw [if_neg c2]
              cases saveFrame s buffer length with
              | none => intro h; exact absurd h (by simp)
              | some s2 =>
                simp only [Option.some.injEq, Prod.mk.injEq]
                exact fun h => absurd h.1.symm hst

end CommandMessage

/-! ## Validation of composed frames -/

theorem getElem?_frame_trailer (p : List Nat) (a b c k : Nat) :
    (p ++ [a, b, c])[p.length + k]? = [a, b, c][k]? := by
  rw [List.getElem?_append_right (by omega)]
  congr 1
  omega

theorem crc_bytes_recombine (crc : Nat) (h : crc < 65536) :
    (((crc >>> 8) <<< 8) % 65536) ||| (crc &&& 0xFF) = crc := by
  rw [shiftRight_8, and_0xFF, saved_crc_eq _ _ (by omega) (by omega)]
  omega

theorem frame_length (mf mid cmd n lo hi : Nat) (p : List Nat) :
    ([0x7E, mf, mid, cmd, 0, n] ++ p ++ [lo, hi, 0x7F]).length = p.length + 9 := by
  simp only [List.length_append, List.length_cons, List.length_nil]
  omega

theorem frame_end (mf mid cmd n lo hi : Nat) (p : List Nat) :
    ([0x7E, mf, mid, cmd, 0, n] ++ p ++ [lo, hi, 0x7F])[p.length + 8]? = some 0x7F := by
  simp only [List.cons_append, List.nil_append, List.getElem?_cons_succ]
  exact getElem?_frame_trailer p _ _ _ 2

theorem frame_crc_high (mf mid cmd n lo hi : Nat) (p : List Nat) :
    ([0x7E, mf, mid, cmd, 0, n] ++ p ++ [lo, hi, 0x7F]).getD (p.length + 7) 0 = hi := by
  simp only [List.getD_eq_getElem?_getD, List.cons_append, List.nil_append,
    List.getElem?_cons_succ]
  rw [getElem?_frame_trailer p _ _ _ 1]
  rfl

theorem frame_crc_low (mf mid cmd n lo hi : Nat) (p : List Nat) :
    ([0x7E, mf, mid, cmd, 0, n] ++ p ++ [lo, hi, 0x7F]).getD (p.length + 6) 0 = lo := by
  simp only [List.getD_eq_getElem?_getD, List.cons_append, List.nil_append,
    List.getElem?_cons_succ]
  have h0 := getElem?_frame_trailer p lo hi 0x7F 0
  rw [Nat.add_zero] at h0
  rw [h0]
  rfl

theorem frame_body (mf mid cmd n lo hi : Nat) (p : List Nat) :
    (([0x7E, mf, mid, cmd, 0, n] ++ p ++ [lo, hi, 0x7F]).drop 1).take (p.length + 5) =
      [mf, mid, cmd, 0, n] ++ p := by
  simp only [List.cons_append, List.nil_append, List.drop_succ_cons, List.drop_zero,
    List.take_succ_cons]
  rw [List.take_left]

namespace CommandMessage

/-- The integrity stage accepts a frame laid out the way `composeMessage` lays
it out. -/
theorem checkCRCValidity_frame (mf mid cmd : Nat) (p : List Nat) (hp : p.length ≤ 246) :
    checkCRCValidity
        ([0x7E, mf, mid, cmd, 0, p.length] ++ p ++
          [(([mf, mid, cmd, 0, p.length] ++ p).foldl crc_byte 0) &&& 0xFF,
            (([mf, mid, cmd, 0, p.length] ++ p).foldl crc_byte 0) >>> 8, 0x7F])
        (p.length + 9) = some STATUS.RDSS_DATA_OK := by
  generalize hcrc : ([mf, mid, cmd, 0, p.length] ++ p).foldl crc_byte 0 = crc
  have hcrclt : crc < 65536 := by
    rw [← hcrc]; exact foldl_crc_byte_lt _ 0 (by norm_num)
  have e2 : p.length + 9 - 2 = p.length + 7 := by omega
  have e3 : p.length + 9 - 3 = p.length + 6 := by omega
  have e4 : p.length + 9 - 4 = p.length + 5 := by omega
  rw [checkCRCValidity_eq _ _ (by omega) (by rw [frame_length]) (by omega), e2, e3, e4,
    frame_crc_high, frame_crc_low, frame_body, hcrc, crc_bytes_recombine crc hcrclt, if_pos rfl]

/-- The function `validate` on a frame laid out the way `composeMessage` lays it out, by any
instance `t`. -/
theorem validate_frame (t : CommandMessage) (mf mid cmd : Nat) (p : List Nat)
    (hp : p.length ≤ 246) :
    validate t
        ([0x7E, mf, mid, cmd, 0, p.length] ++ p ++
          [(([mf, mid, cmd, 0, p.length] ++ p).foldl crc_byte 0) &&& 0xFF,
            (([mf, mid, cmd, 0, p.length] ++ p).foldl crc_byte 0) >>> 8, 0x7F])
        (p.length + 9) =
      if mf = t.module_function ∧ mid = t.module_id then
        if p.length = 0 then
          some (STATUS.CONFIG_FRAME, { t with
            command_id := cmd, module_id := mid, module_function := mf, num_byte_data := 0 })
        else
          some (STATUS.CONFIG_FRAME, { t with
            command_id := cmd, module_id := mid, module_function := mf,
            num_byte_data := p.length, data_size := p.length, message := p })
      else some (STATUS.RETRANSMIT_FRAME, t) := by
  generalize hcrc : ([mf, mid, cmd, 0, p.length] ++ p).foldl crc_byte 0 = crc
  have hcrclt : crc < 65536 := by
    rw [← hcrc]; exact foldl_crc_byte_lt _ 0 (by norm_num)
  have hlen := frame_length mf mid cmd p.length (crc &&& 0xFF) (crc >>> 8) p
  rw [validate_eq t _ (p.length + 9) (by omega) (by rw [hlen]) (by omega)]
  have e1 : p.length + 9 - 1 = p.length + 8 := by omega
  have e2 : p.length + 9 - 2 = p.length + 7 := by omega
  have e3 : p.length + 9 - 3 = p.length + 6 := by omega
  have e4 : p.length + 9 - 4 = p.length + 5 := by omega
  have f0 : ([0x7E, mf, mid, cmd, 0, p.length] ++ p ++ [crc &&& 0xFF, crc >>> 8, 0x7F])[0]? =
      some 0x7E := rfl
  have f1 : ([0x7E, mf, mid, cmd, 0, p.length] ++ p ++ [crc &&& 0xFF, crc >>> 8, 0x7F])[1]? =
      some mf := rfl
  have f2 : ([0x7E, mf, mid, cmd, 0, p.length] ++ p ++ [crc &&& 0xFF, crc >>> 8, 0x7F])[2]? =
      some mid := rfl
  have d3 : ([0x7E, mf, mid, cmd, 0, p.length] ++ p ++ [crc &&& 0xFF, crc >>> 8, 0x7F]).getD 3 0 =
      cmd := rfl
  have d2 : ([0x7E, mf, mid, cmd, 0, p.length] ++ p ++ [crc &&& 0xFF, crc >>> 8, 0x7F]).getD 2 0 =
      mid := rfl
  have d1 : ([0x7E, mf, mid, cmd, 0, p.length] ++ p ++ [crc &&& 0xFF, crc >>> 8, 0x7F]).getD 1 0 =
      mf := rfl
  have d4 : ([0x7E, mf, mid, cmd, 0, p.length] ++ p ++ [crc &&& 0xFF, crc >>> 8, 0x7F]).getD 4 0 =
      0 := rfl
  have d5 : ([0x7E, mf, mid, cmd, 0, p.length] ++ p ++ [crc &&& 0xFF, crc >>> 8, 0x7F]).getD 5 0 =
      p.length := rfl
  have dr : ([0x7E, mf, mid, cmd, 0, p.length] ++ p ++ [crc &&& 0xFF, crc >>> 8, 0x7F]).drop 6 =
      p ++ [crc &&& 0xFF, crc >>> 8, 0x7F] := rfl
  have hn : (0 + p.length) % 256 = p.length := by omega
  rw [e1, e2, e3, e4, frame_end, frame_crc_high, frame_crc_low, frame_body, hcrc,
    crc_bytes_recombine crc hcrclt, f0, f1, f2,
    saveFrame_eq t _ _ (by rw [hlen]; omega), d1, d2, d3, d4, d5, dr, hn]
  simp only [if_true, Option.some.injEq]
  by_cases hm : mf = t.module_function ∧ mid = t.module_id
  · rw [if_pos hm, if_pos hm]
    by_cases h0 : p.length = 0
    · rw [if_pos h0, h0, storeData_zero]
      rfl
    · rw [if_neg h0, storeData_eq _ _ _ (by omega) (by simp), List.take_left]
      rfl
  · rw [if_neg hm, if_neg hm]

end CommandMessage

/-- C4: for every frame `F` produced by `composeMessage` (any command_id other
than 0, any identity, any payload for which the frame length `n + 9` fits a
`uint8_t`), the trailing CRC pair matches the CRC recomputed over
`F[1 .. len-4]`, and `validate(F, len(F))` on any instance returns a status,
which is not CRC_ERROR. -/
theorem validate_composed_never_crc_error (s t : CommandMessage) (payload : List Nat)
    (hcmd : s.command_id ≠ 0) (hlen : payload.length + 9 ≤ 255) :
    ∃ s1, composeMessage s (some payload) = some (true, s1) ∧
      s1.message.length = payload.length + 9 ∧
      checkCRCValidity s1.message s1.message.length = some STATUS.RDSS_DATA_OK ∧
      ∃ st t1, validate t s1.message s1.message.length = some (st, t1) ∧
        st ≠ STATUS.CRC_ERROR := by
  have hp : payload.length ≤ 246 := by omega
  refine ⟨_, composeMessage_of_le_250 s payload hcmd (by omega), ?_, ?_, ?_⟩
  · exact frame_length _ _ _ _ _ _ _
  · simp only [frame_length]
    exact checkCRCValidity_frame _ _ _ payload hp
  · simp only [frame_length]
    rw [validate_frame t _ _ _ payload hp]
    by_cases hm : s.module_function = t.module_function ∧ s.module_id = t.module_id
    · rw [if_pos hm]
      by_cases h0 : payload.length = 0
      · rw [if_pos h0]; exact ⟨_, _, rfl, by decide⟩
      · rw [if_neg h0]; exact ⟨_, _, rfl, by decide⟩
    · rw [if_neg hm]; exact ⟨_, _, rfl, by decide⟩

set_option maxRecDepth 10000 in
/-- Witness of C4: a SET_RX_FREQ frame with a four-byte payload composed by
identity (0x10, 0x01) and validated by identity (0, 0). -/
theorem validate_composed_never_crc_error_witness :
    (⟨255, 0x10, 0x01, 0xB1, 0, 0, [], false, false⟩ : CommandMessage).command_id ≠ 0 ∧
      [0x00, 0x80, 0x2D, 0x43].length + 9 ≤ 255 ∧
      ∃ s1, composeMessage ⟨255, 0x10, 0x01, 0xB1, 0, 0, [], false, false⟩
          (some [0x00, 0x80, 0x2D, 0x43]) = some (true, s1) ∧
        s1.message.length = [0x00, 0x80, 0x2D, 0x43].length + 9 ∧
        checkCRCValidity s1.message s1.message.length = some STATUS.RDSS_DATA_OK ∧
        ∃ st t1, validate ⟨255, 0, 0, 0, 0, 0, [], false, false⟩ s1.message s1.message.length =
            some (st, t1) ∧ st ≠ STATUS.CRC_ERROR :=
  ⟨by decide, by decide,
    validate_composed_never_crc_error ⟨255, 0x10, 0x01, 0xB1, 0, 0, [], false, false⟩
      ⟨255, 0, 0, 0, 0, 0, [], false, false⟩ [0x00, 0x80, 0x2D, 0x43] (by decide) (by decide)⟩

/-- C5 (amended): for every cmd other than 0, every mf and mid and every
payload, validating the frame composed by `composeMessage` on an instance whose
identity is `(mf, mid)` returns CONFIG_FRAME with `getCommandId() = cmd`,
`getModuleFunction() = mf` and `getModuleId() = mid` when
`0 ≤ len(payload) ≤ 246`, and with `getDataSize() = len(payload)` and the stored
payload equal to the payload when `1 ≤ len(payload) ≤ 246`. -/
theorem compose_validate_roundtrip (s t : CommandMessage) (payload : List Nat)
    (hcmd : s.command_id ≠ 0) (hlen : payload.length ≤ 246)
    (hmf : t.module_function = s.module_function) (hmid : t.module_id = s.module_id) :
    ∃ s1 t1, composeMessage s (some payload) = some (true, s1) ∧
      validate t s1.message s1.message.length = some (STATUS.CONFIG_FRAME, t1) ∧
      getCommandId t1 = s.command_id ∧
      getModuleFunction t1 = s.module_function ∧
      getModuleId t1 = s.module_id ∧
      (1 ≤ payload.length → getDataSize t1 = payload.length ∧ t1.message = payload) := by
  have hm : s.module_function = t.module_function ∧ s.module_id = t.module_id :=
    ⟨hmf.symm, hmid.symm⟩
  have hv := validate_frame t s.module_function s.module_id s.command_id payload hlen
  rw [if_pos hm] at hv
  have hc := composeMessage_of_le_250 s payload hcmd (by omega)
  have hl := frame_length s.module_function s.module_id s.command_id payload.length
    ((([s.module_function, s.module_id, s.command_id, 0, payload.length] ++ payload).foldl
      crc_byte 0) &&& 0xFF)
    ((([s.module_function, s.module_id, s.command_id, 0, payload.length] ++ payload).foldl
      crc_byte 0) >>> 8) payload
  by_cases h0 : payload.length = 0
  · rw [if_pos h0, ← hl] at hv
    exact ⟨_, { t with
        command_id := s.command_id, module_id := s.module_id,
        module_function := s.module_function, num_byte_data := 0 },
      hc, hv, rfl, rfl, rfl, fun h1 => absurd h0 (by omega)⟩
  · rw [if_neg h0, ← hl] at hv
    exact ⟨_, { t with
        command_id := s.command_id, module_id := s.module_id,
        module_function := s.module_function, num_byte_data := payload.length,
        data_size := payload.length, message := payload },
      hc, hv, rfl, rfl, rfl, fun _ => ⟨rfl, rfl⟩⟩

set_option maxRecDepth 10000 in
/-- Witness of C5 (amended): SET_SPREAD_FACTOR with the payload `[7]`. -/
theorem compose_validate_roundtrip_witness :
    (⟨255, 0, 0, 0xB4, 0, 0, [], false, false⟩ : CommandMessage).command_id ≠ 0 ∧
      [7].length ≤ 246 ∧
      composeMessage ⟨255, 0, 0, 0xB4, 0, 0, [], false, false⟩ (some [7]) =
        some (true, ⟨255, 0, 0, 0xB4, 0, 0,
          [0x7E, 0x00, 0x00, 0xB4, 0x00, 0x01, 0x07, 0xF6, 0x78, 0x7F], false, false⟩) ∧
      validate ⟨255, 0, 0, 0, 0, 0, [], false, false⟩
          [0x7E, 0x00, 0x00, 0xB4, 0x00, 0x01, 0x07, 0xF6, 0x78, 0x7F] 10 =
        some (STATUS.CONFIG_FRAME, ⟨255, 0, 0, 0xB4, 1, 1, [7], false, false⟩) ∧
      ∃ s1 t1, composeMessage ⟨255, 0, 0, 0xB4, 0, 0, [], false, false⟩ (some [7]) =
          some (true, s1) ∧
        validate ⟨255, 0, 0, 0, 0, 0, [], false, false⟩ s1.message s1.message.length =
          some (STATUS.CONFIG_FRAME, t1) ∧
        getCommandId t1 = 0xB4 ∧ getModuleFunction t1 = 0 ∧ getModuleId t1 = 0 ∧
        (1 ≤ [7].length → getDataSize t1 = [7].length ∧ t1.message = [7]) :=
  ⟨by decide, by decide, by decide, by decide,
    compose_validate_roundtrip ⟨255, 0, 0, 0xB4, 0, 0, [], false, false⟩
      ⟨255, 0, 0, 0, 0, 0, [], false, false⟩ [7] (by decide) (by decide) rfl rfl⟩

set_option maxRecDepth 10000 in
/-- C5 as stated fails at both ends of its payload range. With an empty payload:
the instance of identity (0, 0) that holds the one-byte payload `[7]` of an
earlier frame validates the composed QUERY_RX_FREQ frame as CONFIG_FRAME, and
`getDataSize()` is still 1 and the stored payload still `[7]`, not the empty
payload. With 247 payload bytes: the composed frame has 256 bytes, its length
as `uint8_t` is 0, and `validate` answers WAITING. -/
theorem compose_validate_roundtrip_counterexample :
    (composeMessage ⟨255, 0, 0, 0x21, 0, 0, [], false, false⟩ (some []) =
        some (true, ⟨255, 0, 0, 0x21, 0, 0,
          [0x7E, 0x00, 0x00, 0x21, 0x00, 0x00, 0xF6, 0xB1, 0x7F], false, false⟩) ∧
      validate ⟨255, 0, 0, 0xB4, 1, 1, [7], false, false⟩
          [0x7E, 0x00, 0x00, 0x21, 0x00, 0x00, 0xF6, 0xB1, 0x7F] 9 =
        some (STATUS.CONFIG_FRAME, ⟨255, 0, 0, 0x21, 0, 1, [7], false, false⟩) ∧
      getDataSize ⟨255, 0, 0, 0x21, 0, 1, [7], false, false⟩ ≠ ([] : List Nat).length ∧
      (⟨255, 0, 0, 0x21, 0, 1, [7], false, false⟩ : CommandMessage).message ≠ []) ∧
    ((composeMessage ⟨255, 0, 0, 0x21, 0, 0, [], false, false⟩
        (some (List.replicate 247 0))).bind
        (fun r => (validate ⟨255, 0, 0, 0, 0, 0, [], false, false⟩ r.2.message
          (r.2.message.length % 256)).map (fun v => (r.2.message.length, v.1))) =
      some (256, STATUS.WAITING)) := by
  refine ⟨⟨by decide, by decide, by decide, by decide⟩, ?_⟩
  rw [composeMessage_of_le_250 _ _ (by decide) (by simp)]
  simp only [Option.bind, frame_length, List.length_replicate]
  rw [validate_short _ _ _ (by decide)]
  rfl

/-- C6: for every buffer and every length `≤ 6` (so every length `< 6`),
`validate` returns WAITING, hence neither NOT_VALID_FRAME nor CRC_ERROR,
whatever the buffer holds, and the instance is left as it was. -/
theorem validate_short_waiting (s : CommandMessage) (buffer : List Nat) (length : Nat)
    (h : length ≤ 6) :
    validate s buffer length = some (STATUS.WAITING, s) ∧
      STATUS.WAITING ≠ STATUS.NOT_VALID_FRAME ∧ STATUS.WAITING ≠ STATUS.CRC_ERROR :=
  ⟨validate_short s buffer length h, by decide, by decide⟩

/-- Witness of C6: five bytes that open like a frame. -/
theorem validate_short_waiting_witness :
    5 ≤ 6 ∧
      validate ⟨255, 0, 0, 0x21, 3, 3, [1, 2, 3], false, false⟩ [0x7E, 0x00, 0x00, 0x21, 0x00] 5 =
        some (STATUS.WAITING, ⟨255, 0, 0, 0x21, 3, 3, [1, 2, 3], false, false⟩) :=
  ⟨by decide,
    (validate_short_waiting ⟨255, 0, 0, 0x21, 3, 3, [1, 2, 3], false, false⟩
      [0x7E, 0x00, 0x00, 0x21, 0x00] 5 (by decide)).1⟩

/-- C7: for every buffer whose length passes the length check (`length > 6`,
the buffer holding `length` bytes), `validate` returns NOT_VALID_FRAME when
`buffer[0] ≠ 0x7E`, whatever the last byte and the CRC, and START_READING when
`buffer[0] = 0x7E` and `buffer[length-1] ≠ 0x7F`, whatever the CRC; with both
marks the structural stage answers VALID_FRAME, and a status of the CRC stage
or of a later stage is returned only when both marks are present. -/
theorem validate_structural_stage (s : CommandMessage) (buffer : List Nat) (length : Nat)
    (h6 : 6 < length) (hlen : length ≤ buffer.length) :
    (buffer[0]? ≠ some 0x7E → validate s buffer length = some (STATUS.NOT_VALID_FRAME, s)) ∧
    (buffer[0]? = some 0x7E → buffer[length - 1]? ≠ some 0x7F →
      validate s buffer length = some (STATUS.START_READING, s)) ∧
    (buffer[0]? = some 0x7E → buffer[length - 1]? = some 0x7F →
      checkFrameValidity buffer length = some STATUS.VALID_FRAME) ∧
    (∀ st s1, validate s buffer length = some (st, s1) →
      st = STATUS.CRC_ERROR ∨ st = STATUS.CONFIG_FRAME ∨ st = STATUS.RETRANSMIT_FRAME →
      buffer[0]? = some 0x7E ∧ buffer[length - 1]? = some 0x7F) := by
  have hA : buffer[0]? ≠ some 0x7E →
      validate s buffer length = some (STATUS.NOT_VALID_FRAME, s) := by
    intro h0
    unfold validate
    rw [checkFrameValidity_eq buffer length h6 hlen, if_neg h0]
    rfl
  have hB : buffer[0]? = some 0x7E → buffer[length - 1]? ≠ some 0x7F →
      validate s buffer length = some (STATUS.START_READING, s) := by
    intro h0 h1
    unfold validate
    rw [checkFrameValidity_eq buffer length h6 hlen, if_pos h0, if_neg h1]
    rfl
  refine ⟨hA, hB, ?_, ?_⟩
  · intro h0 h1
    rw [checkFrameValidity_eq buffer length h6 hlen, if_pos h0, if_pos h1]
  · intro st s1 hv hst
    by_cases h0 : buffer[0]? = some 0x7E
    · by_cases h1 : buffer[length - 1]? = some 0x7F
      · exact ⟨h0, h1⟩
      · rw [hB h0 h1] at hv
        simp only [Option.some.injEq, Prod.mk.injEq] at hv
        rcases hst with e | e | e <;> rw [← hv.1] at e <;> exact absurd e (by decide)
    · rw [hA h0] at hv
      simp only [Option.some.injEq, Prod.mk.injEq] at hv
      rcases hst with e | e | e <;> rw [← hv.1] at e <;> exact absurd e (by decide)

set_option maxRecDepth 10000 in
/-- Witness of C7: a seven-byte buffer that starts with 0x00 is NOT_VALID_FRAME
although it ends with the end mark. -/
theorem validate_structural_stage_witness :
    6 < 7 ∧ 7 ≤ [0x00, 0x00, 0x00, 0x21, 0x00, 0x00, 0x7F].length ∧
      validate ⟨255, 0, 0, 0, 0, 0, [], false, false⟩
          [0x00, 0x00, 0x00, 0x21, 0x00, 0x00, 0x7F] 7 =
        some (STATUS.NOT_VALID_FRAME, ⟨255, 0, 0, 0, 0, 0, [], false, false⟩) :=
  ⟨by decide, by decide,
    (validate_structural_stage ⟨255, 0, 0, 0, 0, 0, [], false, false⟩
      [0x00, 0x00, 0x00, 0x21, 0x00, 0x00, 0x7F] 7 (by decide) (by decide)).1 (by decide)⟩

/-! ## Acceptance and addressing -/

theorem getD_lt_256 (buffer : List Nat) (i : Nat) (hbytes : ∀ b ∈ buffer, b < 256) :
    buffer.getD i 0 < 256 := by
  by_cases h : i < buffer.length
  · rw [List.getD_eq_getElem _ 0 h]
    exact hbytes _ (List.getElem_mem h)
  · rw [List.getD_eq_default _ 0 (by omega)]
    decide

theorem getElem?_eq_some_getD (buffer : List Nat) (i : Nat) (h : i < buffer.length) :
    buffer[i]? = some (buffer.getD i 0) := by
  rw [List.getElem?_eq_getElem h, List.getD_eq_getElem _ 0 h]

namespace CommandMessage

/-- The comparison made by the integrity stage, in the words of the frame
layout: the pair at `buffer[length-3]`, `buffer[length-2]` is the little-endian
encoding of `crc_get` over `buffer[1 .. length-4]`. -/
theorem crc_stage_iff (buffer : List Nat) (length : Nat) (h6 : 6 < length)
    (hlen : length ≤ buffer.length) (hbytes : ∀ b ∈ buffer, b < 256) :
    (((buffer.drop 1).take (length - 4)).foldl crc_byte 0 =
        ((buffer.getD (length - 2) 0 <<< 8) % 65536) ||| buffer.getD (length - 3) 0) ↔
      ∃ lo hi, buffer[length - 3]? = some lo ∧ buffer[length - 2]? = some hi ∧
        crc_get (buffer.drop 1) (length - 4) = some (hi * 256 + lo) := by
  have hlo := getElem?_eq_some_getD buffer (length - 3) (by omega)
  have hhi := getElem?_eq_some_getD buffer (length - 2) (by omega)
  have hc : crc_get (buffer.drop 1) (length - 4) =
      some (((buffer.drop 1).take (length - 4)).foldl crc_byte 0) :=
    crc_loop_take (buffer.drop 1) (length - 4) 0 (by simp only [List.length_drop]; omega)
  rw [saved_crc_eq _ _ (getD_lt_256 buffer _ hbytes) (getD_lt_256 buffer _ hbytes)]
  constructor
  · intro h
    exact ⟨_, _, hlo, hhi, by rw [hc, h]⟩
  · rintro ⟨lo, hi, h1, h2, h3⟩
    rw [hlo] at h1
    rw [hhi] at h2
    rw [hc] at h3
    rw [Option.some.inj h1, Option.some.inj h2]
    exact Option.some.inj h3

/-- The function `saveFrame` returns when the bytes it copies lie inside the buffer array. -/
theorem saveFrame_isSome (s : CommandMessage) (buffer : List Nat) (length : Nat)
    (hstore : 6 + (buffer.getD 4 0 + buffer.getD 5 0) % 256 ≤ buffer.length) :
    saveFrame s buffer length = some
      (if (buffer.getD 4 0 + buffer.getD 5 0) % 256 = 0 then
        { s with
          command_id := buffer.getD 3 0
          module_id := buffer.getD 2 0
          module_function := buffer.getD 1 0
          num_byte_data := (buffer.getD 4 0 + buffer.getD 5 0) % 256 }
      else
        { s with
          command_id := buffer.getD 3 0
          module_id := buffer.getD 2 0
          module_function := buffer.getD 1 0
          num_byte_data := (buffer.getD 4 0 + buffer.getD 5 0) % 256
          data_size := (buffer.getD 4 0 + buffer.getD 5 0) % 256
          message := (buffer.drop 6).take ((buffer.getD 4 0 + buffer.getD 5 0) % 256) }) := by
  rw [saveFrame_eq s buffer length (by omega)]
  by_cases h0 : (buffer.getD 4 0 + buffer.getD 5 0) % 256 = 0
  · rw [if_pos h0, h0, storeData_zero]
  · rw [if_neg h0, storeData_eq _ _ _ (by omega) (by simp only [List.length_drop]; omega)]

end CommandMessage

/-- C8 (amended): for a buffer array of bytes that holds `length ≤ 255` bytes
and the bytes `saveFrame` copies, `validate` accepts the buffer as a frame
(returns CONFIG_FRAME or RETRANSMIT_FRAME) if and only if `length > 6`,
`buffer[0] = 0x7E`, `buffer[length-1] = 0x7F` and the little-endian CRC pair at
`buffer[length-3]`, `buffer[length-2]` equals `crc_get` over
`buffer[1 .. length-4]`. -/
theorem validate_accepts_iff (s : CommandMessage) (buffer : List Nat) (length : Nat)
    (hlen : length ≤ buffer.length) (h255 : length ≤ 255) (hbytes : ∀ b ∈ buffer, b < 256)
    (hstore : 6 + (buffer.getD 4 0 + buffer.getD 5 0) % 256 ≤ buffer.length) :
    (∃ s1, validate s buffer length = some (STATUS.CONFIG_FRAME, s1) ∨
        validate s buffer length = some (STATUS.RETRANSMIT_FRAME, s1)) ↔
      (length > 6 ∧ buffer[0]? = some 0x7E ∧ buffer[length - 1]? = some 0x7F ∧
        ∃ lo hi, buffer[length - 3]? = some lo ∧ buffer[length - 2]? = some hi ∧
          crc_get (buffer.drop 1) (length - 4) = some (hi * 256 + lo)) := by
  by_cases h6 : 6 < length
  · rw [← crc_stage_iff buffer length h6 hlen hbytes, validate_eq s buffer length h6 hlen h255,
      saveFrame_isSome s buffer length hstore]
    by_cases c0 : buffer[0]? = some 0x7E
    · by_cases c1 : buffer[length - 1]? = some 0x7F
      · by_cases c2 : ((buffer.drop 1).take (length - 4)).foldl crc_byte 0 =
            ((buffer.getD (length - 2) 0 <<< 8) % 65536) ||| buffer.getD (length - 3) 0
        · rw [if_pos c0, if_pos c1, if_pos c2]
          constructor
          · intro _; exact ⟨h6, c0, c1, c2⟩
          · intro _
            by_cases c3 : buffer[1]? = some s.module_function ∧ buffer[2]? = some s.module_id
            · rw [if_pos c3]; exact ⟨_, Or.inl rfl⟩
            · rw [if_neg c3]; exact ⟨_, Or.inr rfl⟩
        · rw [if_pos c0, if_pos c1, if_neg c2]
          constructor
          · rintro ⟨s1, h | h⟩ <;> simp at h
          · intro h; exact absurd h.2.2.2 c2
      · rw [if_pos c0, if_neg c1]
        constructor
        · rintro ⟨s1, h | h⟩ <;> simp at h
        · intro h; exact absurd h.2.2.1 c1
    · rw [if_neg c0]
      constructor
      · rintro ⟨s1, h | h⟩ <;> simp at h
      · intro h; exact absurd h.2.1 c0
  · rw [validate_short s buffer length (by omega)]
    constructor
    · rintro ⟨s1, h | h⟩ <;> simp at h
    · intro h; exact absurd h.1 h6

set_option maxRecDepth 10000 in
/-- Witness of C8 (amended): the QUERY_UART_BAUDRATE frame addressed to
identity (0, 0) is accepted. -/
theorem validate_accepts_iff_witness :
    9 ≤ [0x7E, 0x00, 0x00, 0x22, 0x00, 0x00, 0xA6, 0xE8, 0x7F].length ∧ 9 ≤ 255 ∧
      (∀ b ∈ [0x7E, 0x00, 0x00, 0x22, 0x00, 0x00, 0xA6, 0xE8, 0x7F], b < 256) ∧
      6 + ([0x7E, 0x00, 0x00, 0x22, 0x00, 0x00, 0xA6, 0xE8, 0x7F].getD 4 0 +
          [0x7E, 0x00, 0x00, 0x22, 0x00, 0x00, 0xA6, 0xE8, 0x7F].getD 5 0) % 256 ≤
        [0x7E, 0x00, 0x00, 0x22, 0x00, 0x00, 0xA6, 0xE8, 0x7F].length ∧
      ∃ s1, validate ⟨255, 0, 0, 0, 0, 0, [], false, false⟩
            [0x7E, 0x00, 0x00, 0x22, 0x00, 0x00, 0xA6, 0xE8, 0x7F] 9 =
          some (STATUS.CONFIG_FRAME, s1) ∨
        validate ⟨255, 0, 0, 0, 0, 0, [], false, false⟩
            [0x7E, 0x00, 0x00, 0x22, 0x00, 0x00, 0xA6, 0xE8, 0x7F] 9 =
          some (STATUS.RETRANSMIT_FRAME, s1) :=
  ⟨by decide, by decide, by decide, by decide,
    (validate_accepts_iff ⟨255, 0, 0, 0, 0, 0, [], false, false⟩
      [0x7E, 0x00, 0x00, 0x22, 0x00, 0x00, 0xA6, 0xE8, 0x7F] 9 (by decide) (by decide)
      (by decide) (by decide)).2
      ⟨by decide, by decide, by decide, 0xA6, 0xE8, by decide, by decide, by decide⟩⟩

set_option maxRecDepth 10000 in
/-- C8 as stated fails in two ways. The six-byte buffer `7E 00 00 00 00 7F` has
length `≥ 6`, both marks and the CRC pair `00 00` of `crc_get` over its bytes
1..2, and `validate` answers WAITING. The nine-byte frame
`7E 00 00 21 00 C8 B2 E9 7F` has both marks and a matching CRC pair, is
addressed to identity (0, 0) and declares 200 payload bytes: on identity (0, 0)
`saveFrame` reads past the end of the nine-byte array and `validate` gives no
status. -/
theorem validate_accepts_iff_counterexample :
    (validate ⟨255, 0, 0, 0, 0, 0, [], false, false⟩ [0x7E, 0x00, 0x00, 0x00, 0x00, 0x7F] 6 =
        some (STATUS.WAITING, ⟨255, 0, 0, 0, 0, 0, [], false, false⟩) ∧
      6 ≥ 6 ∧ [0x7E, 0x00, 0x00, 0x00, 0x00, 0x7F][0]? = some 0x7E ∧
      [0x7E, 0x00, 0x00, 0x00, 0x00, 0x7F][6 - 1]? = some 0x7F ∧
      [0x7E, 0x00, 0x00, 0x00, 0x00, 0x7F][6 - 3]? = some 0x00 ∧
      [0x7E, 0x00, 0x00, 0x00, 0x00, 0x7F][6 - 2]? = some 0x00 ∧
      crc_get ([0x7E, 0x00, 0x00, 0x00, 0x00, 0x7F].drop 1) (6 - 4) = some (0x00 * 256 + 0x00)) ∧
    (validate ⟨255, 0, 0, 0, 0, 0, [], false, false⟩
        [0x7E, 0x00, 0x00, 0x21, 0x00, 0xC8, 0xB2, 0xE9, 0x7F] 9 = none ∧
      [0x7E, 0x00, 0x00, 0x21, 0x00, 0xC8, 0xB2, 0xE9, 0x7F][0]? = some 0x7E ∧
      [0x7E, 0x00, 0x00, 0x21, 0x00, 0xC8, 0xB2, 0xE9, 0x7F][9 - 1]? = some 0x7F ∧
      [0x7E, 0x00, 0x00, 0x21, 0x00, 0xC8, 0xB2, 0xE9, 0x7F][9 - 3]? = some 0xB2 ∧
      [0x7E, 0x00, 0x00, 0x21, 0x00, 0xC8, 0xB2, 0xE9, 0x7F][9 - 2]? = some 0xE9 ∧
      crc_get ([0x7E, 0x00, 0x00, 0x21, 0x00, 0xC8, 0xB2, 0xE9, 0x7F].drop 1) (9 - 4) =
        some (0xE9 * 256 + 0xB2)) := by
  refine ⟨⟨by decide, by decide, by decide, by decide, by decide, by decide, by decide⟩,
    ⟨by decide, by decide, by decide, by decide, by decide, by decide⟩⟩

namespace CommandMessage

/-- After the structural and integrity stages, `validate` is the addressing
stage followed by `saveFrame`. -/
theorem validate_of_stages (s : CommandMessage) (buffer : List Nat) (length : Nat)
    (hfv : checkFrameValidity buffer length = some STATUS.VALID_FRAME)
    (hcrc : checkCRCValidity buffer length = some STATUS.RDSS_DATA_OK)
    (h3 : 3 ≤ buffer.length) :
    validate s buffer length =
      if buffer[1]? = some s.module_function ∧ buffer[2]? = some s.module_id then
        (saveFrame s buffer length).map (fun s1 => (STATUS.CONFIG_FRAME, s1))
      else some (STATUS.RETRANSMIT_FRAME, s) := by
  unfold validate
  rw [hfv, hcrc, checkModule_eq s buffer length h3]
  dsimp only
  rw [if_neg (by decide), if_neg (by decide)]
  by_cases c3 : buffer[1]? = some s.module_function ∧ buffer[2]? = some s.module_id
  · rw [if_pos c3, if_pos c3, if_neg (by decide)]
    cases saveFrame s buffer length <;> rfl
  · rw [if_neg c3, if_neg c3, if_pos (by decide)]

end CommandMessage

set_option maxRecDepth 10000 in
/-- C10: whenever `validate` returns a status other than CONFIG_FRAME, the
instance it returns is the instance it was given: command_id,
module_function, module_id, data_size, the stored payload and every other
field are what they were before the call (the buffer is only read). In
particular identity `(0x00, 0x00)` receiving the valid frame addressed to
`(0x10, 0x00)` answers RETRANSMIT_FRAME with its state untouched. -/
theorem validate_keeps_state_unless_config (s s1 : CommandMessage) (buffer : List Nat)
    (length : Nat) (st : STATUS) (h : validate s buffer length = some (st, s1))
    (hst : st ≠ STATUS.CONFIG_FRAME) :
    s1 = s ∧
      (∀ t : CommandMessage, t.module_function = 0x00 → t.module_id = 0x00 →
        validate t [0x7E, 0x10, 0x00, 0x21, 0x00, 0x00, 0xAC, 0xB5, 0x7F] 9 =
          some (STATUS.RETRANSMIT_FRAME, t)) := by
  refine ⟨validate_state_of_ne_config s s1 buffer length st h hst, ?_⟩
  intro t hmf hmid
  have hv := validate_frame t 0x10 0x00 0x21 [] (by decide)
  have hc : ([0x10, 0x00, 0x21, 0, ([] : List Nat).length] ++ []).foldl crc_byte 0 = 0xB5AC := by
    decide
  rw [hc] at hv
  have hne : ¬ (0x10 = t.module_function ∧ 0x00 = t.module_id) := by
    rw [hmf]; exact fun h => absurd h.1 (by decide)
  rw [if_neg hne] at hv
  exact hv

set_option maxRecDepth 10000 in
/-- Witness of C10: identity (0, 0), holding the cached command 0xB4 and the
payload `[7]`, receives the frame addressed to (0x10, 0). -/
theorem validate_keeps_state_unless_config_witness :
    validate ⟨255, 0, 0, 0xB4, 1, 1, [7], false, false⟩
        [0x7E, 0x10, 0x00, 0x21, 0x00, 0x00, 0xAC, 0xB5, 0x7F] 9 =
      some (STATUS.RETRANSMIT_FRAME, ⟨255, 0, 0, 0xB4, 1, 1, [7], false, false⟩) ∧
    STATUS.RETRANSMIT_FRAME ≠ STATUS.CONFIG_FRAME ∧
    (⟨255, 0, 0, 0xB4, 1, 1, [7], false, false⟩ : CommandMessage) =
      ⟨255, 0, 0, 0xB4, 1, 1, [7], false, false⟩ :=
  ⟨by decide, by decide,
    (validate_keeps_state_unless_config ⟨255, 0, 0, 0xB4, 1, 1, [7], false, false⟩
      ⟨255, 0, 0, 0xB4, 1, 1, [7], false, false⟩
      [0x7E, 0x10, 0x00, 0x21, 0x00, 0x00, 0xAC, 0xB5, 0x7F] 9 STATUS.RETRANSMIT_FRAME
      (by decide) (by decide)).1⟩

/-! ## Validating the same buffer twice -/

namespace CommandMessage

/-- Storing a payload: nothing for length 0, otherwise the bytes read. -/
theorem storeData_some (s : CommandMessage) (n : Nat) (p : List Nat) :
    storeData s n p =
      if n = 0 then some s
      else (readBytes p n).map (fun src => { s with data_size := n, message := src }) := by
  unfold storeData
  by_cases h0 : n = 0
  · subst h0; simp
  · have h1 : ¬ n ≤ 0 := by omega
    rw [if_neg h1, if_neg h0]
    cases hr : readBytes p n with
    | none => rfl
    | some src =>
      have h2 : (resize s.message n).drop n = [] :=
        List.drop_eq_nil_of_le (by rw [length_resize])
      simp only [h2, Option.map]
      have h3 : src ++ ([] : List Nat) = src := List.append_nil src
      rw [h3]

theorem checkFrameValidity_ne_config (buffer : List Nat) (length : Nat) :
    checkFrameValidity buffer length ≠ some STATUS.CONFIG_FRAME := by
  unfold checkFrameValidity
  split
  · cases readByte buffer 0 with
    | none => simp
    | some first =>
      dsimp only
      split
      · cases readByte buffer ((length : Int) - 1) with
        | none => simp
        | some last =>
          dsimp only
          split <;> simp
      · simp
  · simp

theorem checkCRCValidity_ne_config (buffer : List Nat) (length : Nat) :
    checkCRCValidity buffer length ≠ some STATUS.CONFIG_FRAME := by
  unfold checkCRCValidity
  split
  · dsimp only
    split
    · simp
    · split <;> simp
  · simp

/-- What a CONFIG_FRAME result of `validate` went through. -/
theorem validate_config_inv (s s1 : CommandMessage) (buffer : List Nat) (length : Nat)
    (h : validate s buffer length = some (STATUS.CONFIG_FRAME, s1)) :
    checkFrameValidity buffer length = some STATUS.VALID_FRAME ∧
      checkCRCValidity buffer length = some STATUS.RDSS_DATA_OK ∧
      checkModule s buffer length = some STATUS.CONFIG_FRAME ∧
      saveFrame s buffer length = some s1 := by
  revert h
  unfold validate
  have hfc := checkFrameValidity_ne_config buffer length
  have hcc := checkCRCValidity_ne_config buffer length
  cases hf : checkFrameValidity buffer length with
  | none => intro h; exact absurd h (by simp)
  | some fs =>
    dsimp only
    by_cases c0 : fs ≠ STATUS.VALID_FRAME
    · rw [if_pos c0]
      intro h
      simp only [Option.some.injEq, Prod.mk.injEq] at h
      rw [hf, h.1] at hfc
      exact absurd rfl hfc
    · rw [if_neg c0]
      have e0 : fs = STATUS.VALID_FRAME := by
        by_contra hne; exact c0 hne
      cases hc : checkCRCValidity buffer length with
      | none => intro h; exact absurd h (by simp)
      | some cs =>
        dsimp only
        by_cases c1 : cs ≠ STATUS.RDSS_DATA_OK
        · rw [if_pos c1]
          intro h
          simp only [Option.some.injEq, Prod.mk.injEq] at h
          rw [hc, h.1] at hcc
          exact absurd rfl hcc
        · rw [if_neg c1]
          have e1 : cs = STATUS.RDSS_DATA_OK := by
            by_contra hne; exact c1 hne
          cases hm : checkModule s buffer length with
          | none => intro h; exact absurd h (by simp)
          | some ms =>
            dsimp only
            by_cases c2 : ms ≠ STATUS.CONFIG_FRAME
            · rw [if_pos c2]
              intro h
              simp only [Option.some.injEq, Prod.mk.injEq] at h
              exact absurd h.1 c2
            · rw [if_neg c2]
              have e2 : ms = STATUS.CONFIG_FRAME := by
                by_contra hne; exact c2 hne
              cases hs : saveFrame s buffer length with
              | none => intro h; exact absurd h (by simp)
              | some s2 =>
                intro h
                simp only [Option.some.injEq, Prod.mk.injEq] at h
                rw [e0, e1, e2, h.2]
                exact ⟨rfl, rfl, rfl, rfl⟩

/-- The stages of `validate` that end in CONFIG_FRAME. -/
theorem validate_config_of_stages (s s1 : CommandMessage) (buffer : List Nat) (length : Nat)
    (hf : checkFrameValidity buffer length = some STATUS.VALID_FRAME)
    (hc : checkCRCValidity buffer length = some STATUS.RDSS_DATA_OK)
    (hm : checkModule s buffer length = some STATUS.CONFIG_FRAME)
    (hs : saveFrame s buffer length = some s1) :
    validate s buffer length = some (STATUS.CONFIG_FRAME, s1) := by
  unfold validate
  rw [hf, hc, hm, hs]
  rfl

/-- Saving the same frame again changes nothing, and the saved identity is the
one the frame is addressed to. -/
theorem saveFrame_idem (s s1 : CommandMessage) (buffer : List Nat) (length : Nat)
    (hs : saveFrame s buffer length = some s1) :
    saveFrame s1 buffer length = some s1 ∧
      checkModule s1 buffer length = some STATUS.CONFIG_FRAME := by
  revert hs
  unfold saveFrame checkModule
  cases h3 : readByte buffer INDEX.CMD with
  | none => intro h; simp at h
  | some cmd =>
    cases h2 : readByte buffer INDEX.MODULE_ID with
    | none => intro h; simp at h
    | some mid =>
      cases h1 : readByte buffer INDEX.MODULE_TYPE with
      | none => intro h; simp at h
      | some mf =>
        cases h4 : readByte buffer INDEX.DATA_LENGHT1 with
        | none => intro h; simp at h
        | some l1 =>
          cases h5 : readByte buffer INDEX.DATA_LENGHT2 with
          | none => intro h; simp at h
          | some l2 =>
            dsimp only
            rw [storeData_some, storeData_some]
            by_cases h0 : (l1 + l2) % 256 = 0
            · rw [if_pos h0, if_pos h0]
              intro h
              have e := Option.some.inj h
              subst e
              simp
            · rw [if_neg h0, if_neg h0]
              cases hr : readBytes (buffer.drop INDEX.DATA_START) ((l1 + l2) % 256) with
              | none => intro h; simp at h
              | some src =>
                intro h
                simp only [Option.map, Option.some.injEq] at h
                subst h
                simp

end CommandMessage

/-- C11: for every instance state, buffer and length, when `validate` returns a
status, calling it again on the same buffer with the instance the first call
left returns the same status, and leaves the same instance state. -/
theorem validate_twice (s s1 : CommandMessage) (buffer : List Nat) (length : Nat) (st : STATUS)
    (h : validate s buffer length = some (st, s1)) :
    validate s1 buffer length = some (st, s1) := by
  by_cases hst : st = STATUS.CONFIG_FRAME
  · subst hst
    obtain ⟨hf, hc, _, hs⟩ := validate_config_inv s s1 buffer length h
    obtain ⟨hs1, hm1⟩ := saveFrame_idem s s1 buffer length hs
    exact validate_config_of_stages s1 s1 buffer length hf hc hm1 hs1
  · have e := validate_state_of_ne_config s s1 buffer length st h hst
    rw [e]
    rw [e] at h
    exact h

set_option maxRecDepth 10000 in
/-- Witness of C11: identity (0, 0) validates the SET_RX_FREQ frame
`7E 00 00 B1 00 04 00 80 2D 43 54 F0 7F` twice. -/
theorem validate_twice_witness :
    validate (construct 0 0 255 0 0)
        [0x7E, 0x00, 0x00, 0xB1, 0x00, 0x04, 0x00, 0x80, 0x2D, 0x43, 0x54, 0xF0, 0x7F] 13 =
      some (STATUS.CONFIG_FRAME, ⟨255, 0, 0, 0xB1, 4, 4, [0x00, 0x80, 0x2D, 0x43], false, false⟩) ∧
    validate ⟨255, 0, 0, 0xB1, 4, 4, [0x00, 0x80, 0x2D, 0x43], false, false⟩
        [0x7E, 0x00, 0x00, 0xB1, 0x00, 0x04, 0x00, 0x80, 0x2D, 0x43, 0x54, 0xF0, 0x7F] 13 =
      some (STATUS.CONFIG_FRAME, ⟨255, 0, 0, 0xB1, 4, 4, [0x00, 0x80, 0x2D, 0x43], false, false⟩) :=
  ⟨by decide,
    validate_twice (construct 0 0 255 0 0)
      ⟨255, 0, 0, 0xB1, 4, 4, [0x00, 0x80, 0x2D, 0x43], false, false⟩
      [0x7E, 0x00, 0x00, 0xB1, 0x00, 0x04, 0x00, 0x80, 0x2D, 0x43, 0x54, 0xF0, 0x7F] 13
      STATUS.CONFIG_FRAME (by decide)⟩

/-! ## The byte parser -/

namespace CommandMessage

theorem feed_nil (s : CommandMessage) : feed s [] = some s := rfl

theorem feed_cons (s : CommandMessage) (b : Nat) (bs : List Nat) :
    feed s (b :: bs) = (checkByte s b).bind (fun s1 => feed s1 bs) := by
  unfold feed
  rw [List.foldlM_cons]
  rfl

theorem feed_append (s : CommandMessage) (xs ys : List Nat) :
    feed s (xs ++ ys) = (feed s xs).bind (fun s1 => feed s1 ys) := by
  induction xs generalizing s with
  | nil => rfl
  | cons x xs ih =>
    rw [List.cons_append, feed_cons, feed_cons]
    cases checkByte s x with
    | none => rfl
    | some s1 => exact ih s1

/-- The idle branch of `checkByte`. -/
theorem checkByte_idle (s : CommandMessage) (b : Nat) (h : s.listening = false) :
    checkByte s b =
      some (if b = 0x7E then { s with message := [b], listening := true } else s) := by
  unfold checkByte
  rw [h]
  simp only [Bool.false_eq_true, if_false, LTEL_START_MARK]
  split <;> rfl

/-- The listening branch of `checkByte` for a byte other than the end mark. -/
theorem checkByte_listening (s : CommandMessage) (b : Nat) (h : s.listening = true)
    (hb : b ≠ 0x7F) :
    checkByte s b =
      some (if (s.message ++ [b]).length ≥ s.max_message_size then
          reset_default { s with message := s.message ++ [b] }
        else { s with message := s.message ++ [b] }) := by
  unfold checkByte
  rw [h]
  simp only [if_true, LTEL_END_MARK, hb, if_false]
  split <;> rfl

/-- The CRC that `checkCRC` recomputes over a message of four bytes or more. -/
theorem calculateCRC_eq (s : CommandMessage) (h4 : 4 ≤ s.message.length) :
    calculateCRC s 1 3 =
      some (((s.message.drop 1).take ((s.message.length - 4) % 256)).foldl crc_byte 0) := by
  have hne : s.message.isEmpty = false := by
    cases hm : s.message with
    | nil => rw [hm] at h4; simp at h4
    | cons a t => rfl
  have hg : ¬ (s.message.isEmpty = true ∨ 1 ≥ s.message.length ∨ 1 + 3 > s.message.length) := by
    rw [hne]
    intro h
    rcases h with h | h | h
    · exact absurd h (by decide)
    · omega
    · omega
  have e : s.message.length - 3 - 1 = s.message.length - 4 := by omega
  unfold calculateCRC
  rw [if_neg hg]
  dsimp only
  rw [e]
  by_cases h0 : (s.message.length - 4) % 256 ≤ 0
  · rw [if_pos h0]
    have : (s.message.length - 4) % 256 = 0 := by omega
    rw [this]
    rfl
  · rw [if_neg h0]
    exact crc_loop_take _ _ 0 (by
      rw [List.length_drop]
      have := Nat.mod_le (s.message.length - 4) 256
      omega)

theorem calculateCRC_short (s : CommandMessage) (h : s.message.length ≤ 3) :
    calculateCRC s 1 3 = some 0 := by
  unfold calculateCRC
  rw [if_pos (Or.inr (Or.inr (by omega)))]

/-- The comparison `checkCRC` makes on a message of three bytes or more. -/
theorem checkCRC_eq (s : CommandMessage) (h3 : 3 ≤ s.message.length) :
    checkCRC s =
      (calculateCRC s 1 3).map (fun crc_val =>
        decide (crc_val % 256 = s.message.getD (s.message.length - 3) 0 ∧
          (crc_val / 256) % 256 = s.message.getD (s.message.length - 2) 0)) := by
  have e3 := readByte_sub s.message s.message.length 3 (by omega)
  have e2 := readByte_sub s.message s.message.length 2 (by omega)
  simp only [Nat.cast_ofNat] at e2 e3
  have g3 := getElem?_eq_some_getD s.message (s.message.length - 3) (by omega)
  have g2 := getElem?_eq_some_getD s.message (s.message.length - 2) (by omega)
  unfold checkCRC
  rw [if_neg (by simp only [MESSAGE_OFFSET_CRC_LOW_FROM_END]; omega)]
  simp only [MESSAGE_OFFSET_CRC_LOW_FROM_END, MESSAGE_OFFSET_CRC_HIGH_FROM_END,
    Nat.cast_ofNat, e2, e3, g2, g3]
  cases calculateCRC s 1 3 <;> rfl

theorem checkCRC_short (s : CommandMessage) (h : s.message.length < 3) :
    checkCRC s = some false := by
  unfold checkCRC
  rw [if_pos (by simp only [MESSAGE_OFFSET_CRC_LOW_FROM_END]; exact h)]

/-- A message that starts with the start mark and passes `checkCRC` has four
bytes or more. -/
theorem length_of_checkCRC_true (s : CommandMessage) (hh : s.message.head? = some 0x7E)
    (hr : checkCRC s = some true) : 4 ≤ s.message.length := by
  by_contra hlt
  by_cases h3 : s.message.length < 3
  · rw [checkCRC_short s h3] at hr
    exact absurd hr (by simp)
  · have hl : s.message.length = 3 := by omega
    rw [checkCRC_eq s (by omega), calculateCRC_short s (by omega), hl] at hr
    have h0 : s.message.getD 0 0 = 0x7E := by
      cases hm : s.message with
      | nil => rw [hm] at hh; simp at hh
      | cons a t =>
        rw [hm] at hh
        simp only [List.head?_cons, Option.some.injEq] at hh
        rw [hh]; rfl
    simp only [Option.map, Nat.sub_self, h0, Option.some.injEq, decide_eq_true_eq] at hr
    exact absurd hr.1 (by decide)

theorem setVars_eq (s : CommandMessage) (hr : s.ready = true) (h4 : 4 ≤ s.message.length) :
    setVars s = some { s with
      command_id := s.message.getD 3 0
      module_id := s.message.getD 2 0
      module_function := s.message.getD 1 0 } := by
  unfold setVars
  rw [hr]
  simp only [Bool.not_true, Bool.false_eq_true, if_false, MESSAGE_INDEX_COMMAND,
    MESSAGE_INDEX_MODULE_ID, MESSAGE_INDEX_MODULE_FUNCTION, readByte_natCast,
    getElem?_eq_some_getD s.message 3 (by omega), getElem?_eq_some_getD s.message 2 (by omega),
    getElem?_eq_some_getD s.message 1 (by omega)]

theorem calculateCRC_isSome (s : CommandMessage) (a e : Nat) :
    ∃ c, calculateCRC s a e = some c := by
  unfold calculateCRC
  split
  · exact ⟨0, rfl⟩
  · rename_i hg
    dsimp only
    split
    · exact ⟨0, rfl⟩
    · have hle : (s.message.length - e - a) % 256 ≤ (s.message.drop a).length := by
        rw [List.length_drop]
        have := Nat.mod_le (s.message.length - e - a) 256
        omega
      exact crc_loop_isSome _ _ 0 hle

theorem checkCRC_isSome (s : CommandMessage) : ∃ r, checkCRC s = some r := by
  by_cases h3 : s.message.length < 3
  · exact ⟨false, checkCRC_short s h3⟩
  · obtain ⟨c, hc⟩ := calculateCRC_isSome s 1 3
    rw [checkCRC_eq s (by omega), hc]
    exact ⟨_, rfl⟩

/-- The listening branch of `checkByte` on the end mark when `checkCRC` fails. -/
theorem checkByte_end_false (s : CommandMessage) (h : s.listening = true)
    (hr : checkCRC { s with message := s.message ++ [0x7F], listening := false } = some false) :
    checkByte s 0x7F =
      some (if (s.message ++ [0x7F]).length ≥ s.max_message_size then
          reset_default { s with message := s.message ++ [0x7F], listening := false, ready := false }
        else { s with message := s.message ++ [0x7F], listening := false, ready := false }) := by
  unfold checkByte
  rw [h]
  simp only [if_true, LTEL_END_MARK, hr, Bool.false_eq_true, if_false]
  split <;> rfl

/-- The listening branch of `checkByte` on the end mark when `checkCRC` passes,
for a span that starts with the start mark. -/
theorem checkByte_end_true (s : CommandMessage) (h : s.listening = true)
    (hh : s.message.head? = some 0x7E)
    (hr : checkCRC { s with message := s.message ++ [0x7F], listening := false } = some true) :
    checkByte s 0x7F =
      some (if (s.message ++ [0x7F]).length ≥ s.max_message_size then
          reset_default { s with
            message := s.message ++ [0x7F], listening := false, ready := true
            command_id := (s.message ++ [0x7F]).getD 3 0
            module_id := (s.message ++ [0x7F]).getD 2 0
            module_function := (s.message ++ [0x7F]).getD 1 0 }
        else { s with
          message := s.message ++ [0x7F], listening := false, ready := true
          command_id := (s.message ++ [0x7F]).getD 3 0
          module_id := (s.message ++ [0x7F]).getD 2 0
          module_function := (s.message ++ [0x7F]).getD 1 0 }) := by
  have hh2 : ({ s with message := s.message ++ [0x7F], listening := false } :
      CommandMessage).message.head? = some 0x7E := by
    show (s.message ++ [0x7F]).head? = some 0x7E
    cases hm : s.message with
    | nil => rw [hm] at hh; simp at hh
    | cons a t => rw [hm] at hh; simpa using hh
  have h4 := length_of_checkCRC_true _ hh2 hr
  have hsv := setVars_eq
    { s with message := s.message ++ [0x7F], listening := false, ready := true } rfl h4
  unfold checkByte
  rw [h]
  simp only [if_true, LTEL_END_MARK, hr, hsv]
  split <;> rfl

theorem reset_default_eq (s : CommandMessage) :
    reset_default s = { s with
      module_function := 0, module_id := 0, command_id := 0
      ready := false, listening := false, message := [] } := rfl

theorem head?_append_singleton (m : List Nat) (b a : Nat) (h : m.head? = some a) :
    (m ++ [b]).head? = some a := by
  cases m with
  | nil => simp at h
  | cons x t => simpa using h

/-- One `checkByte` call keeps the accumulator below `max_message_size` and a
listening span headed by the start mark. -/
theorem checkByte_invariant (s : CommandMessage) (b M : Nat) (hM : 2 ≤ M)
    (hmax : s.max_message_size = M) (hlen : s.message.length < M)
    (hhead : s.listening = true → s.message.head? = some 0x7E) :
    ∃ s1, checkByte s b = some s1 ∧ s1.max_message_size = M ∧ s1.message.length < M ∧
      (s1.listening = true → s1.message.head? = some 0x7E) := by
  cases hl : s.listening with
  | false =>
    rw [checkByte_idle s b hl]
    by_cases hb : b = 0x7E
    · rw [if_pos hb]
      refine ⟨_, rfl, hmax, ?_, ?_⟩
      · show [b].length < M
        simp only [List.length_singleton]; omega
      · intro _; show [b].head? = some 0x7E
        rw [hb]; rfl
    · rw [if_neg hb]
      exact ⟨_, rfl, hmax, hlen, fun h => absurd h (by rw [hl]; decide)⟩
  | true =>
    have hh := hhead hl
    have key : ∀ X : CommandMessage, X.max_message_size = M → X.listening = false →
        X.message = s.message ++ [b] →
        ∃ s1, some (if (s.message ++ [b]).length ≥ s.max_message_size then reset_default X
            else X) = some s1 ∧ s1.max_message_size = M ∧ s1.message.length < M ∧
          (s1.listening = true → s1.message.head? = some 0x7E) := by
      intro X hX1 hX2 hX3
      by_cases hge : (s.message ++ [b]).length ≥ s.max_message_size
      · rw [if_pos hge]
        refine ⟨_, rfl, hX1, ?_, ?_⟩
        · show ([] : List Nat).length < M
          simp only [List.length_nil]; omega
        · intro h; exact absurd (show false = true from h) (by decide)
      · rw [if_neg hge]
        refine ⟨_, rfl, hX1, ?_, ?_⟩
        · rw [hX3]; rw [hmax] at hge; omega
        · intro h; rw [hX2] at h; exact absurd h (by decide)
    by_cases hb : b = 0x7F
    · subst hb
      obtain ⟨r, hr⟩ :=
        checkCRC_isSome { s with message := s.message ++ [0x7F], listening := false }
      cases r with
      | false =>
        rw [checkByte_end_false s hl hr]
        exact key _ hmax rfl rfl
      | true =>
        rw [checkByte_end_true s hl hh hr]
        exact key _ hmax rfl rfl
    · rw [checkByte_listening s b hl hb]
      by_cases hge : (s.message ++ [b]).length ≥ s.max_message_size
      · rw [if_pos hge]
        refine ⟨_, rfl, hmax, ?_, ?_⟩
        · show ([] : List Nat).length < M
          simp only [List.length_nil]; omega
        · intro h; exact absurd (show false = true from h) (by decide)
      · rw [if_neg hge]
        refine ⟨_, rfl, hmax, ?_, ?_⟩
        · rw [hmax] at hge; exact Nat.lt_of_not_ge hge
        · intro _; exact head?_append_singleton _ _ _ hh

/-- Every run of `checkByte` calls from a state that meets the invariant ends
in a state that meets it. -/
theorem feed_invariant (M : Nat) (hM : 2 ≤ M) : ∀ (bytes : List Nat) (s : CommandMessage),
    s.max_message_size = M → s.message.length < M →
    (s.listening = true → s.message.head? = some 0x7E) →
    ∃ s1, feed s bytes = some s1 ∧ s1.max_message_size = M ∧ s1.message.length < M ∧
      (s1.listening = true → s1.message.head? = some 0x7E)
  | [], s, h1, h2, h3 => ⟨s, rfl, h1, h2, h3⟩
  | b :: bs, s, h1, h2, h3 => by
    obtain ⟨s1, hs1, g1, g2, g3⟩ := checkByte_invariant s b M hM h1 h2 h3
    rw [feed_cons, hs1]
    exact feed_invariant M hM bs s1 g1 g2 g3

end CommandMessage

/-- C15: the parser state machine of `checkByte`. From idle, a byte other than
0x7E leaves the state unchanged and 0x7E moves to listening with accumulator
`[0x7E]`; while listening to a span opened by 0x7E, 0x7F moves to idle; a span
that reaches `max_message_size` without an end mark is discarded, the parser
idle with an empty accumulator; and for every `max_message_size ≥ 2` and every
byte sequence fed to a freshly constructed parser, every call returns and the
accumulator then holds fewer than `max_message_size` bytes, a listening span
being headed by 0x7E. -/
theorem checkByte_state_machine (s : CommandMessage) (b : Nat) :
    (s.listening = false → b ≠ 0x7E → checkByte s b = some s) ∧
    (s.listening = false →
      checkByte s 0x7E = some { s with message := [0x7E], listening := true }) ∧
    (s.listening = true → s.message.head? = some 0x7E →
      ∃ s1, checkByte s 0x7F = some s1 ∧ s1.listening = false) ∧
    (s.listening = true → b ≠ 0x7F → s.message.length + 1 ≥ s.max_message_size →
      ∃ s1, checkByte s b = some s1 ∧ s1.listening = false ∧ s1.message = []) ∧
    (∀ (mf mid M nbd ds : Nat) (bytes : List Nat), 2 ≤ M →
      ∃ s1, feed (construct mf mid M nbd ds) bytes = some s1 ∧
        s1.max_message_size = M ∧ s1.message.length < M ∧
        (s1.listening = true → s1.message.head? = some 0x7E)) := by
  refine ⟨?_, ?_, ?_, ?_, ?_⟩
  · intro hl hb
    rw [checkByte_idle s b hl, if_neg hb]
  · intro hl
    rw [checkByte_idle s 0x7E hl, if_pos rfl]
  · intro hl hh
    obtain ⟨r, hr⟩ :=
      checkCRC_isSome { s with message := s.message ++ [0x7F], listening := false }
    cases r with
    | false =>
      rw [checkByte_end_false s hl hr]
      refine ⟨_, rfl, ?_⟩
      split <;> rfl
    | true =>
      rw [checkByte_end_true s hl hh hr]
      refine ⟨_, rfl, ?_⟩
      split <;> rfl
  · intro hl hb hge
    rw [checkByte_listening s b hl hb, if_pos (by rw [List.length_append]; exact hge)]
    exact ⟨_, rfl, rfl, rfl⟩
  · intro mf mid M nbd ds bytes hM
    exact feed_invariant M hM bytes (construct mf mid M nbd ds) rfl
      (show ([] : List Nat).length < M by simp only [List.length_nil]; omega)
      (fun h => absurd (show false = true from h) (by decide))

/-- Witness of C15: an idle parser with `max_message_size` 255 ignores 0x00 and
opens a span on 0x7E. -/
theorem checkByte_state_machine_witness :
    checkByte ⟨255, 0, 0, 0, 0, 0, [], false, false⟩ 0x00 =
        some ⟨255, 0, 0, 0, 0, 0, [], false, false⟩ ∧
      checkByte ⟨255, 0, 0, 0, 0, 0, [], false, false⟩ 0x7E =
        some ⟨255, 0, 0, 0, 0, 0, [0x7E], true, false⟩ :=
  ⟨(checkByte_state_machine ⟨255, 0, 0, 0, 0, 0, [], false, false⟩ 0x00).1 rfl (by decide),
    (checkByte_state_machine ⟨255, 0, 0, 0, 0, 0, [], false, false⟩ 0x00).2.1 rfl⟩

namespace CommandMessage

/-- A frame returned by `composeMessage` that is at most 255 bytes long: start
mark, five header bytes, the inserted payload, and the CRC of header and
payload before the end mark. -/
theorem composeMessage_shape (s s1 : CommandMessage) (data : Option (List Nat))
    (h : composeMessage s data = some (true, s1)) (hlen : s1.message.length ≤ 255) :
    ∃ cs ins, s1 = { s with
      message := [0x7E, s.module_function, s.module_id, s.command_id, 0, cs] ++ ins ++
        [(([s.module_function, s.module_id, s.command_id, 0, cs] ++ ins).foldl crc_byte 0)
            &&& 0xFF,
          (([s.module_function, s.module_id, s.command_id, 0, cs] ++ ins).foldl crc_byte 0)
            >>> 8, 0x7F] } := by
  have key : ∀ (cs : Nat) (ins : List Nat),
      (match crc_get ([s.module_function, s.module_id, s.command_id, 0, cs] ++ ins)
          (([s.module_function, s.module_id, s.command_id, 0, cs] ++ ins).length % 256) with
        | none => none
        | some calculated_crc =>
          some (true, { s with
            message :=
              [LTEL_START_MARK, s.module_function, s.module_id, s.command_id, 0, cs] ++ ins ++
                [(calculated_crc &&& 0xFF) % 256, ((calculated_crc >>> 8) &&& 0xFF) % 256,
                  LTEL_END_MARK] })) = some (true, s1) →
      s1 = { s with
        message := [0x7E, s.module_function, s.module_id, s.command_id, 0, cs] ++ ins ++
          [(([s.module_function, s.module_id, s.command_id, 0, cs] ++ ins).foldl crc_byte 0)
              &&& 0xFF,
            (([s.module_function, s.module_id, s.command_id, 0, cs] ++ ins).foldl crc_byte 0)
              >>> 8, 0x7F] } := by
    intro cs ins hk
    obtain ⟨c, hc⟩ := crc_get_truncated_isSome
      ([s.module_function, s.module_id, s.command_id, 0, cs] ++ ins)
    rw [hc] at hk
    simp only [Option.some.injEq, Prod.mk.injEq, true_and] at hk
    have hl : s1.message.length = ins.length + 9 := by
      rw [← hk]
      simp only [List.length_append, List.length_cons, List.length_nil]
      omega
    have hl5 : ([s.module_function, s.module_id, s.command_id, 0, cs] ++ ins).length =
        5 + ins.length := by
      simp only [List.length_append, List.length_cons, List.length_nil, Nat.add_comm]
    have hm : (5 + ins.length) % 256 = 5 + ins.length := Nat.mod_eq_of_lt (by omega)
    rw [hl5, hm, ← hl5, crc_get_eq_foldl] at hc
    have hc2 := Option.some.inj hc
    rw [← hk, ← hc2, crc_trailer _ (foldl_crc_byte_lt _ 0 (by norm_num))]
    rfl
  by_cases hcmd : s.command_id = 0
  · unfold composeMessage at h
    rw [if_pos hcmd] at h
    simp at h
  · unfold composeMessage at h
    rw [if_neg hcmd] at h
    exact ⟨_, _, key _ _ h⟩

/-- While listening, bytes other than the end mark that fit below
`max_message_size` are appended to the accumulator. -/
theorem feed_listening : ∀ (bs : List Nat) (s : CommandMessage), s.listening = true →
    (∀ b ∈ bs, b ≠ 0x7F) → s.message.length + bs.length < s.max_message_size →
    feed s bs = some { s with message := s.message ++ bs }
  | [], s, _, _, _ => by rw [feed_nil, List.append_nil]
  | b :: bs, s, hl, hb, hlen => by
    have hb0 : b ≠ 0x7F := hb b (List.mem_cons_self _ _)
    have hlt : ¬ (s.message ++ [b]).length ≥ s.max_message_size := by
      simp only [List.length_append, List.length_cons, List.length_nil] at hlen ⊢
      omega
    rw [feed_cons, checkByte_listening s b hl hb0, if_neg hlt]
    simp only [Option.bind]
    rw [feed_listening bs { s with message := s.message ++ [b] } hl
      (fun x hx => hb x (List.mem_cons_of_mem _ hx))
      (by
        simp only [List.length_append, List.length_cons, List.length_nil] at hlen ⊢
        omega)]
    simp only [List.append_assoc, List.singleton_append]

/-- The parser-side check `checkCRC` accepts a message laid out as start mark,
body, CRC of the body (low byte first) and end mark. -/
theorem checkCRC_frame (s : CommandMessage) (mf mid cmd n : Nat) (p : List Nat)
    (hp : p.length ≤ 246)
    (hm : s.message = [0x7E, mf, mid, cmd, 0, n] ++ p ++
      [(([mf, mid, cmd, 0, n] ++ p).foldl crc_byte 0) &&& 0xFF,
        (([mf, mid, cmd, 0, n] ++ p).foldl crc_byte 0) >>> 8, 0x7F]) :
    checkCRC s = some true := by
  generalize hcrc : ([mf, mid, cmd, 0, n] ++ p).foldl crc_byte 0 = crc at hm
  have hcrclt : crc < 65536 := by
    rw [← hcrc]; exact foldl_crc_byte_lt _ 0 (by norm_num)
  have hl : s.message.length = p.length + 9 := by rw [hm, frame_length]
  have e2 : p.length + 9 - 2 = p.length + 7 := by omega
  have e3 : p.length + 9 - 3 = p.length + 6 := by omega
  have e4 : (p.length + 9 - 4) % 256 = p.length + 5 := by omega
  rw [checkCRC_eq s (by omega), calculateCRC_eq s (by omega), hl, e2, e3, e4, hm,
    frame_crc_high, frame_crc_low, frame_body, hcrc, and_0xFF, shiftRight_8]
  have h1 : crc / 256 % 256 = crc / 256 := Nat.mod_eq_of_lt (by omega)
  simp only [Option.map, h1, and_self, decide_True]

end CommandMessage

namespace CommandMessage

/-- Feeding start mark, bytes free of the end mark, and the end mark to an idle
parser with room for them: not ready on the way, and ready at the end when
`checkCRC` accepts what was accumulated. -/
theorem feed_frame (P : CommandMessage) (mids : List Nat) (hidle : P.listening = false)
    (hready : P.ready = false) (hno : ∀ b ∈ mids, b ≠ 0x7F)
    (hlen : mids.length + 2 < P.max_message_size) :
    (∀ k, k < mids.length + 2 →
      ∃ p, feed P ((0x7E :: (mids ++ [0x7F])).take k) = some p ∧ p.ready = false) ∧
    (checkCRC { P with message := 0x7E :: (mids ++ [0x7F]), listening := false } = some true →
      feed P (0x7E :: (mids ++ [0x7F])) = some { P with
        message := 0x7E :: (mids ++ [0x7F]), listening := false, ready := true
        command_id := (0x7E :: (mids ++ [0x7F])).getD 3 0
        module_id := (0x7E :: (mids ++ [0x7F])).getD 2 0
        module_function := (0x7E :: (mids ++ [0x7F])).getD 1 0 }) := by
  have h1 : checkByte P 0x7E = some { P with message := [0x7E], listening := true } := by
    rw [checkByte_idle P 0x7E hidle, if_pos rfl]
  have hmid : ∀ bs : List Nat, (∀ b ∈ bs, b ≠ 0x7F) → bs.length ≤ mids.length →
      feed P (0x7E :: bs) = some { P with message := 0x7E :: bs, listening := true } := by
    intro bs hbs hle
    rw [feed_cons, h1]
    simp only [Option.bind]
    rw [feed_listening bs _ rfl hbs (by
      show [0x7E].length + bs.length < P.max_message_size
      simp only [List.length_singleton]; omega)]
    rfl
  constructor
  · intro k hk
    cases k with
    | zero => exact ⟨P, rfl, hready⟩
    | succ j =>
      have hj : j ≤ mids.length := by omega
      rw [List.take_succ_cons, List.take_append_of_le_length hj,
        hmid (mids.take j) (fun b hb => hno b (List.mem_of_mem_take hb))
          (by rw [List.length_take]; omega)]
      exact ⟨_, rfl, hready⟩
  · intro hcrc
    have e : 0x7E :: (mids ++ [0x7F]) = (0x7E :: mids) ++ [0x7F] := rfl
    rw [e, feed_append, hmid mids hno (Nat.le_refl _)]
    simp only [Option.bind]
    have hlt : ¬ ((0x7E :: mids) ++ [0x7F]).length ≥ P.max_message_size := by
      simp only [List.length_append, List.length_cons, List.length_nil]
      omega
    have hend := checkByte_end_true
      { P with message := 0x7E :: mids, listening := true } rfl rfl hcrc
    rw [if_neg hlt] at hend
    rw [feed_cons, hend]
    rfl

end CommandMessage

/-- C14: for every frame `F` returned by `composeMessage` with
`len(F) < max_message_size` (a `uint8_t`, so at most 255) whose bytes
`F[1 .. len-2]` contain no 0x7F, feeding `F` one byte at a time through
`checkByte` into a freshly constructed parser gives `isReady() = false` after
every proper prefix, and after the last byte `isReady() = true` and
`isListening() = false`, the accumulator holding `F` and the cached command
being the frame's. -/
theorem feed_composed_frame (s s1 : CommandMessage) (data : Option (List Nat))
    (mf mid M nbd ds : Nat)
    (hc : composeMessage s data = some (true, s1))
    (hM : M ≤ 255) (hlen : s1.message.length < M)
    (hno : ∀ b ∈ (s1.message.drop 1).dropLast, b ≠ 0x7F) :
    (∀ k, k < s1.message.length →
      ∃ p, feed (construct mf mid M nbd ds) (s1.message.take k) = some p ∧
        isReady p = false) ∧
    (∃ p, feed (construct mf mid M nbd ds) s1.message = some p ∧
      isReady p = true ∧ isListening p = false ∧ p.message = s1.message ∧
      getCommandId p = s.command_id) := by
  obtain ⟨cs, ins, hs1⟩ := composeMessage_shape s s1 data hc (by omega)
  generalize hcrc : ([s.module_function, s.module_id, s.command_id, 0, cs] ++ ins).foldl
    crc_byte 0 = crc at hs1
  have hF : s1.message = 0x7E ::
      (([s.module_function, s.module_id, s.command_id, 0, cs] ++ ins ++
        [crc &&& 0xFF, crc >>> 8]) ++ [0x7F]) := by
    rw [hs1]
    simp only [List.cons_append, List.nil_append, List.append_assoc]
  have hmids : (s1.message.drop 1).dropLast =
      [s.module_function, s.module_id, s.command_id, 0, cs] ++ ins ++
        [crc &&& 0xFF, crc >>> 8] := by
    rw [hF, List.drop_succ_cons, List.drop_zero, List.dropLast_concat]
  have hl : s1.message.length =
      ([s.module_function, s.module_id, s.command_id, 0, cs] ++ ins ++
        [crc &&& 0xFF, crc >>> 8]).length + 2 := by
    rw [hF]
    simp only [List.length_append, List.length_cons, List.length_nil]
  rw [hmids] at hno
  have hins : ins.length ≤ 246 := by
    rw [hl] at hlen
    simp only [List.length_append, List.length_cons, List.length_nil] at hlen
    omega
  obtain ⟨hpre, hfin⟩ := feed_frame (construct mf mid M nbd ds) _ rfl rfl hno
    (by rw [← hl]; exact hlen)
  have hchk := checkCRC_frame
    { construct mf mid M nbd ds with message := s1.message, listening := false }
    s.module_function s.module_id s.command_id cs ins hins (by rw [hs1, hcrc])
  rw [hF] at hchk
  rw [hl, hF]
  exact ⟨hpre, _, hfin hchk, rfl, rfl, rfl, rfl⟩

set_option maxRecDepth 10000 in
/-- Witness of C14: the frame `7E 00 00 21 00 00 F6 B1 7F` fed to a parser
constructed with identity (0, 0) and `max_size` 255. -/
theorem feed_composed_frame_witness :
    composeMessage ⟨255, 0, 0, 0x21, 0, 0, [], false, false⟩ (some []) =
        some (true, ⟨255, 0, 0, 0x21, 0, 0,
          [0x7E, 0x00, 0x00, 0x21, 0x00, 0x00, 0xF6, 0xB1, 0x7F], false, false⟩) ∧
      255 ≤ 255 ∧
      [0x7E, 0x00, 0x00, 0x21, 0x00, 0x00, 0xF6, 0xB1, 0x7F].length < 255 ∧
      (∀ b ∈ ([0x7E, 0x00, 0x00, 0x21, 0x00, 0x00, 0xF6, 0xB1, 0x7F].drop 1).dropLast,
        b ≠ 0x7F) ∧
      feed (construct 0 0 255 0 0) [0x7E, 0x00, 0x00, 0x21, 0x00, 0x00, 0xF6, 0xB1] =
        some ⟨255, 0, 0, 0, 0, 0, [0x7E, 0x00, 0x00, 0x21, 0x00, 0x00, 0xF6, 0xB1],
          true, false⟩ ∧
      feed (construct 0 0 255 0 0) [0x7E, 0x00, 0x00, 0x21, 0x00, 0x00, 0xF6, 0xB1, 0x7F] =
        some ⟨255, 0, 0, 0x21, 0, 0, [0x7E, 0x00, 0x00, 0x21, 0x00, 0x00, 0xF6, 0xB1, 0x7F],
          false, true⟩ ∧
      ∃ p, feed (construct 0 0 255 0 0)
            [0x7E, 0x00, 0x00, 0x21, 0x00, 0x00, 0xF6, 0xB1, 0x7F] = some p ∧
        isReady p = true ∧ isListening p = false ∧
        p.message = [0x7E, 0x00, 0x00, 0x21, 0x00, 0x00, 0xF6, 0xB1, 0x7F] ∧
        getCommandId p = 0x21 :=
  ⟨by decide, by decide, by decide, by decide, by decide, by decide,
    (feed_composed_frame ⟨255, 0, 0, 0x21, 0, 0, [], false, false⟩
      ⟨255, 0, 0, 0x21, 0, 0, [0x7E, 0x00, 0x00, 0x21, 0x00, 0x00, 0xF6, 0xB1, 0x7F],
        false, false⟩ (some []) 0 0 255 0 0 (by decide) (by decide) (by decide)
      (by decide)).2⟩

/-! ## Typed accessors and reset -/

namespace CommandMessage

theorem saveFrame_length (s s1 : CommandMessage) (buffer : List Nat) (length : Nat)
    (h : saveFrame s buffer length = some s1) : 6 ≤ buffer.length := by
  by_contra hlt
  have h5 : buffer[5]? = none := List.getElem?_eq_none (by omega)
  have hr : readByte buffer INDEX.DATA_LENGHT2 = none := by
    simp only [INDEX.DATA_LENGHT2, readByte_natCast, h5]
  unfold saveFrame at h
  rw [hr] at h
  revert h
  cases readByte buffer INDEX.CMD <;> cases readByte buffer INDEX.MODULE_ID <;>
    cases readByte buffer INDEX.MODULE_TYPE <;> cases readByte buffer INDEX.DATA_LENGHT1 <;>
    intro h <;> exact absurd h (by simp)

/-- What `saveFrame` leaves in `data_size` and `message`: the decoded length and
the payload bytes when the length is positive, the previous values when it is 0. -/
theorem saveFrame_payload (s s1 : CommandMessage) (buffer : List Nat) (length : Nat)
    (h : saveFrame s buffer length = some s1) :
    (0 < (buffer.getD 4 0 + buffer.getD 5 0) % 256 →
      (buffer.getD 4 0 + buffer.getD 5 0) % 256 ≤ (buffer.drop 6).length ∧
      s1.data_size = (buffer.getD 4 0 + buffer.getD 5 0) % 256 ∧
      s1.message = (buffer.drop 6).take ((buffer.getD 4 0 + buffer.getD 5 0) % 256)) ∧
    ((buffer.getD 4 0 + buffer.getD 5 0) % 256 = 0 →
      s1.data_size = s.data_size ∧ s1.message = s.message) := by
  have h6 := saveFrame_length s s1 buffer length h
  rw [saveFrame_eq s buffer length h6] at h
  generalize (buffer.getD 4 0 + buffer.getD 5 0) % 256 = L at h
  constructor
  · intro hL
    have hn : L ≤ (buffer.drop 6).length := by
      by_contra hn
      have h1 : ¬ L ≤ 0 := by omega
      simp only [storeData, h1, if_false, readBytes, hn] at h
      exact absurd h (by simp)
    rw [storeData_eq _ L _ hL hn] at h
    have e := Option.some.inj h
    subst e
    exact ⟨hn, rfl, rfl⟩
  · intro hL
    rw [hL, storeData_zero] at h
    have e := Option.some.inj h
    subst e
    exact ⟨rfl, rfl⟩

theorem take_one_drop (buffer : List Nat) (k : Nat) (h : 1 ≤ (buffer.drop k).length) :
    (buffer.drop k).take 1 = [buffer.getD k 0] := by
  rw [List.length_drop] at h
  have hk : k < buffer.length := by omega
  rw [List.getD_eq_getElem _ 0 hk, List.drop_eq_getElem_cons hk]
  rfl

theorem take_two_drop (buffer : List Nat) (k : Nat) (h : 2 ≤ (buffer.drop k).length) :
    (buffer.drop k).take 2 = [buffer.getD k 0, buffer.getD (k + 1) 0] := by
  rw [List.length_drop] at h
  have hk : k < buffer.length := by omega
  have hk1 : k + 1 < buffer.length := by omega
  rw [List.getD_eq_getElem _ 0 hk, List.getD_eq_getElem _ 0 hk1,
    List.drop_eq_getElem_cons hk, List.drop_eq_getElem_cons hk1]
  rfl

theorem take_four_drop (buffer : List Nat) (k : Nat) (h : 4 ≤ (buffer.drop k).length) :
    (buffer.drop k).take 4 =
      [buffer.getD k 0, buffer.getD (k + 1) 0, buffer.getD (k + 2) 0,
        buffer.getD (k + 3) 0] := by
  rw [List.length_drop] at h
  have hk : k < buffer.length := by omega
  have hk1 : k + 1 < buffer.length := by omega
  have hk2 : k + 1 + 1 < buffer.length := by omega
  have hk3 : k + 1 + 1 + 1 < buffer.length := by omega
  rw [List.getD_eq_getElem _ 0 hk, List.getD_eq_getElem _ 0 hk1,
    List.getD_eq_getElem _ 0 (show k + 2 < buffer.length from hk2),
    List.getD_eq_getElem _ 0 (show k + 3 < buffer.length from hk3),
    List.drop_eq_getElem_cons hk, List.drop_eq_getElem_cons hk1,
    List.drop_eq_getElem_cons hk2, List.drop_eq_getElem_cons hk3]
  rfl

/-- The typed accessors on an instance whose `data_size` is the length of the
stored payload. -/
theorem accessors_of_payload (s1 : CommandMessage) (buffer : List Nat) (L : Nat)
    (hn : L ≤ (buffer.drop 6).length) (hd : s1.data_size = L)
    (hm : s1.message = (buffer.drop 6).take L) :
    getDataAsUint8 s1 = some (if L = 1 then buffer.getD 6 0 else 0) ∧
    getDataAsUint16 s1 =
      some (if L = 2 then buffer.getD 6 0 + 256 * buffer.getD 7 0 else 0) ∧
    getDataAsUint32 s1 =
      some (if L = 4 then buffer.getD 6 0 + 256 * buffer.getD 7 0 +
        65536 * buffer.getD 8 0 + 16777216 * buffer.getD 9 0 else 0) := by
  refine ⟨?_, ?_, ?_⟩
  · unfold getDataAsUint8
    rw [hd, hm]
    by_cases h : L = 1
    · subst h
      rw [if_neg (by simp), if_pos rfl, take_one_drop buffer 6 hn]
      rfl
    · rw [if_pos h, if_neg h]
  · unfold getDataAsUint16
    rw [hd, hm]
    by_cases h : L = 2
    · subst h
      rw [if_neg (by simp), if_pos rfl, take_two_drop buffer 6 hn]
      rfl
    · rw [if_pos h, if_neg h]
  · unfold getDataAsUint32
    rw [hd, hm]
    by_cases h : L = 4
    · subst h
      rw [if_neg (by simp), if_pos rfl, take_four_drop buffer 6 hn]
      rfl
    · rw [if_pos h, if_neg h]

end CommandMessage

set_option maxRecDepth 10000 in
/-- C12: after `validate` returns CONFIG_FRAME for a buffer whose decoded payload
length `L = (buffer[4] + buffer[5]) mod 256` is at least 1, `data_size = L`, the
stored payload is `buffer[6 .. 6 + L)`, and the accessors return `payload[0]`
when `L = 1`, the little-endian 16-bit / 32-bit value when `L = 2` / `L = 4`,
and 0 otherwise, all reads inside the stored payload. For `L = 0` the call
leaves `data_size` and the stored payload as they were, so the accessors answer
from the previous state: identity (0, 0) that validated the frame
`7E 00 00 B4 00 01 07 F6 78 7F` and then the empty-payload frame
`7E 00 00 22 00 00 A6 E8 7F` has `getDataAsUint8() = 7`, not the sentinel 0; and
with `reset(true)` between the two frames `data_size` is still 1 while the
vector is empty, so `getDataAsUint8()` reads `message[0]` of an empty vector
(`none` in the model). -/
theorem typed_accessors_after_validate (s s1 : CommandMessage) (buffer : List Nat)
    (length : Nat) (h : validate s buffer length = some (STATUS.CONFIG_FRAME, s1)) :
    (0 < (buffer.getD 4 0 + buffer.getD 5 0) % 256 →
      s1.data_size = (buffer.getD 4 0 + buffer.getD 5 0) % 256 ∧
      s1.message = (buffer.drop 6).take ((buffer.getD 4 0 + buffer.getD 5 0) % 256) ∧
      s1.message.length = (buffer.getD 4 0 + buffer.getD 5 0) % 256 ∧
      getDataAsUint8 s1 =
        some (if (buffer.getD 4 0 + buffer.getD 5 0) % 256 = 1 then buffer.getD 6 0 else 0) ∧
      getDataAsUint16 s1 =
        some (if (buffer.getD 4 0 + buffer.getD 5 0) % 256 = 2 then
          buffer.getD 6 0 + 256 * buffer.getD 7 0 else 0) ∧
      getDataAsUint32 s1 =
        some (if (buffer.getD 4 0 + buffer.getD 5 0) % 256 = 4 then
          buffer.getD 6 0 + 256 * buffer.getD 7 0 + 65536 * buffer.getD 8 0 +
            16777216 * buffer.getD 9 0 else 0)) ∧
    ((buffer.getD 4 0 + buffer.getD 5 0) % 256 = 0 →
      s1.data_size = s.data_size ∧ s1.message = s.message) ∧
    (∃ a b c : CommandMessage,
      validate (construct 0 0 255 0 0) [0x7E, 0x00, 0x00, 0xB4, 0x00, 0x01, 0x07, 0xF6, 0x78, 0x7F]
          10 = some (STATUS.CONFIG_FRAME, a) ∧
        getDataAsUint8 a = some 7 ∧
      validate a [0x7E, 0x00, 0x00, 0x22, 0x00, 0x00, 0xA6, 0xE8, 0x7F] 9 =
          some (STATUS.CONFIG_FRAME, b) ∧
        getDataAsUint8 b = some 7 ∧
      validate (reset a true) [0x7E, 0x00, 0x00, 0x22, 0x00, 0x00, 0xA6, 0xE8, 0x7F] 9 =
          some (STATUS.CONFIG_FRAME, c) ∧
        c.data_size = 1 ∧ c.message = [] ∧ getDataAsUint8 c = none) := by
  obtain ⟨_, _, _, hs⟩ := validate_config_inv s s1 buffer length h
  obtain ⟨hpos, hzero⟩ := saveFrame_payload s s1 buffer length hs
  refine ⟨?_, hzero, ?_⟩
  · intro hL
    obtain ⟨hn, hd, hm⟩ := hpos hL
    obtain ⟨h8, h16, h32⟩ := accessors_of_payload s1 buffer _ hn hd hm
    refine ⟨hd, hm, ?_, h8, h16, h32⟩
    rw [hm, List.length_take]
    omega
  · exact ⟨⟨255, 0, 0, 0xB4, 1, 1, [7], false, false⟩,
      ⟨255, 0, 0, 0x22, 0, 1, [7], false, false⟩,
      ⟨255, 0, 0, 0x22, 0, 1, [], false, false⟩,
      by decide, by decide, by decide, by decide, by decide, by decide, by decide, by decide⟩

set_option maxRecDepth 10000 in
/-- Witness of C12: identity (0, 0) validates the SET_RX_FREQ frame
`7E 00 00 B1 00 04 00 80 2D 43 54 F0 7F`, whose payload is the four bytes
`00 80 2D 43`. -/
theorem typed_accessors_after_validate_witness :
    validate (construct 0 0 255 0 0)
        [0x7E, 0x00, 0x00, 0xB1, 0x00, 0x04, 0x00, 0x80, 0x2D, 0x43, 0x54, 0xF0, 0x7F] 13 =
      some (STATUS.CONFIG_FRAME, ⟨255, 0, 0, 0xB1, 4, 4, [0x00, 0x80, 0x2D, 0x43], false, false⟩) ∧
    getDataAsUint32 ⟨255, 0, 0, 0xB1, 4, 4, [0x00, 0x80, 0x2D, 0x43], false, false⟩ =
      some 0x432D8000 ∧
    getDataAsUint8 ⟨255, 0, 0, 0xB1, 4, 4, [0x00, 0x80, 0x2D, 0x43], false, false⟩ = some 0 ∧
    (⟨255, 0, 0, 0xB1, 4, 4, [0x00, 0x80, 0x2D, 0x43], false, false⟩ :
      CommandMessage).message.length = 4 :=
  ⟨by decide, by decide, by decide,
    ((typed_accessors_after_validate (construct 0 0 255 0 0)
      ⟨255, 0, 0, 0xB1, 4, 4, [0x00, 0x80, 0x2D, 0x43], false, false⟩
      [0x7E, 0x00, 0x00, 0xB1, 0x00, 0x04, 0x00, 0x80, 0x2D, 0x43, 0x54, 0xF0, 0x7F] 13
      (by decide)).1 (by decide)).2.2.1⟩

/-- C13: the call `reset()` sets `command_id` to 0 and empties `message`, the
vector that is both the cached payload and the byte accumulator; it also
clears the `listening` and `ready` flags and zeroes `module_function` and
`module_id`. It keeps `max_message_size`, `num_byte_data` and `data_size`. -/
theorem reset_default_effect (s : CommandMessage) :
    reset_default s =
      { s with
        module_function := 0, module_id := 0, command_id := 0
        ready := false, listening := false, message := [] } ∧
    getCommandId (reset_default s) = 0 ∧
    (reset_default s).message = [] ∧
    isListening (reset_default s) = false ∧
    isReady (reset_default s) = false ∧
    (reset_default s).max_message_size = s.max_message_size ∧
    (reset_default s).num_byte_data = s.num_byte_data ∧
    (reset_default s).data_size = s.data_size :=
  ⟨rfl, rfl, rfl, rfl, rfl, rfl, rfl, rfl⟩

/-- Counterexample to C13 as stated: a parser that is listening with the
accumulator `7E 00` is idle with an empty accumulator after `reset()`. -/
theorem reset_default_counterexample :
    isListening ⟨255, 0, 0, 0, 0, 0, [0x7E, 0x00], true, false⟩ = true ∧
    isListening (reset_default ⟨255, 0, 0, 0, 0, 0, [0x7E, 0x00], true, false⟩) = false ∧
    (reset_default ⟨255, 0, 0, 0, 0, 0, [0x7E, 0x00], true, false⟩).message ≠
      (⟨255, 0, 0, 0, 0, 0, [0x7E, 0x00], true, false⟩ : CommandMessage).message := by
  decide

/-- Witness of C13: `reset()` on identity (1, 2) holding command 0xB4 and the
payload `[7]`. -/
theorem reset_default_effect_witness :
    reset_default ⟨255, 1, 2, 0xB4, 1, 1, [7], false, true⟩ =
      ⟨255, 0, 0, 0, 1, 1, [], false, false⟩ :=
  (reset_default_effect ⟨255, 1, 2, 0xB4, 1, 1, [7], false, true⟩).1

/-! ## Serial byte handler -/

namespace UartHandler

theorem take_set_succ (l : List Nat) (k b : Nat) (hk : k < l.length) :
    (l.set k b).take (k + 1) = l.take k ++ [b] := by
  have e : l.take k ++ b :: l.drop (k + 1) = (l.take k ++ [b]) ++ l.drop (k + 1) := by
    rw [List.append_assoc]; rfl
  rw [List.set_eq_take_append_cons_drop, if_pos hk, e]
  exact List.take_left' (by
    rw [List.length_append, List.length_take, List.length_singleton]; omega)

theorem holds_construct : holds construct [] := by
  refine ⟨?_, rfl, by decide, rfl, fun h => absurd rfl h⟩
  simp only [construct, List.length_replicate]

theorem holds_cleared :
    holds { buffer := List.replicate sizeof_buffer 0, rx_index := 0 } [] := holds_construct

/-- A byte that arrives when the buffer is full: everything is dropped. -/
theorem process_received_byte_full (u : UartHandler) (span : List Nat) (b : Nat)
    (out : List Nat) (h : holds u span) (hfull : ¬ span.length < 255) :
    process_received_byte u b out =
      some (0, { buffer := List.replicate sizeof_buffer 0, rx_index := 0 }, out) := by
  obtain ⟨_, hi, _, _, _⟩ := h
  unfold process_received_byte
  rw [if_neg (by rw [hi]; exact hfull)]

/-- A byte other than 0x7E that arrives when no span is open: it is ignored. -/
theorem process_received_byte_ignored (u : UartHandler) (b : Nat) (out : List Nat)
    (h : holds u []) (hb : b ≠ 0x7E) :
    process_received_byte u b out = some (0, { u with buffer := u.buffer.set 0 b }, out) := by
  obtain ⟨hl, hi, _, _, _⟩ := h
  have hi0 : u.rx_index = 0 := hi
  unfold process_received_byte
  rw [if_pos (by rw [hi0]; decide)]
  simp only [writeByte, hi0, hl, Nat.lt_irrefl, if_true, true_and, hb, ne_eq, not_false_eq_true,
    show (0 : Nat) < 255 from by decide]

/-- A byte that joins the span without closing it. -/
theorem process_received_byte_joins (u : UartHandler) (span : List Nat) (b : Nat)
    (out : List Nat) (h : holds u span) (hlt : span.length < 255)
    (hopen : ¬ (span = [] ∧ b ≠ 0x7E)) (hend : ¬ (b = 0x7F ∧ span ≠ [])) :
    process_received_byte u b out =
      some (0, { buffer := u.buffer.set span.length b, rx_index := span.length + 1 }, out) := by
  obtain ⟨hl, hi, _, _, _⟩ := h
  have h0 : ¬ (span.length = 0 ∧ b ≠ 0x7E) := fun hh =>
    hopen ⟨List.length_eq_zero.mp hh.1, hh.2⟩
  have h1 : ¬ (b = 0x7F ∧ (span.length + 1) % 256 > 1) := fun hh =>
    hend ⟨hh.1, fun e => by rw [e] at hh; exact absurd hh.2 (by decide)⟩
  have hm : (span.length + 1) % 256 = span.length + 1 := Nat.mod_eq_of_lt (by omega)
  unfold process_received_byte
  rw [if_pos (by rw [hi]; exact hlt)]
  simp only [writeByte, hi, hl, hlt, if_true]
  rw [if_neg h0, if_neg h1, hm]

/-- An 0x7F that closes the open span: the span and the 0x7F are delivered. -/
theorem process_received_byte_delivers (u : UartHandler) (span : List Nat)
    (out : List Nat) (h : holds u span) (hlt : span.length < 255) (hne : span ≠ [])
    (hout : 255 ≤ out.length) :
    process_received_byte u 0x7F out =
      some (span.length + 1, { buffer := List.replicate sizeof_buffer 0, rx_index := 0 },
        (span ++ [0x7F]) ++ out.drop (span.length + 1)) := by
  obtain ⟨hl, hi, _, ht, hh⟩ := h
  have hpos : 0 < span.length := List.length_pos.mpr hne
  have h0 : ¬ (span.length = 0 ∧ (0x7F : Nat) ≠ 0x7E) := fun hh => by omega
  have hm : (span.length + 1) % 256 = span.length + 1 := Nat.mod_eq_of_lt (by omega)
  have h1 : (0x7F : Nat) = 0x7F ∧ (span.length + 1) % 256 > 1 := ⟨rfl, by omega⟩
  have hfirst : (u.buffer.set span.length 0x7F)[0]? = some 0x7E := by
    rw [List.getElem?_set_ne (by omega), ← List.head?_eq_getElem?]
    have := hh hne
    rw [← ht, List.head?_take, if_neg (by omega)] at this
    exact this
  have hcpy : memcpy out (u.buffer.set span.length 0x7F) (span.length + 1) =
      some ((span ++ [0x7F]) ++ out.drop (span.length + 1)) := by
    unfold memcpy
    rw [if_pos ⟨by rw [List.length_set]; omega, by omega⟩,
      take_set_succ u.buffer span.length 0x7F (by omega), ht]
  unfold process_received_byte
  rw [if_pos (by rw [hi]; exact hlt)]
  simp only [writeByte, hi, hl, hlt, if_true]
  have hgt : span.length + 1 > 1 := by omega
  simp only [hm, hgt, and_self, if_true, readByte_zero, hfirst, hcpy]
  rw [if_neg h0]

theorem holds_joined (u : UartHandler) (span : List Nat) (b : Nat) (h : holds u span)
    (hlt : span.length < 255) (hopen : ¬ (span = [] ∧ b ≠ 0x7E)) :
    holds { buffer := u.buffer.set span.length b, rx_index := span.length + 1 }
      (span ++ [b]) := by
  obtain ⟨hl, _, _, ht, hh⟩ := h
  have hlen : (span ++ [b]).length = span.length + 1 := by
    simp only [List.length_append, List.length_singleton]
  refine ⟨by rw [List.length_set]; exact hl, hlen.symm, by omega, ?_, fun _ => ?_⟩
  · show (u.buffer.set span.length b).take (span ++ [b]).length = span ++ [b]
    rw [hlen, take_set_succ u.buffer span.length b (by omega), ht]
  · by_cases hs : span = []
    · have hb : b = 0x7E := by
        by_contra hb
        exact hopen ⟨hs, hb⟩
      rw [hs, hb]
      rfl
    · rw [List.head?_append, hh hs]
      rfl

theorem holds_ignored (u : UartHandler) (b : Nat) (h : holds u []) :
    holds { u with buffer := u.buffer.set 0 b } [] := by
  obtain ⟨hl, hi, _, _, _⟩ := h
  exact ⟨by rw [List.length_set]; exact hl, hi, by decide, rfl, fun hh => absurd rfl hh⟩

end UartHandler

/-- C16: on a handler that holds the open span `span` (the bytes received since
the opening 0x7E; empty when no span is open), with an output array of at least
255 bytes, `process_received_byte` returns, and the returned length is non-zero
exactly when the byte is 0x7F and an open span of fewer than 255 bytes is held.
The length is then `len(span) + 1`, the first `n` bytes of the output are the
span followed by the 0x7F (first byte 0x7E, last byte 0x7F), the rest of the
output is untouched and `rx_index` is 0. On every other call 0 is returned and
the output array is unchanged; this includes any byte, 0x7F too, that arrives
when the span fills all 255 buffer bytes: that call sets all 255 buffer bytes
and `rx_index` to 0. The handler afterwards holds the span given by
`span_step`, and a constructed handler holds the empty span. -/
theorem process_received_byte_frames (u : UartHandler) (span : List Nat) (b : Nat)
    (out : List Nat) (h : UartHandler.holds u span) (hout : 255 ≤ out.length) :
    ∃ n u1 out1, UartHandler.process_received_byte u b out = some (n, u1, out1) ∧
      UartHandler.holds u1 (span_step span b).2 ∧
      (n ≠ 0 →
        b = 0x7F ∧ span ≠ [] ∧ (span_step span b).1 = some (span ++ [b]) ∧
        n = (span ++ [b]).length ∧ out1.take n = span ++ [b] ∧
        out1.drop n = out.drop n ∧ out1.length = out.length ∧
        (span ++ [b]).head? = some 0x7E ∧ (span ++ [b]).getLast? = some 0x7F ∧
        u1.rx_index = 0) ∧
      (n = 0 → out1 = out ∧ (span_step span b).1 = none) ∧
      (n ≠ 0 ↔ b = 0x7F ∧ span ≠ [] ∧ span.length < 255) ∧
      (255 ≤ span.length → n = 0 ∧ out1 = out ∧
        u1 = { buffer := List.replicate 255 0, rx_index := 0 }) ∧
      UartHandler.holds UartHandler.construct [] := by
  by_cases hlt : span.length < 255
  · by_cases hopen : span = [] ∧ b ≠ 0x7E
    · obtain ⟨hs, hb⟩ := hopen
      subst hs
      refine ⟨0, _, out, UartHandler.process_received_byte_ignored u b out h hb, ?_,
        fun hn => absurd rfl hn, fun _ => ⟨rfl, ?_⟩,
        ⟨fun hn => absurd rfl hn, fun hh => absurd rfl hh.2.1⟩,
        fun hfull => absurd hlt (Nat.not_lt.mpr hfull), UartHandler.holds_construct⟩
      · simp only [span_step, List.length_nil, hb, ne_eq, not_false_eq_true, and_self, if_true,
          show (0 : Nat) < 255 from by decide]
        exact UartHandler.holds_ignored u b h
      · simp only [span_step, List.length_nil, hb, ne_eq, not_false_eq_true, and_self, if_true,
          show (0 : Nat) < 255 from by decide]
    · by_cases hend : b = 0x7F ∧ span ≠ []
      · obtain ⟨hb, hne⟩ := hend
        subst hb
        have hstep : span_step span 0x7F = (some (span ++ [0x7F]), []) := by
          unfold span_step
          rw [if_pos hlt, if_neg hopen, if_pos ⟨rfl, hne⟩]
        have hlen : (span ++ [0x7F]).length = span.length + 1 := by
          simp only [List.length_append, List.length_singleton]
        have hhead : (span ++ [0x7F]).head? = some 0x7E := by
          rw [List.head?_append, h.2.2.2.2 hne]
          rfl
        refine ⟨span.length + 1, _, _,
          UartHandler.process_received_byte_delivers u span out h hlt hne hout, ?_,
          fun _ => ⟨rfl, hne, ?_, hlen.symm, ?_, ?_, ?_, hhead,
            List.getLast?_concat span, rfl⟩,
          fun hn => absurd hn (Nat.succ_ne_zero _),
          ⟨fun _ => ⟨rfl, hne, hlt⟩, fun _ => Nat.succ_ne_zero _⟩,
          fun hfull => absurd hlt (Nat.not_lt.mpr hfull), UartHandler.holds_construct⟩
        · rw [hstep]
          exact UartHandler.holds_cleared
        · rw [hstep]
        · exact List.take_left' hlen
        · rw [List.drop_left' hlen]
        · rw [List.length_append, List.length_drop, hlen]
          omega
      · have hstep : span_step span b = (none, span ++ [b]) := by
          unfold span_step
          rw [if_pos hlt, if_neg hopen, if_neg hend]
        refine ⟨0, _, out,
          UartHandler.process_received_byte_joins u span b out h hlt hopen hend, ?_,
          fun hn => absurd rfl hn, fun _ => ⟨rfl, ?_⟩,
          ⟨fun hn => absurd rfl hn, fun hh => absurd ⟨hh.1, hh.2.1⟩ hend⟩,
          fun hfull => absurd hlt (Nat.not_lt.mpr hfull), UartHandler.holds_construct⟩
        · rw [hstep]
          exact UartHandler.holds_joined u span b h hlt hopen
        · rw [hstep]
  · have hstep : span_step span b = (none, []) := by
      unfold span_step
      rw [if_neg hlt]
    refine ⟨0, _, out, UartHandler.process_received_byte_full u span b out h hlt, ?_,
      fun hn => absurd rfl hn, fun _ => ⟨rfl, ?_⟩,
      ⟨fun hn => absurd rfl hn, fun hh => absurd hh.2.2 hlt⟩,
      fun _ => ⟨rfl, rfl, rfl⟩, UartHandler.holds_construct⟩
    · rw [hstep]
      exact UartHandler.holds_cleared
    · rw [hstep]

set_option maxRecDepth 100000 in
/-- Witness of C16: a constructed handler that has received `7E 00` receives
0x7F and delivers the three bytes `7E 00 7F`. -/
theorem process_received_byte_frames_witness :
    UartHandler.holds ⟨[0x7E, 0x00] ++ List.replicate 253 0, 2⟩ [0x7E, 0x00] ∧
    255 ≤ (List.replicate 255 0xEE).length ∧
    UartHandler.process_received_byte ⟨[0x7E, 0x00] ++ List.replicate 253 0, 2⟩ 0x7F
        (List.replicate 255 0xEE) =
      some (3, ⟨List.replicate 255 0, 0⟩, [0x7E, 0x00, 0x7F] ++ List.replicate 252 0xEE) ∧
    ∃ n u1 out1,
      UartHandler.process_received_byte ⟨[0x7E, 0x00] ++ List.replicate 253 0, 2⟩ 0x7F
          (List.replicate 255 0xEE) = some (n, u1, out1) ∧
        (n ≠ 0 ↔ 0x7F = 0x7F ∧ [0x7E, 0x00] ≠ [] ∧ [0x7E, 0x00].length < 255) :=
  ⟨⟨by decide, by decide, by decide, by decide, fun _ => by decide⟩, by decide, by decide,
    (process_received_byte_frames ⟨[0x7E, 0x00] ++ List.replicate 253 0, 2⟩ [0x7E, 0x00] 0x7F
      (List.replicate 255 0xEE)
      ⟨by decide, by decide, by decide, by decide, fun _ => by decide⟩ (by decide)).elim
      fun n hn => hn.elim fun u1 hu => hu.elim fun out1 ho =>
        ⟨n, u1, out1, ho.1, ho.2.2.2.2.1⟩⟩

set_option maxRecDepth 1000000 in
/-- Counterexample to C16 as stated: a constructed handler that has received 0x7E
and 254 zero bytes holds a span of 255 bytes, the whole buffer; the 0x7F that
arrives next returns 0, copies nothing and clears the buffer. -/
theorem process_received_byte_frames_counterexample :
    (0x7E :: List.replicate 254 0).foldlM
        (fun u b => (UartHandler.process_received_byte u b (List.replicate 255 0xEE)).map
          (fun r => r.2.1))
        UartHandler.construct =
      some ⟨0x7E :: List.replicate 254 0, 255⟩ ∧
    UartHandler.holds ⟨0x7E :: List.replicate 254 0, 255⟩ (0x7E :: List.replicate 254 0) ∧
    UartHandler.process_received_byte ⟨0x7E :: List.replicate 254 0, 255⟩ 0x7F
        (List.replicate 255 0xEE) =
      some (0, ⟨List.replicate 255 0, 0⟩, List.replicate 255 0xEE) :=
  ⟨by decide, ⟨by decide, by decide, by decide, by decide, fun _ => by decide⟩, by decide⟩

/-! ## Radio configuration -/

theorem toUint8_natCast (n : Nat) : toUint8 (n : Int) = n % 256 := by
  unfold toUint8
  omega

namespace Lora

theorem toUint8_SF_6 : toUint8 SpreadFactor.SF_6 = 6 := by decide
theorem toUint8_SF_12 : toUint8 SpreadFactor.SF_12 = 12 := by decide
theorem toUint8_BW_500KHZ : toUint8 LoraBandWidth.BW_500KHZ = 9 := by decide
theorem toUint8_CR_4_5 : toUint8 CodingRate.CR_4_5 = 1 := by decide
theorem toUint8_CR_4_8 : toUint8 CodingRate.CR_4_8 = 4 := by decide

theorem set_spread_factor_eq (l : Lora) (v : Nat) :
    set_spread_factor l v =
      if 6 ≤ v ∧ v ≤ 12 then { l with spread_factor := (v : Int) } else l := by
  unfold set_spread_factor
  rw [toUint8_SF_6, toUint8_SF_12]

theorem set_bandwidth_eq (l : Lora) (v : Nat) :
    set_bandwidth l v = if v ≤ 9 then { l with bandwidth := (v : Int) } else l := by
  unfold set_bandwidth
  rw [toUint8_BW_500KHZ]

theorem set_coding_rate_eq (l : Lora) (v : Nat) :
    set_coding_rate l v =
      if 1 ≤ v ∧ v ≤ 4 then { l with coding_rate := (v : Int) } else l := by
  unfold set_coding_rate
  rw [toUint8_CR_4_5, toUint8_CR_4_8]

theorem set_tx_freq_eq (l : Lora) (f : Nat) :
    set_tx_freq l f =
      if 145000000 ≤ f ∧ f ≤ 160000000 then { l with downlink_frequency := f } else l := rfl

theorem set_rx_freq_eq (l : Lora) (f : Nat) :
    set_rx_freq l f =
      if 170000000 ≤ f ∧ f ≤ 185000000 then { l with uplink_frequency := f } else l := rfl

end Lora

/-- C17: for every configuration `l` and every `v`: when `v < 6` or `v > 12`,
`set_spread_factor(v)` changes nothing, so `get_spread_factor()` is what it was;
when `6 <= v <= 12` only the spread factor changes and `get_spread_factor()`
returns `v`; in both cases bandwidth, coding rate and the two frequencies are
what they were. -/
theorem set_spread_factor_adopts_or_keeps (l : Lora) (v : Nat) :
    ((v < 6 ∨ v > 12) →
      Lora.set_spread_factor l v = l ∧
      Lora.get_spread_factor (Lora.set_spread_factor l v) = Lora.get_spread_factor l) ∧
    ((6 ≤ v ∧ v ≤ 12) →
      Lora.set_spread_factor l v = { l with spread_factor := (v : Int) } ∧
      Lora.get_spread_factor (Lora.set_spread_factor l v) = v) ∧
    Lora.get_bandwidth (Lora.set_spread_factor l v) = Lora.get_bandwidth l ∧
    Lora.get_coding_rate (Lora.set_spread_factor l v) = Lora.get_coding_rate l ∧
    Lora.get_tx_frequency (Lora.set_spread_factor l v) = Lora.get_tx_frequency l ∧
    Lora.get_rx_frequency (Lora.set_spread_factor l v) = Lora.get_rx_frequency l ∧
    (Lora.set_spread_factor l v).bandwidth = l.bandwidth ∧
    (Lora.set_spread_factor l v).coding_rate = l.coding_rate ∧
    (Lora.set_spread_factor l v).downlink_frequency = l.downlink_frequency ∧
    (Lora.set_spread_factor l v).uplink_frequency = l.uplink_frequency := by
  rw [Lora.set_spread_factor_eq]
  by_cases h : 6 ≤ v ∧ v ≤ 12
  · rw [if_pos h]
    refine ⟨fun hh => by omega, fun _ => ⟨rfl, ?_⟩, rfl, rfl, rfl, rfl, rfl, rfl, rfl, rfl⟩
    show toUint8 (v : Int) = v
    rw [toUint8_natCast]
    omega
  · rw [if_neg h]
    exact ⟨fun _ => ⟨rfl, rfl⟩, fun hh => absurd hh h, rfl, rfl, rfl, rfl, rfl, rfl, rfl, rfl⟩

/-- Witness of C17: on the default configuration `set_spread_factor(12)` is
adopted and `set_spread_factor(13)` is refused. -/
theorem set_spread_factor_adopts_or_keeps_witness :
    Lora.get_spread_factor (Lora.set_spread_factor ⟨0, [], ⟨[], fun _ => 0xFF, []⟩, 7, 9, 2,
      149500000, 173500000, 0, 0, 0, 0, 0, 0, 0⟩ 12) = 12 ∧
    Lora.get_spread_factor (Lora.set_spread_factor ⟨0, [], ⟨[], fun _ => 0xFF, []⟩, 7, 9, 2,
      149500000, 173500000, 0, 0, 0, 0, 0, 0, 0⟩ 13) =
      Lora.get_spread_factor ⟨0, [], ⟨[], fun _ => 0xFF, []⟩, 7, 9, 2,
        149500000, 173500000, 0, 0, 0, 0, 0, 0, 0⟩ :=
  ⟨((set_spread_factor_adopts_or_keeps ⟨0, [], ⟨[], fun _ => 0xFF, []⟩, 7, 9, 2,
      149500000, 173500000, 0, 0, 0, 0, 0, 0, 0⟩ 12).2.1 (by decide)).2,
    ((set_spread_factor_adopts_or_keeps ⟨0, [], ⟨[], fun _ => 0xFF, []⟩, 7, 9, 2,
      149500000, 173500000, 0, 0, 0, 0, 0, 0, 0⟩ 13).1 (by decide)).2⟩

/-- C18: each of the other setters adopts an in-range value exactly, changing
only its own field, and changes nothing on an out-of-range value:
`set_bandwidth` accepts exactly 0..9, `set_coding_rate` exactly 1..4,
`set_tx_freq` exactly 145,000,000..160,000,000 (stored as the downlink
frequency, returned by `get_tx_frequency`), `set_rx_freq` exactly
170,000,000..185,000,000 (stored as the uplink frequency, returned by
`get_rx_frequency`). -/
theorem other_setters_adopt_or_keep (l : Lora) (v f : Nat) :
    (Lora.set_bandwidth l v = if v ≤ 9 then { l with bandwidth := (v : Int) } else l) ∧
    (v ≤ 9 → Lora.get_bandwidth (Lora.set_bandwidth l v) = v) ∧
    (Lora.set_coding_rate l v =
      if 1 ≤ v ∧ v ≤ 4 then { l with coding_rate := (v : Int) } else l) ∧
    (1 ≤ v ∧ v ≤ 4 → Lora.get_coding_rate (Lora.set_coding_rate l v) = v) ∧
    (Lora.set_tx_freq l f =
      if 145000000 ≤ f ∧ f ≤ 160000000 then { l with downlink_frequency := f } else l) ∧
    (145000000 ≤ f ∧ f ≤ 160000000 → Lora.get_tx_frequency (Lora.set_tx_freq l f) = f) ∧
    (Lora.set_rx_freq l f =
      if 170000000 ≤ f ∧ f ≤ 185000000 then { l with uplink_frequency := f } else l) ∧
    (170000000 ≤ f ∧ f ≤ 185000000 → Lora.get_rx_frequency (Lora.set_rx_freq l f) = f) := by
  refine ⟨Lora.set_bandwidth_eq l v, fun h => ?_, Lora.set_coding_rate_eq l v, fun h => ?_,
    Lora.set_tx_freq_eq l f, fun h => ?_, Lora.set_rx_freq_eq l f, fun h => ?_⟩
  · rw [Lora.set_bandwidth_eq, if_pos h]
    show toUint8 (v : Int) = v
    rw [toUint8_natCast]
    omega
  · rw [Lora.set_coding_rate_eq, if_pos h]
    show toUint8 (v : Int) = v
    rw [toUint8_natCast]
    omega
  · rw [Lora.set_tx_freq_eq, if_pos h]
    rfl
  · rw [Lora.set_rx_freq_eq, if_pos h]
    rfl

/-- Witness of C18: on the default configuration `set_bandwidth(7)` and
`set_tx_freq(150000000)` are adopted. -/
theorem other_setters_adopt_or_keep_witness :
    Lora.get_bandwidth (Lora.set_bandwidth ⟨0, [], ⟨[], fun _ => 0xFF, []⟩, 7, 9, 2,
      149500000, 173500000, 0, 0, 0, 0, 0, 0, 0⟩ 7) = 7 ∧
    Lora.get_tx_frequency (Lora.set_tx_freq ⟨0, [], ⟨[], fun _ => 0xFF, []⟩, 7, 9, 2,
      149500000, 173500000, 0, 0, 0, 0, 0, 0, 0⟩ 150000000) = 150000000 :=
  ⟨(other_setters_adopt_or_keep ⟨0, [], ⟨[], fun _ => 0xFF, []⟩, 7, 9, 2,
      149500000, 173500000, 0, 0, 0, 0, 0, 0, 0⟩ 7 150000000).2.1 (by decide),
    (other_setters_adopt_or_keep ⟨0, [], ⟨[], fun _ => 0xFF, []⟩, 7, 9, 2,
      149500000, 173500000, 0, 0, 0, 0, 0, 0, 0⟩ 7 150000000).2.2.2.2.2.1 (by decide)⟩

namespace Lora

theorem write_reg_addr_one (l : Lora) (address v : Nat) :
    write_reg_addr l address [v] 1 =
      some { l with spi_log := l.spi_log ++ [SpiOp.transmit [(address ||| 0x80) % 256, v]] } := by
  simp [write_reg_addr, readBytes]

theorem set_low_frequency_mode_SLEEP (l : Lora) :
    set_low_frequency_mode l DeviceOperatingMode.SLEEP =
      some { l with
        operatingMode := 0
        spi_log := l.spi_log ++ [SpiOp.transmit [0x81, 0x88]] } := by
  have hc : (LORA_MODE_ACTIVATION ||| LOW_FREQUENCY_MODE ||| toUint8 0) % 256 = 0x88 := by
    decide
  have ha : (LoraRegisters.RegOpMode ||| 0x80) % 256 = 0x81 := by decide
  simp only [set_low_frequency_mode, write_8bit_reg, write_reg_addr_one, hc, ha,
    DeviceOperatingMode.SLEEP]

theorem setRegModemConfig_eq (l : Lora) (c1 c2 : Nat) :
    setRegModemConfig l c1 c2 =
      some { l with
        spi_log := l.spi_log ++ [SpiOp.transmit [0x9D, c1], SpiOp.transmit [0x9E, c2]] } := by
  have h1 : (LoraRegisters.RegModemConfig1 ||| 0x80) % 256 = 0x9D := by decide
  have h2 : (LoraRegisters.RegModemConfig2 ||| 0x80) % 256 = 0x9E := by decide
  simp only [setRegModemConfig, write_reg_addr_one, h1, h2, List.append_assoc,
    List.singleton_append]

theorem setDetectionParametersReg_eq (l : Lora) :
    setDetectionParametersReg l =
      some { l with
        spi_log := l.spi_log ++ [SpiOp.receive 0x31 1, SpiOp.transmit [0xB7, 0x0C]] } := by
  have h1 : (LoraRegisters.RegDetectionThreshold ||| 0x80) % 256 = 0xB7 := by decide
  have h0 : ¬ (1 ≤ 0) := by decide
  simp only [setDetectionParametersReg, read_reg_addr, h0, if_false, write_reg_addr_one, h1,
    LoraRegisters.RegDetectOptimize, List.append_assoc, List.singleton_append]

/-- The function `configure_modem_internal` on a spread factor other than 6 that
is in range: the chip is put to sleep and RegOpMode, RegModemConfig1 and
RegModemConfig2 are written once each. -/
theorem configure_modem_internal_explicit (l : Lora)
    (h : ¬ (l.spread_factor < 6 ∨ l.spread_factor > 12)) (h6 : l.spread_factor ≠ 6) :
    configure_modem_internal l = some { l with
      header_mode := 0
      operatingMode := 0
      spi_log := l.spi_log ++
        [SpiOp.transmit [0x81, 0x88],
          SpiOp.transmit [0x9D,
            (((toUint8 l.bandwidth <<< 4) % 256 ||| (toUint8 l.coding_rate <<< 1)) % 256 |||
              toUint8 0) % 256],
          SpiOp.transmit [0x9E,
            (((toUint8 l.spread_factor <<< 4) % 256 ||| (toUint8 0 <<< 2)) % 256 |||
              0) % 256]] } := by
  simp only [configure_modem_internal, SpreadFactor.SF_6, SpreadFactor.SF_12, h, if_false, h6,
    LoraHeaderMode.EXPLICIT, set_low_frequency_mode_SLEEP, setRegModemConfig_eq,
    CrcSum.CRC_DISABLE, List.append_assoc, List.singleton_append]

/-- The function `configure_modem_internal` on spread factor 6: implicit header,
the detection registers first. -/
theorem configure_modem_internal_implicit (l : Lora) (h6 : l.spread_factor = 6) :
    configure_modem_internal l = some { l with
      header_mode := 1
      operatingMode := 0
      spi_log := l.spi_log ++
        [SpiOp.receive 0x31 1, SpiOp.transmit [0xB7, 0x0C],
          SpiOp.transmit [0x81, 0x88],
          SpiOp.transmit [0x9D,
            (((toUint8 l.bandwidth <<< 4) % 256 ||| (toUint8 l.coding_rate <<< 1)) % 256 |||
              toUint8 1) % 256],
          SpiOp.transmit [0x9E,
            (((toUint8 l.spread_factor <<< 4) % 256 ||| (toUint8 0 <<< 2)) % 256 |||
              0x03) % 256]] } := by
  have h : ¬ ((6 : Int) < 6 ∨ (6 : Int) > 12) := by decide
  simp only [configure_modem_internal, SpreadFactor.SF_6, SpreadFactor.SF_12, h, if_false, h6,
    if_true, LoraHeaderMode.IMPLICIT, setDetectionParametersReg_eq,
    set_low_frequency_mode_SLEEP, setRegModemConfig_eq,
    CrcSum.CRC_DISABLE, List.append_assoc, List.singleton_append, List.cons_append,
    List.nil_append]

/-- The function `configure_modem_internal` on a spread factor out of range: the
spread factor becomes 10. -/
theorem configure_modem_internal_fallback (l : Lora)
    (h : l.spread_factor < 6 ∨ l.spread_factor > 12) :
    configure_modem_internal l = some { l with
      spread_factor := 10
      header_mode := 0
      operatingMode := 0
      spi_log := l.spi_log ++
        [SpiOp.transmit [0x81, 0x88],
          SpiOp.transmit [0x9D,
            (((toUint8 l.bandwidth <<< 4) % 256 ||| (toUint8 l.coding_rate <<< 1)) % 256 |||
              toUint8 0) % 256],
          SpiOp.transmit [0x9E,
            (((toUint8 10 <<< 4) % 256 ||| (toUint8 0 <<< 2)) % 256 ||| 0) % 256]] } := by
  have h10 : ¬ ((10 : Int) = 6) := by decide
  simp only [configure_modem_internal, SpreadFactor.SF_6, SpreadFactor.SF_12,
    SpreadFactor.SF_10, h, if_true, h10, if_false,
    LoraHeaderMode.EXPLICIT, set_low_frequency_mode_SLEEP, setRegModemConfig_eq,
    CrcSum.CRC_DISABLE, List.append_assoc, List.singleton_append]

/-- What `configure_modem_internal` keeps and writes, whatever the state. -/
theorem configure_modem_internal_spec (l : Lora) :
    ∃ r, configure_modem_internal l = some r ∧
      r.spread_factor =
        (if l.spread_factor < 6 ∨ l.spread_factor > 12 then 10 else l.spread_factor) ∧
      r.bandwidth = l.bandwidth ∧ r.coding_rate = l.coding_rate ∧
      r.uplink_frequency = l.uplink_frequency ∧
      r.downlink_frequency = l.downlink_frequency ∧ r.eeprom = l.eeprom ∧
      r.sf_key = l.sf_key ∧ r.bw_key = l.bw_key ∧ r.cr_key = l.cr_key ∧
      r.frq_key = l.frq_key ∧ r.frq_up_key = l.frq_up_key ∧ r.frq_dw_key = l.frq_dw_key ∧
      r.header_mode = (if r.spread_factor = 6 then 1 else 0) ∧
      r.spi_log = l.spi_log ++
        (if r.spread_factor = 6
          then [SpiOp.receive 0x31 1, SpiOp.transmit [0xB7, 0x0C]] else []) ++
        [SpiOp.transmit [0x81, 0x88],
          SpiOp.transmit [0x9D,
            (((toUint8 r.bandwidth <<< 4) % 256 ||| (toUint8 r.coding_rate <<< 1)) % 256 |||
              toUint8 r.header_mode) % 256],
          SpiOp.transmit [0x9E,
            (((toUint8 r.spread_factor <<< 4) % 256 ||| (toUint8 0 <<< 2)) % 256 |||
              (if r.spread_factor = 6 then 0x03 else 0x00)) % 256]] := by
  by_cases h : l.spread_factor < 6 ∨ l.spread_factor > 12
  · have h10 : ¬ ((10 : Int) = 6) := by decide
    refine ⟨_, configure_modem_internal_fallback l h, ?_, rfl, rfl, rfl, rfl, rfl, rfl, rfl,
      rfl, rfl, rfl, rfl, ?_, ?_⟩
    · rw [if_pos h]
    · simp only [h10, if_false]
    · simp only [h10, if_false, List.append_nil]
  · by_cases h6 : l.spread_factor = 6
    · refine ⟨_, configure_modem_internal_implicit l h6, ?_, rfl, rfl, rfl, rfl, rfl, rfl,
        rfl, rfl, rfl, rfl, rfl, ?_, ?_⟩
      · rw [if_neg h]
      · simp only [h6, if_true]
      · simp only [h6, if_true, List.append_assoc, List.cons_append, List.nil_append]
    · refine ⟨_, configure_modem_internal_explicit l h h6, ?_, rfl, rfl, rfl, rfl, rfl, rfl,
        rfl, rfl, rfl, rfl, rfl, ?_, ?_⟩
      · rw [if_neg h]
      · simp only [h6, if_false]
      · simp only [h6, if_false, List.append_nil]

end Lora

namespace Lora

theorem set_lora_settings_eq (l : Lora) (bw cr sf : Int) (dl_freq up_freq : Nat) :
    set_lora_settings l bw cr sf dl_freq up_freq =
      configure_modem_internal { l with
        spread_factor := if sf < 6 ∨ sf > 12 then 7 else sf
        bandwidth := if bw < 0 ∨ bw > 9 then 9 else bw
        coding_rate := if cr < 1 ∨ cr > 4 then 2 else cr
        uplink_frequency :=
          if up_freq < 170000000 ∨ up_freq > 185000000 then 173500000 else up_freq
        downlink_frequency :=
          if dl_freq < 145000000 ∨ dl_freq > 160000000 then 149500000 else dl_freq } := by
  unfold set_lora_settings
  simp only [SpreadFactor.SF_6, SpreadFactor.SF_12, SpreadFactor.SF_7,
    LoraBandWidth.BW_7_8KHZ, LoraBandWidth.BW_500KHZ, CodingRate.CR_4_5, CodingRate.CR_4_8,
    CodingRate.CR_4_6, UPLINK_FREQ_MIN, UPLINK_FREQ_MAX, UPLINK_FREQ, DOWNLINK_FREQ_MIN,
    DOWNLINK_FREQ_MAX, DOWNLINK_FREQ]
  congr 1
  split_ifs <;> rfl

/-- The configuration `set_lora_settings` leaves, whatever the state and the
arguments: each argument when in range, its default otherwise. -/
theorem set_lora_settings_spec (l : Lora) (bw cr sf : Int) (dl_freq up_freq : Nat) :
    ∃ r, set_lora_settings l bw cr sf dl_freq up_freq = some r ∧
      r.spread_factor = (if sf < 6 ∨ sf > 12 then 7 else sf) ∧
      r.bandwidth = (if bw < 0 ∨ bw > 9 then 9 else bw) ∧
      r.coding_rate = (if cr < 1 ∨ cr > 4 then 2 else cr) ∧
      r.uplink_frequency =
        (if up_freq < 170000000 ∨ up_freq > 185000000 then 173500000 else up_freq) ∧
      r.downlink_frequency =
        (if dl_freq < 145000000 ∨ dl_freq > 160000000 then 149500000 else dl_freq) ∧
      r.eeprom = l.eeprom ∧
      r.sf_key = l.sf_key ∧ r.bw_key = l.bw_key ∧ r.cr_key = l.cr_key ∧
      r.frq_up_key = l.frq_up_key ∧ r.frq_dw_key = l.frq_dw_key := by
  rw [set_lora_settings_eq]
  obtain ⟨r, hr, hsf, hbw, hcr, hup, hdw, hee, hk1, hk2, hk3, _, hk5, hk6, _, _⟩ :=
    configure_modem_internal_spec { l with
      spread_factor := if sf < 6 ∨ sf > 12 then 7 else sf
      bandwidth := if bw < 0 ∨ bw > 9 then 9 else bw
      coding_rate := if cr < 1 ∨ cr > 4 then 2 else cr
      uplink_frequency :=
        if up_freq < 170000000 ∨ up_freq > 185000000 then 173500000 else up_freq
      downlink_frequency :=
        if dl_freq < 145000000 ∨ dl_freq > 160000000 then 149500000 else dl_freq }
  refine ⟨r, hr, ?_, hbw, hcr, hup, hdw, hee, hk1, hk2, hk3, hk5, hk6⟩
  rw [hsf]
  show (if (if sf < 6 ∨ sf > 12 then 7 else sf) < 6 ∨ (if sf < 6 ∨ sf > 12 then 7 else sf) > 12
    then (10 : Int) else (if sf < 6 ∨ sf > 12 then 7 else sf)) = _
  by_cases h : sf < 6 ∨ sf > 12
  · rw [if_pos h, if_neg (by decide)]
  · rw [if_neg h, if_neg h]

theorem in_range_of_fields (l r : Lora) (h : in_range l)
    (h1 : r.spread_factor = l.spread_factor) (h2 : r.bandwidth = l.bandwidth)
    (h3 : r.coding_rate = l.coding_rate) (h4 : r.uplink_frequency = l.uplink_frequency)
    (h5 : r.downlink_frequency = l.downlink_frequency) : in_range r := by
  unfold in_range at h ⊢
  rw [h1, h2, h3, h4, h5]
  exact h

theorem in_range_save_settings (l : Lora) (h : in_range l) : in_range (save_settings l) := by
  unfold in_range at h ⊢
  unfold save_settings
  exact h

theorem in_range_set_lora_settings (l : Lora) (bw cr sf : Int) (dl_freq up_freq : Nat) :
    ∃ r, set_lora_settings l bw cr sf dl_freq up_freq = some r ∧ in_range r := by
  obtain ⟨r, hr, hsf, hbw, hcr, hup, hdw, _⟩ :=
    set_lora_settings_spec l bw cr sf dl_freq up_freq
  refine ⟨r, hr, ?_⟩
  unfold in_range
  rw [hsf, hbw, hcr, hup, hdw]
  refine ⟨?_, ?_, ?_, ?_, ?_⟩
  · split_ifs with h
    · decide
    · omega
  · split_ifs with h
    · decide
    · omega
  · split_ifs with h
    · decide
    · omega
  · split_ifs with h
    · decide
    · omega
  · split_ifs with h
    · decide
    · omega

theorem in_range_configure_modem_internal (l : Lora) (h : in_range l) :
    ∃ r, configure_modem_internal l = some r ∧ in_range r ∧
      r.spread_factor = l.spread_factor := by
  obtain ⟨r, hr, hsf, hbw, hcr, hup, hdw, _⟩ := configure_modem_internal_spec l
  have hin : ¬ (l.spread_factor < 6 ∨ l.spread_factor > 12) := by
    have := h.1
    omega
  rw [if_neg hin] at hsf
  exact ⟨r, hr, in_range_of_fields l r h hsf hbw hcr hup hdw, hsf⟩

end Lora

namespace Memory

theorem EEPROM_Write_value_addr (m : Memory) (a d : Nat) :
    (EEPROM_Write m a d).value_addr = m.value_addr := by
  unfold EEPROM_Write
  split_ifs <;> rfl

theorem EEPROM_Read_Write (m : Memory) (a d b : Nat) (hd : d < 256) :
    EEPROM_Read (EEPROM_Write m a d) b = if b = a then d else EEPROM_Read m b := by
  unfold EEPROM_Write
  by_cases hne : EEPROM_Read m a ≠ d
  · rw [if_pos hne]
    by_cases hb : b = a
    · rw [if_pos hb, hb]
      simp only [EEPROM_Read, Function.update_same]
      exact Nat.mod_eq_of_lt hd
    · rw [if_neg hb]
      simp only [EEPROM_Read, Function.update_noteq hb]
  · rw [if_neg hne]
    by_cases hb : b = a
    · rw [if_pos hb, hb]
      exact not_not.mp hne
    · rw [if_neg hb]

theorem EEPROM_Write_cells_of_ne (m : Memory) (a d b : Nat) (hb : b ≠ a) :
    (EEPROM_Write m a d).cells b = m.cells b := by
  unfold EEPROM_Write
  split_ifs
  · exact Function.update_noteq hb d m.cells
  · rfl

theorem EEPROM_Write_writes (m : Memory) (a d : Nat) :
    (EEPROM_Write m a d).writes =
      m.writes ++ (if EEPROM_Read m a ≠ d then [(a, d)] else []) := by
  unfold EEPROM_Write
  split_ifs
  · rfl
  · exact (List.append_nil _).symm

theorem EEPROM_Write_of_eq (m : Memory) (a d : Nat) (h : EEPROM_Read m a = d) :
    EEPROM_Write m a d = m := by
  unfold EEPROM_Write
  rw [if_neg (not_not.mpr h)]

theorem setValue_one (m : Memory) (key value address : Nat)
    (h : m.value_addr[key]? = some ⟨address, 1⟩) :
    setValue m 1 key value = EEPROM_Write m (address % 256) (value % 256) := by
  have hlt : m.value_addr.length > key := by
    by_contra hge
    rw [List.getElem?_eq_none (by omega)] at h
    exact absurd h (by simp)
  have hv : (value &&& 0xff) % 256 = value % 256 := by
    rw [and_0xFF]
    exact Nat.mod_mod _ _
  simp only [setValue, hlt, if_true, h, EEPROM_byte_Write, EEPROM_byte_Write_loop,
    Nat.add_zero, hv]

theorem setValue_four (m : Memory) (key value address : Nat)
    (h : m.value_addr[key]? = some ⟨address, 4⟩) :
    setValue m 4 key value =
      EEPROM_Write (EEPROM_Write (EEPROM_Write (EEPROM_Write m
        (address % 256) (value % 256))
        ((address + 1) % 256) ((value >>> 8) % 256))
        ((address + 2) % 256) ((value >>> 8 >>> 8) % 256))
        ((address + 3) % 256) ((value >>> 8 >>> 8 >>> 8) % 256) := by
  have hlt : m.value_addr.length > key := by
    by_contra hge
    rw [List.getElem?_eq_none (by omega)] at h
    exact absurd h (by simp)
  have hv : ∀ x : Nat, (x &&& 0xff) % 256 = x % 256 := fun x => by
    rw [and_0xFF]
    exact Nat.mod_mod _ _
  simp only [setValue, hlt, if_true, h, EEPROM_byte_Write, EEPROM_byte_Write_loop,
    Nat.add_zero, hv, Nat.zero_add]

theorem getValue_of_key (m : Memory) (size key : Nat) (loc : MemoryLocation)
    (h : m.value_addr[key]? = some loc) :
    getValue m size key = some (EEPROM_byte_Read m size loc.address) := by
  simp only [getValue, h]

theorem EEPROM_byte_Read_one (m : Memory) (address : Nat) :
    EEPROM_byte_Read m 1 address = EEPROM_Read m (address % 256) := by
  simp only [EEPROM_byte_Read, EEPROM_byte_Read_loop, Nat.sub_self, Nat.lt_irrefl, if_false,
    Nat.zero_or, Nat.add_zero]

theorem EEPROM_byte_Read_four (m : Memory) (address : Nat) :
    EEPROM_byte_Read m 4 address =
      ((((((EEPROM_Read m ((address + 3) % 256) <<< 8) % 2 ^ 32 |||
        EEPROM_Read m ((address + 2) % 256)) <<< 8) % 2 ^ 32 |||
        EEPROM_Read m ((address + 1) % 256)) <<< 8) % 2 ^ 32 |||
        EEPROM_Read m (address % 256)) := by
  have h33 : ¬ (3 < 4 - 1) := by decide
  have h23 : 2 < 4 - 1 := by decide
  have h13 : 1 < 4 - 1 := by decide
  have h03 : 0 < 4 - 1 := by decide
  simp only [EEPROM_byte_Read, EEPROM_byte_Read_loop, h33, h23, h13, h03, if_true, if_false,
    Nat.zero_or, Nat.add_zero, Nat.reduceMul]

end Memory

namespace Lora

/-- The function `read_settings` on the constructor's keys: the five values are
read from the addresses 0, 1, 2, 11 (downlink) and 7 (uplink). -/
theorem read_settings_eq (l : Lora) (hk : keys_created l) :
    read_settings l = some { l with
      spread_factor := ((Memory.EEPROM_byte_Read l.eeprom 1 0 : Nat) : Int)
      bandwidth := ((Memory.EEPROM_byte_Read l.eeprom 1 1 : Nat) : Int)
      coding_rate := ((Memory.EEPROM_byte_Read l.eeprom 1 2 : Nat) : Int)
      downlink_frequency := Memory.EEPROM_byte_Read l.eeprom 4 11
      uplink_frequency := Memory.EEPROM_byte_Read l.eeprom 4 7 } := by
  obtain ⟨hv, h0, h1, h2, _, h4, h5⟩ := hk
  have g0 := Memory.getValue_of_key l.eeprom 1 0 ⟨0, 1⟩ (by rw [hv]; rfl)
  have g1 := Memory.getValue_of_key l.eeprom 1 1 ⟨1, 1⟩ (by rw [hv]; rfl)
  have g2 := Memory.getValue_of_key l.eeprom 1 2 ⟨2, 1⟩ (by rw [hv]; rfl)
  have g4 := Memory.getValue_of_key l.eeprom 4 4 ⟨7, 4⟩ (by rw [hv]; rfl)
  have g5 := Memory.getValue_of_key l.eeprom 4 5 ⟨11, 4⟩ (by rw [hv]; rfl)
  simp only [read_settings, h0, h1, h2, h4, h5, g0, g1, g2, g4, g5]

/-- The function `save_settings` on the constructor's keys: eleven byte writes,
to the addresses 0, 1, 2, then 11..14 (downlink), then 7..10 (uplink). -/
theorem save_settings_eq (l : Lora) (hk : keys_created l) :
    save_settings l = { l with eeprom := (
      Memory.EEPROM_Write (Memory.EEPROM_Write (Memory.EEPROM_Write (Memory.EEPROM_Write
      (Memory.EEPROM_Write (Memory.EEPROM_Write (Memory.EEPROM_Write (Memory.EEPROM_Write
      (Memory.EEPROM_Write (Memory.EEPROM_Write (Memory.EEPROM_Write l.eeprom
        0 (toUint8 l.spread_factor % 256))
        1 (toUint8 l.bandwidth % 256))
        2 (toUint8 l.coding_rate % 256))
        11 (l.downlink_frequency % 2 ^ 32 % 256))
        12 (((l.downlink_frequency % 2 ^ 32) >>> 8) % 256))
        13 (((l.downlink_frequency % 2 ^ 32) >>> 8 >>> 8) % 256))
        14 (((l.downlink_frequency % 2 ^ 32) >>> 8 >>> 8 >>> 8) % 256))
        7 (l.uplink_frequency % 2 ^ 32 % 256))
        8 (((l.uplink_frequency % 2 ^ 32) >>> 8) % 256))
        9 (((l.uplink_frequency % 2 ^ 32) >>> 8 >>> 8) % 256))
        10 (((l.uplink_frequency % 2 ^ 32) >>> 8 >>> 8 >>> 8) % 256)) } := by
  obtain ⟨hv, h0, h1, h2, _, h4, h5⟩ := hk
  unfold save_settings
  simp only [h0, h1, h2, h4, h5]
  rw [Memory.setValue_one l.eeprom 0 _ 0 (by rw [hv]; rfl),
    Memory.setValue_one _ 1 _ 1 (by rw [Memory.EEPROM_Write_value_addr, hv]; rfl),
    Memory.setValue_one _ 2 _ 2 (by simp only [Memory.EEPROM_Write_value_addr, hv]; rfl),
    Memory.setValue_four _ 5 _ 11 (by simp only [Memory.EEPROM_Write_value_addr, hv]; rfl),
    Memory.setValue_four _ 4 _ 7 (by simp only [Memory.EEPROM_Write_value_addr, hv]; rfl)]

theorem check_already_store_data_eq (l l1 : Lora) (h : read_settings l = some l1) :
    check_already_store_data l =
      configure_modem_internal
        (if in_range l1 then l1
        else save_settings { l1 with
          spread_factor := 7, bandwidth := 9, coding_rate := 2
          uplink_frequency := 173500000, downlink_frequency := 149500000 }) := by
  unfold check_already_store_data
  rw [h]
  simp only [SpreadFactor.SF_6, SpreadFactor.SF_12, SpreadFactor.SF_7,
    LoraBandWidth.BW_7_8KHZ, LoraBandWidth.BW_500KHZ, CodingRate.CR_4_5, CodingRate.CR_4_8,
    CodingRate.CR_4_6, UPLINK_FREQ_MIN, UPLINK_FREQ_MAX, UPLINK_FREQ, DOWNLINK_FREQ_MIN,
    DOWNLINK_FREQ_MAX, DOWNLINK_FREQ]
  congr 1
  by_cases hin : in_range l1
  · rw [if_pos hin, if_neg]
    unfold in_range at hin
    omega
  · rw [if_neg hin, if_pos]
    unfold in_range at hin
    omega

theorem in_range_defaults (l : Lora) :
    in_range { l with
      spread_factor := 7, bandwidth := 9, coding_rate := 2
      uplink_frequency := 173500000, downlink_frequency := 149500000 } := by
  unfold in_range
  dsimp only
  decide

theorem in_range_check_already_store_data (l : Lora) (hk : keys_created l) :
    ∃ r, check_already_store_data l = some r ∧ in_range r := by
  rw [check_already_store_data_eq l _ (read_settings_eq l hk)]
  split_ifs with hin
  · obtain ⟨r, hr, hi, _⟩ := in_range_configure_modem_internal _ hin
    exact ⟨r, hr, hi⟩
  · obtain ⟨r, hr, hi, _⟩ := in_range_configure_modem_internal _
      (in_range_save_settings _ (in_range_defaults _))
    exact ⟨r, hr, hi⟩

theorem in_range_set_default_parameters (l : Lora) :
    ∃ r, set_default_parameters l = some r ∧ in_range r := by
  unfold set_default_parameters
  obtain ⟨r, hr, hi⟩ := in_range_set_lora_settings
    { l with
      downlink_frequency := 0xffff, uplink_frequency := 0xffff
      bandwidth := 0xff, spread_factor := 0xff, coding_rate := 0xff }
    0xff 0xff 0xff 0xffff 0xffff
  exact ⟨save_settings r, by simp only [hr], in_range_save_settings r hi⟩

theorem in_range_setters (l : Lora) (h : in_range l) (v f : Nat) :
    in_range (set_spread_factor l v) ∧ in_range (set_bandwidth l v) ∧
      in_range (set_coding_rate l v) ∧ in_range (set_tx_freq l f) ∧
      in_range (set_rx_freq l f) := by
  rw [set_spread_factor_eq, set_bandwidth_eq, set_coding_rate_eq, set_tx_freq_eq,
    set_rx_freq_eq]
  obtain ⟨h1, h2, h3, h4, h5⟩ := h
  refine ⟨?_, ?_, ?_, ?_, ?_⟩
  · split_ifs with hv
    · exact ⟨by show (6 : Int) ≤ (v : Int) ∧ (v : Int) ≤ 12; omega, h2, h3, h4, h5⟩
    · exact ⟨h1, h2, h3, h4, h5⟩
  · split_ifs with hv
    · exact ⟨h1, by show (0 : Int) ≤ (v : Int) ∧ (v : Int) ≤ 9; omega, h3, h4, h5⟩
    · exact ⟨h1, h2, h3, h4, h5⟩
  · split_ifs with hv
    · exact ⟨h1, h2, by show (1 : Int) ≤ (v : Int) ∧ (v : Int) ≤ 4; omega, h4, h5⟩
    · exact ⟨h1, h2, h3, h4, h5⟩
  · split_ifs with hv
    · exact ⟨h1, h2, h3, h4, hv⟩
    · exact ⟨h1, h2, h3, h4, h5⟩
  · split_ifs with hv
    · exact ⟨h1, h2, h3, hv, h5⟩
    · exact ⟨h1, h2, h3, h4, h5⟩

end Lora

/-- C19: when the spread factor is in 6..12, the bandwidth in 0..9, the coding
rate in 1..4, the uplink frequency in 170,000,000..185,000,000 and the downlink
frequency in 145,000,000..160,000,000, the same holds after each of
`set_spread_factor`, `set_bandwidth`, `set_coding_rate`, `set_tx_freq`,
`set_rx_freq` and `configure_modem`; `set_lora_settings` (with any arguments)
and `set_default_parameters` return a configuration in range whatever the state
was, and so does `check_already_store_data`, whatever the EEPROM holds, on the
keys the constructor creates. -/
theorem range_invariant (l : Lora) (v f : Nat) (bw cr sf : Int) (dl_freq up_freq : Nat) :
    (Lora.in_range l →
      Lora.in_range (Lora.set_spread_factor l v) ∧ Lora.in_range (Lora.set_bandwidth l v) ∧
      Lora.in_range (Lora.set_coding_rate l v) ∧ Lora.in_range (Lora.set_tx_freq l f) ∧
      Lora.in_range (Lora.set_rx_freq l f) ∧
      ∃ r, Lora.configure_modem l = some r ∧ Lora.in_range r) ∧
    (∃ r, Lora.set_lora_settings l bw cr sf dl_freq up_freq = some r ∧ Lora.in_range r) ∧
    (∃ r, Lora.set_default_parameters l = some r ∧ Lora.in_range r) ∧
    (Lora.keys_created l → ∃ r, Lora.check_already_store_data l = some r ∧ Lora.in_range r) := by
  refine ⟨fun h => ?_, Lora.in_range_set_lora_settings l bw cr sf dl_freq up_freq,
    Lora.in_range_set_default_parameters l, Lora.in_range_check_already_store_data l⟩
  obtain ⟨h1, h2, h3, h4, h5⟩ := Lora.in_range_setters l h v f
  obtain ⟨r, hr, hi, _⟩ := Lora.in_range_configure_modem_internal l h
  exact ⟨h1, h2, h3, h4, h5, r, hr, hi⟩

set_option maxRecDepth 10000 in
/-- Witness of C19: the default configuration is in range, and stays in range
when `set_spread_factor(12)` adopts 12 and when `set_spread_factor(13)` is
refused. -/
theorem range_invariant_witness :
    Lora.in_range ⟨0, [], ⟨[], fun _ => 0xFF, []⟩, 7, 9, 2, 149500000, 173500000, 0,
      0, 0, 0, 0, 0, 0⟩ ∧
    Lora.in_range (Lora.set_spread_factor ⟨0, [], ⟨[], fun _ => 0xFF, []⟩, 7, 9, 2,
      149500000, 173500000, 0, 0, 0, 0, 0, 0, 0⟩ 12) ∧
    Lora.in_range (Lora.set_tx_freq ⟨0, [], ⟨[], fun _ => 0xFF, []⟩, 7, 9, 2,
      149500000, 173500000, 0, 0, 0, 0, 0, 0, 0⟩ 13) :=
  ⟨by decide,
    ((range_invariant ⟨0, [], ⟨[], fun _ => 0xFF, []⟩, 7, 9, 2, 149500000, 173500000, 0,
      0, 0, 0, 0, 0, 0⟩ 12 13 0 0 0 0 0).1 (by decide)).1,
    ((range_invariant ⟨0, [], ⟨[], fun _ => 0xFF, []⟩, 7, 9, 2, 149500000, 173500000, 0,
      0, 0, 0, 0, 0, 0⟩ 12 13 0 0 0 0 0).1 (by decide)).2.2.2.1⟩

/-! ## Boot validation -/

namespace Memory

theorem mem_writes_EEPROM_Write (m : Memory) (a d : Nat) (w : Nat × Nat)
    (h : w ∈ (EEPROM_Write m a d).writes) : w ∈ m.writes ∨ w = (a, d) := by
  rw [EEPROM_Write_writes, List.mem_append] at h
  rcases h with h | h
  · exact Or.inl h
  · split_ifs at h
    · exact Or.inr (List.mem_singleton.mp h)
    · exact absurd h (List.not_mem_nil w)

/-- The eleven byte writes `save_settings` makes for the default configuration:
what the EEPROM holds afterwards. -/
theorem default_writes (m : Memory) :
    (EEPROM_Write (EEPROM_Write (EEPROM_Write (EEPROM_Write
      (EEPROM_Write (EEPROM_Write (EEPROM_Write (EEPROM_Write
      (EEPROM_Write (EEPROM_Write (EEPROM_Write m
        0 7) 1 9) 2 2) 11 96) 12 48) 13 233) 14 8) 7 96) 8 102) 9 87) 10 10).value_addr =
        m.value_addr ∧
    EEPROM_byte_Read (EEPROM_Write (EEPROM_Write (EEPROM_Write (EEPROM_Write
      (EEPROM_Write (EEPROM_Write (EEPROM_Write (EEPROM_Write
      (EEPROM_Write (EEPROM_Write (EEPROM_Write m
        0 7) 1 9) 2 2) 11 96) 12 48) 13 233) 14 8) 7 96) 8 102) 9 87) 10 10) 1 0 = 7 ∧
    EEPROM_byte_Read (EEPROM_Write (EEPROM_Write (EEPROM_Write (EEPROM_Write
      (EEPROM_Write (EEPROM_Write (EEPROM_Write (EEPROM_Write
      (EEPROM_Write (EEPROM_Write (EEPROM_Write m
        0 7) 1 9) 2 2) 11 96) 12 48) 13 233) 14 8) 7 96) 8 102) 9 87) 10 10) 1 1 = 9 ∧
    EEPROM_byte_Read (EEPROM_Write (EEPROM_Write (EEPROM_Write (EEPROM_Write
      (EEPROM_Write (EEPROM_Write (EEPROM_Write (EEPROM_Write
      (EEPROM_Write (EEPROM_Write (EEPROM_Write m
        0 7) 1 9) 2 2) 11 96) 12 48) 13 233) 14 8) 7 96) 8 102) 9 87) 10 10) 1 2 = 2 ∧
    EEPROM_byte_Read (EEPROM_Write (EEPROM_Write (EEPROM_Write (EEPROM_Write
      (EEPROM_Write (EEPROM_Write (EEPROM_Write (EEPROM_Write
      (EEPROM_Write (EEPROM_Write (EEPROM_Write m
        0 7) 1 9) 2 2) 11 96) 12 48) 13 233) 14 8) 7 96) 8 102) 9 87) 10 10) 4 7 =
        173500000 ∧
    EEPROM_byte_Read (EEPROM_Write (EEPROM_Write (EEPROM_Write (EEPROM_Write
      (EEPROM_Write (EEPROM_Write (EEPROM_Write (EEPROM_Write
      (EEPROM_Write (EEPROM_Write (EEPROM_Write m
        0 7) 1 9) 2 2) 11 96) 12 48) 13 233) 14 8) 7 96) 8 102) 9 87) 10 10) 4 11 =
        149500000 ∧
    (∀ a, a ∉ [0, 1, 2, 7, 8, 9, 10, 11, 12, 13, 14] →
      (EEPROM_Write (EEPROM_Write (EEPROM_Write (EEPROM_Write
      (EEPROM_Write (EEPROM_Write (EEPROM_Write (EEPROM_Write
      (EEPROM_Write (EEPROM_Write (EEPROM_Write m
        0 7) 1 9) 2 2) 11 96) 12 48) 13 233) 14 8) 7 96) 8 102) 9 87) 10 10).cells a =
        m.cells a) ∧
    (∀ w ∈ (EEPROM_Write (EEPROM_Write (EEPROM_Write (EEPROM_Write
      (EEPROM_Write (EEPROM_Write (EEPROM_Write (EEPROM_Write
      (EEPROM_Write (EEPROM_Write (EEPROM_Write m
        0 7) 1 9) 2 2) 11 96) 12 48) 13 233) 14 8) 7 96) 8 102) 9 87) 10 10).writes,
      w ∈ m.writes ∨
      w ∈ [(0, 7), (1, 9), (2, 2), (11, 96), (12, 48), (13, 233), (14, 8), (7, 96), (8, 102),
        (9, 87), (10, 10)]) := by
  refine ⟨?_, ?_, ?_, ?_, ?_, ?_, ?_, ?_⟩
  · simp only [EEPROM_Write_value_addr]
  · rw [EEPROM_byte_Read_one]
    simp [EEPROM_Read_Write]
  · rw [EEPROM_byte_Read_one]
    simp [EEPROM_Read_Write]
  · rw [EEPROM_byte_Read_one]
    simp [EEPROM_Read_Write]
  · rw [EEPROM_byte_Read_four]
    simp [EEPROM_Read_Write]
  · rw [EEPROM_byte_Read_four]
    simp [EEPROM_Read_Write]
  · intro a ha
    simp only [List.mem_cons, List.mem_singleton, List.not_mem_nil, or_false, not_or] at ha
    obtain ⟨h0, h1, h2, h7, h8, h9, h10, h11, h12, h13, h14⟩ := ha
    rw [EEPROM_Write_cells_of_ne _ _ _ _ h10, EEPROM_Write_cells_of_ne _ _ _ _ h9,
      EEPROM_Write_cells_of_ne _ _ _ _ h8, EEPROM_Write_cells_of_ne _ _ _ _ h7,
      EEPROM_Write_cells_of_ne _ _ _ _ h14, EEPROM_Write_cells_of_ne _ _ _ _ h13,
      EEPROM_Write_cells_of_ne _ _ _ _ h12, EEPROM_Write_cells_of_ne _ _ _ _ h11,
      EEPROM_Write_cells_of_ne _ _ _ _ h2, EEPROM_Write_cells_of_ne _ _ _ _ h1,
      EEPROM_Write_cells_of_ne _ _ _ _ h0]
  · intro w hw
    iterate 11
      rcases mem_writes_EEPROM_Write _ _ _ _ hw with hw | hw
      swap
      · rw [hw]
        exact Or.inr (by decide)
    exact Or.inl hw

end Memory

namespace Lora

/-- The constructor's six `createKey` calls on an empty key table give the keys
and the table of `keys_created`. -/
theorem keys_created_create_keys (l : Lora) (h : l.eeprom.value_addr = []) :
    keys_created (create_keys l) := by
  simp only [keys_created, create_keys, Memory.createKey, h, EP_SF_ADDR, EP_BW_ADDR,
    EP_CR_ADDR, EP_FRQ_ADDR, EP_FRQ_UP_ADDR, EP_FRQ_DW_ADDR]
  decide

end Lora

namespace Lora

theorem save_settings_defaults (l : Lora) (hk : keys_created l) :
    save_settings { l with
        spread_factor := 7, bandwidth := 9, coding_rate := 2
        uplink_frequency := 173500000, downlink_frequency := 149500000 } =
      { l with
        spread_factor := 7, bandwidth := 9, coding_rate := 2
        uplink_frequency := 173500000, downlink_frequency := 149500000
        eeprom := (
          Memory.EEPROM_Write (Memory.EEPROM_Write (Memory.EEPROM_Write (Memory.EEPROM_Write
          (Memory.EEPROM_Write (Memory.EEPROM_Write (Memory.EEPROM_Write (Memory.EEPROM_Write
          (Memory.EEPROM_Write (Memory.EEPROM_Write (Memory.EEPROM_Write l.eeprom
          0 7) 1 9) 2 2) 11 96) 12 48) 13 233) 14 8) 7 96) 8 102) 9 87) 10 10) } := by
  have hk1 : keys_created { l with
      spread_factor := 7, bandwidth := 9, coding_rate := 2
      uplink_frequency := 173500000, downlink_frequency := 149500000 } := hk
  have e0 : toUint8 7 % 256 = 7 := by decide
  have e1 : toUint8 9 % 256 = 9 := by decide
  have e2 : toUint8 2 % 256 = 2 := by decide
  have d0 : 149500000 % 2 ^ 32 % 256 = 96 := by decide
  have d1 : ((149500000 % 2 ^ 32) >>> 8) % 256 = 48 := by decide
  have d2 : ((149500000 % 2 ^ 32) >>> 8 >>> 8) % 256 = 233 := by decide
  have d3 : ((149500000 % 2 ^ 32) >>> 8 >>> 8 >>> 8) % 256 = 8 := by decide
  have u0 : 173500000 % 2 ^ 32 % 256 = 96 := by decide
  have u1 : ((173500000 % 2 ^ 32) >>> 8) % 256 = 102 := by decide
  have u2 : ((173500000 % 2 ^ 32) >>> 8 >>> 8) % 256 = 87 := by decide
  have u3 : ((173500000 % 2 ^ 32) >>> 8 >>> 8 >>> 8) % 256 = 10 := by decide
  rw [save_settings_eq _ hk1]
  dsimp only
  rw [e0, e1, e2, d0, d1, d2, d3, u0, u1, u2, u3]

end Lora

/-- C20: on the keys the constructor creates, `check_already_store_data` returns.
It reads the five stored values (spread factor, bandwidth and coding rate from
the bytes at 0, 1, 2; uplink from the four bytes at 7, downlink from the four
bytes at 11). When all five are in range the configuration is the stored
values and the EEPROM object is untouched (no write). Otherwise the whole
configuration is SF 7, bandwidth 9, coding rate 2, uplink 173,500,000 and
downlink 149,500,000; the EEPROM then reads back exactly these five values,
every write made is one of the eleven default bytes, and no other cell
changes. In both cases the SPI traffic happens after the EEPROM traffic, in
one `configure_modem_internal` call that writes RegOpMode, RegModemConfig1 and
RegModemConfig2 once each (after the two detection transfers when the spread
factor is 6). -/
theorem boot_validation (l : Lora) (hk : Lora.keys_created l) :
    ∃ l1 l2 r, Lora.read_settings l = some l1 ∧
      l1.spread_factor = ((Memory.EEPROM_byte_Read l.eeprom 1 0 : Nat) : Int) ∧
      l1.bandwidth = ((Memory.EEPROM_byte_Read l.eeprom 1 1 : Nat) : Int) ∧
      l1.coding_rate = ((Memory.EEPROM_byte_Read l.eeprom 1 2 : Nat) : Int) ∧
      l1.uplink_frequency = Memory.EEPROM_byte_Read l.eeprom 4 7 ∧
      l1.downlink_frequency = Memory.EEPROM_byte_Read l.eeprom 4 11 ∧
      Lora.check_already_store_data l = some r ∧
      (Lora.in_range l1 →
        r.spread_factor = l1.spread_factor ∧ r.bandwidth = l1.bandwidth ∧
        r.coding_rate = l1.coding_rate ∧ r.uplink_frequency = l1.uplink_frequency ∧
        r.downlink_frequency = l1.downlink_frequency ∧ r.eeprom = l.eeprom) ∧
      (¬ Lora.in_range l1 →
        r.spread_factor = 7 ∧ r.bandwidth = 9 ∧ r.coding_rate = 2 ∧
        r.uplink_frequency = 173500000 ∧ r.downlink_frequency = 149500000 ∧
        r.eeprom.value_addr = l.eeprom.value_addr ∧
        Memory.EEPROM_byte_Read r.eeprom 1 0 = 7 ∧
        Memory.EEPROM_byte_Read r.eeprom 1 1 = 9 ∧
        Memory.EEPROM_byte_Read r.eeprom 1 2 = 2 ∧
        Memory.EEPROM_byte_Read r.eeprom 4 7 = 173500000 ∧
        Memory.EEPROM_byte_Read r.eeprom 4 11 = 149500000 ∧
        (∀ a, a ∉ [0, 1, 2, 7, 8, 9, 10, 11, 12, 13, 14] →
          r.eeprom.cells a = l.eeprom.cells a) ∧
        (∀ w ∈ r.eeprom.writes, w ∈ l.eeprom.writes ∨
          w ∈ [(0, 7), (1, 9), (2, 2), (11, 96), (12, 48), (13, 233), (14, 8), (7, 96),
            (8, 102), (9, 87), (10, 10)])) ∧
      l2.spi_log = l.spi_log ∧ l2.eeprom = r.eeprom ∧
      Lora.configure_modem_internal l2 = some r ∧
      r.spi_log = l.spi_log ++
        (if r.spread_factor = 6
          then [SpiOp.receive 0x31 1, SpiOp.transmit [0xB7, 0x0C]] else []) ++
        [SpiOp.transmit [0x81, 0x88],
          SpiOp.transmit [0x9D,
            (((toUint8 r.bandwidth <<< 4) % 256 ||| (toUint8 r.coding_rate <<< 1)) % 256 |||
              toUint8 r.header_mode) % 256],
          SpiOp.transmit [0x9E,
            (((toUint8 r.spread_factor <<< 4) % 256 ||| (toUint8 0 <<< 2)) % 256 |||
              (if r.spread_factor = 6 then 0x03 else 0x00)) % 256]] := by
  have hread := Lora.read_settings_eq l hk
  have hcheck := Lora.check_already_store_data_eq l _ hread
  by_cases hin : Lora.in_range { l with
      spread_factor := ((Memory.EEPROM_byte_Read l.eeprom 1 0 : Nat) : Int)
      bandwidth := ((Memory.EEPROM_byte_Read l.eeprom 1 1 : Nat) : Int)
      coding_rate := ((Memory.EEPROM_byte_Read l.eeprom 1 2 : Nat) : Int)
      downlink_frequency := Memory.EEPROM_byte_Read l.eeprom 4 11
      uplink_frequency := Memory.EEPROM_byte_Read l.eeprom 4 7 }
  · rw [if_pos hin] at hcheck
    obtain ⟨r, hr, hsf, hbw, hcr, hup, hdw, hee, _, _, _, _, _, _, _, hlog⟩ :=
      Lora.configure_modem_internal_spec { l with
        spread_factor := ((Memory.EEPROM_byte_Read l.eeprom 1 0 : Nat) : Int)
        bandwidth := ((Memory.EEPROM_byte_Read l.eeprom 1 1 : Nat) : Int)
        coding_rate := ((Memory.EEPROM_byte_Read l.eeprom 1 2 : Nat) : Int)
        downlink_frequency := Memory.EEPROM_byte_Read l.eeprom 4 11
        uplink_frequency := Memory.EEPROM_byte_Read l.eeprom 4 7 }
    have hsf1 : ¬ (((Memory.EEPROM_byte_Read l.eeprom 1 0 : Nat) : Int) < 6 ∨
        ((Memory.EEPROM_byte_Read l.eeprom 1 0 : Nat) : Int) > 12) := by
      have := hin.1
      dsimp only at this
      omega
    dsimp only at hsf
    rw [if_neg hsf1] at hsf
    exact ⟨_, { l with
        spread_factor := ((Memory.EEPROM_byte_Read l.eeprom 1 0 : Nat) : Int)
        bandwidth := ((Memory.EEPROM_byte_Read l.eeprom 1 1 : Nat) : Int)
        coding_rate := ((Memory.EEPROM_byte_Read l.eeprom 1 2 : Nat) : Int)
        downlink_frequency := Memory.EEPROM_byte_Read l.eeprom 4 11
        uplink_frequency := Memory.EEPROM_byte_Read l.eeprom 4 7 }, r, hread, rfl, rfl, rfl, rfl, rfl, hcheck.trans hr,
      fun _ => ⟨hsf, hbw, hcr, hup, hdw, hee⟩, fun hn => absurd hin hn,
      rfl, hee.symm, hr, hlog⟩
  · rw [if_neg hin] at hcheck
    have hsave := Lora.save_settings_defaults l hk
    have hsave1 : Lora.save_settings { ({ l with
        spread_factor := ((Memory.EEPROM_byte_Read l.eeprom 1 0 : Nat) : Int)
        bandwidth := ((Memory.EEPROM_byte_Read l.eeprom 1 1 : Nat) : Int)
        coding_rate := ((Memory.EEPROM_byte_Read l.eeprom 1 2 : Nat) : Int)
        downlink_frequency := Memory.EEPROM_byte_Read l.eeprom 4 11
        uplink_frequency := Memory.EEPROM_byte_Read l.eeprom 4 7 } : Lora) with
        spread_factor := 7, bandwidth := 9, coding_rate := 2
        uplink_frequency := 173500000, downlink_frequency := 149500000 } = _ := hsave
    rw [hsave1] at hcheck
    obtain ⟨r, hr, hsf, hbw, hcr, hup, hdw, hee, _, _, _, _, _, _, _, hlog⟩ :=
      Lora.configure_modem_internal_spec { l with
        spread_factor := 7, bandwidth := 9, coding_rate := 2
        uplink_frequency := 173500000, downlink_frequency := 149500000
        eeprom := (
          Memory.EEPROM_Write (Memory.EEPROM_Write (Memory.EEPROM_Write (Memory.EEPROM_Write
          (Memory.EEPROM_Write (Memory.EEPROM_Write (Memory.EEPROM_Write (Memory.EEPROM_Write
          (Memory.EEPROM_Write (Memory.EEPROM_Write (Memory.EEPROM_Write l.eeprom
          0 7) 1 9) 2 2) 11 96) 12 48) 13 233) 14 8) 7 96) 8 102) 9 87) 10 10) }
    have h7 : ¬ ((7 : Int) < 6 ∨ (7 : Int) > 12) := by decide
    dsimp only at hsf
    rw [if_neg h7] at hsf
    obtain ⟨w1, w2, w3, w4, w5, w6, w7, w8⟩ := Memory.default_writes l.eeprom
    refine ⟨_, { l with
        spread_factor := 7, bandwidth := 9, coding_rate := 2
        uplink_frequency := 173500000, downlink_frequency := 149500000
        eeprom := (
          Memory.EEPROM_Write (Memory.EEPROM_Write (Memory.EEPROM_Write (Memory.EEPROM_Write
          (Memory.EEPROM_Write (Memory.EEPROM_Write (Memory.EEPROM_Write (Memory.EEPROM_Write
          (Memory.EEPROM_Write (Memory.EEPROM_Write (Memory.EEPROM_Write l.eeprom
          0 7) 1 9) 2 2) 11 96) 12 48) 13 233) 14 8) 7 96) 8 102) 9 87) 10 10) }, r, hread, rfl, rfl, rfl, rfl, rfl, hcheck.trans hr,
      fun hy => absurd hy hin, fun _ => ?_, rfl, hee.symm, hr, hlog⟩
    dsimp only at hee hbw hcr hup hdw
    rw [hee]
    exact ⟨hsf, hbw, hcr, hup, hdw, w1, w2, w3, w4, w5, w6, w7, w8⟩

set_option maxRecDepth 100000 in
/-- Witness of C20: a driver constructed on an erased EEPROM (every byte 0xFF, empty
key table): the stored spread factor reads 255, so the defaults are adopted,
eleven bytes are written, and the modem registers are written once. -/
theorem boot_validation_witness :
    Lora.keys_created (Lora.create_keys ⟨0, [], ⟨[], fun _ => 0xFF, []⟩, 0, 0, 0, 0, 0, 0,
      0, 0, 0, 0, 0, 0⟩) ∧
    (Lora.check_already_store_data (Lora.create_keys ⟨0, [], ⟨[], fun _ => 0xFF, []⟩,
        0, 0, 0, 0, 0, 0, 0, 0, 0, 0, 0, 0⟩)).map
        (fun r => (r.spread_factor, r.bandwidth, r.coding_rate)) = some (7, 9, 2) ∧
    (Lora.check_already_store_data (Lora.create_keys ⟨0, [], ⟨[], fun _ => 0xFF, []⟩,
        0, 0, 0, 0, 0, 0, 0, 0, 0, 0, 0, 0⟩)).map
        (fun r => (r.uplink_frequency, r.downlink_frequency)) =
      some (173500000, 149500000) ∧
    (Lora.check_already_store_data (Lora.create_keys ⟨0, [], ⟨[], fun _ => 0xFF, []⟩,
        0, 0, 0, 0, 0, 0, 0, 0, 0, 0, 0, 0⟩)).map (fun r => r.spi_log) =
      some [SpiOp.transmit [0x81, 0x88], SpiOp.transmit [0x9D, 0x94],
        SpiOp.transmit [0x9E, 0x70]] ∧
    (Lora.check_already_store_data (Lora.create_keys ⟨0, [], ⟨[], fun _ => 0xFF, []⟩,
        0, 0, 0, 0, 0, 0, 0, 0, 0, 0, 0, 0⟩)).map (fun r => r.eeprom.writes) =
      some [(0, 7), (1, 9), (2, 2), (11, 96), (12, 48), (13, 233), (14, 8), (7, 96),
        (8, 102), (9, 87), (10, 10)] ∧
    ∃ r, Lora.check_already_store_data (Lora.create_keys ⟨0, [], ⟨[], fun _ => 0xFF, []⟩,
        0, 0, 0, 0, 0, 0, 0, 0, 0, 0, 0, 0⟩) = some r :=
  ⟨by decide, by decide, by decide, by decide, by decide,
    (boot_validation (Lora.create_keys ⟨0, [], ⟨[], fun _ => 0xFF, []⟩, 0, 0, 0, 0, 0, 0,
      0, 0, 0, 0, 0, 0⟩) (by decide)).elim
      fun _ h1 => h1.elim fun _ h2 => h2.elim fun r h => ⟨r, h.2.2.2.2.2.2.1⟩⟩

/-! ## Persisted settings -/

theorem shiftLeft_8_or (a b : Nat) (hb : b < 256) : (a <<< 8) ||| b = a * 256 + b := by
  rw [Nat.shiftLeft_eq, Nat.mul_comm a (2 ^ 8), ← Nat.mul_add_lt_is_or (show b < 2 ^ 8 from hb) a]

theorem shiftLeft_8_mod (a : Nat) : (a <<< 8) % 2 ^ 32 = (a % 2 ^ 24) <<< 8 := by
  rw [Nat.shiftLeft_eq, Nat.shiftLeft_eq]
  omega

/-- The four bytes `EEPROM_byte_Write` stores, put together the way
`EEPROM_byte_Read` does, give the 32-bit value back. -/
theorem recombine32 (v : Nat) (hv : v < 2 ^ 32) :
    (((((((v >>> 8 >>> 8 >>> 8) % 256) <<< 8) % 2 ^ 32 ||| (v >>> 8 >>> 8) % 256) <<< 8) %
      2 ^ 32 ||| (v >>> 8) % 256) <<< 8) % 2 ^ 32 ||| v % 256 = v := by
  rw [shiftLeft_8_mod, shiftLeft_8_mod, shiftLeft_8_mod,
    shiftLeft_8_or _ _ (Nat.mod_lt _ (by decide)),
    shiftLeft_8_or _ _ (Nat.mod_lt _ (by decide)),
    shiftLeft_8_or _ _ (Nat.mod_lt _ (by decide))]
  simp only [Nat.shiftRight_eq_div_pow]
  omega

namespace Memory

theorem EEPROM_Read_Write_mod (m : Memory) (a d b : Nat) :
    EEPROM_Read (EEPROM_Write m a (d % 256)) b =
      if b = a then d % 256 else EEPROM_Read m b :=
  EEPROM_Read_Write m a (d % 256) b (Nat.mod_lt _ (by decide))

/-- Reading a 32-bit value back from the four bytes just written for it. -/
theorem EEPROM_byte_Read_Write_four (m : Memory) (address v : Nat) (hv : v < 2 ^ 32) :
    EEPROM_byte_Read (EEPROM_byte_Write m 4 address v) 4 address = v := by
  have h01 : address % 256 ≠ (address + 1) % 256 := by omega
  have h02 : address % 256 ≠ (address + 2) % 256 := by omega
  have h03 : address % 256 ≠ (address + 3) % 256 := by omega
  have h12 : (address + 1) % 256 ≠ (address + 2) % 256 := by omega
  have h13 : (address + 1) % 256 ≠ (address + 3) % 256 := by omega
  have h23 : (address + 2) % 256 ≠ (address + 3) % 256 := by omega
  have hb : ∀ x : Nat, (x &&& 0xff) % 256 = x % 256 := fun x => by
    rw [and_0xFF]
    exact Nat.mod_mod _ _
  rw [EEPROM_byte_Read_four]
  simp only [EEPROM_byte_Write, EEPROM_byte_Write_loop, Nat.add_zero, Nat.zero_add, hb,
    EEPROM_Read_Write_mod, if_true, if_neg h01, if_neg h02, if_neg h03, if_neg h12, if_neg h13,
    if_neg h23, if_neg h01.symm, if_neg h02.symm, if_neg h03.symm, if_neg h12.symm,
    if_neg h13.symm, if_neg h23.symm]
  exact recombine32 v hv

/-- Reading a byte back from the byte just written for it. -/
theorem EEPROM_byte_Read_Write_one (m : Memory) (address v : Nat) (hv : v < 256) :
    EEPROM_byte_Read (EEPROM_byte_Write m 1 address v) 1 address = v := by
  have hb : (v &&& 0xff) % 256 = v % 256 := by
    rw [and_0xFF]
    exact Nat.mod_mod _ _
  rw [EEPROM_byte_Read_one]
  simp only [EEPROM_byte_Write, EEPROM_byte_Write_loop, Nat.add_zero, hb,
    EEPROM_Read_Write_mod, if_true]
  exact Nat.mod_eq_of_lt hv

theorem getValue_setValue (m : Memory) (size key value : Nat) (loc : MemoryLocation)
    (h : m.value_addr[key]? = some loc) (hs : size = loc.size) :
    getValue (setValue m size key value) size key =
      some (EEPROM_byte_Read (EEPROM_byte_Write m size loc.address value) size loc.address) := by
  have hlt : m.value_addr.length > key := by
    by_contra hge
    rw [List.getElem?_eq_none (by omega)] at h
    exact absurd h (by simp)
  have hw : ∀ (n i d : Nat) (m1 : Memory),
      (EEPROM_byte_Write_loop loc.address n i d m1).value_addr = m1.value_addr := by
    intro n
    induction n with
    | zero => intro i d m1; rfl
    | succ n ih =>
      intro i d m1
      simp only [EEPROM_byte_Write_loop]
      rw [ih, EEPROM_Write_value_addr]
  have hset : setValue m size key value = EEPROM_byte_Write m size loc.address value := by
    simp only [setValue, hlt, if_true, h, hs]
  rw [hset]
  exact getValue_of_key _ size key loc (by
    unfold EEPROM_byte_Write
    rw [hw]
    exact h)

end Memory

namespace Lora

/-- What `read_settings` finds in the EEPROM `save_settings` has written. -/
theorem saved_reads (l : Lora) (hk : keys_created l)
    (hup : l.uplink_frequency < 2 ^ 32) (hdw : l.downlink_frequency < 2 ^ 32) :
    Memory.EEPROM_byte_Read (save_settings l).eeprom 1 0 = toUint8 l.spread_factor ∧
    Memory.EEPROM_byte_Read (save_settings l).eeprom 1 1 = toUint8 l.bandwidth ∧
    Memory.EEPROM_byte_Read (save_settings l).eeprom 1 2 = toUint8 l.coding_rate ∧
    Memory.EEPROM_byte_Read (save_settings l).eeprom 4 11 = l.downlink_frequency ∧
    Memory.EEPROM_byte_Read (save_settings l).eeprom 4 7 = l.uplink_frequency ∧
    (save_settings l).eeprom.value_addr = l.eeprom.value_addr := by
  have hu8 : ∀ i : Int, toUint8 i % 256 = toUint8 i := fun i => by
    unfold toUint8
    omega
  rw [save_settings_eq l hk]
  dsimp only
  rw [Nat.mod_eq_of_lt hup, Nat.mod_eq_of_lt hdw]
  refine ⟨?_, ?_, ?_, ?_, ?_, ?_⟩
  · rw [Memory.EEPROM_byte_Read_one]
    simp only [Memory.EEPROM_Read_Write_mod]
    simp [hu8]
  · rw [Memory.EEPROM_byte_Read_one]
    simp only [Memory.EEPROM_Read_Write_mod]
    simp [hu8]
  · rw [Memory.EEPROM_byte_Read_one]
    simp only [Memory.EEPROM_Read_Write_mod]
    simp [hu8]
  · rw [Memory.EEPROM_byte_Read_four]
    simp only [Memory.EEPROM_Read_Write_mod]
    simp only [Nat.reduceAdd, Nat.reduceMod, Nat.reduceEqDiff, if_true, if_false]
    exact recombine32 _ hdw
  · rw [Memory.EEPROM_byte_Read_four]
    simp only [Memory.EEPROM_Read_Write_mod]
    simp only [Nat.reduceAdd, Nat.reduceMod, Nat.reduceEqDiff, if_true, if_false]
    exact recombine32 _ hup
  · simp only [Memory.EEPROM_Write_value_addr]

end Lora

/-- C21: on the constructor's keys and an ideal EEPROM, for every configuration
whose three enumeration fields hold a value 0..255 (what `save_settings` keeps of
them is the `uint8_t` cast) and whose frequencies are 32-bit values,
`save_settings` followed by `read_settings` - on any driver state that has the
saved EEPROM - returns and restores exactly the same spread factor, bandwidth,
coding rate, uplink and downlink frequency. The slots do not overlap, and
`getValue<uint32_t>(k)` after `setValue(k, v)` yields `v` for every 32-bit `v`
and every 4-byte slot, as `getValue<uint8_t>` does for every byte and 1-byte
slot. -/
theorem save_read_roundtrip (l : Lora) (hk : Lora.keys_created l)
    (hsf : 0 ≤ l.spread_factor ∧ l.spread_factor ≤ 255)
    (hbw : 0 ≤ l.bandwidth ∧ l.bandwidth ≤ 255)
    (hcr : 0 ≤ l.coding_rate ∧ l.coding_rate ≤ 255)
    (hup : l.uplink_frequency < 2 ^ 32) (hdw : l.downlink_frequency < 2 ^ 32) :
    (∀ l2 : Lora, l2.eeprom = (Lora.save_settings l).eeprom →
      l2.sf_key = l.sf_key → l2.bw_key = l.bw_key → l2.cr_key = l.cr_key →
      l2.frq_key = l.frq_key → l2.frq_up_key = l.frq_up_key → l2.frq_dw_key = l.frq_dw_key →
      ∃ r, Lora.read_settings l2 = some r ∧
        r.spread_factor = l.spread_factor ∧ r.bandwidth = l.bandwidth ∧
        r.coding_rate = l.coding_rate ∧ r.uplink_frequency = l.uplink_frequency ∧
        r.downlink_frequency = l.downlink_frequency) ∧
    (∀ (m : Memory) (key address v : Nat), m.value_addr[key]? = some ⟨address, 4⟩ →
      v < 2 ^ 32 → Memory.getValue (Memory.setValue m 4 key v) 4 key = some v) ∧
    (∀ (m : Memory) (key address v : Nat), m.value_addr[key]? = some ⟨address, 1⟩ →
      v < 256 → Memory.getValue (Memory.setValue m 1 key v) 1 key = some v) := by
  refine ⟨?_, ?_, ?_⟩
  · intro l2 he h1 h2 h3 h4 h5 h6
    obtain ⟨r0, r1, r2, r3, r4, hva⟩ := Lora.saved_reads l hk hup hdw
    have hk2 : Lora.keys_created l2 := by
      obtain ⟨hv, k1, k2, k3, k4, k5, k6⟩ := hk
      exact ⟨by rw [he, hva, hv], by rw [h1, k1], by rw [h2, k2], by rw [h3, k3],
        by rw [h4, k4], by rw [h5, k5], by rw [h6, k6]⟩
    refine ⟨_, Lora.read_settings_eq l2 hk2, ?_, ?_, ?_, ?_, ?_⟩
    · show ((Memory.EEPROM_byte_Read l2.eeprom 1 0 : Nat) : Int) = l.spread_factor
      rw [he, r0]
      unfold toUint8
      omega
    · show ((Memory.EEPROM_byte_Read l2.eeprom 1 1 : Nat) : Int) = l.bandwidth
      rw [he, r1]
      unfold toUint8
      omega
    · show ((Memory.EEPROM_byte_Read l2.eeprom 1 2 : Nat) : Int) = l.coding_rate
      rw [he, r2]
      unfold toUint8
      omega
    · show Memory.EEPROM_byte_Read l2.eeprom 4 7 = l.uplink_frequency
      rw [he, r4]
    · show Memory.EEPROM_byte_Read l2.eeprom 4 11 = l.downlink_frequency
      rw [he, r3]
  · intro m key address v h hv
    rw [Memory.getValue_setValue m 4 key v ⟨address, 4⟩ h rfl,
      Memory.EEPROM_byte_Read_Write_four m address v hv]
  · intro m key address v h hv
    rw [Memory.getValue_setValue m 1 key v ⟨address, 1⟩ h rfl,
      Memory.EEPROM_byte_Read_Write_one m address v hv]

set_option maxRecDepth 100000 in
/-- Witness of C21: a driver constructed on an erased EEPROM, holding SF 8,
bandwidth 7, coding rate 1, uplink 175,000,000 and downlink 150,000,000, saves
its settings; a driver with the default fields and that EEPROM reads them
back. -/
theorem save_read_roundtrip_witness :
    Lora.keys_created (Lora.create_keys ⟨0, [], ⟨[], fun _ => 0xFF, []⟩, 8, 7, 1, 150000000,
      175000000, 0, 0, 0, 0, 0, 0, 0⟩) ∧
    (Lora.read_settings (Lora.save_settings (Lora.create_keys ⟨0, [],
        ⟨[], fun _ => 0xFF, []⟩, 8, 7, 1, 150000000, 175000000, 0, 0, 0, 0, 0, 0, 0⟩))).map
        (fun r => (r.spread_factor, r.bandwidth, r.coding_rate)) = some (8, 7, 1) ∧
    (Lora.read_settings (Lora.save_settings (Lora.create_keys ⟨0, [],
        ⟨[], fun _ => 0xFF, []⟩, 8, 7, 1, 150000000, 175000000, 0, 0, 0, 0, 0, 0, 0⟩))).map
        (fun r => (r.uplink_frequency, r.downlink_frequency)) =
      some (175000000, 150000000) ∧
    ∃ r, Lora.read_settings (Lora.save_settings (Lora.create_keys ⟨0, [],
        ⟨[], fun _ => 0xFF, []⟩, 8, 7, 1, 150000000, 175000000, 0, 0, 0, 0, 0, 0, 0⟩)) =
        some r ∧ r.uplink_frequency = 175000000 :=
  ⟨by decide, by decide, by decide,
    ((save_read_roundtrip (Lora.create_keys ⟨0, [], ⟨[], fun _ => 0xFF, []⟩, 8, 7, 1,
        150000000, 175000000, 0, 0, 0, 0, 0, 0, 0⟩) (by decide) (by decide) (by decide)
        (by decide) (by decide) (by decide)).1
      (Lora.save_settings (Lora.create_keys ⟨0, [], ⟨[], fun _ => 0xFF, []⟩, 8, 7, 1,
        150000000, 175000000, 0, 0, 0, 0, 0, 0, 0⟩)) rfl rfl rfl rfl rfl rfl rfl).elim
      fun r h => ⟨r, h.1, h.2.2.2.2.1⟩⟩

/-! ## Carrier frequency registers -/

/-- C22: for every 32-bit frequency `f`, `set_carrier_frquency` makes one SPI
write starting at RegFrMsb (address byte 0x86) of the three bytes
`(r >> 16) & 0xFF`, `(r >> 8) & 0xFF`, `r & 0xFF`, where
`r = floor(f * 2^19 / 32,000,000)`, the 64-bit product not overflowing; and for
every `f` the setters accept (145,000,000..160,000,000 and
170,000,000..185,000,000) `r < 2^24`, so the three bytes are `r` in big-endian
order with nothing cut off. -/
theorem set_carrier_frquency_registers (l : Lora) (f : Nat) (hf : f < 2 ^ 32) :
    f <<< 19 < 2 ^ 64 ∧
    Lora.set_carrier_frquency l f = some { l with
      spi_log := l.spi_log ++ [SpiOp.transmit [0x86,
        ((f * 2 ^ 19 / 32000000) >>> 16) &&& 0xFF,
        ((f * 2 ^ 19 / 32000000) >>> 8) &&& 0xFF,
        (f * 2 ^ 19 / 32000000) &&& 0xFF]] } ∧
    ((145000000 ≤ f ∧ f ≤ 160000000) ∨ (170000000 ≤ f ∧ f ≤ 185000000) →
      f * 2 ^ 19 / 32000000 < 2 ^ 24 ∧
      (((f * 2 ^ 19 / 32000000) >>> 16) &&& 0xFF) * 65536 +
        (((f * 2 ^ 19 / 32000000) >>> 8) &&& 0xFF) * 256 +
        ((f * 2 ^ 19 / 32000000) &&& 0xFF) = f * 2 ^ 19 / 32000000) := by
  have hs : f <<< 19 = f * 2 ^ 19 := Nat.shiftLeft_eq f 19
  have hlt : f * 2 ^ 19 < 2 ^ 64 := by omega
  refine ⟨by rw [hs]; exact hlt, ?_, ?_⟩
  · have ha : (LoraRegisters.RegFrMsb ||| 0x80) % 256 = 0x86 := by decide
    have h3 : ¬ (3 > 4) := by decide
    simp only [Lora.set_carrier_frquency, hs, Nat.mod_eq_of_lt hlt, FXOSC, Lora.write_reg_addr,
      h3, if_false, readBytes, List.length_cons, List.length_nil, Nat.reduceAdd, Nat.le_refl,
      if_true, List.take_succ_cons, List.take_zero, ha, and_0xFF, Nat.shiftRight_zero]
  · intro hacc
    have hr : f * 2 ^ 19 / 32000000 < 2 ^ 24 := by
      rcases hacc with h | h <;> omega
    refine ⟨hr, ?_⟩
    generalize f * 2 ^ 19 / 32000000 = r at hr
    simp only [and_0xFF, Nat.shiftRight_eq_div_pow]
    omega

/-- Witness of C22: 173,500,000 Hz gives `r = 0x2B6000`, written as `2B 60 00`. -/
theorem set_carrier_frquency_registers_witness :
    173500000 < 2 ^ 32 ∧
    (Lora.set_carrier_frquency ⟨0, [], ⟨[], fun _ => 0xFF, []⟩, 7, 9, 2, 149500000,
        173500000, 0, 0, 0, 0, 0, 0, 0⟩ 173500000).map (fun r => r.spi_log) =
      some [SpiOp.transmit [0x86, 0x2B, 0x60, 0x00]] ∧
    173500000 * 2 ^ 19 / 32000000 < 2 ^ 24 :=
  ⟨by decide, by decide,
    ((set_carrier_frquency_registers ⟨0, [], ⟨[], fun _ => 0xFF, []⟩, 7, 9, 2, 149500000,
      173500000, 0, 0, 0, 0, 0, 0, 0⟩ 173500000 (by decide)).2.2
      (Or.inr ⟨by decide, by decide⟩)).1⟩

/-! ## Modem configuration registers -/

theorem modem_cfg1_fields : ∀ bw < 10, ∀ cr < 5, ∀ h < 2,
    (((bw <<< 4) % 256 ||| (cr <<< 1)) % 256 ||| h) % 256 = (bw <<< 4) ||| (cr <<< 1) ||| h ∧
    ((bw <<< 4) ||| (cr <<< 1) ||| h) < 256 ∧
    ((bw <<< 4) ||| (cr <<< 1) ||| h) >>> 4 = bw ∧
    (((bw <<< 4) ||| (cr <<< 1) ||| h) >>> 1) &&& 7 = cr ∧
    ((bw <<< 4) ||| (cr <<< 1) ||| h) &&& 1 = h := by
  decide

theorem modem_cfg2_fields : ∀ sf < 13, ∀ t < 4,
    (((sf <<< 4) % 256 ||| (0 <<< 2)) % 256 ||| t) % 256 = (sf <<< 4) ||| (0 <<< 2) ||| t ∧
    ((sf <<< 4) ||| (0 <<< 2) ||| t) < 256 ∧
    ((sf <<< 4) ||| (0 <<< 2) ||| t) >>> 4 = sf := by
  decide

theorem toUint8_of_range (i : Int) (n : Nat) (h0 : 0 ≤ i) (hn : i ≤ n) (h : n < 256) :
    toUint8 i = i.toNat ∧ i.toNat ≤ n ∧ ((i.toNat : Nat) : Int) = i := by
  unfold toUint8
  omega

/-- C23: for every in-range configuration `configure_modem` returns, having
written RegOpMode with 0x88 (Sleep) and then
RegModemConfig1 = `(bandwidth << 4) | (coding_rate << 1) | h` and
RegModemConfig2 = `(spread_factor << 4) | (0 << 2) | t`, with `h = 1`, `t = 3`
when the spread factor is 6 and `h = 0`, `t = 0` otherwise (the two detection
transfers come first when the spread factor is 6). Both values are below 256
and give the fields back: `cfg1 >> 4` is the bandwidth, `(cfg1 >> 1) & 7` the
coding rate, `cfg1 & 1` the header bit, `cfg2 >> 4` the spread factor. -/
theorem configure_modem_registers (l : Lora) (h : Lora.in_range l) :
    ∃ r cfg1 cfg2 hbit t,
      Lora.configure_modem l = some r ∧
      hbit = (if l.spread_factor = 6 then 1 else 0) ∧
      t = (if l.spread_factor = 6 then 3 else 0) ∧
      cfg1 = (l.bandwidth.toNat <<< 4) ||| (l.coding_rate.toNat <<< 1) ||| hbit ∧
      cfg2 = (l.spread_factor.toNat <<< 4) ||| (0 <<< 2) ||| t ∧
      r.spi_log = l.spi_log ++
        (if l.spread_factor = 6
          then [SpiOp.receive 0x31 1, SpiOp.transmit [0xB7, 0x0C]] else []) ++
        [SpiOp.transmit [0x81, 0x88], SpiOp.transmit [0x9D, cfg1],
          SpiOp.transmit [0x9E, cfg2]] ∧
      r.operatingMode = DeviceOperatingMode.SLEEP ∧
      cfg1 < 256 ∧ cfg2 < 256 ∧
      ((cfg1 >>> 4 : Nat) : Int) = l.bandwidth ∧
      (((cfg1 >>> 1) &&& 7 : Nat) : Int) = l.coding_rate ∧
      cfg1 &&& 1 = hbit ∧
      ((cfg2 >>> 4 : Nat) : Int) = l.spread_factor := by
  obtain ⟨⟨hs6, hs12⟩, ⟨hb0, hb9⟩, ⟨hc1, hc4⟩, _, _⟩ := h
  obtain ⟨r, hr, hsf, hbw, hcr, _, _, _, _, _, _, _, _, _, hhm, hlog⟩ :=
    Lora.configure_modem_internal_spec l
  have hin : ¬ (l.spread_factor < 6 ∨ l.spread_factor > 12) := by omega
  rw [if_neg hin] at hsf
  rw [hsf] at hhm hlog
  rw [hbw, hcr, hhm] at hlog
  obtain ⟨ub, ubl, ubi⟩ := toUint8_of_range l.bandwidth 9 hb0 hb9 (by decide)
  obtain ⟨uc, ucl, uci⟩ := toUint8_of_range l.coding_rate 4 (by omega) hc4 (by decide)
  obtain ⟨us, usl, usi⟩ := toUint8_of_range l.spread_factor 12 (by omega) hs12 (by decide)
  have hu0 : toUint8 0 = 0 := by decide
  have hu1 : toUint8 1 = 1 := by decide
  rw [ub, uc, us, hu0] at hlog
  have hop : r.operatingMode = DeviceOperatingMode.SLEEP := by
    by_cases h6 : l.spread_factor = 6
    · have e := Lora.configure_modem_internal_implicit l h6
      rw [hr] at e
      rw [Option.some.inj e]
      rfl
    · have e := Lora.configure_modem_internal_explicit l hin h6
      rw [hr] at e
      rw [Option.some.inj e]
      rfl
  by_cases h6 : l.spread_factor = 6
  · have f1 := modem_cfg1_fields l.bandwidth.toNat (by omega) l.coding_rate.toNat (by omega) 1
      (by decide)
    have f2 := modem_cfg2_fields l.spread_factor.toNat (by omega) 3 (by decide)
    simp only [if_pos h6, hu1] at hlog ⊢
    rw [f1.1, f2.1] at hlog
    refine ⟨r, _, _, 1, 3, hr, rfl, rfl, rfl, rfl, hlog, hop, f1.2.1, f2.2.1, ?_, ?_,
      f1.2.2.2.2, ?_⟩
    · rw [f1.2.2.1]; exact ubi
    · rw [f1.2.2.2.1]; exact uci
    · rw [f2.2.2]; exact usi
  · have f1 := modem_cfg1_fields l.bandwidth.toNat (by omega) l.coding_rate.toNat (by omega) 0
      (by decide)
    have f2 := modem_cfg2_fields l.spread_factor.toNat (by omega) 0 (by decide)
    simp only [if_neg h6, hu0] at hlog ⊢
    rw [f1.1, f2.1] at hlog
    refine ⟨r, _, _, 0, 0, hr, rfl, rfl, rfl, rfl, hlog, hop, f1.2.1, f2.2.1, ?_, ?_,
      f1.2.2.2.2, ?_⟩
    · rw [f1.2.2.1]; exact ubi
    · rw [f1.2.2.2.1]; exact uci
    · rw [f2.2.2]; exact usi

set_option maxRecDepth 10000 in
/-- Witness of C23: SF 7, bandwidth 9, coding rate 2 give
RegModemConfig1 = 0x94 and RegModemConfig2 = 0x70. -/
theorem configure_modem_registers_witness :
    Lora.in_range ⟨0, [], ⟨[], fun _ => 0xFF, []⟩, 7, 9, 2, 149500000, 173500000, 0,
      0, 0, 0, 0, 0, 0⟩ ∧
    (Lora.configure_modem ⟨0, [], ⟨[], fun _ => 0xFF, []⟩, 7, 9, 2, 149500000, 173500000, 0,
        0, 0, 0, 0, 0, 0⟩).map (fun r => r.spi_log) =
      some [SpiOp.transmit [0x81, 0x88], SpiOp.transmit [0x9D, 0x94],
        SpiOp.transmit [0x9E, 0x70]] ∧
    ∃ r, Lora.configure_modem ⟨0, [], ⟨[], fun _ => 0xFF, []⟩, 7, 9, 2, 149500000,
        173500000, 0, 0, 0, 0, 0, 0, 0⟩ = some r :=
  ⟨by decide, by decide,
    (configure_modem_registers ⟨0, [], ⟨[], fun _ => 0xFF, []⟩, 7, 9, 2, 149500000,
      173500000, 0, 0, 0, 0, 0, 0, 0⟩ (by decide)).elim fun r hr =>
      hr.elim fun _ h1 => h1.elim fun _ h2 => h2.elim fun _ h3 => h3.elim fun _ h4 =>
        ⟨r, h4.1⟩⟩

/-! ## Detection registers and operating mode -/

set_option maxRecDepth 10000 in
/-- C24: `configure_modem` returns, and afterwards `header_mode` is IMPLICIT if
and only if the spread factor is 6. With spread factor 6 the transfers it adds
are a read of RegDetectOptimize (0x31), a write of 0x0C to
RegDetectionThreshold (address byte 0xB7), then the three configuration
writes: no write to RegDetectOptimize (address byte 0xB1) is among them, the
value `(tmp & 0xF8) | 0x05` being computed and dropped. With another spread
factor neither register is written. On the configuration SF 6, bandwidth 9,
coding rate 2 the whole trace is
`read 0x31; B7 0C; 81 88; 9D 95; 9E 63`. -/
theorem configure_modem_detection (l : Lora) :
    (∃ r added, Lora.configure_modem l = some r ∧ r.spi_log = l.spi_log ++ added ∧
      (r.header_mode = LoraHeaderMode.IMPLICIT ↔ r.spread_factor = 6) ∧
      (∀ data, SpiOp.transmit (0xB1 :: data) ∉ added) ∧
      (r.spread_factor = 6 →
        SpiOp.receive 0x31 1 ∈ added ∧ SpiOp.transmit [0xB7, 0x0C] ∈ added) ∧
      (r.spread_factor ≠ 6 → ∀ data, SpiOp.transmit (0xB7 :: data) ∉ added)) ∧
    (Lora.configure_modem ⟨0, [], ⟨[], fun _ => 0xFF, []⟩, 6, 9, 2, 149500000, 173500000, 0,
        0, 0, 0, 0, 0, 0⟩).map (fun r => (r.spi_log, r.header_mode)) =
      some ([SpiOp.receive 0x31 1, SpiOp.transmit [0xB7, 0x0C], SpiOp.transmit [0x81, 0x88],
        SpiOp.transmit [0x9D, 0x95], SpiOp.transmit [0x9E, 0x63]], 1) := by
  refine ⟨?_, by decide⟩
  obtain ⟨r, hr, _, _, _, _, _, _, _, _, _, _, _, _, hhm, hlog⟩ :=
    Lora.configure_modem_internal_spec l
  rw [List.append_assoc] at hlog
  refine ⟨r, _, hr, hlog, ?_, ?_, ?_, ?_⟩
  · rw [hhm]
    by_cases h6 : r.spread_factor = 6
    · rw [if_pos h6]
      exact ⟨fun _ => h6, fun _ => rfl⟩
    · rw [if_neg h6]
      exact ⟨fun h => absurd h (by decide), fun h => absurd h h6⟩
  · intro data hmem
    by_cases h6 : r.spread_factor = 6
    · rw [if_pos h6] at hmem
      simp at hmem
    · rw [if_neg h6] at hmem
      simp at hmem
  · intro h6
    rw [if_pos h6]
    exact ⟨by simp, by simp⟩
  · intro h6 data hmem
    rw [if_neg h6] at hmem
    simp at hmem

theorem op_mode_values : ∀ m : Nat, m < 8 →
    (Lora.LORA_MODE_ACTIVATION ||| Lora.LOW_FREQUENCY_MODE ||| toUint8 (m : Int)) % 256 =
      0x80 ||| 0x08 ||| m ∧
    (0x80 ||| 0x08 ||| m) < 256 ∧
    (0x80 ||| 0x08 ||| m) &&& 0x07 = m ∧
    ((0x80 ||| 0x08 ||| m) &&& 0x07 = toUint8 DeviceOperatingMode.RX_CONTINUOUS ↔
      (m : Int) = DeviceOperatingMode.RX_CONTINUOUS) := by
  decide

/-- C25: for each of the eight `DeviceOperatingMode` values `m` (0..7),
`set_low_frequency_mode(m)` makes exactly one SPI write, to RegOpMode (address
byte 0x81), with the value `0x80 | 0x08 | m`, and sets the tracked
`operatingMode` to `m`, changing nothing else; the low three bits of the value
are `m`, so `(op_mode & 0x07) == RX_CONTINUOUS` holds exactly for the value
written for RxContinuous. -/
theorem set_low_frequency_mode_register (l : Lora) (m : Nat) (hm : m < 8) :
    Lora.set_low_frequency_mode l (m : Int) = some { l with
      operatingMode := (m : Int)
      spi_log := l.spi_log ++ [SpiOp.transmit [0x81, 0x80 ||| 0x08 ||| m]] } ∧
    (0x80 ||| 0x08 ||| m) < 256 ∧
    (0x80 ||| 0x08 ||| m) &&& 0x07 = m ∧
    ((0x80 ||| 0x08 ||| m) &&& 0x07 = toUint8 DeviceOperatingMode.RX_CONTINUOUS ↔
      (m : Int) = DeviceOperatingMode.RX_CONTINUOUS) := by
  obtain ⟨h1, h2, h3, h4⟩ := op_mode_values m hm
  have ha : (LoraRegisters.RegOpMode ||| 0x80) % 256 = 0x81 := by decide
  refine ⟨?_, h2, h3, h4⟩
  simp only [Lora.set_low_frequency_mode, Lora.write_8bit_reg, Lora.write_reg_addr_one, h1, ha]

/-- Witness of C25: RxContinuous (5) is written as 0x8D. -/
theorem set_low_frequency_mode_register_witness :
    (5 : Nat) < 8 ∧
    (Lora.set_low_frequency_mode ⟨0, [], ⟨[], fun _ => 0xFF, []⟩, 7, 9, 2, 149500000,
        173500000, 0, 0, 0, 0, 0, 0, 0⟩ DeviceOperatingMode.RX_CONTINUOUS).map
        (fun r => (r.spi_log, r.operatingMode)) = some ([SpiOp.transmit [0x81, 0x8D]], 5) ∧
    (0x80 ||| 0x08 ||| 5) &&& 0x07 = 5 :=
  ⟨by decide, by decide,
    (set_low_frequency_mode_register ⟨0, [], ⟨[], fun _ => 0xFF, []⟩, 7, 9, 2, 149500000,
      173500000, 0, 0, 0, 0, 0, 0, 0⟩ 5 (by decide)).2.2.1⟩

/-! ## IRQ polling -/

namespace Lora

theorem read_8bit_reg_eq (l : Lora) (reg answer : Nat) :
    read_8bit_reg l reg answer =
      (answer % 256, { l with spi_log := l.spi_log ++ [SpiOp.receive reg 1] }) := by
  have h0 : ¬ (1 ≤ 0) := by decide
  simp only [read_8bit_reg, read_reg_addr, h0, if_false, if_true]

/-- A poll that sees a bit of `mask`: the loop returns 0 after writing `mask` to
RegIrqFlags and reading RegOcp. -/
theorem wait_irq_loop_match (mask timeout timeStart lastTxTime ocp f timeEnd : Nat)
    (flags ticks : List Nat) (l : Lora) (hf : f % 256 &&& mask ≠ 0) :
    wait_irq_loop mask timeout timeStart lastTxTime ocp (f :: flags) (timeEnd :: ticks) l =
      some (0, (timeEnd % 2 ^ 32 + 2 ^ 32 - timeStart) % 2 ^ 32, { l with
        spi_log := l.spi_log ++
          [SpiOp.receive 0x12 1, SpiOp.transmit [0x92, mask], SpiOp.receive 0x0B 1] }) := by
  have ha : ((0x12 : Nat) ||| 0x80) % 256 = 0x92 := by decide
  simp only [wait_irq_loop, read_8bit_reg_eq, hf, ne_eq, not_false_eq_true, if_true,
    write_8bit_reg, write_reg_addr_one, LoraRegisters.RegIrqFlags, LoraRegisters.RegOcp, ha,
    List.append_assoc, List.singleton_append, List.cons_append, List.nil_append]

/-- A poll that sees no bit of `mask`, past the timeout: the loop returns -1
after reading RegOcp, with no write. -/
theorem wait_irq_loop_timeout (mask timeout timeStart lastTxTime ocp f t : Nat)
    (flags ticks : List Nat) (l : Lora) (hf : f % 256 &&& mask = 0)
    (ht : (t % 2 ^ 32 + 2 ^ 32 - timeStart) % 2 ^ 32 > timeout) :
    wait_irq_loop mask timeout timeStart lastTxTime ocp (f :: flags) (t :: ticks) l =
      some (-1, lastTxTime, { l with
        spi_log := l.spi_log ++ [SpiOp.receive 0x12 1, SpiOp.receive 0x0B 1] }) := by
  simp only [wait_irq_loop, read_8bit_reg_eq, hf, ne_eq, not_true_eq_false, if_false, ht,
    if_true, LoraRegisters.RegIrqFlags, LoraRegisters.RegOcp, List.append_assoc,
    List.singleton_append]

/-- A poll that sees no bit of `mask`, before the timeout: the loop polls
again. -/
theorem wait_irq_loop_again (mask timeout timeStart lastTxTime ocp f t : Nat)
    (flags ticks : List Nat) (l : Lora) (hf : f % 256 &&& mask = 0)
    (ht : ¬ (t % 2 ^ 32 + 2 ^ 32 - timeStart) % 2 ^ 32 > timeout) :
    wait_irq_loop mask timeout timeStart lastTxTime ocp (f :: flags) (t :: ticks) l =
      wait_irq_loop mask timeout timeStart lastTxTime ocp flags ticks
        { l with spi_log := l.spi_log ++ [SpiOp.receive 0x12 1] } := by
  simp only [wait_irq_loop, read_8bit_reg_eq, hf, ne_eq, not_true_eq_false, if_false, ht,
    LoraRegisters.RegIrqFlags]

/-- Polls that see no bit of `mask` before the timeout are skipped, each leaving
one read of RegIrqFlags in the trace. -/
theorem wait_irq_loop_skip (mask timeout timeStart lastTxTime ocp : Nat) (pre tpre : List Nat)
    (hlen : tpre.length = pre.length) (hpre : ∀ x ∈ pre, x % 256 &&& mask = 0)
    (hno : ∀ x ∈ tpre, ¬ (x % 2 ^ 32 + 2 ^ 32 - timeStart) % 2 ^ 32 > timeout)
    (flags ticks : List Nat) (l : Lora) :
    wait_irq_loop mask timeout timeStart lastTxTime ocp (pre ++ flags) (tpre ++ ticks) l =
      wait_irq_loop mask timeout timeStart lastTxTime ocp flags ticks
        { l with spi_log := l.spi_log ++ List.replicate pre.length (SpiOp.receive 0x12 1) } := by
  induction pre generalizing tpre l with
  | nil =>
    have e : tpre = [] := List.length_eq_zero.mp hlen
    subst e
    simp only [List.nil_append, List.length_nil, List.replicate_zero, List.append_nil]
  | cons f pre ih =>
    cases tpre with
    | nil => exact absurd hlen (by simp)
    | cons t tpre =>
      rw [List.cons_append, List.cons_append,
        wait_irq_loop_again mask timeout timeStart lastTxTime ocp f t _ _ l
          (hpre f (List.mem_cons_self f pre)) (hno t (List.mem_cons_self t tpre)),
        ih tpre (by simpa using hlen) (fun x hx => hpre x (List.mem_cons_of_mem f hx))
          (fun x hx => hno x (List.mem_cons_of_mem t hx))]
      simp only [List.length_cons, List.replicate_succ, List.append_assoc,
        List.singleton_append]

set_option maxRecDepth 100000 in
theorem single_bit_match : ∀ k : Nat, k < 8 → ∀ x : Nat, x < 256 →
    x &&& 2 ^ k ≠ 0 → x &&& 2 ^ k = 2 ^ k := by
  decide

end Lora

namespace Lora

end Lora

namespace Lora

end Lora

namespace Lora

end Lora

namespace Lora

end Lora

namespace Lora

end Lora

/-- C27: in a call `wait_irq(mask, timeout)` that starts at tick `t0`, after any
number of polls that see no bit of `mask` before the timeout: a poll that reads
flags `f` with `f & mask != 0` makes the call return 0, the only write being
`mask` to RegIrqFlags (address byte 0x92); that value is `f & mask` exactly
when every bit of `mask` is set in `f`, as it is for every single-bit mask. A
poll that sees no bit of `mask` past the timeout makes the call return -1
with no write: the transfers are the reads of RegIrqFlags and one read of
RegOcp. -/
theorem wait_irq_clears_mask (l : Lora) (mask timeout lastTxTime ocp : Nat)
    (pre tpre : List Nat) (f t0 t : Nat) (fs ts : List Nat)
    (hlen : tpre.length = pre.length) (hpre : ∀ x ∈ pre, x % 256 &&& mask = 0)
    (hno : ∀ x ∈ tpre, ¬ (x % 2 ^ 32 + 2 ^ 32 - t0 % 2 ^ 32) % 2 ^ 32 > timeout) :
    (f % 256 &&& mask ≠ 0 →
      Lora.wait_irq l mask timeout lastTxTime ocp (pre ++ f :: fs) (t0 :: (tpre ++ t :: ts)) =
        some (0, (t % 2 ^ 32 + 2 ^ 32 - t0 % 2 ^ 32) % 2 ^ 32, { l with
          spi_log := l.spi_log ++ List.replicate pre.length (SpiOp.receive 0x12 1) ++
            [SpiOp.receive 0x12 1, SpiOp.transmit [0x92, mask], SpiOp.receive 0x0B 1] }) ∧
      (mask = f % 256 &&& mask ↔ f % 256 &&& mask = mask) ∧
      (∀ k : Nat, k < 8 → mask = 2 ^ k → mask = f % 256 &&& mask)) ∧
    (f % 256 &&& mask = 0 → (t % 2 ^ 32 + 2 ^ 32 - t0 % 2 ^ 32) % 2 ^ 32 > timeout →
      Lora.wait_irq l mask timeout lastTxTime ocp (pre ++ f :: fs) (t0 :: (tpre ++ t :: ts)) =
        some (-1, lastTxTime, { l with
          spi_log := l.spi_log ++ List.replicate pre.length (SpiOp.receive 0x12 1) ++
            [SpiOp.receive 0x12 1, SpiOp.receive 0x0B 1] })) := by
  have hskip := Lora.wait_irq_loop_skip mask timeout (t0 % 2 ^ 32) lastTxTime ocp pre tpre hlen
    hpre hno (f :: fs) (t :: ts) l
  have hw : Lora.wait_irq l mask timeout lastTxTime ocp (pre ++ f :: fs)
      (t0 :: (tpre ++ t :: ts)) =
      Lora.wait_irq_loop mask timeout (t0 % 2 ^ 32) lastTxTime ocp (pre ++ f :: fs)
        (tpre ++ t :: ts) l := rfl
  refine ⟨fun hf => ⟨?_, ⟨fun h => h.symm, fun h => h.symm⟩, fun k hk hm => ?_⟩,
    fun hf ht => ?_⟩
  · rw [hw, hskip, Lora.wait_irq_loop_match _ _ _ _ _ f t fs ts _ hf]
  · rw [hm] at hf ⊢
    exact (Lora.single_bit_match k hk (f % 256) (Nat.mod_lt _ (by decide)) hf).symm
  · rw [hw, hskip, Lora.wait_irq_loop_timeout _ _ _ _ _ f t fs ts _ hf ht]

/-- Witness of C27: `wait_irq(TX_DONE_MASK, 1000)` that reads 0x00 at tick 105
and 0x08 at tick 110, having started at tick 100. -/
theorem wait_irq_clears_mask_witness :
    (Lora.wait_irq ⟨0, [], ⟨[], fun _ => 0xFF, []⟩, 7, 9, 2, 149500000, 173500000, 0,
        0, 0, 0, 0, 0, 0⟩ 0x08 1000 0 0 [0x00, 0x08] [100, 105, 110]).map
        (fun r => (r.1, r.2.1, r.2.2.spi_log)) =
      some (0, 10, [SpiOp.receive 0x12 1, SpiOp.receive 0x12 1, SpiOp.transmit [0x92, 0x08],
        SpiOp.receive 0x0B 1]) :=
  congrArg (Option.map (fun r => (r.1, r.2.1, r.2.2.spi_log)))
    ((wait_irq_clears_mask ⟨0, [], ⟨[], fun _ => 0xFF, []⟩, 7, 9, 2, 149500000, 173500000, 0,
      0, 0, 0, 0, 0, 0⟩ 0x08 1000 0 0 [0x00] [105] 0x08 100 110 [] [] rfl
      (by decide) (by decide)).1 (by decide)).1

/-- Counterexample to C27 as stated: with the two-bit mask 0x48 and the flags
0x40, the bits matched are `f & mask = 0x40`, and the value written to
RegIrqFlags is the whole mask 0x48. -/
theorem wait_irq_clears_mask_counterexample :
    (Lora.wait_irq ⟨0, [], ⟨[], fun _ => 0xFF, []⟩, 7, 9, 2, 149500000, 173500000, 0,
        0, 0, 0, 0, 0, 0⟩ 0x48 0 0 0 [0x40] [5, 7]).map
        (fun r => (r.1, r.2.2.spi_log)) =
      some (0, [SpiOp.receive 0x12 1, SpiOp.transmit [0x92, 0x48], SpiOp.receive 0x0B 1]) ∧
    0x40 % 256 &&& 0x48 = 0x40 ∧ (0x48 : Nat) ≠ 0x40 := by
  decide

/-! ## Gateway dispatch -/

namespace Gateway

theorem changeOperationMode_eq (g : Gateway) (newMode : Nat) :
    changeOperationMode g newMode =
      if newMode = 1 ∨ newMode = 2 ∨ newMode = 3 then
        (true, { g with
          currentOperationMode :=
            if newMode = 1 then OperationMode.RX_MODE
            else if newMode = 2 then OperationMode.TX_MODE else OperationMode.TX_RX_MODE
          loraReceiveBuffer := List.replicate 255 0
          loraTransmitBuffer := List.replicate 255 0
          loraReceivedBytes := 0
          loraTransmitSizeBytes := 0
          pendingLoraTransmission := false })
      else (false, g) := by
  unfold changeOperationMode
  by_cases h1 : newMode = 1
  · subst h1
    rfl
  · by_cases h2 : newMode = 2
    · subst h2
      rfl
    · by_cases h3 : newMode = 3
      · subst h3
        rfl
      · have e1 : ¬ newMode = MODE_OPERATION_RX := h1
        have e2 : ¬ newMode = MODE_OPERATION_TX := h2
        have e3 : ¬ newMode = MODE_OPERATION_TX_RX := h3
        rw [if_neg e1, if_neg e2, if_neg e3, if_neg (by omega)]

/-- The fields `changeOperationMode` never writes. -/
theorem changeOperationMode_keeps (g : Gateway) (newMode : Nat) :
    (changeOperationMode g newMode).2.radio_calls = g.radio_calls ∧
    (changeOperationMode g newMode).2.blockLoraReception = g.blockLoraReception ∧
    (changeOperationMode g newMode).2.blockStartTime = g.blockStartTime ∧
    (changeOperationMode g newMode).2.uartReceivedBytes = g.uartReceivedBytes ∧
    (changeOperationMode g newMode).2.uartReceiveBuffer = g.uartReceiveBuffer := by
  rw [changeOperationMode_eq]
  split_ifs <;> exact ⟨rfl, rfl, rfl, rfl, rfl⟩

theorem processConfigCommand_keeps (g g1 : Gateway) (h : processConfigCommand g = some g1) :
    g1.radio_calls = g.radio_calls ∧ g1.blockLoraReception = g.blockLoraReception ∧
    g1.blockStartTime = g.blockStartTime := by
  unfold processConfigCommand at h
  dsimp only at h
  split_ifs at h
  · cases hd : CommandMessage.getDataAsUint8 g.uartCommandParser with
    | none => rw [hd] at h; exact absurd h (by simp)
    | some v =>
      rw [hd] at h
      have e := Option.some.inj h
      subst e
      exact ⟨rfl, rfl, rfl⟩
  · cases hd : CommandMessage.getDataAsUint8 g.uartCommandParser with
    | none => rw [hd] at h; exact absurd h (by simp)
    | some v =>
      rw [hd] at h
      have e := Option.some.inj h
      subst e
      obtain ⟨k1, k2, k3, _, _⟩ := changeOperationMode_keeps g v
      exact ⟨k1, k2, k3⟩
  · have e := Option.some.inj h
    subst e
    exact ⟨rfl, rfl, rfl⟩

/-- What `processUartCommand` does when it passes its entry test: no radio call,
the block flag as it was, the block start set to the tick, the new-data flag
cleared. -/
theorem processUartCommand_keeps (g g1 : Gateway) (tick : Nat)
    (h : processUartCommand g tick = some g1) :
    g1.radio_calls = g.radio_calls ∧ g1.blockLoraReception = g.blockLoraReception ∧
    (g.newUartDataReceived = true → g.uartReceivedBytes ≠ 0 →
      g1.blockStartTime = tick % 2 ^ 32 ∧ g1.newUartDataReceived = false) := by
  unfold processUartCommand at h
  split_ifs at h with hg
  · have e := Option.some.inj h
    subst e
    refine ⟨rfl, rfl, fun hn hb => ?_⟩
    rcases hg with hg | hg
    · rw [hn] at hg
      exact absurd hg (by decide)
    · exact absurd hg hb
  · split at h
    · exact absurd h (by simp)
    · rename_i frameStatus parser1 hv
      dsimp only at h
      split at h
      · exact absurd h (by simp)
      · rename_i g2 h2
        have e := Option.some.inj h
        subst e
        refine ⟨?_, ?_, fun _ _ => ⟨rfl, rfl⟩⟩
        · show g2.radio_calls = g.radio_calls
          split_ifs at h2
          · exact (processConfigCommand_keeps _ g2 h2).1
          · split at h2
            · exact absurd h2 (by simp)
            · have e := Option.some.inj h2
              subst e
              rfl
          all_goals
            have e := Option.some.inj h2
            subst e
            rfl
        · show g2.blockLoraReception = g.blockLoraReception
          split_ifs at h2
          · exact (processConfigCommand_keeps _ g2 h2).2.1
          · split at h2
            · exact absurd h2 (by simp)
            · have e := Option.some.inj h2
              subst e
              rfl
          all_goals
            have e := Option.some.inj h2
            subst e
            rfl

end Gateway

namespace Gateway

/-- The function `handleLoraTransmission` either changes nothing or hands the
pending bytes to `lora->transmit` once, in Tx or TxRx mode with the pending
flag set, and clears the flag. -/
theorem handleLoraTransmission_spec (g g1 : Gateway) (status : Nat)
    (h : handleLoraTransmission g status = some g1) :
    g1.currentOperationMode = g.currentOperationMode ∧
    g1.blockLoraReception = g.blockLoraReception ∧
    (g1 = g ∨
      (∃ data, g1.radio_calls = g.radio_calls ++ [RadioCall.transmit data] ∧
        readBytes g.loraTransmitBuffer g.loraTransmitSizeBytes = some data ∧
        g.pendingLoraTransmission = true ∧
        (g.currentOperationMode = OperationMode.TX_MODE ∨
          g.currentOperationMode = OperationMode.TX_RX_MODE) ∧
        g.loraTransmitSizeBytes > 0 ∧
        g1.pendingLoraTransmission = false ∧
        g1.loraTransmitBuffer = List.replicate 255 0 ∧ g1.loraTransmitSizeBytes = 0)) := by
  unfold handleLoraTransmission at h
  by_cases hc : g.pendingLoraTransmission = true ∧
      (g.currentOperationMode = OperationMode.TX_MODE ∨
        g.currentOperationMode = OperationMode.TX_RX_MODE)
  · rw [if_pos hc] at h
    by_cases hs : g.loraTransmitSizeBytes > 0
    · rw [if_pos hs] at h
      cases hd : readBytes g.loraTransmitBuffer g.loraTransmitSizeBytes with
      | none => rw [hd] at h; exact absurd h (by simp)
      | some data =>
        rw [hd] at h
        simp only [ite_self, Option.some.injEq] at h
        rw [← h]
        exact ⟨rfl, rfl, Or.inr ⟨data, rfl, rfl, hc.1, hc.2, hs, rfl, rfl, rfl⟩⟩
    · rw [if_neg hs] at h
      rw [← Option.some.inj h]
      exact ⟨rfl, rfl, Or.inl rfl⟩
  · rw [if_neg hc] at h
    rw [← Option.some.inj h]
    exact ⟨rfl, rfl, Or.inl rfl⟩

/-- The function `handleLoraReception` either changes nothing (Tx mode with
nothing pending) or calls `lora->receive` once; it never writes the mode, the
block flag, the pending flag or the transmit buffer. -/
theorem handleLoraReception_spec (g g1 : Gateway) (rx : List Nat)
    (h : handleLoraReception g rx = some g1) :
    g1.currentOperationMode = g.currentOperationMode ∧
    g1.blockLoraReception = g.blockLoraReception ∧
    g1.pendingLoraTransmission = g.pendingLoraTransmission ∧
    g1.loraTransmitBuffer = g.loraTransmitBuffer ∧
    g1.loraTransmitSizeBytes = g.loraTransmitSizeBytes ∧
    ((g1 = g ∧ g.currentOperationMode = OperationMode.TX_MODE ∧
        g.pendingLoraTransmission = false) ∨
      (g1.radio_calls = g.radio_calls ++ [RadioCall.receive] ∧
        ¬ (g.currentOperationMode = OperationMode.TX_MODE ∧
          g.pendingLoraTransmission = false))) := by
  unfold handleLoraReception at h
  by_cases hc : g.currentOperationMode = OperationMode.TX_MODE ∧
      (!g.pendingLoraTransmission) = true
  · rw [if_pos hc] at h
    rw [← Option.some.inj h]
    refine ⟨rfl, rfl, rfl, rfl, rfl, Or.inl ⟨rfl, hc.1, ?_⟩⟩
    have hp := hc.2
    revert hp
    cases g.pendingLoraTransmission <;> simp
  · have hc1 : ¬ (g.currentOperationMode = OperationMode.TX_MODE ∧
        g.pendingLoraTransmission = false) := by
      intro hh
      exact hc ⟨hh.1, by rw [hh.2]; rfl⟩
    rw [if_neg hc] at h
    cases hb : memcpy g.loraReceiveBuffer rx rx.length with
    | none => rw [hb] at h; exact absurd h (by simp)
    | some buffer1 =>
      rw [hb] at h
      dsimp only at h
      by_cases hn : rx.length % 256 > 0
      · rw [if_pos hn] at h
        split at h
        · exact absurd h (by simp)
        · rename_i st parser1 hv
          split at h
          · exact absurd h (by simp)
          · rename_i g3 h3
            rw [← Option.some.inj h]
            split_ifs at h3
            · split at h3
              · exact absurd h3 (by simp)
              · rw [← Option.some.inj h3]
                exact ⟨rfl, rfl, rfl, rfl, rfl, Or.inr ⟨rfl, hc1⟩⟩
            · rw [← Option.some.inj h3]
              exact ⟨rfl, rfl, rfl, rfl, rfl, Or.inr ⟨rfl, hc1⟩⟩
      · rw [if_neg hn] at h
        rw [← Option.some.inj h]
        exact ⟨rfl, rfl, rfl, rfl, rfl, Or.inr ⟨rfl, hc1⟩⟩

end Gateway

/-- C28: the call `changeOperationMode(m)` for `m` = 1, 2, 3 sets the mode to Rx,
Tx, TxRx, zeroes both LoRa buffers and both byte counters, clears
`pendingLoraTransmission` and returns true, writing nothing else; for every
other `m` it returns false and leaves the whole state unchanged. -/
theorem changeOperationMode_effect (g : Gateway) (m : Nat) :
    (m = 1 ∨ m = 2 ∨ m = 3 →
      Gateway.changeOperationMode g m = (true, { g with
        currentOperationMode :=
          if m = 1 then OperationMode.RX_MODE
          else if m = 2 then OperationMode.TX_MODE else OperationMode.TX_RX_MODE
        loraReceiveBuffer := List.replicate 255 0
        loraTransmitBuffer := List.replicate 255 0
        loraReceivedBytes := 0
        loraTransmitSizeBytes := 0
        pendingLoraTransmission := false })) ∧
    (¬ (m = 1 ∨ m = 2 ∨ m = 3) → Gateway.changeOperationMode g m = (false, g)) ∧
    (Gateway.changeOperationMode g 1).2.currentOperationMode = OperationMode.RX_MODE ∧
    (Gateway.changeOperationMode g 2).2.currentOperationMode = OperationMode.TX_MODE ∧
    (Gateway.changeOperationMode g 3).2.currentOperationMode = OperationMode.TX_RX_MODE := by
  refine ⟨fun h => ?_, fun h => ?_, rfl, rfl, rfl⟩
  · rw [Gateway.changeOperationMode_eq, if_pos h]
  · rw [Gateway.changeOperationMode_eq, if_neg h]

/-- Witness of C28: a gateway in TxRx mode with a pending frame of two bytes is
switched to Tx with `changeOperationMode(2)`, and refuses
`changeOperationMode(4)`. -/
theorem changeOperationMode_effect_witness :
    Gateway.changeOperationMode ⟨OperationMode.TX_RX_MODE, [1, 2], 2, [3, 4], 2, true, [], 0,
        false, false, 0, ⟨[], 0⟩, ⟨255, 0, 0, 0, 0, 0, [], false, false⟩,
        ⟨255, 0, 0, 0, 0, 0, [], false, false⟩, [], []⟩ 2 =
      (true, ⟨OperationMode.TX_MODE, List.replicate 255 0, 0, List.replicate 255 0, 0, false,
        [], 0, false, false, 0, ⟨[], 0⟩, ⟨255, 0, 0, 0, 0, 0, [], false, false⟩,
        ⟨255, 0, 0, 0, 0, 0, [], false, false⟩, [], []⟩) ∧
    Gateway.changeOperationMode ⟨OperationMode.TX_RX_MODE, [1, 2], 2, [3, 4], 2, true, [], 0,
        false, false, 0, ⟨[], 0⟩, ⟨255, 0, 0, 0, 0, 0, [], false, false⟩,
        ⟨255, 0, 0, 0, 0, 0, [], false, false⟩, [], []⟩ 4 =
      (false, ⟨OperationMode.TX_RX_MODE, [1, 2], 2, [3, 4], 2, true, [], 0,
        false, false, 0, ⟨[], 0⟩, ⟨255, 0, 0, 0, 0, 0, [], false, false⟩,
        ⟨255, 0, 0, 0, 0, 0, [], false, false⟩, [], []⟩) :=
  ⟨(changeOperationMode_effect ⟨OperationMode.TX_RX_MODE, [1, 2], 2, [3, 4], 2, true, [], 0,
      false, false, 0, ⟨[], 0⟩, ⟨255, 0, 0, 0, 0, 0, [], false, false⟩,
      ⟨255, 0, 0, 0, 0, 0, [], false, false⟩, [], []⟩ 2).1 (by decide),
    (changeOperationMode_effect ⟨OperationMode.TX_RX_MODE, [1, 2], 2, [3, 4], 2, true, [], 0,
      false, false, 0, ⟨[], 0⟩, ⟨255, 0, 0, 0, 0, 0, [], false, false⟩,
      ⟨255, 0, 0, 0, 0, 0, [], false, false⟩, [], []⟩ 4).2.1 (by decide)⟩

namespace Gateway

/-- The radio calls of steps 2 and 3: at most one transmit, made in Tx or TxRx
mode with a transmission pending, then at most one receive, made in Rx or TxRx
mode with none pending. -/
theorem main_loop_radio_steps_spec (g g1 : Gateway) (status : Nat) (rx : List Nat)
    (h : main_loop_radio_steps g status rx = some g1) :
    g1.currentOperationMode = g.currentOperationMode ∧
    g1.blockLoraReception = g.blockLoraReception ∧
    ∃ calls, g1.radio_calls = g.radio_calls ++ calls ∧
      (calls = [] ∨ calls = [RadioCall.receive] ∨
        (∃ data, calls = [RadioCall.transmit data]) ∨
        (∃ data, calls = [RadioCall.transmit data, RadioCall.receive])) ∧
      (∀ data, RadioCall.transmit data ∈ calls →
        (g.currentOperationMode = OperationMode.TX_MODE ∨
          g.currentOperationMode = OperationMode.TX_RX_MODE) ∧
        g.pendingLoraTransmission = true) ∧
      (RadioCall.receive ∈ calls →
        (g.currentOperationMode = OperationMode.RX_MODE ∨
          g.currentOperationMode = OperationMode.TX_RX_MODE) ∧
        g1.pendingLoraTransmission = false) := by
  unfold main_loop_radio_steps at h
  dsimp only at h
  -- step 2
  have h2 : ∀ g3, (if g.pendingLoraTransmission = true then
        if g.currentOperationMode = OperationMode.TX_MODE ∨
            g.currentOperationMode = OperationMode.TX_RX_MODE then
          handleLoraTransmission g status
        else some g
      else some g) = some g3 →
      g3.currentOperationMode = g.currentOperationMode ∧
      g3.blockLoraReception = g.blockLoraReception ∧
      ((g3 = g) ∨ (∃ data, g3.radio_calls = g.radio_calls ++ [RadioCall.transmit data] ∧
        g.pendingLoraTransmission = true ∧
        (g.currentOperationMode = OperationMode.TX_MODE ∨
          g.currentOperationMode = OperationMode.TX_RX_MODE))) := by
    intro g3 h3
    split_ifs at h3 with hp hm
    · obtain ⟨k1, k2, k3⟩ := handleLoraTransmission_spec g g3 status h3
      refine ⟨k1, k2, ?_⟩
      rcases k3 with k3 | ⟨data, hd, _, hpend, hmode, _⟩
      · exact Or.inl k3
      · exact Or.inr ⟨data, hd, hpend, hmode⟩
    · rw [← Option.some.inj h3]
      exact ⟨rfl, rfl, Or.inl rfl⟩
    · rw [← Option.some.inj h3]
      exact ⟨rfl, rfl, Or.inl rfl⟩
  split at h
  · exact absurd h (by simp)
  · rename_i g3 h3
    obtain ⟨m3, b3, c3⟩ := h2 g3 h3
    -- step 3
    have hrecv : g1.currentOperationMode = g3.currentOperationMode ∧
        g1.blockLoraReception = g3.blockLoraReception ∧
        (g1 = g3 ∨ (g1.radio_calls = g3.radio_calls ++ [RadioCall.receive] ∧
          (g3.currentOperationMode = OperationMode.RX_MODE ∨
            g3.currentOperationMode = OperationMode.TX_RX_MODE) ∧
          g1.pendingLoraTransmission = false)) := by
      split_ifs at h with hc
      · obtain ⟨k1, k2, k3, _, _, k6⟩ := handleLoraReception_spec g3 g1 rx h
        refine ⟨k1, k2, ?_⟩
        have hpf : g3.pendingLoraTransmission = false := by
          have := hc.1
          revert this
          cases g3.pendingLoraTransmission <;> simp
        rcases k6 with ⟨e, _, _⟩ | ⟨hcalls, _⟩
        · exact Or.inl e
        · exact Or.inr ⟨hcalls, hc.2, by rw [k3, hpf]⟩
      · rw [← Option.some.inj h]
        exact ⟨rfl, rfl, Or.inl rfl⟩
    obtain ⟨m1, b1, c1⟩ := hrecv
    refine ⟨m1.trans m3, b1.trans b3, ?_⟩
    rcases c3 with e3 | ⟨data, hd, hpend, hmode⟩
    · rcases c1 with e1 | ⟨hr, hrm, hrp⟩
      · refine ⟨[], by rw [e1, e3, List.append_nil], Or.inl rfl, ?_, ?_⟩
        · intro d hm; exact absurd hm (List.not_mem_nil _)
        · intro hm; exact absurd hm (List.not_mem_nil _)
      · refine ⟨[RadioCall.receive], by rw [hr, e3], Or.inr (Or.inl rfl), ?_, ?_⟩
        · intro d hm
          simp at hm
        · intro _
          rw [e3] at hrm
          exact ⟨hrm, hrp⟩
    · rcases c1 with e1 | ⟨hr, hrm, hrp⟩
      · refine ⟨[RadioCall.transmit data], by rw [e1, hd],
          Or.inr (Or.inr (Or.inl ⟨data, rfl⟩)), ?_, ?_⟩
        · intro d _
          exact ⟨hmode, hpend⟩
        · intro hm
          simp at hm
      · refine ⟨[RadioCall.transmit data, RadioCall.receive],
          by rw [hr, hd, List.append_assoc]; rfl,
          Or.inr (Or.inr (Or.inr ⟨data, rfl⟩)), ?_, ?_⟩
        · intro d _
          exact ⟨hmode, hpend⟩
        · intro _
          rw [m3] at hrm
          exact ⟨hrm, hrp⟩

/-- The function `processUartCommand` on a frame that is to be retransmitted,
in Rx mode: the pending flag and the transmit buffer are not touched. -/
theorem processUartCommand_retransmit_rx (g : Gateway) (tick : Nat) (parser1 : CommandMessage)
    (hmode : g.currentOperationMode = OperationMode.RX_MODE)
    (hnew : g.newUartDataReceived = true) (hbytes : g.uartReceivedBytes ≠ 0)
    (hv : CommandMessage.validate g.uartCommandParser g.uartReceiveBuffer
      (g.uartReceivedBytes % 256) = some (STATUS.RETRANSMIT_FRAME, parser1)) :
    processUartCommand g tick = some { g with
      uartReceiveBuffer := List.replicate 255 0
      uartReceivedBytes := 0
      newUartDataReceived := false
      uartCommandParser := CommandMessage.reset parser1 true
      blockStartTime := tick % 2 ^ 32 } := by
  unfold processUartCommand
  have hg : ¬ ((!g.newUartDataReceived) = true ∨ g.uartReceivedBytes = 0) := by
    rw [hnew]
    intro hh
    rcases hh with hh | hh
    · exact absurd hh (by decide)
    · exact hbytes hh
  have h1 : ¬ (STATUS.RETRANSMIT_FRAME = STATUS.CONFIG_FRAME) := by decide
  have h2 : ¬ (OperationMode.RX_MODE = OperationMode.TX_MODE ∨
      OperationMode.RX_MODE = OperationMode.TX_RX_MODE) := by decide
  rw [if_neg hg, hv]
  simp only [h1, if_false, if_true, hmode, h2, MAX_UART_BUFFER_SIZE]

end Gateway

/-- C29: in one iteration of the main loop that returns, with `g1` the state
after step 1 (`processUartCommand`, when new serial data is flagged): the radio
calls added are at most one `lora->transmit` followed by at most one
`lora->receive`; the transmit is made only in Tx or TxRx mode with a
transmission pending in `g1`; the receive is made only in Rx or TxRx mode with
the pending flag clear (step 3 does not change the flag, so it is clear when
the poll is made and at the end of the iteration); so in Rx mode no transmit is
made and in Tx mode no receive is made. A serial frame classified
RETRANSMIT_FRAME while in Rx mode leaves the mode, the pending flag, the
transmit buffer and its size as they were. -/
theorem main_loop_mode_policy (g g2 : Gateway) (tick_cmd tick_chk status : Nat)
    (rx : List Nat)
    (h : Gateway.main_loop_iteration g tick_cmd tick_chk status rx = some g2) :
    ∃ g1 calls,
      (if g.newUartDataReceived then Gateway.processUartCommand g tick_cmd else some g) =
        some g1 ∧
      g2.radio_calls = g.radio_calls ++ calls ∧
      g2.currentOperationMode = g1.currentOperationMode ∧
      (calls = [] ∨ calls = [RadioCall.receive] ∨
        (∃ data, calls = [RadioCall.transmit data]) ∨
        (∃ data, calls = [RadioCall.transmit data, RadioCall.receive])) ∧
      (∀ data, RadioCall.transmit data ∈ calls →
        (g1.currentOperationMode = OperationMode.TX_MODE ∨
          g1.currentOperationMode = OperationMode.TX_RX_MODE) ∧
        g1.pendingLoraTransmission = true) ∧
      (RadioCall.receive ∈ calls →
        (g1.currentOperationMode = OperationMode.RX_MODE ∨
          g1.currentOperationMode = OperationMode.TX_RX_MODE) ∧
        g2.pendingLoraTransmission = false) ∧
      (g1.currentOperationMode = OperationMode.RX_MODE →
        ∀ data, RadioCall.transmit data ∉ calls) ∧
      (g1.currentOperationMode = OperationMode.TX_MODE → RadioCall.receive ∉ calls) ∧
      (∀ parser1, g.currentOperationMode = OperationMode.RX_MODE →
        g.newUartDataReceived = true → g.uartReceivedBytes ≠ 0 →
        CommandMessage.validate g.uartCommandParser g.uartReceiveBuffer
          (g.uartReceivedBytes % 256) = some (STATUS.RETRANSMIT_FRAME, parser1) →
        g1.currentOperationMode = OperationMode.RX_MODE ∧
        g1.pendingLoraTransmission = g.pendingLoraTransmission ∧
        g1.loraTransmitBuffer = g.loraTransmitBuffer ∧
        g1.loraTransmitSizeBytes = g.loraTransmitSizeBytes) := by
  unfold Gateway.main_loop_iteration at h
  cases hs : (if g.newUartDataReceived then Gateway.processUartCommand g tick_cmd
      else some g) with
  | none => rw [hs] at h; exact absurd h (by simp)
  | some g1 =>
    rw [hs] at h
    dsimp only at h
    have hcalls1 : g1.radio_calls = g.radio_calls := by
      split_ifs at hs
      · exact (Gateway.processUartCommand_keeps g g1 tick_cmd hs).1
      · rw [← Option.some.inj hs]
    have hretx : ∀ parser1, g.currentOperationMode = OperationMode.RX_MODE →
        g.newUartDataReceived = true → g.uartReceivedBytes ≠ 0 →
        CommandMessage.validate g.uartCommandParser g.uartReceiveBuffer
          (g.uartReceivedBytes % 256) = some (STATUS.RETRANSMIT_FRAME, parser1) →
        g1.currentOperationMode = OperationMode.RX_MODE ∧
        g1.pendingLoraTransmission = g.pendingLoraTransmission ∧
        g1.loraTransmitBuffer = g.loraTransmitBuffer ∧
        g1.loraTransmitSizeBytes = g.loraTransmitSizeBytes := by
      intro parser1 hmode hnew hbytes hv
      rw [hnew, if_pos rfl,
        Gateway.processUartCommand_retransmit_rx g tick_cmd parser1 hmode hnew hbytes hv] at hs
      rw [← Option.some.inj hs]
      exact ⟨hmode, rfl, rfl, rfl⟩
    have hmain : ∃ calls, g2.radio_calls = g1.radio_calls ++ calls ∧
        g2.currentOperationMode = g1.currentOperationMode ∧
        (calls = [] ∨ calls = [RadioCall.receive] ∨
          (∃ data, calls = [RadioCall.transmit data]) ∨
          (∃ data, calls = [RadioCall.transmit data, RadioCall.receive])) ∧
        (∀ data, RadioCall.transmit data ∈ calls →
          (g1.currentOperationMode = OperationMode.TX_MODE ∨
            g1.currentOperationMode = OperationMode.TX_RX_MODE) ∧
          g1.pendingLoraTransmission = true) ∧
        (RadioCall.receive ∈ calls →
          (g1.currentOperationMode = OperationMode.RX_MODE ∨
            g1.currentOperationMode = OperationMode.TX_RX_MODE) ∧
          g2.pendingLoraTransmission = false) := by
      have hnone : g2 = g1 → ∃ calls, g2.radio_calls = g1.radio_calls ++ calls ∧
          g2.currentOperationMode = g1.currentOperationMode ∧
          (calls = [] ∨ calls = [RadioCall.receive] ∨
            (∃ data, calls = [RadioCall.transmit data]) ∨
            (∃ data, calls = [RadioCall.transmit data, RadioCall.receive])) ∧
          (∀ data, RadioCall.transmit data ∈ calls →
            (g1.currentOperationMode = OperationMode.TX_MODE ∨
              g1.currentOperationMode = OperationMode.TX_RX_MODE) ∧
            g1.pendingLoraTransmission = true) ∧
          (RadioCall.receive ∈ calls →
            (g1.currentOperationMode = OperationMode.RX_MODE ∨
              g1.currentOperationMode = OperationMode.TX_RX_MODE) ∧
            g2.pendingLoraTransmission = false) := fun e =>
        ⟨[], by rw [e, List.append_nil], by rw [e], Or.inl rfl,
          fun d hm => absurd hm (List.not_mem_nil _),
          fun hm => absurd hm (List.not_mem_nil _)⟩
      by_cases hexp : g1.blockLoraReception = true ∧
          (tick_chk % 2 ^ 32 + 2 ^ 32 - g1.blockStartTime % 2 ^ 32) % 2 ^ 32 ≥
            BLOCK_DURATION_MS
      · rw [if_pos hexp] at h
        rw [if_pos (by rfl)] at h
        obtain ⟨m, _, calls, hc, hshape, ht, hr⟩ :=
          Gateway.main_loop_radio_steps_spec _ g2 status rx h
        exact ⟨calls, hc, m, hshape, ht, hr⟩
      · rw [if_neg hexp] at h
        by_cases hb : g1.blockLoraReception = true
        · rw [if_neg (by rw [hb]; decide)] at h
          exact hnone (Option.some.inj h).symm
        · rw [if_pos (by
            revert hb
            cases g1.blockLoraReception <;> simp)] at h
          obtain ⟨m, _, calls, hc, hshape, ht, hr⟩ :=
            Gateway.main_loop_radio_steps_spec _ g2 status rx h
          exact ⟨calls, hc, m, hshape, ht, hr⟩
    obtain ⟨calls, hc, hm, hshape, ht, hr⟩ := hmain
    refine ⟨g1, calls, rfl, by rw [hc, hcalls1], hm, hshape, ht, hr, ?_, ?_, hretx⟩
    · intro hrx data hmem
      rcases (ht data hmem).1 with e | e <;> rw [hrx] at e <;> exact absurd e (by decide)
    · intro htx hmem
      rcases (hr hmem).1 with e | e <;> rw [htx] at e <;> exact absurd e (by decide)

set_option maxRecDepth 100000 in
/-- Witness of C29: a gateway in Rx mode processes a serial frame addressed to
another module (a RETRANSMIT_FRAME) at tick 7 and reaches the block test at
tick 1007: the iteration polls the radio once, transmits nothing, and the
pending flag and the transmit buffer are as before. -/
theorem main_loop_mode_policy_witness :
    Gateway.main_loop_iteration Gateway.rx_with_frame 7 1007 0 [] =
      some { Gateway.rx_with_frame with
        uartReceiveBuffer := List.replicate 255 0, uartReceivedBytes := 0,
        newUartDataReceived := false, blockLoraReception := false, blockStartTime := 7,
        radio_calls := [RadioCall.receive] } ∧
    ∃ (g1 : Gateway) (calls : List RadioCall),
      [RadioCall.receive] = Gateway.rx_with_frame.radio_calls ++ calls ∧
      (g1.currentOperationMode = OperationMode.RX_MODE →
        ∀ data, RadioCall.transmit data ∉ calls) ∧
      g1.currentOperationMode = OperationMode.RX_MODE ∧
      g1.pendingLoraTransmission = false ∧ g1.loraTransmitBuffer = [3, 4] ∧
      g1.loraTransmitSizeBytes = 0 :=
  ⟨by decide,
    match main_loop_mode_policy Gateway.rx_with_frame
      { Gateway.rx_with_frame with
        uartReceiveBuffer := List.replicate 255 0, uartReceivedBytes := 0,
        newUartDataReceived := false, blockLoraReception := false, blockStartTime := 7,
        radio_calls := [RadioCall.receive] } 7 1007 0 [] (by decide) with
    | ⟨g1, calls, _, hc, _, _, _, _, hrx, _, hre⟩ =>
      ⟨g1, calls, hc, hrx,
        hre ⟨255, 0, 0, 0, 0, 0, [], false, false⟩ rfl rfl (by decide) (by decide)⟩⟩

/-- C30: take a state with `blockLoraReception` set, and let `g1` be the state
after step 1 of an iteration (`processUartCommand` when new serial data is
flagged, which stores its tick in `blockStartTime`, else nothing). The block
flag is still set in `g1` and no radio call was made. If the tick `t` read by
the block test satisfies `(t - blockStartTime) mod 2^32 < 1000`, the iteration
ends in `g1`: steps 2 and 3 are skipped, whatever the radio would answer. If
`(t - blockStartTime) mod 2^32 >= 1000`, the block is lifted: the iteration is
steps 2 and 3 run on `g1` with the flag cleared, and the flag is clear in its
result. The interrupt handler sets the flag and leaves `blockStartTime`. -/
theorem exclusion_window (g g1 : Gateway) (tick_cmd t status : Nat) (rx : List Nat)
    (hblock : g.blockLoraReception = true)
    (hstep : (if g.newUartDataReceived then Gateway.processUartCommand g tick_cmd
      else some g) = some g1) :
    g1.blockLoraReception = true ∧
    g1.radio_calls = g.radio_calls ∧
    (g.newUartDataReceived = false → g1 = g) ∧
    (g.newUartDataReceived = true → g.uartReceivedBytes ≠ 0 →
      g1.blockStartTime = tick_cmd % 2 ^ 32) ∧
    ((t % 2 ^ 32 + 2 ^ 32 - g1.blockStartTime % 2 ^ 32) % 2 ^ 32 < 1000 →
      Gateway.main_loop_iteration g tick_cmd t status rx = some g1) ∧
    ((t % 2 ^ 32 + 2 ^ 32 - g1.blockStartTime % 2 ^ 32) % 2 ^ 32 ≥ 1000 →
      Gateway.main_loop_iteration g tick_cmd t status rx =
        Gateway.main_loop_radio_steps { g1 with blockLoraReception := false } status rx ∧
      ∀ g2, Gateway.main_loop_iteration g tick_cmd t status rx = some g2 →
        g2.blockLoraReception = false) ∧
    (∀ b g3, Gateway.HAL_UART_RxCpltCallback g b = some g3 →
      g3.blockLoraReception = true ∧ g3.blockStartTime = g.blockStartTime) := by
  have hb1 : g1.blockLoraReception = true ∧ g1.radio_calls = g.radio_calls := by
    split_ifs at hstep
    · obtain ⟨k1, k2, _⟩ := Gateway.processUartCommand_keeps g g1 tick_cmd hstep
      exact ⟨by rw [k2, hblock], k1⟩
    · rw [← Option.some.inj hstep]
      exact ⟨hblock, rfl⟩
  have hlt : (t % 2 ^ 32 + 2 ^ 32 - g1.blockStartTime % 2 ^ 32) % 2 ^ 32 < 1000 →
      Gateway.main_loop_iteration g tick_cmd t status rx = some g1 := by
    intro hl
    unfold Gateway.main_loop_iteration
    rw [hstep]
    dsimp only
    have hcond : ¬(g1.blockLoraReception = true ∧
        (t % 2 ^ 32 + 2 ^ 32 - g1.blockStartTime % 2 ^ 32) % 2 ^ 32 ≥ BLOCK_DURATION_MS) := by
      intro hc
      have h2 := hc.2
      unfold BLOCK_DURATION_MS at h2
      omega
    rw [if_neg hcond, if_neg (show ¬((!g1.blockLoraReception) = true) by rw [hb1.1]; decide)]
  have hge : (t % 2 ^ 32 + 2 ^ 32 - g1.blockStartTime % 2 ^ 32) % 2 ^ 32 ≥ 1000 →
      Gateway.main_loop_iteration g tick_cmd t status rx =
        Gateway.main_loop_radio_steps { g1 with blockLoraReception := false } status rx := by
    intro hl
    unfold Gateway.main_loop_iteration
    rw [hstep]
    dsimp only
    have hcond : g1.blockLoraReception = true ∧
        (t % 2 ^ 32 + 2 ^ 32 - g1.blockStartTime % 2 ^ 32) % 2 ^ 32 ≥ BLOCK_DURATION_MS :=
      ⟨hb1.1, hl⟩
    rw [if_pos hcond]
    rfl
  refine ⟨hb1.1, hb1.2, ?_, ?_, hlt, ?_, ?_⟩
  · intro hn
    rw [hn] at hstep
    exact (Option.some.inj hstep).symm
  · intro hn hbytes
    rw [hn, if_pos rfl] at hstep
    exact ((Gateway.processUartCommand_keeps g g1 tick_cmd hstep).2.2 hn hbytes).1
  · intro hl
    refine ⟨hge hl, ?_⟩
    intro g2 h2
    rw [hge hl] at h2
    exact (Gateway.main_loop_radio_steps_spec _ g2 status rx h2).2.1
  · intro b g3 h3
    unfold Gateway.HAL_UART_RxCpltCallback at h3
    dsimp only at h3
    cases hw : writeByte g.uartReceiveBuffer 0 b with
    | none => rw [hw] at h3; exact absurd h3 (by simp)
    | some buffer0 =>
      rw [hw] at h3
      dsimp only at h3
      cases hp : UartHandler.process_received_byte g.uartHandler b buffer0 with
      | none => rw [hp] at h3; exact absurd h3 (by simp)
      | some r =>
        obtain ⟨n, u1, buffer1⟩ := r
        rw [hp] at h3
        dsimp only at h3
        split_ifs at h3 <;>
        · rw [← Option.some.inj h3]
          exact ⟨rfl, rfl⟩

/-- Witness of C30 across the 32-bit wrap of the tick: with the block started
at tick `2^32 - 100`, an iteration at tick 500 (600 ms later) is skipped, and
an iteration at tick 900 (1000 ms later) lifts the block and polls. -/
theorem exclusion_window_witness :
    Gateway.main_loop_iteration Gateway.blocked_rx 0 500 0 [] = some Gateway.blocked_rx ∧
    Gateway.main_loop_iteration Gateway.blocked_rx 0 900 0 [] =
      some { Gateway.blocked_rx with
        blockLoraReception := false, radio_calls := [RadioCall.receive] } :=
  ⟨(exclusion_window Gateway.blocked_rx Gateway.blocked_rx 0 500 0 [] rfl rfl).2.2.2.2.1
      (by decide),
    ((exclusion_window Gateway.blocked_rx Gateway.blocked_rx 0 900 0 [] rfl rfl).2.2.2.2.2.1
      (by decide)).1.trans (by decide)⟩

/-! ## The transmit slot across dispatch calls -/

theorem length_memcpy (dst src r : List Nat) (n : Nat) (h : memcpy dst src n = some r) :
    r.length = dst.length := by
  unfold memcpy at h
  split_ifs at h with hc
  rw [← Option.some.inj h, List.length_append, List.length_take, List.length_drop]
  omega

namespace Gateway

theorem pending_sized_of_fields (g g1 : Gateway) (h : pending_sized g)
    (h1 : g1.loraTransmitBuffer = g.loraTransmitBuffer)
    (h2 : g1.loraTransmitSizeBytes = g.loraTransmitSizeBytes)
    (h3 : g1.pendingLoraTransmission = g.pendingLoraTransmission) : pending_sized g1 := by
  unfold pending_sized at h ⊢
  rw [h1, h2, h3]
  exact h

theorem pending_sized_cleared (g : Gateway)
    (h1 : g.loraTransmitBuffer = List.replicate 255 0)
    (h2 : g.loraTransmitSizeBytes = 0)
    (h3 : g.pendingLoraTransmission = false) : pending_sized g := by
  unfold pending_sized
  rw [h1, h2, h3]
  exact ⟨List.length_replicate _ _, Nat.zero_le _, fun h => absurd h (by decide)⟩

theorem pending_sized_initial (mode : OperationMode) (p1 p2 : CommandMessage) :
    pending_sized (initial mode p1 p2) :=
  pending_sized_cleared _ rfl rfl rfl

theorem pending_sized_changeOperationMode (g : Gateway) (newMode : Nat)
    (h : pending_sized g) : pending_sized (changeOperationMode g newMode).2 := by
  rw [changeOperationMode_eq]
  by_cases hm : newMode = 1 ∨ newMode = 2 ∨ newMode = 3
  · rw [if_pos hm]
    exact pending_sized_cleared _ rfl rfl rfl
  · rw [if_neg hm]
    exact h

theorem pending_sized_processConfigCommand (g g1 : Gateway) (h : pending_sized g)
    (hp : processConfigCommand g = some g1) : pending_sized g1 := by
  unfold processConfigCommand at hp
  dsimp only at hp
  split_ifs at hp
  · cases hd : CommandMessage.getDataAsUint8 g.uartCommandParser with
    | none => rw [hd] at hp; exact absurd hp (by simp)
    | some v =>
      rw [hd] at hp
      rw [← Option.some.inj hp]
      exact h
  · cases hd : CommandMessage.getDataAsUint8 g.uartCommandParser with
    | none => rw [hd] at hp; exact absurd hp (by simp)
    | some v =>
      rw [hd] at hp
      rw [← Option.some.inj hp]
      exact pending_sized_changeOperationMode g v h
  · rw [← Option.some.inj hp]
    exact h

theorem pending_sized_processUartCommand (g g1 : Gateway) (tick : Nat) (h : pending_sized g)
    (hp : processUartCommand g tick = some g1) : pending_sized g1 := by
  unfold processUartCommand at hp
  split_ifs at hp with hg
  · rw [← Option.some.inj hp]
    exact h
  · have hbytes : g.uartReceivedBytes ≠ 0 := fun e => hg (Or.inr e)
    split at hp
    · exact absurd hp (by simp)
    · rename_i frameStatus parser1 hv
      dsimp only at hp
      split at hp
      · exact absurd hp (by simp)
      · rename_i g2 h2
        rw [← Option.some.inj hp]
        refine pending_sized_of_fields g2 _ ?_ rfl rfl rfl
        split_ifs at h2 with c1 c2 c3 c4
        · exact pending_sized_processConfigCommand { g with uartCommandParser := parser1 } g2
            (pending_sized_of_fields g _ h rfl rfl rfl) h2
        · split at h2
          · exact absurd h2 (by simp)
          · rename_i buffer1 hm
            rw [← Option.some.inj h2]
            have hl := length_memcpy _ _ _ _ hm
            unfold pending_sized
            dsimp only
            unfold MAX_LORA_BUFFER_SIZE at c4 ⊢
            refine ⟨by rw [hl]; exact h.1, by omega, fun _ => by omega⟩
        all_goals
          rw [← Option.some.inj h2]
          exact pending_sized_of_fields g _ h rfl rfl rfl

theorem pending_sized_handleLoraTransmission (g g1 : Gateway) (status : Nat)
    (h : pending_sized g) (hp : handleLoraTransmission g status = some g1) :
    pending_sized g1 := by
  obtain ⟨_, _, k⟩ := handleLoraTransmission_spec g g1 status hp
  rcases k with k | ⟨_, _, _, _, _, _, k1, k2, k3⟩
  · rw [k]; exact h
  · exact pending_sized_cleared g1 k2 k3 k1

theorem pending_sized_handleLoraReception (g g1 : Gateway) (rx : List Nat)
    (h : pending_sized g) (hp : handleLoraReception g rx = some g1) : pending_sized g1 := by
  obtain ⟨_, _, k1, k2, k3, _⟩ := handleLoraReception_spec g g1 rx hp
  exact pending_sized_of_fields g g1 h k2 k3 k1

theorem pending_sized_HAL_UART_RxCpltCallback (g g1 : Gateway) (b : Nat)
    (h : pending_sized g) (hp : HAL_UART_RxCpltCallback g b = some g1) : pending_sized g1 := by
  unfold HAL_UART_RxCpltCallback at hp
  dsimp only at hp
  cases hw : writeByte g.uartReceiveBuffer 0 b with
  | none => rw [hw] at hp; exact absurd hp (by simp)
  | some buffer0 =>
    rw [hw] at hp
    dsimp only at hp
    cases hq : UartHandler.process_received_byte g.uartHandler b buffer0 with
    | none => rw [hq] at hp; exact absurd hp (by simp)
    | some r =>
      obtain ⟨n, u1, buffer1⟩ := r
      rw [hq] at hp
      dsimp only at hp
      split_ifs at hp <;>
      · rw [← Option.some.inj hp]
        exact pending_sized_of_fields g _ h rfl rfl rfl

theorem pending_sized_dispatch (g g1 : Gateway) (c : DispatchCall) (h : pending_sized g)
    (hp : dispatch g c = some g1) : pending_sized g1 := by
  cases c with
  | processUartCommand tick => exact pending_sized_processUartCommand g g1 tick h hp
  | changeOperationMode newMode =>
    have e : (changeOperationMode g newMode).2 = g1 := Option.some.inj hp
    rw [← e]
    exact pending_sized_changeOperationMode g newMode h
  | handleLoraTransmission status => exact pending_sized_handleLoraTransmission g g1 status h hp
  | handleLoraReception rx => exact pending_sized_handleLoraReception g g1 rx h hp
  | HAL_UART_RxCpltCallback b => exact pending_sized_HAL_UART_RxCpltCallback g g1 b h hp

theorem pending_sized_dispatch_all : ∀ (calls : List DispatchCall) (g g1 : Gateway),
    pending_sized g → dispatch_all g calls = some g1 → pending_sized g1
  | [], g, g1, h, hp => by
    have e : g = g1 := Option.some.inj hp
    rw [← e]
    exact h
  | c :: rest, g, g1, h, hp => by
    unfold dispatch_all at hp
    rw [List.foldlM_cons] at hp
    cases hd : dispatch g c with
    | none => rw [hd] at hp; exact absurd hp (by simp)
    | some g2 =>
      rw [hd] at hp
      exact pending_sized_dispatch_all rest g2 g1 (pending_sized_dispatch g g2 c h hd) hp

/-- With the invariant, `handleLoraTransmission` on a pending frame in Tx or TxRx
mode returns, whatever `lora->transmit` answers. -/
theorem handleLoraTransmission_pending (g : Gateway) (status : Nat) (h : pending_sized g)
    (hpend : g.pendingLoraTransmission = true)
    (hmode : g.currentOperationMode = OperationMode.TX_MODE ∨
      g.currentOperationMode = OperationMode.TX_RX_MODE) :
    handleLoraTransmission g status = some { g with
      radio_calls := g.radio_calls ++
        [RadioCall.transmit (g.loraTransmitBuffer.take g.loraTransmitSizeBytes)]
      loraTransmitBuffer := List.replicate 255 0
      loraTransmitSizeBytes := 0
      pendingLoraTransmission := false } := by
  obtain ⟨h1, h2, h3⟩ := h
  unfold MAX_LORA_BUFFER_SIZE at h1 h2
  unfold handleLoraTransmission
  rw [if_pos ⟨hpend, hmode⟩, if_pos (h3 hpend)]
  have hr : readBytes g.loraTransmitBuffer g.loraTransmitSizeBytes =
      some (g.loraTransmitBuffer.take g.loraTransmitSizeBytes) := by
    unfold readBytes
    rw [if_pos (by omega)]
  rw [hr]
  simp only [ite_self]
  rfl

end Gateway

namespace Gateway

/-- With no receive interrupt inside the call, the interrupted model is
`processUartCommand`. -/
theorem processUartCommand_interrupted_none (g : Gateway) (tick : Nat) :
    processUartCommand_interrupted g tick ⟨[], [], [], [], []⟩ = processUartCommand g tick := by
  unfold processUartCommand_interrupted processUartCommand retransmit_interrupted interrupts
  by_cases h0 : !g.newUartDataReceived ∨ g.uartReceivedBytes = 0
  · rw [if_pos h0, if_pos h0]
  · rw [if_neg h0, if_neg h0]
    simp only [List.foldlM_nil, pure]

/-- With a size of 0 `handleLoraTransmission` does nothing, pending or not. -/
theorem handleLoraTransmission_size_zero (g : Gateway) (status : Nat)
    (h : g.loraTransmitSizeBytes = 0) : handleLoraTransmission g status = some g := by
  unfold handleLoraTransmission
  rw [if_neg (show ¬ g.loraTransmitSizeBytes > 0 by omega)]
  split <;> rfl

end Gateway

set_option maxRecDepth 100000 in
/-- C31: in runs in which no receive interrupt falls inside a call of
`processUartCommand`, the transmit-slot invariant (the buffer has its 255
bytes, the size fits, and `pendingLoraTransmission` implies
`loraTransmitSizeBytes > 0`) holds in the initial state and in every state
reached from a state that has it by any sequence of calls of
`processUartCommand`, `changeOperationMode`, `handleLoraTransmission`,
`handleLoraReception` and the receive interrupt handler; in such a state with
a transmission pending in Tx or TxRx mode, `handleLoraTransmission` returns for
every answer `status` of the radio transmit, having handed the pending bytes to
`lora->transmit` once, and afterwards the pending flag is false, the size 0 and
the buffer zeroed; a further call changes nothing (no retry). With a receive
interrupt inside the call the invariant fails. The gateway in TxRx mode has
received `7E 10 00 21 00 00 AC B5 7F`; `processUartCommand` passes its entry
test and `validate` answers RETRANSMIT_FRAME; the interrupt of a further byte
0x00 then sets `uartReceivedBytes` to 0, and the call copies 0 bytes and ends
with the flag pending and a size of 0. `handleLoraTransmission` then leaves the
state as it is, with no transmit and the flag still pending, whatever the
status; and steps 2 and 3 of the main loop leave it as it is too, so that
nothing is received either. -/
theorem pending_implies_size (g0 g : Gateway) (calls : List DispatchCall)
    (h0 : Gateway.pending_sized g0) (h : Gateway.dispatch_all g0 calls = some g) :
    (∀ mode p1 p2, Gateway.pending_sized (Gateway.initial mode p1 p2)) ∧
    Gateway.pending_sized g ∧
    (g.pendingLoraTransmission = true → g.loraTransmitSizeBytes > 0) ∧
    (g.pendingLoraTransmission = true →
      g.currentOperationMode = OperationMode.TX_MODE ∨
        g.currentOperationMode = OperationMode.TX_RX_MODE →
      ∀ status, ∃ g1, Gateway.handleLoraTransmission g status = some g1 ∧
        g1.radio_calls = g.radio_calls ++
          [RadioCall.transmit (g.loraTransmitBuffer.take g.loraTransmitSizeBytes)] ∧
        g1.pendingLoraTransmission = false ∧
        g1.loraTransmitSizeBytes = 0 ∧
        g1.loraTransmitBuffer = List.replicate 255 0 ∧
        ∀ status2, Gateway.handleLoraTransmission g1 status2 = some g1) ∧
    (∀ x tick, Gateway.processUartCommand_interrupted x tick ⟨[], [], [], [], []⟩ =
      Gateway.processUartCommand x tick) ∧
    (Gateway.frame_received.map (fun x => (x.currentOperationMode, x.uartReceivedBytes,
        x.newUartDataReceived, x.uartReceiveBuffer.take 9, x.pendingLoraTransmission)) =
      some (OperationMode.TX_RX_MODE, 9, true, Gateway.foreign_frame, false)) ∧
    ((Gateway.frame_received.bind (fun x =>
        CommandMessage.validate x.uartCommandParser x.uartReceiveBuffer
          (x.uartReceivedBytes % 256))).map (fun r => r.1) = some STATUS.RETRANSMIT_FRAME) ∧
    ((Gateway.frame_received.bind (fun x =>
        Gateway.processUartCommand_interrupted x 7 ⟨[], [0x00], [], [], []⟩)).map
        (fun x => (x.currentOperationMode, x.pendingLoraTransmission, x.loraTransmitSizeBytes,
          x.radio_calls)) =
      some (OperationMode.TX_RX_MODE, true, 0, [])) ∧
    (∀ x, Gateway.frame_received.bind (fun y =>
        Gateway.processUartCommand_interrupted y 7 ⟨[], [0x00], [], [], []⟩) = some x →
      ∀ status, Gateway.handleLoraTransmission x status = some x ∧
        ∀ rx, Gateway.main_loop_radio_steps x status rx = some x) := by
  have hg := Gateway.pending_sized_dispatch_all calls g0 g h0 h
  refine ⟨Gateway.pending_sized_initial, hg, hg.2.2, ?_,
    Gateway.processUartCommand_interrupted_none, by decide, by decide, ?_, ?_⟩
  · intro hpend hmode status
    refine ⟨_, Gateway.handleLoraTransmission_pending g status hg hpend hmode,
      rfl, rfl, rfl, rfl, ?_⟩
    intro status2
    unfold Gateway.handleLoraTransmission
    rw [if_neg (fun hc => absurd (show false = true from hc.1) (by decide))]
  · decide
  · intro x hx status
    have hz : (Gateway.frame_received.bind (fun y =>
        Gateway.processUartCommand_interrupted y 7 ⟨[], [0x00], [], [], []⟩)).map
        (fun y => y.loraTransmitSizeBytes) = some 0 := by decide
    have hp : (Gateway.frame_received.bind (fun y =>
        Gateway.processUartCommand_interrupted y 7 ⟨[], [0x00], [], [], []⟩)).map
        (fun y => y.pendingLoraTransmission) = some true := by decide
    rw [hx] at hz hp
    have ht := Gateway.handleLoraTransmission_size_zero x status (Option.some.inj hz)
    have hpx : x.pendingLoraTransmission = true := Option.some.inj hp
    refine ⟨ht, fun rx => ?_⟩
    unfold Gateway.main_loop_radio_steps
    rw [ht]
    simp only [hpx, if_true, Bool.not_true, Bool.false_eq_true, false_and, if_false,
      ite_self]

set_option maxRecDepth 100000 in
/-- Witness of C31: a gateway in TxRx mode processes a serial frame addressed to
another module; the frame is pending with size 9, and `handleLoraTransmission`
with a failed transmit (status 1) clears the slot. -/
theorem pending_implies_size_witness :
    Gateway.pending_sized Gateway.txrx_with_frame ∧
    Gateway.dispatch_all Gateway.txrx_with_frame [DispatchCall.processUartCommand 7] =
      some { Gateway.txrx_with_frame with
        loraTransmitBuffer :=
          [0x7E, 0x10, 0x00, 0x21, 0x00, 0x00, 0xAC, 0xB5, 0x7F] ++ List.replicate 246 0
        loraTransmitSizeBytes := 9
        pendingLoraTransmission := true
        uartReceiveBuffer := List.replicate 255 0
        uartReceivedBytes := 0
        newUartDataReceived := false
        blockStartTime := 7 } ∧
    ∃ g1, Gateway.handleLoraTransmission { Gateway.txrx_with_frame with
        loraTransmitBuffer :=
          [0x7E, 0x10, 0x00, 0x21, 0x00, 0x00, 0xAC, 0xB5, 0x7F] ++ List.replicate 246 0
        loraTransmitSizeBytes := 9
        pendingLoraTransmission := true
        uartReceiveBuffer := List.replicate 255 0
        uartReceivedBytes := 0
        newUartDataReceived := false
        blockStartTime := 7 } 1 = some g1 ∧
      g1.radio_calls = [RadioCall.transmit [0x7E, 0x10, 0x00, 0x21, 0x00, 0x00, 0xAC, 0xB5, 0x7F]] ∧
      g1.pendingLoraTransmission = false :=
  ⟨by decide, by decide,
    match (pending_implies_size Gateway.txrx_with_frame _
      [DispatchCall.processUartCommand 7] (by decide) (by decide)).2.2.2.1 rfl (Or.inr rfl) 1 with
    | ⟨g1, h1, h2, h3, _⟩ => ⟨g1, h1, h2, h3⟩⟩

/-! ## The direct frame builder -/

theorem writeByte_append_cons (a b : List Nat) (x v i : Nat) (hi : a.length = i) :
    writeByte (a ++ x :: b) i v = some (a ++ v :: b) := by
  subst hi
  unfold writeByte
  rw [if_pos (by rw [List.length_append, List.length_cons]; omega)]
  rw [List.set_append_right _ _ (Nat.le_refl _), Nat.sub_self]
  rfl

theorem writeByte_none (f : List Nat) (i v : Nat) (hi : f.length ≤ i) :
    writeByte f i v = none := by
  unfold writeByte
  rw [if_neg (by omega)]

theorem length_writeByte (f r : List Nat) (i v : Nat) (h : writeByte f i v = some r) :
    r.length = f.length := by
  unfold writeByte at h
  split_ifs at h
  rw [← Option.some.inj h, List.length_set]

theorem writeByte_zero (x : Nat) (f : List Nat) (v : Nat) :
    writeByte (x :: f) 0 v = some (v :: f) := by
  unfold writeByte
  rw [if_pos (by rw [List.length_cons]; omega)]
  rfl

theorem writeByte_succ (x : Nat) (f : List Nat) (i v : Nat) :
    writeByte (x :: f) (i + 1) v = (writeByte f i v).map (fun r => x :: r) := by
  unfold writeByte
  by_cases h : i < f.length
  · rw [if_pos h, if_pos (by rw [List.length_cons]; omega)]
    rfl
  · rw [if_neg h, if_neg (by rw [List.length_cons]; omega)]
    rfl

namespace CommandMessage

/-- The six header writes of `composeAndSendMessage` into the 255-byte buffer. -/
theorem composeAndSendMessage_header_eq (s : CommandMessage) (size : Nat) :
    composeAndSendMessage_header s (List.replicate 255 0) size =
      some ([0x7E, s.module_function, s.module_id, s.command_id, 0, size] ++
        List.replicate 249 0) := by
  have e : List.replicate 255 0 = 0 :: 0 :: 0 :: 0 :: 0 :: 0 :: List.replicate 249 (0 : Nat) :=
    rfl
  unfold composeAndSendMessage_header
  rw [e]
  have w1 : ∀ (a b : Nat) (f : List Nat) (v : Nat),
      writeByte (a :: b :: f) 1 v = some (a :: v :: f) := fun a b f v => by
    rw [writeByte_succ a (b :: f) 0 v, writeByte_zero]
    rfl
  have w2 : ∀ (a b c : Nat) (f : List Nat) (v : Nat),
      writeByte (a :: b :: c :: f) 2 v = some (a :: b :: v :: f) := fun a b c f v => by
    rw [writeByte_succ a (b :: c :: f) 1 v, w1]
    rfl
  have w3 : ∀ (a b c d : Nat) (f : List Nat) (v : Nat),
      writeByte (a :: b :: c :: d :: f) 3 v = some (a :: b :: c :: v :: f) :=
    fun a b c d f v => by
    rw [writeByte_succ a (b :: c :: d :: f) 2 v, w2]
    rfl
  have w4 : ∀ (a b c d e : Nat) (f : List Nat) (v : Nat),
      writeByte (a :: b :: c :: d :: e :: f) 4 v = some (a :: b :: c :: d :: v :: f) :=
    fun a b c d e f v => by
    rw [writeByte_succ a (b :: c :: d :: e :: f) 3 v, w3]
    rfl
  have w5 : ∀ (a b c d e g : Nat) (f : List Nat) (v : Nat),
      writeByte (a :: b :: c :: d :: e :: g :: f) 5 v =
        some (a :: b :: c :: d :: e :: v :: f) :=
    fun a b c d e g f v => by
    rw [writeByte_succ a (b :: c :: d :: e :: g :: f) 4 v, w4]
    rfl
  simp only [writeByte_zero, Option.some_bind, Option.bind_eq_bind, w1, w2, w3, w4, w5,
    LTEL_START_MARK, List.cons_append, List.nil_append]

/-- The payload copy into a buffer whose six header bytes are followed by 249
free bytes: it succeeds exactly for sizes up to 249. -/
theorem composeAndSendMessage_payload_eq (hdr d : List Nat) (size : Nat)
    (hh : hdr.length = 6) (hd : size ≤ d.length) :
    composeAndSendMessage_payload (hdr ++ List.replicate 249 0) 6 (some d) size =
      if size ≤ 249 then
        some (hdr ++ d.take size ++ List.replicate (249 - size) 0, 6 + size)
      else none := by
  have e1 : (hdr ++ List.replicate 249 0).drop 6 = List.replicate 249 0 := by
    rw [← hh, List.drop_left]
  have e2 : (hdr ++ List.replicate 249 0).take 6 = hdr := by
    rw [← hh, List.take_left]
  unfold composeAndSendMessage_payload
  dsimp only
  by_cases h0 : size > 0
  · rw [if_pos h0, e1, e2]
    unfold memcpy
    by_cases h249 : size ≤ 249
    · rw [if_pos ⟨hd, by rw [List.length_replicate]; exact h249⟩, if_pos h249]
      dsimp only
      rw [List.drop_replicate, Nat.mod_eq_of_lt (by omega), List.append_assoc]
    · rw [if_neg (fun hc => h249 (by have := hc.2; rw [List.length_replicate] at this; exact this)),
        if_neg h249]
  · have hz : size = 0 := by omega
    subst hz
    rw [if_neg h0, if_pos (by omega)]
    simp only [List.take_zero, List.append_nil, Nat.sub_zero, Nat.add_zero]

/-- The end of `composeAndSendMessage` on a buffer with room for the trailer. -/
theorem composeAndSendMessage_trailer_eq (x a b c : Nat) (body rest : List Nat)
    (status : Nat) (hb : body.length ≤ 251) :
    composeAndSendMessage_trailer (x :: body ++ a :: b :: c :: rest) (body.length + 1) status =
      some (decide (status = HAL_OK),
        [x :: body ++ [body.foldl crc_byte 0 &&& 0xFF, body.foldl crc_byte 0 >>> 8, 0x7F]]) := by
  unfold composeAndSendMessage_trailer
  have e1 : toUint8 (((body.length + 1 : Nat) : Int) - 1) = body.length := by
    unfold toUint8
    omega
  have e2 : (x :: body ++ a :: b :: c :: rest).drop 1 = body ++ a :: b :: c :: rest := rfl
  have hc := crc_loop_take (body ++ a :: b :: c :: rest) body.length 0
    (by rw [List.length_append]; omega)
  rw [List.take_left] at hc
  rw [e1, e2]
  unfold crc_get
  rw [hc]
  dsimp only
  have hlt := foldl_crc_byte_lt body 0 (by norm_num)
  have t := crc_trailer _ hlt
  simp only [List.cons.injEq, and_true] at t
  rw [t.1, t.2.1]
  generalize body.foldl crc_byte 0 &&& 0xFF = c1
  generalize body.foldl crc_byte 0 >>> 8 = c2
  have w1 := writeByte_append_cons (x :: body) (b :: c :: rest) a c1 (body.length + 1)
    (by rw [List.length_cons])
  have w2 := writeByte_append_cons (x :: body ++ [c1]) (c :: rest) b c2 (body.length + 1 + 1)
    (by rw [List.length_append, List.length_cons, List.length_singleton])
  have w3 := writeByte_append_cons (x :: body ++ [c1, c2]) rest c LTEL_END_MARK
    (body.length + 1 + 2)
    (by simp only [List.length_append, List.length_cons, List.length_nil])
  simp only [List.append_assoc, List.cons_append, List.nil_append] at w1 w2 w3
  rw [Nat.mod_eq_of_lt (show body.length + 1 + 1 < 256 by omega),
    Nat.mod_eq_of_lt (show body.length + 1 + 2 < 256 by omega),
    Nat.mod_eq_of_lt (show body.length + 1 + 3 < 256 by omega)]
  simp only [List.cons_append, w1, Option.some_bind, Option.bind_eq_bind, w2, w3]
  unfold readBytes
  have hl : body.length + 1 + 3 ≤
      (x :: (body ++ c1 :: c2 :: LTEL_END_MARK :: rest)).length := by
    simp only [List.length_append, List.length_cons]
    omega
  rw [if_pos hl]
  have ht : (x :: (body ++ c1 :: c2 :: LTEL_END_MARK :: rest)).take (body.length + 1 + 3) =
      x :: (body ++ [c1, c2, 0x7F]) := by
    have e : x :: (body ++ c1 :: c2 :: LTEL_END_MARK :: rest) =
        (x :: (body ++ [c1, c2, 0x7F])) ++ rest := by
      simp only [List.cons_append, List.append_assoc, List.nil_append, LTEL_END_MARK]
    rw [e]
    exact List.take_left' (by simp only [List.length_append, List.length_cons, List.length_nil])
  rw [ht]

/-- The end of `composeAndSendMessage` when fewer than three bytes are left at
`index`: one of the trailer writes goes past the 255-byte buffer. -/
theorem composeAndSendMessage_trailer_none (frame : List Nat) (index status : Nat)
    (hf : frame.length = 255) (h253 : 253 ≤ index) (h255 : index ≤ 255) :
    composeAndSendMessage_trailer frame index status = none := by
  unfold composeAndSendMessage_trailer
  cases crc_get (frame.drop 1) (toUint8 ((index : Int) - 1)) with
  | none => rfl
  | some crc =>
    dsimp only
    have hw : (do
        let f7 ← writeByte frame index ((crc &&& 0xFF) % 256)
        let f8 ← writeByte f7 ((index + 1) % 256) (((crc >>> 8) &&& 0xFF) % 256)
        writeByte f8 ((index + 2) % 256) LTEL_END_MARK) = none := by
      cases h7 : writeByte frame index ((crc &&& 0xFF) % 256) with
      | none => rfl
      | some f7 =>
        have l7 := length_writeByte _ _ _ _ h7
        have hi : index < 255 := by
          unfold writeByte at h7
          split_ifs at h7 with hc
          omega
        simp only [Option.some_bind, Option.bind_eq_bind]
        cases h8 : writeByte f7 ((index + 1) % 256) (((crc >>> 8) &&& 0xFF) % 256) with
        | none => rfl
        | some f8 =>
          have l8 := length_writeByte _ _ _ _ h8
          have hi8 : (index + 1) % 256 < 255 := by
            unfold writeByte at h8
            split_ifs at h8 with hc
            omega
          simp only [Option.some_bind]
          exact writeByte_none _ _ _ (by omega)
    rw [hw]

end CommandMessage

namespace CommandMessage

/-- The function `composeAndSendMessage` for a payload of at most 246 bytes. -/
theorem composeAndSendMessage_eq (s : CommandMessage) (d : List Nat) (size status : Nat)
    (h246 : size ≤ 246) (hd : size ≤ d.length) :
    composeAndSendMessage s true (some d) size status =
      some (decide (status = HAL_OK),
        [[0x7E, s.module_function, s.module_id, s.command_id, 0, size] ++ d.take size ++
          [([s.module_function, s.module_id, s.command_id, 0, size] ++ d.take size).foldl
              crc_byte 0 &&& 0xFF,
            ([s.module_function, s.module_id, s.command_id, 0, size] ++ d.take size).foldl
              crc_byte 0 >>> 8,
            0x7F]]) := by
  unfold composeAndSendMessage
  have hg : ¬ ((6 + size + 3) % 256 > (List.replicate 255 0).length) := by
    rw [List.length_replicate]
    omega
  simp only [Bool.not_true, Bool.false_eq_true, if_false]
  rw [if_neg hg, composeAndSendMessage_header_eq]
  dsimp only
  rw [composeAndSendMessage_payload_eq
    [0x7E, s.module_function, s.module_id, s.command_id, 0, size] d size rfl hd,
    if_pos (by omega)]
  dsimp only
  have hl : ([s.module_function, s.module_id, s.command_id, 0, size] ++ d.take size).length =
      5 + size := by
    rw [List.length_append, List.length_take]
    simp only [List.length_cons, List.length_nil]
    omega
  have hr : List.replicate (249 - size) (0 : Nat) = 0 :: 0 :: 0 :: List.replicate (246 - size) 0 := by
    have e : 249 - size = 246 - size + 1 + 1 + 1 := by omega
    rw [e]
    rfl
  have e : [0x7E, s.module_function, s.module_id, s.command_id, 0, size] ++ d.take size ++
      List.replicate (249 - size) 0 =
      0x7E :: ([s.module_function, s.module_id, s.command_id, 0, size] ++ d.take size) ++
        0 :: 0 :: 0 :: List.replicate (246 - size) 0 := by
    rw [hr]
    rfl
  have hi : 6 + size =
      ([s.module_function, s.module_id, s.command_id, 0, size] ++ d.take size).length + 1 := by
    rw [hl]
    omega
  rw [e, hi, composeAndSendMessage_trailer_eq _ _ _ _ _ _ _ (by rw [hl]; omega)]
  rfl

/-- The function `composeAndSendMessage` for a payload of more than 246 bytes:
the size test passes and a write goes past the frame buffer. -/
theorem composeAndSendMessage_none (s : CommandMessage) (d : List Nat) (size status : Nat)
    (h246 : 246 < size) (h255 : size ≤ 255) (hd : size ≤ d.length) :
    composeAndSendMessage s true (some d) size status = none := by
  unfold composeAndSendMessage
  have hg : ¬ ((6 + size + 3) % 256 > (List.replicate 255 0).length) := by
    rw [List.length_replicate]
    omega
  simp only [Bool.not_true, Bool.false_eq_true, if_false]
  rw [if_neg hg, composeAndSendMessage_header_eq]
  dsimp only
  rw [composeAndSendMessage_payload_eq
    [0x7E, s.module_function, s.module_id, s.command_id, 0, size] d size rfl hd]
  by_cases h249 : size ≤ 249
  · rw [if_pos h249]
    dsimp only
    apply composeAndSendMessage_trailer_none
    · simp only [List.length_append, List.length_take, List.length_replicate, List.length_cons,
        List.length_nil]
      omega
    · omega
    · omega
  · rw [if_neg h249]

end CommandMessage


/-! ## Frequency query and decode -/

set_option maxRecDepth 100000 in
theorem reply_173500000 :
    F32.to_bytes (F32.div (F32.of_uint32 173500000) F32.MILLION) = [0x00, 0x80, 0x2D, 0x43] := by
  decide

set_option maxRecDepth 100000 in
/-- C32: after `set_rx_freq(173500000)` the reply to QUERY_RX_FREQ is one frame
whose 4-byte payload is `00 80 2D 43`, the little-endian bytes of the pattern
0x432D8000, which is the single-precision number 173.5 (mantissa
`347 * 2^15`, scale `2^-16`); and `freqDecode` on a parser that holds this
payload returns 173,500,000. What `freqDecode` computes is the
single-precision product of the payload value and `1000000.0f`, converted to
`int` by dropping the fraction; with fewer than four bytes it returns 0. -/
theorem frequency_roundtrip (l : Lora) (cmdBuilder s : CommandMessage) (status : Nat) :
    (∃ crc : Nat,
      transmitLoraSettingResponse (Lora.set_rx_freq l 173500000) cmdBuilder
          CommandType.QUERY_RX_FREQ status =
        some (decide (status = HAL_OK),
          [[0x7E, cmdBuilder.module_function, cmdBuilder.module_id, cmdBuilder.command_id,
            0, 4, 0x00, 0x80, 0x2D, 0x43, crc &&& 0xFF, crc >>> 8, 0x7F]])) ∧
    (F32.sign 0x432D8000 = 0 ∧ F32.mantissa 0x432D8000 = 347 * 2 ^ 15 ∧
      F32.scale 0x432D8000 = -16) ∧
    freqDecode { s with message := [0x00, 0x80, 0x2D, 0x43] } = some 173500000 ∧
    (∀ b0 b1 b2 b3 : Nat, ∀ rest : List Nat,
      freqDecode { s with message := b0 :: b1 :: b2 :: b3 :: rest } =
        F32.to_int (F32.mul (b0 + 256 * b1 + 65536 * b2 + 16777216 * b3) F32.MILLION)) ∧
    (s.message.length < 4 → freqDecode s = some 0) := by
  have hgen : ∀ b0 b1 b2 b3 : Nat, ∀ rest : List Nat,
      freqDecode { s with message := b0 :: b1 :: b2 :: b3 :: rest } =
        F32.to_int (F32.mul (b0 + 256 * b1 + 65536 * b2 + 16777216 * b3) F32.MILLION) := by
    intro b0 b1 b2 b3 rest
    unfold freqDecode
    rw [if_neg (by simp only [List.length_cons]; omega)]
    unfold readBytes
    rw [if_pos (by simp only [List.length_cons]; omega)]
    rfl
  refine ⟨?_, by decide, ?_, hgen, ?_⟩
  · have hset : Lora.get_rx_frequency (Lora.set_rx_freq l 173500000) = 173500000 := by
      unfold Lora.set_rx_freq
      rw [if_pos (by decide)]
      rfl
    unfold transmitLoraSettingResponse
    rw [if_pos rfl, hset, reply_173500000]
    dsimp only
    rw [show [0x00, 0x80, 0x2D, 0x43].length = 4 from rfl,
      composeAndSendMessage_eq cmdBuilder [0x00, 0x80, 0x2D, 0x43] 4 status (by decide)
        (by decide)]
    exact ⟨_, rfl⟩
  · rw [hgen 0x00 0x80 0x2D 0x43 []]
    decide
  · intro h
    unfold freqDecode
    rw [if_pos h]

set_option maxRecDepth 100000 in
/-- Counterexample to C32 as stated. The payload `01 80 2D 43` holds the
single-precision number `v = 11370497 * 2^-16` (173.5 plus one unit in the
last place): the exact product `v * 1,000,000` is 173,500,015.26, which rounds
to the integer 173,500,015, and `freqDecode` returns 173,500,016. The payload
`DE D6 FC 3D` holds `v = 16570078 * 2^-27` (about 0.1234567): the
single-precision product is `15802458 * 2^-7 = 123456.703125`, which rounds to
123,457, and `freqDecode` returns 123,456. -/
theorem frequency_roundtrip_counterexample :
    freqDecode ⟨255, 0, 0, 0xB1, 4, 4, [0x01, 0x80, 0x2D, 0x43], false, false⟩ =
      some 173500016 ∧
    F32.sign 0x432D8001 = 0 ∧ F32.mantissa 0x432D8001 = 11370497 ∧
    F32.scale 0x432D8001 = -16 ∧
    (11370497 * 1000000 + 2 ^ 15) / 2 ^ 16 = 173500015 ∧
    freqDecode ⟨255, 0, 0, 0xB1, 4, 4, [0xDE, 0xD6, 0xFC, 0x3D], false, false⟩ =
      some 123456 ∧
    F32.mantissa 0x3DFCD6DE = 16570078 ∧ F32.scale 0x3DFCD6DE = -27 ∧
    F32.mul 0x3DFCD6DE F32.MILLION = 0x47F1205A ∧
    F32.mantissa 0x47F1205A = 15802458 ∧ F32.scale 0x47F1205A = -7 ∧
    (15802458 + 2 ^ 6) / 2 ^ 7 = 123457 ∧
    (16570078 * 1000000 + 2 ^ 26) / 2 ^ 27 = 123457 := by
  decide

set_option maxRecDepth 100000 in
/-- Witness of C32: the driver with uplink 173,500,000 answers the query of a
parser with identity (0x02, 0x00) and command 0x21 with the frame
`7E 02 00 21 00 04 00 80 2D 43 ..`. -/
theorem frequency_roundtrip_witness :
    (transmitLoraSettingResponse ⟨0, [], ⟨[], fun _ => 0xFF, []⟩, 7, 9, 2, 149500000,
        173500000, 0, 0, 0, 0, 0, 0, 0⟩ ⟨255, 0x02, 0x00, 0x21, 0, 0, [], false, false⟩
        0x21 0).map (fun r => r.2.map (fun f => f.take 10)) =
      some [[0x7E, 0x02, 0x00, 0x21, 0x00, 0x04, 0x00, 0x80, 0x2D, 0x43]] ∧
    freqDecode ⟨255, 0x02, 0x00, 0xB1, 4, 4, [0x00, 0x80, 0x2D, 0x43], false, false⟩ =
      some 173500000 :=
  ⟨by decide,
    (frequency_roundtrip ⟨0, [], ⟨[], fun _ => 0xFF, []⟩, 7, 9, 2, 149500000,
      173500000, 0, 0, 0, 0, 0, 0, 0⟩ ⟨255, 0x02, 0x00, 0x21, 0, 0, [], false, false⟩
      ⟨255, 0x02, 0x00, 0xB1, 4, 4, [], false, false⟩ 0).2.2.1⟩

/-- C33: in `composeAndSendMessage` the test `frame_size > sizeof(frame_buffer)`
compares a `uint8_t` with 255 and never holds. For every size up to 246 (with
`data` holding `size` bytes) the call returns, every access staying inside the
255-byte frame buffer, and hands to the transport a frame of `size + 9` bytes,
at most 255. For every size from 247 to 255 the call does not return false:
it passes the test, builds the header and reaches a write past the end of the
frame buffer. With a null `uartComm` it returns false and sends nothing. -/
theorem composeAndSendMessage_bounds (s : CommandMessage) (d : List Nat) (size status : Nat)
    (h255 : size ≤ 255) (hd : size ≤ d.length) :
    ¬ ((6 + size + 3) % 256 > 255) ∧
    (size ≤ 246 → ∃ frame,
      composeAndSendMessage s true (some d) size status =
        some (decide (status = HAL_OK), [frame]) ∧
      frame.length = size + 9 ∧ frame.length ≤ 255) ∧
    (246 < size → composeAndSendMessage s true (some d) size status = none ∧
      composeAndSendMessage s true (some d) size status ≠ some (false, [])) ∧
    composeAndSendMessage s false (some d) size status = some (false, []) := by
  refine ⟨by omega, ?_, ?_, rfl⟩
  · intro h246
    refine ⟨_, composeAndSendMessage_eq s d size status h246 hd, ?_, ?_⟩
    · simp only [List.length_append, List.length_take, List.length_cons, List.length_nil]
      omega
    · simp only [List.length_append, List.length_take, List.length_cons, List.length_nil]
      omega
  · intro h246
    rw [composeAndSendMessage_none s d size status h246 h255 hd]
    exact ⟨rfl, by simp⟩

set_option maxRecDepth 100000 in
/-- Witness of C33: a payload of 4 bytes gives a frame of 13 bytes; a payload of
247 bytes has no result. -/
theorem composeAndSendMessage_bounds_witness :
    composeAndSendMessage ⟨255, 0x10, 0x02, 0x21, 0, 0, [], false, false⟩ true
        (some [1, 2, 3, 4]) 4 0 =
      some (true, [[0x7E, 0x10, 0x02, 0x21, 0, 4, 1, 2, 3, 4, 0xCA, 0x8E, 0x7F]]) ∧
    composeAndSendMessage ⟨255, 0x10, 0x02, 0x21, 0, 0, [], false, false⟩ true
        (some (List.replicate 247 7)) 247 0 = none :=
  ⟨by decide,
    ((composeAndSendMessage_bounds ⟨255, 0x10, 0x02, 0x21, 0, 0, [], false, false⟩
      (List.replicate 247 7) 247 0 (by decide) (by decide)).2.2.1 (by decide)).1⟩


/-! ## Linearity of the CRC engine over GF(2) -/

namespace CommandMessage

theorem crc_bit_xor (a b : Nat) (ha : a < 65536) (hb : b < 65536) :
    crc_bit (a ^^^ b) = crc_bit a ^^^ crc_bit b := by
  have hab : a ^^^ b < 65536 :=
    Nat.xor_lt_two_pow (n := 16) (by norm_num; exact ha) (by norm_num; exact hb)
  rw [crc_bit_eq a ha, crc_bit_eq b hb, crc_bit_eq _ hab, shiftLeft_xor_distrib,
    Nat.testBit_xor]
  generalize a <<< 1 = A
  generalize b <<< 1 = B
  cases a.testBit 15 <;> cases b.testBit 15 <;>
  · apply Nat.eq_of_testBit_eq
    intro i
    simp only [Bool.xor_false, Bool.xor_true, Bool.not_false, Bool.not_true,
      Bool.false_eq_true, if_false, if_true, Nat.testBit_xor, Nat.zero_testBit]
    all_goals
      cases A.testBit i <;> cases B.testBit i <;> cases (0x11021 : Nat).testBit i <;> rfl

theorem crc_bit_ne_zero (d : Nat) (hd : d < 65536) (h0 : d ≠ 0) : crc_bit d ≠ 0 := by
  rw [crc_bit_eq d hd]
  intro h
  by_cases ht : d.testBit 15 = true
  · rw [if_pos ht] at h
    have hb : ((d <<< 1) ^^^ 0x11021).testBit 0 = true := by
      rw [Nat.testBit_xor, Nat.testBit_shiftLeft]
      have h1 : (0x11021 : Nat).testBit 0 = true := by decide
      rw [h1]
      simp
    rw [h] at hb
    exact absurd hb (by decide)
  · rw [if_neg ht, Nat.xor_zero, Nat.shiftLeft_eq] at h
    omega

theorem crc_bits_xor : ∀ (k a b : Nat), a < 65536 → b < 65536 →
    crc_bits k (a ^^^ b) = crc_bits k a ^^^ crc_bits k b
  | 0, _, _, _, _ => rfl
  | k + 1, a, b, ha, hb => by
    simp only [crc_bits]
    rw [crc_bit_xor a b ha hb]
    exact crc_bits_xor k _ _ (crc_bit_lt a) (crc_bit_lt b)

theorem crc_bits_ne_zero : ∀ (k d : Nat), d < 65536 → d ≠ 0 → crc_bits k d ≠ 0
  | 0, _, _, h0 => h0
  | k + 1, d, hd, h0 => by
    simp only [crc_bits]
    exact crc_bits_ne_zero k _ (crc_bit_lt d) (crc_bit_ne_zero d hd h0)

/-- A difference `e` of the CRC register before a byte becomes the difference
`crc_bits 8 e` after it. -/
theorem crc_byte_xor (c e b : Nat) (hc : c < 65536) (he : e < 65536) :
    crc_byte (c ^^^ e) b = crc_byte c b ^^^ crc_bits 8 e := by
  unfold crc_byte
  have hB : (b <<< 8) % 65536 < 65536 := Nat.mod_lt _ (by norm_num)
  have hcB : c ^^^ (b <<< 8) % 65536 < 65536 :=
    Nat.xor_lt_two_pow (n := 16) (by norm_num; exact hc) (by norm_num; exact hB)
  rw [Nat.xor_assoc, Nat.xor_comm e, ← Nat.xor_assoc]
  exact crc_bits_xor 8 _ _ hcB he

/-- A non-zero difference of the CRC register stays non-zero over any bytes. -/
theorem foldl_crc_byte_xor : ∀ (B : List Nat) (c e : Nat), c < 65536 → e < 65536 → e ≠ 0 →
    B.foldl crc_byte (c ^^^ e) ≠ B.foldl crc_byte c
  | [], c, e, _, _, h0 => by
    intro h
    have h2 : c ^^^ e = c ^^^ 0 := by rw [Nat.xor_zero]; exact h
    exact h0 (Nat.xor_right_inj.mp h2)
  | b :: rest, c, e, hc, he, h0 => by
    simp only [List.foldl_cons]
    rw [crc_byte_xor c e b hc he]
    exact foldl_crc_byte_xor rest _ _ (crc_byte_lt c b) (crc_bits_lt 8 e he)
      (crc_bits_ne_zero 8 e he h0)

/-- The byte moved into the register, with one bit flipped. -/
theorem shifted_byte_flip (b j : Nat) (hj : j < 8) :
    ((b ^^^ 2 ^ j) <<< 8) % 65536 = ((b <<< 8) % 65536) ^^^ 2 ^ (j + 8) := by
  have e : (65536 : Nat) = 2 ^ 16 := by norm_num
  rw [e]
  apply Nat.eq_of_testBit_eq
  intro i
  simp only [Nat.testBit_mod_two_pow, Nat.testBit_xor, Nat.testBit_shiftLeft,
    Nat.testBit_two_pow]
  by_cases hi : i < 16
  · by_cases h8 : i ≥ 8
    · have e1 : (j = i - 8) = (j + 8 = i) := by
        apply propext
        omega
      simp [hi, h8, e1]
    · have e2 : ¬ (j + 8 = i) := by omega
      simp [hi, h8, e2]
  · have e2 : ¬ (j + 8 = i) := by omega
    simp [hi, e2]

/-- Flipping one bit of one byte changes the CRC of a byte sequence. -/
theorem crc_single_bit (pre post : List Nat) (b j : Nat) (hj : j < 8) :
    (pre ++ (b ^^^ 2 ^ j) :: post).foldl crc_byte 0 ≠ (pre ++ b :: post).foldl crc_byte 0 := by
  simp only [List.foldl_append, List.foldl_cons]
  have hc : pre.foldl crc_byte 0 < 65536 := foldl_crc_byte_lt pre 0 (by norm_num)
  have hstep : crc_byte (pre.foldl crc_byte 0) (b ^^^ 2 ^ j) =
      crc_byte (pre.foldl crc_byte 0) b ^^^ crc_bits 8 (2 ^ (j + 8)) := by
    have hB : (b <<< 8) % 65536 < 65536 := Nat.mod_lt _ (by norm_num)
    have hcB : pre.foldl crc_byte 0 ^^^ (b <<< 8) % 65536 < 65536 :=
      Nat.xor_lt_two_pow (n := 16) (by norm_num; exact hc) (by norm_num; exact hB)
    have hp : 2 ^ (j + 8) < 65536 := by
      have : (65536 : Nat) = 2 ^ 16 := by norm_num
      rw [this]
      exact Nat.pow_lt_pow_right (by norm_num) (by omega)
    unfold crc_byte
    rw [shifted_byte_flip b j hj, ← Nat.xor_assoc]
    exact crc_bits_xor 8 _ _ hcB hp
  have hp : 2 ^ (j + 8) < 65536 := by
    have : (65536 : Nat) = 2 ^ 16 := by norm_num
    rw [this]
    exact Nat.pow_lt_pow_right (by norm_num) (by omega)
  rw [hstep]
  exact foldl_crc_byte_xor post _ _ (crc_byte_lt _ b) (crc_bits_lt 8 _ hp)
    (crc_bits_ne_zero 8 _ hp (by positivity))

end CommandMessage

/-! ## One flipped bit in a frame -/

theorem getD_set_self (l : List Nat) (i v : Nat) (h : i < l.length) :
    (l.set i v).getD i 0 = v := by
  rw [List.getD_eq_getElem?_getD, List.getElem?_set_self h]
  rfl

theorem getD_set_ne (l : List Nat) (i k v : Nat) (h : i ≠ k) :
    (l.set i v).getD k 0 = l.getD k 0 := by
  rw [List.getD_eq_getElem?_getD, List.getD_eq_getElem?_getD, List.getElem?_set_ne h]

theorem xor_two_pow_ne (x j : Nat) : x ^^^ 2 ^ j ≠ x := by
  intro h
  have h2 : x ^^^ 2 ^ j = x ^^^ 0 := by rw [Nat.xor_zero]; exact h
  have h3 := Nat.xor_right_inj.mp h2
  have : 0 < 2 ^ j := by positivity
  omega

theorem xor_two_pow_lt (x j : Nat) (hx : x < 256) (hj : j < 8) : x ^^^ 2 ^ j < 256 := by
  have e : (256 : Nat) = 2 ^ 8 := by norm_num
  rw [e] at hx ⊢
  exact Nat.xor_lt_two_pow hx (Nat.pow_lt_pow_right (by norm_num) hj)

/-- The CRC-covered region of a frame with the byte at `i` replaced, for `i`
inside the region. -/
theorem crc_region_set (F : List Nat) (i v len : Nat) (hi1 : 1 ≤ i) (hi4 : i + 4 ≤ len)
    (hlen : len ≤ F.length) :
    ∃ pre post : List Nat,
      ((F.set i v).drop 1).take (len - 4) = pre ++ v :: post ∧
      (F.drop 1).take (len - 4) = pre ++ F.getD i 0 :: post := by
  have hl : ((F.drop 1).take (len - 4)).length = len - 4 := by
    rw [List.length_take, List.length_drop]
    omega
  have hk : i - 1 < ((F.drop 1).take (len - 4)).length := by rw [hl]; omega
  have e1 : i - 1 + 1 = i := by omega
  refine ⟨((F.drop 1).take (len - 4)).take (i - 1), ((F.drop 1).take (len - 4)).drop i, ?_, ?_⟩
  · rw [List.drop_set, if_neg (by omega), List.set_take, List.set_eq_take_append_cons_drop,
      if_pos hk, e1]
  · have hg : ((F.drop 1).take (len - 4))[i - 1] = F.getD i 0 := by
      rw [List.getElem_take, List.getElem_drop, List.getD_eq_getElem _ 0 (by omega)]
      congr 1
      omega
    have h := List.take_append_drop (i - 1) ((F.drop 1).take (len - 4))
    rw [List.drop_eq_getElem_cons hk, hg, e1] at h
    exact h.symm

/-- The CRC-covered region of a frame with a byte replaced outside the region. -/
theorem crc_region_set_out (F : List Nat) (i v len : Nat) (hi : len ≤ i + 3) :
    ((F.set i v).drop 1).take (len - 4) = (F.drop 1).take (len - 4) := by
  by_cases h1 : i < 1
  · rw [List.drop_set, if_pos h1]
  · rw [List.drop_set, if_neg h1, List.set_take]
    exact List.set_eq_of_length_le (by
      rw [List.length_take]
      omega)

/-- C34: let `validate` accept a frame of `len` bytes (status CONFIG_FRAME or
RETRANSMIT_FRAME) held in a buffer of bytes, and flip exactly one bit `j` of
the byte at an index `i` from 1 to `len - 2`, that is in the CRC-covered region
`F[1 .. len-4]` or in one of the two CRC bytes. Then `validate` on the changed
buffer returns CRC_ERROR and leaves the parser as it was. -/
theorem single_bit_error_detected (s s1 : CommandMessage) (F : List Nat) (len : Nat)
    (st : STATUS) (i j : Nat) (hbytes : ∀ b ∈ F, b < 256) (hlen : len ≤ F.length)
    (h255 : len ≤ 255) (hacc : validate s F len = some (st, s1))
    (hst : st = STATUS.CONFIG_FRAME ∨ st = STATUS.RETRANSMIT_FRAME)
    (hi1 : 1 ≤ i) (hi2 : i + 2 ≤ len) (hj : j < 8) :
    validate s (F.set i (F.getD i 0 ^^^ 2 ^ j)) len = some (STATUS.CRC_ERROR, s) := by
  have h6 : 6 < len := by
    by_contra hc
    rw [validate_short s F len (by omega)] at hacc
    have e := (Prod.mk.inj (Option.some.inj hacc)).1
    rcases hst with h | h <;> rw [h] at e <;> exact absurd e (by decide)
  rw [validate_eq s F len h6 hlen h255] at hacc
  have hne : ∀ x : STATUS, x ≠ STATUS.CONFIG_FRAME → x ≠ STATUS.RETRANSMIT_FRAME →
      ∀ t : CommandMessage, some (x, t) ≠ some (st, s1) := by
    intro x h1 h2 t hc
    have e := (Prod.mk.inj (Option.some.inj hc)).1
    rcases hst with h | h
    · exact h1 (e.trans h)
    · exact h2 (e.trans h)
  by_cases c0 : F[0]? = some 0x7E
  swap
  · rw [if_neg c0] at hacc
    exact absurd hacc (hne _ (by decide) (by decide) _)
  rw [if_pos c0] at hacc
  by_cases c1 : F[len - 1]? = some 0x7F
  swap
  · rw [if_neg c1] at hacc
    exact absurd hacc (hne _ (by decide) (by decide) _)
  rw [if_pos c1] at hacc
  by_cases c2 : ((F.drop 1).take (len - 4)).foldl crc_byte 0 =
      ((F.getD (len - 2) 0 <<< 8) % 65536) ||| F.getD (len - 3) 0
  swap
  · rw [if_neg c2] at hacc
    exact absurd hacc (hne _ (by decide) (by decide) _)
  have hF' : len ≤ (F.set i (F.getD i 0 ^^^ 2 ^ j)).length := by
    rw [List.length_set]
    exact hlen
  rw [validate_eq s _ len h6 hF' h255,
    List.getElem?_set_ne (show i ≠ 0 by omega), if_pos c0,
    List.getElem?_set_ne (show i ≠ len - 1 by omega), if_pos c1]
  have hb : ∀ k, k < F.length → F.getD k 0 < 256 := by
    intro k hk
    rw [List.getD_eq_getElem _ 0 hk]
    exact hbytes _ (List.getElem_mem _)
  have hhi := hb (len - 2) (by omega)
  have hlo := hb (len - 3) (by omega)
  rw [saved_crc_eq _ _ hhi hlo] at c2
  have c2' : ¬ (((F.set i (F.getD i 0 ^^^ 2 ^ j)).drop 1).take (len - 4)).foldl crc_byte 0 =
      (((F.set i (F.getD i 0 ^^^ 2 ^ j)).getD (len - 2) 0 <<< 8) % 65536) |||
        (F.set i (F.getD i 0 ^^^ 2 ^ j)).getD (len - 3) 0 := by
    by_cases hin : i + 4 ≤ len
    · obtain ⟨pre, post, e1, e2⟩ :=
        crc_region_set F i (F.getD i 0 ^^^ 2 ^ j) len hi1 hin hlen
      rw [getD_set_ne F i (len - 2) _ (by omega), getD_set_ne F i (len - 3) _ (by omega),
        saved_crc_eq _ _ hhi hlo, ← c2, e1, e2]
      exact crc_single_bit pre post _ j hj
    · rw [crc_region_set_out F i _ len (by omega), c2]
      rcases (show i = len - 3 ∨ i = len - 2 by omega) with hi | hi
      · rw [hi, getD_set_self F (len - 3) _ (by omega),
          getD_set_ne F (len - 3) (len - 2) _ (by omega),
          saved_crc_eq _ _ hhi (xor_two_pow_lt _ j hlo hj)]
        have := xor_two_pow_ne (F.getD (len - 3) 0) j
        omega
      · rw [hi, getD_set_self F (len - 2) _ (by omega),
          getD_set_ne F (len - 2) (len - 3) _ (by omega),
          saved_crc_eq _ _ (xor_two_pow_lt _ j hhi hj) hlo]
        have := xor_two_pow_ne (F.getD (len - 2) 0) j
        omega
  rw [if_neg c2']

set_option maxRecDepth 100000 in
/-- Witness of C34: the accepted frame `7E 10 00 21 00 00 AC B5 7F` with bit 0 of
the command byte flipped (`21` to `20`) is rejected with CRC_ERROR. -/
theorem single_bit_error_detected_witness :
    validate (construct 0 0 255 0 0) [0x7E, 0x10, 0x00, 0x21, 0x00, 0x00, 0xAC, 0xB5, 0x7F] 9 =
      some (STATUS.RETRANSMIT_FRAME, construct 0 0 255 0 0) ∧
    validate (construct 0 0 255 0 0) [0x7E, 0x10, 0x00, 0x20, 0x00, 0x00, 0xAC, 0xB5, 0x7F] 9 =
      some (STATUS.CRC_ERROR, construct 0 0 255 0 0) :=
  ⟨by decide,
    single_bit_error_detected (construct 0 0 255 0 0) (construct 0 0 255 0 0)
      [0x7E, 0x10, 0x00, 0x21, 0x00, 0x00, 0xAC, 0xB5, 0x7F] 9 STATUS.RETRANSMIT_FRAME 3 0
      (by decide) (by decide) (by decide) (by decide) (Or.inr rfl) (by decide) (by decide)
      (by decide)⟩

/-! ## What `saveFrame` copies -/

namespace CommandMessage

theorem saveFrame_num_byte_data (s s1 : CommandMessage) (buffer : List Nat) (length : Nat)
    (h : saveFrame s buffer length = some s1) :
    s1.num_byte_data = (buffer.getD 4 0 + buffer.getD 5 0) % 256 := by
  have h6 := saveFrame_length s s1 buffer length h
  rw [saveFrame_eq s buffer length h6] at h
  unfold storeData at h
  split_ifs at h
  · rw [← Option.some.inj h]
  · split at h
    · exact absurd h (by simp)
    · rw [← Option.some.inj h]

end CommandMessage

set_option maxRecDepth 100000 in
/-- C35: after `validate` returns CONFIG_FRAME the cached payload length is
`n = (buffer[4] + buffer[5]) mod 256`, the sum of the RESERVED and the
DATA_LENGTH byte, whatever `length` is; for `n > 0` the bytes copied are
`buffer[6 .. 6 + n)`, read without regard to `length`. When the RESERVED byte
is 0 and `6 + buffer[5] + 3 = length`, `n = buffer[5]` and the copy ends before
`buffer[length - 3]`. Otherwise it need not: identity (0, 0) accepts the 9-byte
frame `7E 00 00 01 01 00 01 04 7F` with `n = 1` and stores the CRC byte
`buffer[6] = buffer[length - 3]`; and it accepts `7E 00 00 01 00 05 95 67 7F`
lying in a zeroed 255-byte buffer with `n = 5`, storing `95 67 7F 00 00`, the
trailer and two bytes past the frame. -/
theorem saveFrame_copy_region (s s1 : CommandMessage) (buffer : List Nat) (length : Nat)
    (h : validate s buffer length = some (STATUS.CONFIG_FRAME, s1)) :
    s1.num_byte_data = (buffer.getD 4 0 + buffer.getD 5 0) % 256 ∧
    (0 < s1.num_byte_data →
      s1.message = (buffer.drop 6).take s1.num_byte_data ∧
      6 + s1.num_byte_data ≤ buffer.length) ∧
    (buffer.getD 4 0 = 0 → 6 + buffer.getD 5 0 + 3 = length → length ≤ 255 →
      s1.num_byte_data = buffer.getD 5 0 ∧ 6 + s1.num_byte_data = length - 3) ∧
    validate (construct 0 0 255 0 0) [0x7E, 0x00, 0x00, 0x01, 0x01, 0x00, 0x01, 0x04, 0x7F] 9 =
      some (STATUS.CONFIG_FRAME, ⟨255, 0, 0, 1, 1, 1, [0x01], false, false⟩) ∧
    validate (construct 0 0 255 0 0)
        ([0x7E, 0x00, 0x00, 0x01, 0x00, 0x05, 0x95, 0x67, 0x7F] ++ List.replicate 246 0) 9 =
      some (STATUS.CONFIG_FRAME,
        ⟨255, 0, 0, 1, 5, 5, [0x95, 0x67, 0x7F, 0x00, 0x00], false, false⟩) := by
  obtain ⟨_, _, _, hs⟩ := validate_config_inv s s1 buffer length h
  have hn := saveFrame_num_byte_data s s1 buffer length hs
  obtain ⟨hpos, _⟩ := saveFrame_payload s s1 buffer length hs
  refine ⟨hn, ?_, ?_, by decide, by decide⟩
  · intro h0
    rw [hn] at h0 ⊢
    obtain ⟨k1, _, k3⟩ := hpos h0
    rw [List.length_drop] at k1
    exact ⟨k3, by omega⟩
  · intro h4 h9 h255
    rw [hn, h4]
    omega

set_option maxRecDepth 100000 in
/-- Witness of C35: the well-formed frame `7E 00 00 B4 00 01 07 F6 78 7F`. -/
theorem saveFrame_copy_region_witness :
    (⟨255, 0, 0, 0xB4, 1, 1, [7], false, false⟩ : CommandMessage).num_byte_data = 1 ∧
    6 + (⟨255, 0, 0, 0xB4, 1, 1, [7], false, false⟩ : CommandMessage).num_byte_data = 10 - 3 :=
  (saveFrame_copy_region (construct 0 0 255 0 0) ⟨255, 0, 0, 0xB4, 1, 1, [7], false, false⟩
    [0x7E, 0x00, 0x00, 0xB4, 0x00, 0x01, 0x07, 0xF6, 0x78, 0x7F] 10 (by decide)).2.2.1
    (by decide) (by decide) (by decide)

/-! ## The two integrity checkers -/

theorem crc_split_iff (crc hi lo : Nat) (hc : crc < 65536) (hhi : hi < 256) (hlo : lo < 256) :
    (crc % 256 = lo ∧ (crc / 256) % 256 = hi) ↔ crc = ((hi <<< 8) % 65536) ||| lo := by
  rw [saved_crc_eq hi lo hhi hlo]
  omega

/-- C36: for every byte sequence `M` of 4 to 255 bytes, `checkCRC()` on a parser
whose accumulator is `M` and `checkCRCValidity(M, len(M))` both return, and
the first returns true exactly when the second returns RDSS_DATA_OK (the two
bytes of the computed CRC being compared low byte first, as on the
little-endian target); and for fewer than 3 bytes `checkCRC()` returns
false. -/
theorem checkers_agree (s : CommandMessage) (hb : ∀ b ∈ s.message, b < 256) :
    (4 ≤ s.message.length → s.message.length ≤ 255 →
      ∃ r st, checkCRC s = some r ∧
        checkCRCValidity s.message s.message.length = some st ∧
        (r = true ↔ st = STATUS.RDSS_DATA_OK)) ∧
    (s.message.length < 3 → checkCRC s = some false) := by
  refine ⟨?_, checkCRC_short s⟩
  intro h4 h255
  have hm : (s.message.length - 4) % 256 = s.message.length - 4 :=
    Nat.mod_eq_of_lt (by omega)
  have hlo : s.message.getD (s.message.length - 3) 0 < 256 := by
    rw [List.getD_eq_getElem _ 0 (show s.message.length - 3 < s.message.length by omega)]
    exact hb _ (List.getElem_mem _)
  have hhi : s.message.getD (s.message.length - 2) 0 < 256 := by
    rw [List.getD_eq_getElem _ 0 (show s.message.length - 2 < s.message.length by omega)]
    exact hb _ (List.getElem_mem _)
  have hc := foldl_crc_byte_lt ((s.message.drop 1).take (s.message.length - 4)) 0
    (by norm_num)
  rw [checkCRC_eq s (by omega), calculateCRC_eq s h4, hm,
    checkCRCValidity_eq s.message s.message.length h4 (Nat.le_refl _) h255]
  refine ⟨_, _, rfl, rfl, ?_⟩
  rw [decide_eq_true_iff, crc_split_iff _ _ _ hc hhi hlo]
  by_cases he : ((s.message.drop 1).take (s.message.length - 4)).foldl crc_byte 0 =
      ((s.message.getD (s.message.length - 2) 0 <<< 8) % 65536) |||
        s.message.getD (s.message.length - 3) 0
  · rw [if_pos he]
    exact ⟨fun _ => rfl, fun _ => he⟩
  · rw [if_neg he]
    exact ⟨fun h => absurd h he, fun h => absurd h (by decide)⟩

set_option maxRecDepth 100000 in
/-- Witness of C36: on `7E 10 00 21 00 00 AC B5 7F` both checkers accept, and on
the same bytes with the CRC low byte changed both reject. -/
theorem checkers_agree_witness :
    (∃ r st, checkCRC ⟨255, 0, 0, 0, 0, 0,
          [0x7E, 0x10, 0x00, 0x21, 0x00, 0x00, 0xAC, 0xB5, 0x7F], false, false⟩ = some r ∧
        checkCRCValidity [0x7E, 0x10, 0x00, 0x21, 0x00, 0x00, 0xAC, 0xB5, 0x7F] 9 = some st ∧
        (r = true ↔ st = STATUS.RDSS_DATA_OK)) ∧
    checkCRC ⟨255, 0, 0, 0, 0, 0,
        [0x7E, 0x10, 0x00, 0x21, 0x00, 0x00, 0xAC, 0xB5, 0x7F], false, false⟩ = some true ∧
    checkCRC ⟨255, 0, 0, 0, 0, 0,
        [0x7E, 0x10, 0x00, 0x21, 0x00, 0x00, 0xAD, 0xB5, 0x7F], false, false⟩ = some false ∧
    checkCRCValidity [0x7E, 0x10, 0x00, 0x21, 0x00, 0x00, 0xAD, 0xB5, 0x7F] 9 =
      some STATUS.CRC_ERROR :=
  ⟨(checkers_agree ⟨255, 0, 0, 0, 0, 0,
      [0x7E, 0x10, 0x00, 0x21, 0x00, 0x00, 0xAC, 0xB5, 0x7F], false, false⟩ (by decide)).1
      (by decide) (by decide),
    by decide, by decide, by decide⟩

/-- C37: for every command id other than 0, every identity and every payload of
at most 246 bytes, the byte sequence `composeAndSendMessage(uart, payload, n)`
hands to the transport is the message buffer `composeMessage(payload)` leaves
on an instance with the same command id and identity; both calls return (the
first with the outcome of the transport, the second with true). -/
theorem builders_agree (s : CommandMessage) (payload : List Nat) (status : Nat)
    (hcmd : s.command_id ≠ 0) (hlen : payload.length ≤ 246) :
    ∃ s1, composeMessage s (some payload) = some (true, s1) ∧
      composeAndSendMessage s true (some payload) payload.length status =
        some (decide (status = HAL_OK), [s1.message]) := by
  refine ⟨_, composeMessage_of_le_250 s payload hcmd (by omega), ?_⟩
  rw [composeAndSendMessage_eq s payload payload.length status hlen (Nat.le_refl _),
    List.take_length]

set_option maxRecDepth 100000 in
/-- Witness of C37: both builders produce `7E 10 02 21 00 04 01 02 03 04 CA 8E 7F`. -/
theorem builders_agree_witness :
    ∃ s1, composeMessage ⟨255, 0x10, 0x02, 0x21, 0, 0, [], false, false⟩ (some [1, 2, 3, 4]) =
        some (true, s1) ∧
      composeAndSendMessage ⟨255, 0x10, 0x02, 0x21, 0, 0, [], false, false⟩ true
          (some [1, 2, 3, 4]) 4 0 = some (true, [s1.message]) ∧
      s1.message = [0x7E, 0x10, 0x02, 0x21, 0, 4, 1, 2, 3, 4, 0xCA, 0x8E, 0x7F] :=
  match builders_agree ⟨255, 0x10, 0x02, 0x21, 0, 0, [], false, false⟩ [1, 2, 3, 4] 0
    (by decide) (by decide) with
  | ⟨s1, h1, h2⟩ => ⟨s1, h1, h2, by
      have e : composeMessage ⟨255, 0x10, 0x02, 0x21, 0, 0, [], false, false⟩
          (some [1, 2, 3, 4]) = some (true, ⟨255, 0x10, 0x02, 0x21, 0, 0,
            [0x7E, 0x10, 0x02, 0x21, 0, 4, 1, 2, 3, 4, 0xCA, 0x8E, 0x7F], false, false⟩) := by
        decide
      rw [e] at h1
      rw [← (Prod.mk.inj (Option.some.inj h1)).2]⟩

/-! ## The identity across `reset` and `checkByte` -/

namespace CommandMessage

theorem setVars_message (s s1 : CommandMessage) (h : setVars s = some s1) :
    s1.message = s.message ∧ s1.max_message_size = s.max_message_size := by
  unfold setVars at h
  split_ifs at h
  · rw [← Option.some.inj h]
    exact ⟨rfl, rfl⟩
  · split at h
    · rw [← Option.some.inj h]
      exact ⟨rfl, rfl⟩
    · exact absurd h (by simp)

/-- The listening branch of `checkByte`: the state `s4` reached before the size
test has the byte appended, and has the identity of `s` unless the byte is
the end mark and `checkCRC` passes. -/
theorem checkByte_listening_cases (s s1 : CommandMessage) (b : Nat)
    (hl : s.listening = true) (h : checkByte s b = some s1) :
    ∃ s4 : CommandMessage, s4.message = s.message ++ [b] ∧
      s4.max_message_size = s.max_message_size ∧
      (¬ (b = 0x7F ∧
          checkCRC { s with message := s.message ++ [b], listening := false } = some true) →
        s4.module_function = s.module_function ∧ s4.module_id = s.module_id) ∧
      s1 = (if s4.message.length ≥ s4.max_message_size then reset_default s4 else s4) := by
  unfold checkByte at h
  rw [hl] at h
  simp only [if_true] at h
  split at h
  · exact absurd h (by simp)
  · rename_i s4 h4
    have hs1 : s1 = (if s4.message.length ≥ s4.max_message_size then reset_default s4
        else s4) := by
      split_ifs at h ⊢ <;> exact (Option.some.inj h).symm
    refine ⟨s4, ?_, ?_, ?_, hs1⟩
    · split_ifs at h4 with hb
      · split at h4
        · exact absurd h4 (by simp)
        · rename_i r hr
          split_ifs at h4
          · exact (setVars_message _ _ h4).1
          · rw [← Option.some.inj h4]
      · rw [← Option.some.inj h4]
    · split_ifs at h4 with hb
      · split at h4
        · exact absurd h4 (by simp)
        · rename_i r hr
          split_ifs at h4
          · exact (setVars_message _ _ h4).2
          · rw [← Option.some.inj h4]
      · rw [← Option.some.inj h4]
    · intro hn
      split_ifs at h4 with hb
      · split at h4
        · exact absurd h4 (by simp)
        · rename_i r hr
          split_ifs at h4 with hrt
          · exfalso
            apply hn
            refine ⟨hb, ?_⟩
            rw [hrt] at hr
            exact hr
          · rw [← Option.some.inj h4]
            exact ⟨rfl, rfl⟩
      · rw [← Option.some.inj h4]
        exact ⟨rfl, rfl⟩

end CommandMessage

/-- C38: `reset(true)` leaves `module_function` and `module_id` unchanged, while
`reset()` and `reset(false)` set both to 0. A `checkByte` call whose byte
makes the accumulator reach `max_message_size` leaves the identity (0, 0); a
`checkByte` call that neither reaches the size limit nor completes a frame
that passes `checkCRC` leaves the identity unchanged. While a span headed by
0x7E is accumulated, and when idle, every `checkByte` call returns. -/
theorem identity_preservation (s : CommandMessage) (b : Nat) :
    ((reset s true).module_function = s.module_function ∧
      (reset s true).module_id = s.module_id) ∧
    ((reset s false).module_function = 0 ∧ (reset s false).module_id = 0 ∧
      (reset_default s).module_function = 0 ∧ (reset_default s).module_id = 0) ∧
    (∀ s1, checkByte s b = some s1 → s.listening = true →
      s.message.length + 1 ≥ s.max_message_size →
      s1.module_function = 0 ∧ s1.module_id = 0) ∧
    (∀ s1, checkByte s b = some s1 →
      ¬ (s.listening = true ∧ s.message.length + 1 ≥ s.max_message_size) →
      ¬ (s.listening = true ∧ b = 0x7F ∧
        checkCRC { s with message := s.message ++ [b], listening := false } = some true) →
      s1.module_function = s.module_function ∧ s1.module_id = s.module_id) ∧
    ((s.listening = true → s.message.head? = some 0x7E) → ∃ s1, checkByte s b = some s1) := by
  refine ⟨⟨rfl, rfl⟩, ⟨rfl, rfl, rfl, rfl⟩, ?_, ?_, ?_⟩
  · intro s1 h hl hge
    obtain ⟨s4, hm, hx, _, hs1⟩ := checkByte_listening_cases s s1 b hl h
    rw [hs1, if_pos (by rw [hm, hx, List.length_append, List.length_singleton]; exact hge)]
    exact ⟨rfl, rfl⟩
  · intro s1 h hsize hframe
    cases hl : s.listening with
    | false =>
      rw [checkByte_idle s b hl] at h
      rw [← Option.some.inj h]
      split <;> exact ⟨rfl, rfl⟩
    | true =>
      obtain ⟨s4, hm, hx, hid, hs1⟩ := checkByte_listening_cases s s1 b hl h
      have hlt : ¬ s4.message.length ≥ s4.max_message_size := by
        rw [hm, hx, List.length_append, List.length_singleton]
        exact fun hc => hsize ⟨hl, hc⟩
      rw [hs1, if_neg hlt]
      exact hid (fun hc => hframe ⟨hl, hc.1, hc.2⟩)
  · intro hh
    cases hl : s.listening with
    | false => exact ⟨_, checkByte_idle s b hl⟩
    | true =>
      by_cases hb : b = 0x7F
      · subst hb
        obtain ⟨r, hr⟩ :=
          checkCRC_isSome { s with message := s.message ++ [0x7F], listening := false }
        cases r with
        | false => exact ⟨_, checkByte_end_false s hl hr⟩
        | true => exact ⟨_, checkByte_end_true s hl (hh hl) hr⟩
      · exact ⟨_, checkByte_listening s b hl hb⟩

set_option maxRecDepth 100000 in
/-- Witness of C38: a parser with identity (0x10, 0x02) and a size limit of 4
bytes that has accumulated `7E 01 02` discards the span on the next byte and
ends with identity (0, 0); with a size limit of 255 the same byte leaves the
identity as it was. -/
theorem identity_preservation_witness :
    (∃ s1, checkByte ⟨4, 0x10, 0x02, 0, 0, 0, [0x7E, 1, 2], true, false⟩ 3 = some s1 ∧
      s1.module_function = 0 ∧ s1.module_id = 0) ∧
    (∃ s1, checkByte ⟨255, 0x10, 0x02, 0, 0, 0, [0x7E, 1, 2], true, false⟩ 3 = some s1 ∧
      s1.module_function = 0x10 ∧ s1.module_id = 0x02) :=
  ⟨⟨⟨4, 0, 0, 0, 0, 0, [], false, false⟩, by decide,
      (identity_preservation ⟨4, 0x10, 0x02, 0, 0, 0, [0x7E, 1, 2], true, false⟩ 3).2.2.1
        ⟨4, 0, 0, 0, 0, 0, [], false, false⟩ (by decide) rfl (by decide)⟩,
    ⟨⟨255, 0x10, 0x02, 0, 0, 0, [0x7E, 1, 2, 3], true, false⟩, by decide,
      (identity_preservation ⟨255, 0x10, 0x02, 0, 0, 0, [0x7E, 1, 2], true, false⟩ 3).2.2.2.1
        ⟨255, 0x10, 0x02, 0, 0, 0, [0x7E, 1, 2, 3], true, false⟩ (by decide) (by decide)
        (by decide)⟩⟩

/-! ## The payload accessor `getData` -/

namespace CommandMessage

/-- The function `getData` on a ready parser whose message holds the length byte. -/
theorem getData_eq (s : CommandMessage) (hr : s.ready = true) (h6 : 6 ≤ s.message.length) :
    getData s =
      if (6 + s.message.getD 5 0) % 256 > s.message.length then some []
      else if (6 + s.message.getD 5 0) % 256 < 6 then none
      else some ((s.message.take ((6 + s.message.getD 5 0) % 256)).drop 6) := by
  have h5 : 5 < s.message.length := by omega
  unfold getData
  rw [hr]
  simp only [Bool.not_true, Bool.false_eq_true, if_false, MESSAGE_INDEX_DATA_LENGTH,
    MESSAGE_INDEX_DATA_START, readByte_natCast, List.getElem?_eq_getElem h5,
    List.getD_eq_getElem _ 0 h5]

end CommandMessage

set_option maxRecDepth 100000 in
/-- C39: on a ready parser whose message `M` holds six bytes or more, with the
DATA_LENGTH byte `M[5]` below 250, `getData` returns the bytes
`M[6 .. 6 + M[5])` when `6 + M[5] <= len(M)` and the empty vector otherwise.
With `M[5]` from 250 to 255 the sum `6 + M[5]` is cut to 8 bits, giving an end
index `M[5] - 250` below 6 that passes the size test, and the range formed
ends before it starts: the call has no defined result. A ready parser whose
message has fewer than six bytes reads `M[5]` past the vector. The 9-byte
frame `7E 00 00 01 00 FA 65 79 7F` passes `checkCRC`, so feeding it to a fresh
parser gives such a ready state. -/
theorem getData_range (s : CommandMessage) (hr : s.ready = true) :
    (6 ≤ s.message.length → s.message.getD 5 0 < 250 →
      getData s = some (if 6 + s.message.getD 5 0 ≤ s.message.length then
        (s.message.take (6 + s.message.getD 5 0)).drop 6 else [])) ∧
    (6 ≤ s.message.length → 250 ≤ s.message.getD 5 0 → s.message.getD 5 0 ≤ 255 →
      (6 + s.message.getD 5 0) % 256 = s.message.getD 5 0 - 250 ∧
      (6 + s.message.getD 5 0) % 256 < 6 ∧ getData s = none) ∧
    (s.message.length < 6 → getData s = none) ∧
    feed (construct 0 0 255 0 0) [0x7E, 0x00, 0x00, 0x01, 0x00, 0xFA, 0x65, 0x79, 0x7F] =
      some ⟨255, 0, 0, 1, 0, 0,
        [0x7E, 0x00, 0x00, 0x01, 0x00, 0xFA, 0x65, 0x79, 0x7F], false, true⟩ ∧
    getData ⟨255, 0, 0, 1, 0, 0,
      [0x7E, 0x00, 0x00, 0x01, 0x00, 0xFA, 0x65, 0x79, 0x7F], false, true⟩ = none := by
  refine ⟨?_, ?_, ?_, by decide, by decide⟩
  · intro h6 hlt
    rw [getData_eq s hr h6, Nat.mod_eq_of_lt (by omega)]
    by_cases hle : 6 + s.message.getD 5 0 ≤ s.message.length
    · rw [if_neg (by omega), if_neg (by omega), if_pos hle]
    · rw [if_pos (by omega), if_neg hle]
  · intro h6 hge h255
    have hm : (6 + s.message.getD 5 0) % 256 = s.message.getD 5 0 - 250 := by omega
    refine ⟨hm, by omega, ?_⟩
    rw [getData_eq s hr h6, hm, if_neg (by omega), if_pos (by omega)]
  · intro hlt
    have h5 : s.message[5]? = none := List.getElem?_eq_none (by omega)
    unfold getData
    rw [hr]
    simp only [Bool.not_true, Bool.false_eq_true, if_false, MESSAGE_INDEX_DATA_LENGTH,
      readByte_natCast, h5]

set_option maxRecDepth 100000 in
/-- Witness of C39: the ready frame `7E 10 00 21 00 02 AA BB 11 22 7F` gives the
payload `AA BB`. -/
theorem getData_range_witness :
    getData ⟨255, 0x10, 0, 0x21, 0, 0,
        [0x7E, 0x10, 0x00, 0x21, 0x00, 0x02, 0xAA, 0xBB, 0x11, 0x22, 0x7F], false, true⟩ =
      some [0xAA, 0xBB] :=
  ((getData_range ⟨255, 0x10, 0, 0x21, 0, 0,
      [0x7E, 0x10, 0x00, 0x21, 0x00, 0x02, 0xAA, 0xBB, 0x11, 0x22, 0x7F], false, true⟩ rfl).1
    (by decide) (by decide)).trans (by decide)

/-! ## Default parameters -/

namespace Lora

theorem save_settings_fields (l : Lora) :
    (save_settings l).spread_factor = l.spread_factor ∧
    (save_settings l).bandwidth = l.bandwidth ∧
    (save_settings l).coding_rate = l.coding_rate ∧
    (save_settings l).uplink_frequency = l.uplink_frequency ∧
    (save_settings l).downlink_frequency = l.downlink_frequency := by
  unfold save_settings
  exact ⟨rfl, rfl, rfl, rfl, rfl⟩

/-- The configuration `set_default_parameters` leaves. -/
theorem set_default_parameters_spec (l : Lora) :
    ∃ r, set_default_parameters l = some r ∧
      r.spread_factor = 7 ∧ r.bandwidth = 9 ∧ r.coding_rate = 2 ∧
      r.uplink_frequency = 173500000 ∧ r.downlink_frequency = 149500000 := by
  unfold set_default_parameters
  obtain ⟨r, hr, h1, h2, h3, h4, h5, _⟩ := set_lora_settings_spec
    { l with
      downlink_frequency := 0xffff, uplink_frequency := 0xffff
      bandwidth := 0xff, spread_factor := 0xff, coding_rate := 0xff }
    0xff 0xff 0xff 0xffff 0xffff
  obtain ⟨k1, k2, k3, k4, k5⟩ := save_settings_fields r
  refine ⟨save_settings r, by simp only [hr], ?_, ?_, ?_, ?_, ?_⟩
  · rw [k1, h1]; decide
  · rw [k2, h2]; decide
  · rw [k3, h3]; decide
  · rw [k4, h4]; decide
  · rw [k5, h5]; decide

/-- The configuration the fallback of `check_already_store_data` leaves. -/
theorem check_already_store_data_fallback (l l1 : Lora) (h : read_settings l = some l1)
    (hin : ¬ in_range l1) :
    ∃ r, check_already_store_data l = some r ∧
      r.spread_factor = 7 ∧ r.bandwidth = 9 ∧ r.coding_rate = 2 ∧
      r.uplink_frequency = 173500000 ∧ r.downlink_frequency = 149500000 := by
  rw [check_already_store_data_eq l l1 h, if_neg hin]
  obtain ⟨r, hr, h1, h2, h3, h4, h5, _⟩ := configure_modem_internal_spec
    (save_settings { l1 with
      spread_factor := 7, bandwidth := 9, coding_rate := 2
      uplink_frequency := 173500000, downlink_frequency := 149500000 })
  obtain ⟨k1, k2, k3, k4, k5⟩ := save_settings_fields { l1 with
    spread_factor := 7, bandwidth := 9, coding_rate := 2
    uplink_frequency := 173500000, downlink_frequency := 149500000 }
  rw [k1] at h1
  rw [k2] at h2
  rw [k3] at h3
  rw [k4] at h4
  rw [k5] at h5
  refine ⟨r, hr, ?_, h2, h3, h4, h5⟩
  rw [h1]
  dsimp only
  decide

end Lora

/-- C40: whatever the configuration was before, `set_default_parameters`
returns and ends in SF 7, bandwidth 9 (500 kHz), coding rate 2 (4/6), uplink
173,500,000 Hz and downlink 149,500,000 Hz, the configuration the fallback of
`check_already_store_data` leaves when a stored value is out of range; and
`set_lora_settings` returns with each argument adopted when it is in range and
replaced by the default of its field otherwise, field by field. -/
theorem set_default_parameters_defaults (l : Lora) (bw cr sf : Int) (dl_freq up_freq : Nat) :
    (∃ r, Lora.set_default_parameters l = some r ∧
      r.spread_factor = 7 ∧ r.bandwidth = 9 ∧ r.coding_rate = 2 ∧
      r.uplink_frequency = 173500000 ∧ r.downlink_frequency = 149500000) ∧
    (∀ l1, Lora.read_settings l = some l1 → ¬ Lora.in_range l1 →
      ∃ r d, Lora.check_already_store_data l = some r ∧
        Lora.set_default_parameters l = some d ∧
        r.spread_factor = d.spread_factor ∧ r.bandwidth = d.bandwidth ∧
        r.coding_rate = d.coding_rate ∧ r.uplink_frequency = d.uplink_frequency ∧
        r.downlink_frequency = d.downlink_frequency) ∧
    (∃ r, Lora.set_lora_settings l bw cr sf dl_freq up_freq = some r ∧
      r.spread_factor = (if sf < 6 ∨ sf > 12 then 7 else sf) ∧
      r.bandwidth = (if bw < 0 ∨ bw > 9 then 9 else bw) ∧
      r.coding_rate = (if cr < 1 ∨ cr > 4 then 2 else cr) ∧
      r.uplink_frequency =
        (if up_freq < 170000000 ∨ up_freq > 185000000 then 173500000 else up_freq) ∧
      r.downlink_frequency =
        (if dl_freq < 145000000 ∨ dl_freq > 160000000 then 149500000 else dl_freq)) := by
  obtain ⟨d, hd, d1, d2, d3, d4, d5⟩ := Lora.set_default_parameters_spec l
  refine ⟨⟨d, hd, d1, d2, d3, d4, d5⟩, ?_, ?_⟩
  · intro l1 h hin
    obtain ⟨r, hr, r1, r2, r3, r4, r5⟩ := Lora.check_already_store_data_fallback l l1 h hin
    exact ⟨r, d, hr, hd, by rw [r1, d1], by rw [r2, d2], by rw [r3, d3], by rw [r4, d4],
      by rw [r5, d5]⟩
  · obtain ⟨r, hr, h1, h2, h3, h4, h5, _⟩ :=
      Lora.set_lora_settings_spec l bw cr sf dl_freq up_freq
    exact ⟨r, hr, h1, h2, h3, h4, h5⟩

set_option maxRecDepth 100000 in
/-- Witness of C40: from SF 12, bandwidth 0, coding rate 4 and other frequencies,
`set_default_parameters` ends in the defaults; and `set_lora_settings` with an
out-of-range bandwidth 12 and in-range other arguments replaces the bandwidth
only. -/
theorem set_default_parameters_defaults_witness :
    (Lora.set_default_parameters (Lora.create_keys ⟨0, [], ⟨[], fun _ => 0xFF, []⟩, 12, 0, 4,
        150000000, 180000000, 0, 0, 0, 0, 0, 0, 0⟩)).map
        (fun r => (r.spread_factor, r.bandwidth, r.coding_rate, r.uplink_frequency,
          r.downlink_frequency)) = some (7, 9, 2, 173500000, 149500000) ∧
    (Lora.set_lora_settings (Lora.create_keys ⟨0, [], ⟨[], fun _ => 0xFF, []⟩, 12, 0, 4,
        150000000, 180000000, 0, 0, 0, 0, 0, 0, 0⟩) 12 3 8 155000000 171000000).map
        (fun r => (r.spread_factor, r.bandwidth, r.coding_rate, r.uplink_frequency,
          r.downlink_frequency)) = some (8, 9, 3, 171000000, 155000000) :=
  ⟨match (set_default_parameters_defaults (Lora.create_keys ⟨0, [], ⟨[], fun _ => 0xFF, []⟩,
      12, 0, 4, 150000000, 180000000, 0, 0, 0, 0, 0, 0, 0⟩) 12 3 8 155000000 171000000).1 with
    | ⟨r, hr, h1, h2, h3, h4, h5⟩ => by rw [hr, Option.map_some', h1, h2, h3, h4, h5],
   match (set_default_parameters_defaults (Lora.create_keys ⟨0, [], ⟨[], fun _ => 0xFF, []⟩,
      12, 0, 4, 150000000, 180000000, 0, 0, 0, 0, 0, 0, 0⟩) 12 3 8 155000000 171000000).2.2 with
    | ⟨r, hr, h1, h2, h3, h4, h5⟩ => by
      rw [hr, Option.map_some', h1, h2, h3, h4, h5]
      decide⟩

/-! ## The addressing stage -/

namespace CommandMessage

/-- A buffer that passes the structural stage has more than 6 bytes, all inside
the array. -/
theorem checkFrameValidity_valid_length (frame : List Nat) (length : Nat)
    (h : checkFrameValidity frame length = some STATUS.VALID_FRAME) :
    6 < length ∧ length ≤ frame.length := by
  by_cases h6 : length ≤ 6
  · rw [checkFrameValidity_short frame length h6] at h
    exact absurd (Option.some.inj h) (by decide)
  · refine ⟨by omega, ?_⟩
    by_contra hlen
    have e1 := readByte_sub frame length 1 (by omega)
    simp only [Nat.cast_one] at e1
    have hnone : frame[length - 1]? = none := List.getElem?_eq_none (by omega)
    unfold checkFrameValidity at h
    rw [if_pos (by simp only [CommandConstants.MINIMUN_FRAME_LEN]; omega), e1, hnone] at h
    revert h
    cases readByte frame 0 with
    | none => intro h; exact absurd h (by simp)
    | some first =>
      dsimp only
      by_cases hf : first = CommandConstants.RDSS_START_MARK
      · rw [if_pos hf]
        intro h
        exact absurd h (by simp)
      · rw [if_neg hf]
        intro h
        exact absurd (Option.some.inj h) (by decide)

/-- What `saveFrame` leaves in the instance, from the fact that it returns. -/
theorem saveFrame_result (s s1 : CommandMessage) (buffer : List Nat) (length : Nat)
    (h : saveFrame s buffer length = some s1) :
    6 + (buffer.getD 4 0 + buffer.getD 5 0) % 256 ≤ buffer.length ∧
    s1.command_id = buffer.getD 3 0 ∧
    s1.num_byte_data = (buffer.getD 4 0 + buffer.getD 5 0) % 256 := by
  have h6 := saveFrame_length s s1 buffer length h
  obtain ⟨hpos, _⟩ := saveFrame_payload s s1 buffer length h
  have hstore : 6 + (buffer.getD 4 0 + buffer.getD 5 0) % 256 ≤ buffer.length := by
    by_cases h0 : (buffer.getD 4 0 + buffer.getD 5 0) % 256 = 0
    · rw [h0]
      exact h6
    · have k := (hpos (by omega)).1
      rw [List.length_drop] at k
      omega
  rw [saveFrame_isSome s buffer length hstore] at h
  refine ⟨hstore, ?_, ?_⟩
  · rw [← Option.some.inj h]
    split <;> rfl
  · rw [← Option.some.inj h]
    split <;> rfl

end CommandMessage

/-- C9 (amended): for every buffer that passes the structural and integrity
stages. When `buffer[1]`, `buffer[2]` are not the `module_function`,
`module_id` of the instance, `validate` returns RETRANSMIT_FRAME with the
instance untouched; so it returns CONFIG_FRAME only if they are. When they
are, `validate` returns no status other than CONFIG_FRAME, and it returns
CONFIG_FRAME whenever the array holds the bytes `saveFrame` copies; on
CONFIG_FRAME the cached command_id equals `buffer[3]`. When moreover the
RESERVED byte `buffer[4]` is 0 (in a buffer of bytes), the decoded payload
length `num_byte_data` equals the DATA_LENGTH byte `buffer[5]`; when that byte
is not 0, `getDataSize()` equals it and the stored payload is
`buffer[6 .. 6 + buffer[5])`; when it is 0, `getDataSize()` and the stored
payload keep the values they had before the call. -/
theorem validate_addressing (s : CommandMessage) (buffer : List Nat) (length : Nat)
    (hfv : checkFrameValidity buffer length = some STATUS.VALID_FRAME)
    (hcrc : checkCRCValidity buffer length = some STATUS.RDSS_DATA_OK) :
    (¬ (buffer[1]? = some s.module_function ∧ buffer[2]? = some s.module_id) →
      validate s buffer length = some (STATUS.RETRANSMIT_FRAME, s)) ∧
    (∀ s1, validate s buffer length = some (STATUS.CONFIG_FRAME, s1) →
      buffer[1]? = some s.module_function ∧ buffer[2]? = some s.module_id) ∧
    ((buffer[1]? = some s.module_function ∧ buffer[2]? = some s.module_id) →
      (6 + (buffer.getD 4 0 + buffer.getD 5 0) % 256 ≤ buffer.length →
        ∃ s1, validate s buffer length = some (STATUS.CONFIG_FRAME, s1)) ∧
      (∀ st s1, validate s buffer length = some (st, s1) →
        st = STATUS.CONFIG_FRAME ∧
        buffer[3]? = some s1.command_id ∧
        ((∀ b ∈ buffer, b < 256) → buffer[4]? = some 0 →
          s1.num_byte_data = buffer.getD 5 0 ∧
          (buffer.getD 5 0 ≠ 0 →
            getDataSize s1 = buffer.getD 5 0 ∧
              s1.message = (buffer.drop 6).take (buffer.getD 5 0)) ∧
          (buffer.getD 5 0 = 0 →
            getDataSize s1 = getDataSize s ∧ s1.message = s.message)))) := by
  obtain ⟨h6, hlen⟩ := CommandMessage.checkFrameValidity_valid_length buffer length hfv
  have hv := validate_of_stages s buffer length hfv hcrc (by omega)
  refine ⟨fun c3 => ?_, fun s1 h => ?_, fun c3 => ⟨fun hstore => ?_, fun st s1 h => ?_⟩⟩
  · rw [hv, if_neg c3]
  · by_contra c3
    rw [hv, if_neg c3] at h
    exact absurd (Prod.mk.inj (Option.some.inj h)).1 (by decide)
  · rw [hv, if_pos c3, saveFrame_isSome s buffer length hstore]
    exact ⟨_, rfl⟩
  · rw [hv, if_pos c3] at h
    cases hs : saveFrame s buffer length with
    | none =>
      rw [hs] at h
      exact absurd h (by simp)
    | some t =>
      rw [hs, Option.map_some'] at h
      obtain ⟨e1, e2⟩ := Prod.mk.inj (Option.some.inj h)
      subst e2
      obtain ⟨_, hcmd, hn⟩ := CommandMessage.saveFrame_result s t buffer length hs
      obtain ⟨hpos, hzero⟩ := saveFrame_payload s t buffer length hs
      refine ⟨e1.symm, ?_, fun hbytes hres => ?_⟩
      · rw [hcmd]
        exact getElem?_eq_some_getD buffer 3 (by omega)
      · have h4 : buffer.getD 4 0 = 0 := by
          rw [List.getD_eq_getElem?_getD, hres]
          rfl
        have h5 := getD_lt_256 buffer 5 hbytes
        have hsum : (buffer.getD 4 0 + buffer.getD 5 0) % 256 = buffer.getD 5 0 := by
          rw [h4]
          omega
        rw [hsum] at hn hpos hzero
        refine ⟨hn, fun hne => ?_, fun h0 => ?_⟩
        · obtain ⟨_, k2, k3⟩ := hpos (by omega)
          exact ⟨k2, k3⟩
        · exact hzero h0

set_option maxRecDepth 10000 in
/-- Witness of C9 (amended): SET_RX_FREQ with four payload bytes, addressed to
identity (0, 0): identity (0, 0) answers CONFIG_FRAME and caches command 0xB1
and the four payload bytes, identity (0x10, 0) answers RETRANSMIT_FRAME. -/
theorem validate_addressing_witness :
    checkFrameValidity
        [0x7E, 0x00, 0x00, 0xB1, 0x00, 0x04, 0x00, 0x80, 0x2D, 0x43, 0x54, 0xF0, 0x7F] 13 =
      some STATUS.VALID_FRAME ∧
    checkCRCValidity
        [0x7E, 0x00, 0x00, 0xB1, 0x00, 0x04, 0x00, 0x80, 0x2D, 0x43, 0x54, 0xF0, 0x7F] 13 =
      some STATUS.RDSS_DATA_OK ∧
    validate ⟨255, 0, 0, 0, 0, 0, [], false, false⟩
        [0x7E, 0x00, 0x00, 0xB1, 0x00, 0x04, 0x00, 0x80, 0x2D, 0x43, 0x54, 0xF0, 0x7F] 13 =
      some (STATUS.CONFIG_FRAME, ⟨255, 0, 0, 0xB1, 4, 4, [0x00, 0x80, 0x2D, 0x43], false, false⟩) ∧
    (∃ s1, validate ⟨255, 0, 0, 0, 0, 0, [], false, false⟩
        [0x7E, 0x00, 0x00, 0xB1, 0x00, 0x04, 0x00, 0x80, 0x2D, 0x43, 0x54, 0xF0, 0x7F] 13 =
      some (STATUS.CONFIG_FRAME, s1)) ∧
    validate ⟨255, 0x10, 0, 0, 0, 0, [], false, false⟩
        [0x7E, 0x00, 0x00, 0xB1, 0x00, 0x04, 0x00, 0x80, 0x2D, 0x43, 0x54, 0xF0, 0x7F] 13 =
      some (STATUS.RETRANSMIT_FRAME, ⟨255, 0x10, 0, 0, 0, 0, [], false, false⟩) :=
  ⟨by decide, by decide, by decide,
    ((validate_addressing ⟨255, 0, 0, 0, 0, 0, [], false, false⟩
      [0x7E, 0x00, 0x00, 0xB1, 0x00, 0x04, 0x00, 0x80, 0x2D, 0x43, 0x54, 0xF0, 0x7F] 13
      (by decide) (by decide)).2.2 (by decide)).1 (by decide),
    (validate_addressing ⟨255, 0x10, 0, 0, 0, 0, [], false, false⟩
      [0x7E, 0x00, 0x00, 0xB1, 0x00, 0x04, 0x00, 0x80, 0x2D, 0x43, 0x54, 0xF0, 0x7F] 13
      (by decide) (by decide)).1 (by decide)⟩

set_option maxRecDepth 10000 in
/-- C9 as stated fails in three ways, each on identity (0, 0) with a frame that
passes both stages and is addressed to it. The frame
`7E 00 00 21 01 01 AA 5B 51 7F` is CONFIG_FRAME and the cached payload length is
`buffer[4] + buffer[5] = 2`, not the DATA_LENGTH byte 1 (the store holds
`AA 5B`). The frame `7E 00 00 22 00 00 A6 E8 7F`, with DATA_LENGTH 0, is
CONFIG_FRAME on the instance that holds the one-byte payload `[7]`, and
`getDataSize()` is still 1. The frame `7E 00 00 B1 00 FA 9A 87 7F` declares 250
payload bytes: `saveFrame` reads past the end of the nine-byte array and
`validate` gives no status. -/
theorem validate_addressing_counterexample :
    (checkFrameValidity [0x7E, 0x00, 0x00, 0x21, 0x01, 0x01, 0xAA, 0x5B, 0x51, 0x7F] 10 =
        some STATUS.VALID_FRAME ∧
      checkCRCValidity [0x7E, 0x00, 0x00, 0x21, 0x01, 0x01, 0xAA, 0x5B, 0x51, 0x7F] 10 =
        some STATUS.RDSS_DATA_OK ∧
      validate ⟨255, 0, 0, 0, 0, 0, [], false, false⟩
          [0x7E, 0x00, 0x00, 0x21, 0x01, 0x01, 0xAA, 0x5B, 0x51, 0x7F] 10 =
        some (STATUS.CONFIG_FRAME, ⟨255, 0, 0, 0x21, 2, 2, [0xAA, 0x5B], false, false⟩) ∧
      [0x7E, 0x00, 0x00, 0x21, 0x01, 0x01, 0xAA, 0x5B, 0x51, 0x7F][5]? = some 1 ∧
      (⟨255, 0, 0, 0x21, 2, 2, [0xAA, 0x5B], false, false⟩ : CommandMessage).num_byte_data ≠ 1 ∧
      getDataSize ⟨255, 0, 0, 0x21, 2, 2, [0xAA, 0x5B], false, false⟩ ≠ 1) ∧
    (checkFrameValidity [0x7E, 0x00, 0x00, 0x22, 0x00, 0x00, 0xA6, 0xE8, 0x7F] 9 =
        some STATUS.VALID_FRAME ∧
      checkCRCValidity [0x7E, 0x00, 0x00, 0x22, 0x00, 0x00, 0xA6, 0xE8, 0x7F] 9 =
        some STATUS.RDSS_DATA_OK ∧
      validate ⟨255, 0, 0, 0xB4, 1, 1, [7], false, false⟩
          [0x7E, 0x00, 0x00, 0x22, 0x00, 0x00, 0xA6, 0xE8, 0x7F] 9 =
        some (STATUS.CONFIG_FRAME, ⟨255, 0, 0, 0x22, 0, 1, [7], false, false⟩) ∧
      [0x7E, 0x00, 0x00, 0x22, 0x00, 0x00, 0xA6, 0xE8, 0x7F][5]? = some 0 ∧
      getDataSize ⟨255, 0, 0, 0x22, 0, 1, [7], false, false⟩ ≠ 0) ∧
    (checkFrameValidity [0x7E, 0x00, 0x00, 0xB1, 0x00, 0xFA, 0x9A, 0x87, 0x7F] 9 =
        some STATUS.VALID_FRAME ∧
      checkCRCValidity [0x7E, 0x00, 0x00, 0xB1, 0x00, 0xFA, 0x9A, 0x87, 0x7F] 9 =
        some STATUS.RDSS_DATA_OK ∧
      checkModule ⟨255, 0, 0, 0, 0, 0, [], false, false⟩
          [0x7E, 0x00, 0x00, 0xB1, 0x00, 0xFA, 0x9A, 0x87, 0x7F] 9 =
        some STATUS.CONFIG_FRAME ∧
      validate ⟨255, 0, 0, 0, 0, 0, [], false, false⟩
          [0x7E, 0x00, 0x00, 0xB1, 0x00, 0xFA, 0x9A, 0x87, 0x7F] 9 = none) := by
  refine ⟨⟨by decide, by decide, by decide, by decide, by decide, by decide⟩,
    ⟨by decide, by decide, by decide, by decide, by decide⟩,
    ⟨by decide, by decide, by decide, by decide⟩⟩
